import Mathlib

/-!
# Zint back end: common output routines and the PostScript writer

A shallow embedding of the colour, quiet zone, whitespace, bar height and
UPC/EAN routines of `backend/output.c` and of the EPS writer `backend/ps.c`.
The document `ps_plot` writes is kept as the list of its `fputs` and `fprintf`
calls, each `fprintf` with its format and arguments.

A C string is the list of its bytes before the terminating NUL (`CStr`); a
pointer into a string is the offset from its start.  `int` values are `Int`,
`unsigned char` stores are taken modulo 256.
-/

namespace Zint

/-! ## Strings -/

/-- The bytes of a C string, terminator excluded. -/
abbrev CStr := List Nat

/-- The bytes of an ASCII literal. -/
def cstr (s : String) : CStr := s.toList.map Char.toNat

/-- `s[i]` for a C string: the byte at offset `i`, the terminating NUL at
offset `strlen s`, and no value beyond the terminator. -/
def char_at (s : CStr) (i : Nat) : Option Nat :=
  if i < s.length then some (s.getD i 0)
  else if i = s.length then some 0
  else none

/-- `strchr(s, c)` for a non-NUL `c`: the offset of the first `c` in `s`, or
`none` for NULL. -/
def strchr : CStr → Nat → Option Nat
  | [], _ => none
  | x :: xs, c => if x = c then some 0 else (strchr xs c).map (· + 1)

/-- `strchr(s + start, c)`, as an offset from the start of `s`. -/
def strchr_from (s : CStr) (start : Nat) (c : Nat) : Option Nat :=
  (strchr (s.drop start) c).map (· + start)

/-- `strlen(s + start)` for `start` not beyond the terminator. -/
def strlen_from (s : CStr) (start : Nat) : Nat := (s.drop start).length

/-- The comma character. -/
def COMMA : Nat := 44

/-! ## Helpers of `common.c` -/

/-- `z_isdigit(c)`: `c` is one of `'0'`..`'9'`. -/
def z_isdigit (c : Nat) : Bool := decide (48 ≤ c) && decide (c ≤ 57)

/-- Modelled from the spec: the character set `OUT_SSET_F` stands for.  The
flag table of `common.c` is not among the sources; `output.c` defines
`OUT_SSET_F` as `IS_NUM_F | IS_UHX_F | IS_LHX_F` and documents it as the set
"0123456789ABCDEFabcdef". -/
def OUT_SSET_F (c : Nat) : Bool := decide (c ∈ cstr "0123456789ABCDEFabcdef")

/-- Modelled from the spec: `is_sane` of `common.c` ("classify character
set"), which is not among the sources: whether each of the first `length`
bytes of `source` belongs to the character set `flg`. -/
def is_sane (flg : Nat → Bool) (source : CStr) (length : Nat) : Bool :=
  (source.take length).all flg

/-- Value of a string of decimal digits, most significant first. -/
def decimal_value (field : CStr) : Nat :=
  field.foldl (fun val c => 10 * val + (c - 48)) 0

/-- Modelled from the spec: `to_int` of `common.c` ("parse bounded integer"),
which is not among the sources.  The value of the decimal number written in
the first `length` bytes of `source`, and -1 (the value `output.c` tests for)
when those bytes are not a decimal number; an empty field is not a number. -/
def to_int (source : CStr) (length : Nat) : Int :=
  let field := source.take length
  if field ≠ [] ∧ field.all z_isdigit = true then ((decimal_value field : Nat) : Int) else -1

/-- Modelled from the spec: `ctoi` of `common.c`, which is not among the
sources: the numeric value of a hexadecimal digit `0-9`, `A-F`, `a-f` ("the
numeric value of a 2-hex-digit pair").  Any other byte gives -1; `output.c`
calls it on well-formed colours only. -/
def ctoi (source : Nat) : Int :=
  if 48 ≤ source ∧ source ≤ 57 then ((source - 48 : Nat) : Int)
  else if 65 ≤ source ∧ source ≤ 70 then ((source - 65 + 10 : Nat) : Int)
  else if 97 ≤ source ∧ source ≤ 102 then ((source - 97 + 10 : Nat) : Int)
  else -1

/-- Modelled from the spec: the result code `ZINT_ERROR_INVALID_OPTION` of
`zint.h`, which is not among the sources: a non-zero code for an invalid
colour option. -/
def ZINT_ERROR_INVALID_OPTION : Int := 8

/-! ## Single-precision arithmetic

`roundf` and the `float` expressions of `output.c`, for an implementation
that evaluates `float` operations in binary32 (`FLT_EVAL_METHOD` 0) with the
default rounding mode.  A finite value is kept as an exact fraction; every
operation rounds the exact result to the nearest binary32 value, ties to even.
Infinities and NaN are not represented: no operand of `output.c` modelled here
reaches 2^128 and every divisor is non-zero. -/

/-- A finite binary32 value, the fraction `num / den`. -/
structure F32 where
  num : Int
  den : Nat
deriving DecidableEq, Repr

/-- The integer nearest to `n / d`, a tie going to the even neighbour. -/
def round_nearest_even (n d : Nat) : Nat :=
  let q := n / d
  let r := n % d
  if 2 * r < d then q
  else if d < 2 * r then q + 1
  else if q % 2 = 0 then q else q + 1

/-- The least `s` from `s` on, within `fuel` steps, with `2^23 * b ≤ a * 2^s`:
the scaling that gives a 24-bit significand.  The fuel 149 of its caller is the
exponent of the smallest subnormal. -/
def f32_scale_up (a b : Nat) : Nat → Nat → Nat
  | 0, s => s
  | fuel + 1, s => if 2 ^ 23 * b ≤ a * 2 ^ s then s else f32_scale_up a b fuel (s + 1)

/-- The least `t` from `t` on, within `fuel` steps, with `a < 2^24 * (b * 2^t)`. -/
def f32_scale_down (a b : Nat) : Nat → Nat → Nat
  | 0, t => t
  | fuel + 1, t => if a < 2 ^ 24 * (b * 2 ^ t) then t else f32_scale_down a b fuel (t + 1)

/-- The binary32 value nearest to `a / b` (`b > 0`), ties to even, as numerator
and denominator. -/
def f32_round_nat (a b : Nat) : Nat × Nat :=
  if a = 0 ∨ b = 0 then (0, 1)
  else
    let s := f32_scale_up a b 149 0
    let t := f32_scale_down a b 104 0
    (round_nearest_even (a * 2 ^ s) (b * 2 ^ t) * 2 ^ t, 2 ^ s)

/-- The binary32 value nearest to `n / d`. -/
def f32_round (n : Int) (d : Nat) : F32 :=
  let m := f32_round_nat n.natAbs d
  { num := if n < 0 then -(m.1 : Int) else (m.1 : Int), den := m.2 }

/-- Conversion of an `int` to `float`. -/
def f32_of_int (n : Int) : F32 := f32_round n 1

/-- Product of two `float`s. -/
def f32_mul (x y : F32) : F32 := f32_round (x.num * y.num) (x.den * y.den)

/-- Quotient of two `float`s, the divisor non-zero. -/
def f32_div (x y : F32) : F32 :=
  f32_round (if y.num < 0 then -(x.num * (y.den : Int)) else x.num * (y.den : Int))
    (x.den * y.num.natAbs)

/-- `roundf`: the nearest integer, halfway cases away from zero. -/
def roundf (x : F32) : F32 :=
  let r := (2 * x.num.natAbs + x.den) / (2 * x.den)
  { num := if x.num < 0 then -(r : Int) else (r : Int), den := 1 }

/-- The cast `(int) x`: truncation toward zero. -/
def f32_to_int (x : F32) : Int := Int.tdiv x.num (x.den : Int)

/-- Storing an `int` into an `unsigned char`. -/
def to_uchar (v : Int) : Int := v % 256

/-! ## The vector scene

Modelled from the spec: the `struct zint_vector` family of `zint.h`, which is
not among the sources.  The fields are those `ps.c` reads; a linked list is
the list of its nodes in `next` order. -/

/-- Modelled from the spec: `struct zint_vector_rect` of `zint.h`: a rectangle
with its colour index, -1 standing for the foreground. -/
structure zint_vector_rect where
  x : F32
  y : F32
  height : F32
  width : F32
  colour : Int
deriving DecidableEq, Repr

/-- Modelled from the spec: `struct zint_vector_hexagon` of `zint.h`: centre,
diameter and rotation in degrees. -/
structure zint_vector_hexagon where
  x : F32
  y : F32
  diameter : F32
  rotation : Int
deriving DecidableEq, Repr

/-- Modelled from the spec: `struct zint_vector_string` of `zint.h`: a text
run with its position, font size, rotation and horizontal alignment (0 middle,
1 start, 2 end). -/
structure zint_vector_string where
  x : F32
  y : F32
  fsize : F32
  rotation : Int
  halign : Int
  text : CStr
deriving DecidableEq, Repr

/-- Modelled from the spec: `struct zint_vector_circle` of `zint.h`: centre,
diameter, ring width (0 for a disc) and the legacy inverse-colour flag. -/
structure zint_vector_circle where
  x : F32
  y : F32
  diameter : F32
  width : F32
  colour : Int
deriving DecidableEq, Repr

/-- Modelled from the spec: `struct zint_vector` of `zint.h`: the canvas size
and the four collections of shapes. -/
structure zint_vector where
  width : F32
  height : F32
  rectangles : List zint_vector_rect
  hexagons : List zint_vector_hexagon
  strings : List zint_vector_string
  circles : List zint_vector_circle
deriving DecidableEq, Repr

/-! ## The symbol -/

/-- The fields of `struct zint_symbol` that `output.c` and `ps.c` read and
write.  A `float` field is an `F32`; `row_height` is the array of row heights,
an entry beyond the list being 0; `encoded_data` holds the modules of each
row, `true` for a set module; `vector` is `none` for a NULL pointer. -/
structure zint_symbol where
  fgcolour : CStr
  bgcolour : CStr
  errtxt : CStr
  symbology : Int := 0
  output_options : Nat := 0
  text : CStr := []
  option_2 : Int := 0
  whitespace_width : Int := 0
  whitespace_height : Int := 0
  border_width : Int := 0
  height : F32 := { num := 0, den := 1 }
  rows : Nat := 0
  row_height : List F32 := []
  show_hrt : Int := 1
  width : Int := 0
  encoded_data : List (List Bool) := []
  vector : Option zint_vector := none
deriving DecidableEq, Repr

/-- The colour options of item 1 of `test_emf.c`. -/
def test_emf_symbol : zint_symbol :=
  { fgcolour := cstr "E0E0E0", bgcolour := cstr "700070", errtxt := [] }

/-! ## `out_check_colour` -/

/-- The text `sprintf` writes to `errtxt` for the numbered error `n` of
`out_check_colour`; `name` is the channel and `colour` the offending string
(printed by error 881 only). -/
def colour_errtxt (n : Nat) (name colour : CStr) : CStr :=
  if n = 880 then cstr "880: Malformed " ++ name ++ cstr " RGB colour (6 or 8 characters only)"
  else if n = 881 then
    cstr "881: Malformed " ++ name ++ cstr " RGB colour '" ++ colour ++ cstr "' (hexadecimal only)"
  else if n = 882 then
    cstr "882: Malformed " ++ name ++ cstr " CMYK colour (4 decimal numbers, comma-separated)"
  else if n = 883 then
    cstr "883: Malformed " ++ name ++ cstr " CMYK colour (3 digit maximum per number)"
  else if n = 884 then
    cstr "884: Malformed " ++ name ++ cstr " CMYK colour C (decimal 0-100 only)"
  else if n = 885 then
    cstr "885: Malformed " ++ name ++ cstr " CMYK colour M (decimal 0-100 only)"
  else if n = 886 then
    cstr "886: Malformed " ++ name ++ cstr " CMYK colour Y (decimal 0-100 only)"
  else if n = 887 then
    cstr "887: Malformed " ++ name ++ cstr " CMYK colour K (decimal 0-100 only)"
  else []

/-- The symbol after a failed check: `errtxt` holds the text of error `n`. -/
def colour_failure (symbol : zint_symbol) (n : Nat) (name colour : CStr) : Int × zint_symbol :=
  (ZINT_ERROR_INVALID_OPTION, { symbol with errtxt := colour_errtxt n name colour })

/-- Transcription of `out_check_colour`: the return value and the symbol, whose
`errtxt` is rewritten on failure. -/
def out_check_colour (symbol : zint_symbol) (colour name : CStr) : Int × zint_symbol :=
  match strchr colour COMMA with
  | none =>
    let len := colour.length
    if len ≠ 6 ∧ len ≠ 8 then
      (ZINT_ERROR_INVALID_OPTION, { symbol with errtxt := colour_errtxt 880 name colour })
    else if is_sane OUT_SSET_F colour len = false then
      (ZINT_ERROR_INVALID_OPTION, { symbol with errtxt := colour_errtxt 881 name colour })
    else (0, symbol)
  | some comma1 =>
    match strchr_from colour (comma1 + 1) COMMA with
    | none => (ZINT_ERROR_INVALID_OPTION, { symbol with errtxt := colour_errtxt 882 name colour })
    | some comma2 =>
      match strchr_from colour (comma2 + 1) COMMA with
      | none =>
        (ZINT_ERROR_INVALID_OPTION, { symbol with errtxt := colour_errtxt 882 name colour })
      | some comma3 =>
        if (strchr_from colour (comma3 + 1) COMMA).isSome then
          (ZINT_ERROR_INVALID_OPTION, { symbol with errtxt := colour_errtxt 882 name colour })
        else if comma1 > 3 ∨ comma2 - (comma1 + 1) > 3 ∨ comma3 - (comma2 + 1) > 3
            ∨ strlen_from colour (comma3 + 1) > 3 then
          (ZINT_ERROR_INVALID_OPTION, { symbol with errtxt := colour_errtxt 883 name colour })
        else if to_int colour comma1 = -1 ∨ to_int colour comma1 > 100 then
          (ZINT_ERROR_INVALID_OPTION, { symbol with errtxt := colour_errtxt 884 name colour })
        else if to_int (colour.drop (comma1 + 1)) (comma2 - (comma1 + 1)) = -1
            ∨ to_int (colour.drop (comma1 + 1)) (comma2 - (comma1 + 1)) > 100 then
          (ZINT_ERROR_INVALID_OPTION, { symbol with errtxt := colour_errtxt 885 name colour })
        else if to_int (colour.drop (comma2 + 1)) (comma3 - (comma2 + 1)) = -1
            ∨ to_int (colour.drop (comma2 + 1)) (comma3 - (comma2 + 1)) > 100 then
          (ZINT_ERROR_INVALID_OPTION, { symbol with errtxt := colour_errtxt 886 name colour })
        else if to_int (colour.drop (comma3 + 1)) (strlen_from colour (comma3 + 1)) = -1
            ∨ to_int (colour.drop (comma3 + 1)) (strlen_from colour (comma3 + 1)) > 100 then
          (ZINT_ERROR_INVALID_OPTION, { symbol with errtxt := colour_errtxt 887 name colour })
        else (0, symbol)

/-- Transcription of `out_check_colour_options`. -/
def out_check_colour_options (symbol : zint_symbol) : Int × zint_symbol :=
  let fg := out_check_colour symbol symbol.fgcolour (cstr "foreground")
  if fg.1 ≠ 0 then (ZINT_ERROR_INVALID_OPTION, fg.2)
  else
    let bg := out_check_colour fg.2 fg.2.bgcolour (cstr "background")
    if bg.1 ≠ 0 then (ZINT_ERROR_INVALID_OPTION, bg.2)
    else (0, bg.2)

/-! ## `out_colour_get_rgb` and `out_colour_get_cmyk` -/

/-- Outputs of `out_colour_get_rgb`: the return value and what is stored through
the pointers; `alpha` is `none` when the caller passes NULL for it. -/
structure rgb_result where
  ret : Int
  red : Int
  green : Int
  blue : Int
  alpha : Option Int
deriving DecidableEq, Repr

/-- The right-hand sides of the assignments of `out_colour_get_rgb`, as `int`s
before they are stored into `unsigned char`, and the return value.  `alpha`
tells whether the `alpha` pointer is non-NULL.  The result is `none` when the
function reads beyond the terminator or through a NULL `strchr` result. -/
def out_colour_get_rgb_int (colour : CStr) (alpha : Bool) : Option rgb_result :=
  match strchr colour COMMA with
  | none => do
    let c0 ← char_at colour 0
    let c1 ← char_at colour 1
    let red := 16 * ctoi c0 + ctoi c1
    let c2 ← char_at colour 2
    let c3 ← char_at colour 3
    let green := 16 * ctoi c2 + ctoi c3
    let c4 ← char_at colour 4
    let c5 ← char_at colour 5
    let blue := 16 * ctoi c4 + ctoi c5
    if alpha then
      let c6 ← char_at colour 6
      if c6 ≠ 0 then
        let c7 ← char_at colour 7
        some { ret := 1, red := red, green := green, blue := blue,
               alpha := some (16 * ctoi c6 + ctoi c7) }
      else
        some { ret := 0, red := red, green := green, blue := blue, alpha := some 0xFF }
    else
      some { ret := 0, red := red, green := green, blue := blue, alpha := none }
  | some comma1 => do
    let comma2 ← strchr_from colour (comma1 + 1) COMMA
    let comma3 ← strchr_from colour (comma2 + 1) COMMA
    let black := 100 - to_int (colour.drop (comma3 + 1)) (strlen_from colour (comma3 + 1))
    let val := 100 - to_int colour comma1
    let red := f32_to_int (roundf (f32_div (f32_of_int (0xFF * val * black)) (f32_of_int 10000)))
    let val := 100 - to_int (colour.drop (comma1 + 1)) (comma2 - (comma1 + 1))
    let green := f32_to_int (roundf (f32_div (f32_of_int (0xFF * val * black)) (f32_of_int 10000)))
    let val := 100 - to_int (colour.drop (comma2 + 1)) (comma3 - (comma2 + 1))
    let blue := f32_to_int (roundf (f32_div (f32_of_int (0xFF * val * black)) (f32_of_int 10000)))
    some { ret := 0, red := red, green := green, blue := blue,
           alpha := if alpha then some 0xFF else none }

/-- Transcription of `out_colour_get_rgb`: the values of `out_colour_get_rgb_int`
stored into `unsigned char`. -/
def out_colour_get_rgb (colour : CStr) (alpha : Bool) : Option rgb_result :=
  (out_colour_get_rgb_int colour alpha).map fun r =>
    { ret := r.ret, red := to_uchar r.red, green := to_uchar r.green, blue := to_uchar r.blue,
      alpha := r.alpha.map to_uchar }

/-- Outputs of `out_colour_get_cmyk`; `rgb_alpha` is `none` when the caller
passes NULL for it. -/
structure cmyk_result where
  ret : Int
  cyan : Int
  magenta : Int
  yellow : Int
  black : Int
  rgb_alpha : Option Int
deriving DecidableEq, Repr

/-- Transcription of `out_colour_get_cmyk`.  `rgb_alpha` tells whether the
`rgb_alpha` pointer is non-NULL. -/
def out_colour_get_cmyk (colour : CStr) (rgb_alpha : Bool) : Option cmyk_result :=
  match strchr colour COMMA with
  | some comma1 => do
    let comma2 ← strchr_from colour (comma1 + 1) COMMA
    let comma3 ← strchr_from colour (comma2 + 1) COMMA
    some { ret := 0,
           cyan := to_int colour comma1,
           magenta := to_int (colour.drop (comma1 + 1)) (comma2 - (comma1 + 1)),
           yellow := to_int (colour.drop (comma2 + 1)) (comma3 - (comma2 + 1)),
           black := to_int (colour.drop (comma3 + 1)) (strlen_from colour (comma3 + 1)),
           rgb_alpha := if rgb_alpha then some 0xFF else none }
  | none => do
    let rgb ← out_colour_get_rgb colour true
    let have_alpha := rgb.ret
    let red := rgb.red
    let green := rgb.green
    let blue := rgb.blue
    let alpha ← rgb.alpha
    let k := red
    let k := if green > k then green else k
    let k := if blue > k then blue else k
    let out_alpha := if rgb_alpha then some (if have_alpha ≠ 0 then alpha else 0xFF) else none
    if k = 0 then
      some { ret := 1 + have_alpha, cyan := 0, magenta := 0, yellow := 0, black := 100,
             rgb_alpha := out_alpha }
    else
      some { ret := 1 + have_alpha,
             cyan := f32_to_int (roundf (f32_div (f32_mul (f32_of_int (k - red))
                      (f32_of_int 100)) (f32_of_int k))),
             magenta := f32_to_int (roundf (f32_div (f32_mul (f32_of_int (k - green))
                      (f32_of_int 100)) (f32_of_int k))),
             yellow := f32_to_int (roundf (f32_div (f32_mul (f32_of_int (k - blue))
                      (f32_of_int 100)) (f32_of_int k))),
             black := f32_to_int (roundf (f32_div (f32_mul (f32_of_int (0xFF - k))
                      (f32_of_int 100)) (f32_of_int 0xFF))),
             rgb_alpha := out_alpha }


/-! ## Constants of `zint.h`

Modelled from the spec: `zint.h` is not among the sources.  The symbology tags
are the enumerated tags of the symbol descriptor and the option flags the bits
of its option bitset; the numbers are those of the public header of the
library.  What the development uses of the tags is that the labels of a
`switch` are pairwise different. -/

/-- Modelled from the spec: the symbology tag `BARCODE_CODE11` of `zint.h`. -/
@[simp] def BARCODE_CODE11 : Int := 1

/-- Modelled from the spec: the symbology tag `BARCODE_C25STANDARD` of `zint.h`. -/
@[simp] def BARCODE_C25STANDARD : Int := 2

/-- Modelled from the spec: the symbology tag `BARCODE_C25INTER` of `zint.h`. -/
@[simp] def BARCODE_C25INTER : Int := 3

/-- Modelled from the spec: the symbology tag `BARCODE_C25IATA` of `zint.h`. -/
@[simp] def BARCODE_C25IATA : Int := 4

/-- Modelled from the spec: the symbology tag `BARCODE_C25LOGIC` of `zint.h`. -/
@[simp] def BARCODE_C25LOGIC : Int := 6

/-- Modelled from the spec: the symbology tag `BARCODE_C25IND` of `zint.h`. -/
@[simp] def BARCODE_C25IND : Int := 7

/-- Modelled from the spec: the symbology tag `BARCODE_CODE39` of `zint.h`. -/
@[simp] def BARCODE_CODE39 : Int := 8

/-- Modelled from the spec: the symbology tag `BARCODE_EXCODE39` of `zint.h`. -/
@[simp] def BARCODE_EXCODE39 : Int := 9

/-- Modelled from the spec: the symbology tag `BARCODE_EANX` of `zint.h`. -/
@[simp] def BARCODE_EANX : Int := 13

/-- Modelled from the spec: the symbology tag `BARCODE_EANX_CHK` of `zint.h`. -/
@[simp] def BARCODE_EANX_CHK : Int := 14

/-- Modelled from the spec: the symbology tag `BARCODE_GS1_128` of `zint.h`. -/
@[simp] def BARCODE_GS1_128 : Int := 16

/-- Modelled from the spec: the symbology tag `BARCODE_CODABAR` of `zint.h`. -/
@[simp] def BARCODE_CODABAR : Int := 18

/-- Modelled from the spec: the symbology tag `BARCODE_CODE128` of `zint.h`. -/
@[simp] def BARCODE_CODE128 : Int := 20

/-- Modelled from the spec: the symbology tag `BARCODE_DPLEIT` of `zint.h`. -/
@[simp] def BARCODE_DPLEIT : Int := 21

/-- Modelled from the spec: the symbology tag `BARCODE_DPIDENT` of `zint.h`. -/
@[simp] def BARCODE_DPIDENT : Int := 22

/-- Modelled from the spec: the symbology tag `BARCODE_CODE16K` of `zint.h`. -/
@[simp] def BARCODE_CODE16K : Int := 23

/-- Modelled from the spec: the symbology tag `BARCODE_CODE49` of `zint.h`. -/
@[simp] def BARCODE_CODE49 : Int := 24

/-- Modelled from the spec: the symbology tag `BARCODE_CODE93` of `zint.h`. -/
@[simp] def BARCODE_CODE93 : Int := 25

/-- Modelled from the spec: the symbology tag `BARCODE_FLAT` of `zint.h`. -/
@[simp] def BARCODE_FLAT : Int := 28

/-- Modelled from the spec: the symbology tag `BARCODE_DBAR_OMN` of `zint.h`. -/
@[simp] def BARCODE_DBAR_OMN : Int := 29

/-- Modelled from the spec: the symbology tag `BARCODE_DBAR_LTD` of `zint.h`. -/
@[simp] def BARCODE_DBAR_LTD : Int := 30

/-- Modelled from the spec: the symbology tag `BARCODE_DBAR_EXP` of `zint.h`. -/
@[simp] def BARCODE_DBAR_EXP : Int := 31

/-- Modelled from the spec: the symbology tag `BARCODE_TELEPEN` of `zint.h`. -/
@[simp] def BARCODE_TELEPEN : Int := 32

/-- Modelled from the spec: the symbology tag `BARCODE_UPCA` of `zint.h`. -/
@[simp] def BARCODE_UPCA : Int := 34

/-- Modelled from the spec: the symbology tag `BARCODE_UPCA_CHK` of `zint.h`. -/
@[simp] def BARCODE_UPCA_CHK : Int := 35

/-- Modelled from the spec: the symbology tag `BARCODE_UPCE` of `zint.h`. -/
@[simp] def BARCODE_UPCE : Int := 37

/-- Modelled from the spec: the symbology tag `BARCODE_UPCE_CHK` of `zint.h`. -/
@[simp] def BARCODE_UPCE_CHK : Int := 38

/-- Modelled from the spec: the symbology tag `BARCODE_POSTNET` of `zint.h`. -/
@[simp] def BARCODE_POSTNET : Int := 40

/-- Modelled from the spec: the symbology tag `BARCODE_MSI_PLESSEY` of `zint.h`. -/
@[simp] def BARCODE_MSI_PLESSEY : Int := 47

/-- Modelled from the spec: the symbology tag `BARCODE_FIM` of `zint.h`. -/
@[simp] def BARCODE_FIM : Int := 49

/-- Modelled from the spec: the symbology tag `BARCODE_LOGMARS` of `zint.h`. -/
@[simp] def BARCODE_LOGMARS : Int := 50

/-- Modelled from the spec: the symbology tag `BARCODE_PHARMA` of `zint.h`. -/
@[simp] def BARCODE_PHARMA : Int := 51

/-- Modelled from the spec: the symbology tag `BARCODE_PZN` of `zint.h`. -/
@[simp] def BARCODE_PZN : Int := 52

/-- Modelled from the spec: the symbology tag `BARCODE_PHARMA_TWO` of `zint.h`. -/
@[simp] def BARCODE_PHARMA_TWO : Int := 53

/-- Modelled from the spec: the symbology tag `BARCODE_CEPNET` of `zint.h`. -/
@[simp] def BARCODE_CEPNET : Int := 54

/-- Modelled from the spec: the symbology tag `BARCODE_PDF417` of `zint.h`. -/
@[simp] def BARCODE_PDF417 : Int := 55

/-- Modelled from the spec: the symbology tag `BARCODE_PDF417COMP` of `zint.h`. -/
@[simp] def BARCODE_PDF417COMP : Int := 56

/-- Modelled from the spec: the symbology tag `BARCODE_MAXICODE` of `zint.h`. -/
@[simp] def BARCODE_MAXICODE : Int := 57

/-- Modelled from the spec: the symbology tag `BARCODE_QRCODE` of `zint.h`. -/
@[simp] def BARCODE_QRCODE : Int := 58

/-- Modelled from the spec: the symbology tag `BARCODE_CODE128AB` of `zint.h`. -/
@[simp] def BARCODE_CODE128AB : Int := 60

/-- Modelled from the spec: the symbology tag `BARCODE_AUSPOST` of `zint.h`. -/
@[simp] def BARCODE_AUSPOST : Int := 63

/-- Modelled from the spec: the symbology tag `BARCODE_AUSREPLY` of `zint.h`. -/
@[simp] def BARCODE_AUSREPLY : Int := 66

/-- Modelled from the spec: the symbology tag `BARCODE_AUSROUTE` of `zint.h`. -/
@[simp] def BARCODE_AUSROUTE : Int := 67

/-- Modelled from the spec: the symbology tag `BARCODE_AUSREDIRECT` of `zint.h`. -/
@[simp] def BARCODE_AUSREDIRECT : Int := 68

/-- Modelled from the spec: the symbology tag `BARCODE_ISBNX` of `zint.h`. -/
@[simp] def BARCODE_ISBNX : Int := 69

/-- Modelled from the spec: the symbology tag `BARCODE_RM4SCC` of `zint.h`. -/
@[simp] def BARCODE_RM4SCC : Int := 70

/-- Modelled from the spec: the symbology tag `BARCODE_DATAMATRIX` of `zint.h`. -/
@[simp] def BARCODE_DATAMATRIX : Int := 71

/-- Modelled from the spec: the symbology tag `BARCODE_EAN14` of `zint.h`. -/
@[simp] def BARCODE_EAN14 : Int := 72

/-- Modelled from the spec: the symbology tag `BARCODE_VIN` of `zint.h`. -/
@[simp] def BARCODE_VIN : Int := 73

/-- Modelled from the spec: the symbology tag `BARCODE_CODABLOCKF` of `zint.h`. -/
@[simp] def BARCODE_CODABLOCKF : Int := 74

/-- Modelled from the spec: the symbology tag `BARCODE_NVE18` of `zint.h`. -/
@[simp] def BARCODE_NVE18 : Int := 75

/-- Modelled from the spec: the symbology tag `BARCODE_JAPANPOST` of `zint.h`. -/
@[simp] def BARCODE_JAPANPOST : Int := 76

/-- Modelled from the spec: the symbology tag `BARCODE_KOREAPOST` of `zint.h`. -/
@[simp] def BARCODE_KOREAPOST : Int := 77

/-- Modelled from the spec: the symbology tag `BARCODE_DBAR_STK` of `zint.h`. -/
@[simp] def BARCODE_DBAR_STK : Int := 79

/-- Modelled from the spec: the symbology tag `BARCODE_DBAR_OMNSTK` of `zint.h`. -/
@[simp] def BARCODE_DBAR_OMNSTK : Int := 80

/-- Modelled from the spec: the symbology tag `BARCODE_DBAR_EXPSTK` of `zint.h`. -/
@[simp] def BARCODE_DBAR_EXPSTK : Int := 81

/-- Modelled from the spec: the symbology tag `BARCODE_PLANET` of `zint.h`. -/
@[simp] def BARCODE_PLANET : Int := 82

/-- Modelled from the spec: the symbology tag `BARCODE_MICROPDF417` of `zint.h`. -/
@[simp] def BARCODE_MICROPDF417 : Int := 84

/-- Modelled from the spec: the symbology tag `BARCODE_USPS_IMAIL` of `zint.h`. -/
@[simp] def BARCODE_USPS_IMAIL : Int := 85

/-- Modelled from the spec: the symbology tag `BARCODE_PLESSEY` of `zint.h`. -/
@[simp] def BARCODE_PLESSEY : Int := 86

/-- Modelled from the spec: the symbology tag `BARCODE_TELEPEN_NUM` of `zint.h`. -/
@[simp] def BARCODE_TELEPEN_NUM : Int := 87

/-- Modelled from the spec: the symbology tag `BARCODE_ITF14` of `zint.h`. -/
@[simp] def BARCODE_ITF14 : Int := 89

/-- Modelled from the spec: the symbology tag `BARCODE_KIX` of `zint.h`. -/
@[simp] def BARCODE_KIX : Int := 90

/-- Modelled from the spec: the symbology tag `BARCODE_AZTEC` of `zint.h`. -/
@[simp] def BARCODE_AZTEC : Int := 92

/-- Modelled from the spec: the symbology tag `BARCODE_DAFT` of `zint.h`. -/
@[simp] def BARCODE_DAFT : Int := 93

/-- Modelled from the spec: the symbology tag `BARCODE_DPD` of `zint.h`. -/
@[simp] def BARCODE_DPD : Int := 96

/-- Modelled from the spec: the symbology tag `BARCODE_MICROQR` of `zint.h`. -/
@[simp] def BARCODE_MICROQR : Int := 97

/-- Modelled from the spec: the symbology tag `BARCODE_HIBC_128` of `zint.h`. -/
@[simp] def BARCODE_HIBC_128 : Int := 98

/-- Modelled from the spec: the symbology tag `BARCODE_HIBC_39` of `zint.h`. -/
@[simp] def BARCODE_HIBC_39 : Int := 99

/-- Modelled from the spec: the symbology tag `BARCODE_HIBC_DM` of `zint.h`. -/
@[simp] def BARCODE_HIBC_DM : Int := 102

/-- Modelled from the spec: the symbology tag `BARCODE_HIBC_QR` of `zint.h`. -/
@[simp] def BARCODE_HIBC_QR : Int := 104

/-- Modelled from the spec: the symbology tag `BARCODE_HIBC_PDF` of `zint.h`. -/
@[simp] def BARCODE_HIBC_PDF : Int := 106

/-- Modelled from the spec: the symbology tag `BARCODE_HIBC_MICPDF` of `zint.h`. -/
@[simp] def BARCODE_HIBC_MICPDF : Int := 108

/-- Modelled from the spec: the symbology tag `BARCODE_HIBC_BLOCKF` of `zint.h`. -/
@[simp] def BARCODE_HIBC_BLOCKF : Int := 110

/-- Modelled from the spec: the symbology tag `BARCODE_HIBC_AZTEC` of `zint.h`. -/
@[simp] def BARCODE_HIBC_AZTEC : Int := 112

/-- Modelled from the spec: the symbology tag `BARCODE_DOTCODE` of `zint.h`. -/
@[simp] def BARCODE_DOTCODE : Int := 115

/-- Modelled from the spec: the symbology tag `BARCODE_HANXIN` of `zint.h`. -/
@[simp] def BARCODE_HANXIN : Int := 116

/-- Modelled from the spec: the symbology tag `BARCODE_MAILMARK_2D` of `zint.h`. -/
@[simp] def BARCODE_MAILMARK_2D : Int := 119

/-- Modelled from the spec: the symbology tag `BARCODE_UPU_S10` of `zint.h`. -/
@[simp] def BARCODE_UPU_S10 : Int := 120

/-- Modelled from the spec: the symbology tag `BARCODE_MAILMARK_4S` of `zint.h`. -/
@[simp] def BARCODE_MAILMARK_4S : Int := 121

/-- Modelled from the spec: the symbology tag `BARCODE_AZRUNE` of `zint.h`. -/
@[simp] def BARCODE_AZRUNE : Int := 128

/-- Modelled from the spec: the symbology tag `BARCODE_CODE32` of `zint.h`. -/
@[simp] def BARCODE_CODE32 : Int := 129

/-- Modelled from the spec: the symbology tag `BARCODE_EANX_CC` of `zint.h`. -/
@[simp] def BARCODE_EANX_CC : Int := 130

/-- Modelled from the spec: the symbology tag `BARCODE_GS1_128_CC` of `zint.h`. -/
@[simp] def BARCODE_GS1_128_CC : Int := 131

/-- Modelled from the spec: the symbology tag `BARCODE_DBAR_OMN_CC` of `zint.h`. -/
@[simp] def BARCODE_DBAR_OMN_CC : Int := 132

/-- Modelled from the spec: the symbology tag `BARCODE_DBAR_LTD_CC` of `zint.h`. -/
@[simp] def BARCODE_DBAR_LTD_CC : Int := 133

/-- Modelled from the spec: the symbology tag `BARCODE_DBAR_EXP_CC` of `zint.h`. -/
@[simp] def BARCODE_DBAR_EXP_CC : Int := 134

/-- Modelled from the spec: the symbology tag `BARCODE_UPCA_CC` of `zint.h`. -/
@[simp] def BARCODE_UPCA_CC : Int := 135

/-- Modelled from the spec: the symbology tag `BARCODE_UPCE_CC` of `zint.h`. -/
@[simp] def BARCODE_UPCE_CC : Int := 136

/-- Modelled from the spec: the symbology tag `BARCODE_DBAR_STK_CC` of `zint.h`. -/
@[simp] def BARCODE_DBAR_STK_CC : Int := 137

/-- Modelled from the spec: the symbology tag `BARCODE_DBAR_OMNSTK_CC` of `zint.h`. -/
@[simp] def BARCODE_DBAR_OMNSTK_CC : Int := 138

/-- Modelled from the spec: the symbology tag `BARCODE_DBAR_EXPSTK_CC` of `zint.h`. -/
@[simp] def BARCODE_DBAR_EXPSTK_CC : Int := 139

/-- Modelled from the spec: the symbology tag `BARCODE_CHANNEL` of `zint.h`. -/
@[simp] def BARCODE_CHANNEL : Int := 140

/-- Modelled from the spec: the symbology tag `BARCODE_CODEONE` of `zint.h`. -/
@[simp] def BARCODE_CODEONE : Int := 141

/-- Modelled from the spec: the symbology tag `BARCODE_GRIDMATRIX` of `zint.h`. -/
@[simp] def BARCODE_GRIDMATRIX : Int := 142

/-- Modelled from the spec: the symbology tag `BARCODE_UPNQR` of `zint.h`. -/
@[simp] def BARCODE_UPNQR : Int := 143

/-- Modelled from the spec: the symbology tag `BARCODE_ULTRA` of `zint.h`. -/
@[simp] def BARCODE_ULTRA : Int := 144

/-- Modelled from the spec: the symbology tag `BARCODE_RMQR` of `zint.h`. -/
@[simp] def BARCODE_RMQR : Int := 145

/-- Modelled from the spec: the symbology tag `BARCODE_BC412` of `zint.h`. -/
@[simp] def BARCODE_BC412 : Int := 146

/-- Modelled from the spec: the option flag `BARCODE_BIND_TOP` of `zint.h`, one bit of `output_options`. -/
def BARCODE_BIND_TOP : Nat := 0x0001

/-- Modelled from the spec: the option flag `BARCODE_BIND` of `zint.h`, one bit of `output_options`. -/
def BARCODE_BIND : Nat := 0x0002

/-- Modelled from the spec: the option flag `BARCODE_BOX` of `zint.h`, one bit of `output_options`. -/
def BARCODE_BOX : Nat := 0x0004

/-- Modelled from the spec: the option flag `BARCODE_QUIET_ZONES` of `zint.h`, one bit of `output_options`. -/
def BARCODE_QUIET_ZONES : Nat := 0x0800

/-- Modelled from the spec: the option flag `BARCODE_NO_QUIET_ZONES` of `zint.h`, one bit of `output_options`. -/
def BARCODE_NO_QUIET_ZONES : Nat := 0x1000

/-! ## More floating-point operations -/

/-- The `float` 0. -/
def F32.zero : F32 := { num := 0, den := 1 }

/-- The `float` literal of a natural number below 2^24, such as `10.0f`. -/
def F32.of_nat (n : Nat) : F32 := { num := (n : Int), den := 1 }

/-- The `float` literal of the decimal `n / d`, such as `1.6f` for `16 / 10`. -/
def f32_const (n d : Nat) : F32 := f32_round (n : Int) d

/-- Sum of two `float`s. -/
def f32_add (x y : F32) : F32 :=
  f32_round (x.num * (y.den : Int) + y.num * (x.den : Int)) (x.den * y.den)

/-- Difference of two `float`s. -/
def f32_sub (x y : F32) : F32 :=
  f32_round (x.num * (y.den : Int) - y.num * (x.den : Int)) (x.den * y.den)

/-- The comparison `x >= y` of two `float`s. -/
def f32_ge (x y : F32) : Bool := decide (y.num * (x.den : Int) ≤ x.num * (y.den : Int))

/-- Two `float`s with the same value. -/
def F32.same (x y : F32) : Prop := x.num * (y.den : Int) = y.num * (x.den : Int)

instance (x y : F32) : Decidable (F32.same x y) := by unfold F32.same; infer_instance

/-- Modelled from the spec: the macro `isfintf(arg)` of `common.h`, which is
not among the sources: whether the value is a whole number ("would round to a
non-integer pixel count"), that is `fmodf(arg, 1.0f) == 0.0f`. -/
def isfintf (arg : F32) : Bool := decide (arg.num % (arg.den : Int) = 0)

/-- Modelled from the spec: `stripf` of `common.c`, which is not among the
sources.  The spec gives the auto height as the plain quotient, with no further
operation: `stripf` returns its `float` argument. -/
def stripf (arg : F32) : F32 := arg

/-- The least `s` from `s` on, within `fuel` steps, with `2^52 * b ≤ a * 2^s`:
the scaling that gives the 53-bit significand of a `double`. -/
def f64_scale_up (a b : Nat) : Nat → Nat → Nat
  | 0, s => s
  | fuel + 1, s => if 2 ^ 52 * b ≤ a * 2 ^ s then s else f64_scale_up a b fuel (s + 1)

/-- The least `t` from `t` on, within `fuel` steps, with `a < 2^53 * (b * 2^t)`. -/
def f64_scale_down (a b : Nat) : Nat → Nat → Nat
  | 0, t => t
  | fuel + 1, t => if a < 2 ^ 53 * (b * 2 ^ t) then t else f64_scale_down a b fuel (t + 1)

/-- The binary64 value nearest to `a / b` (`b > 0`), ties to even, as numerator
and denominator. -/
def f64_round_nat (a b : Nat) : Nat × Nat :=
  if a = 0 ∨ b = 0 then (0, 1)
  else
    let s := f64_scale_up a b 1074 0
    let t := f64_scale_down a b 971 0
    (round_nearest_even (a * 2 ^ s) (b * 2 ^ t) * 2 ^ t, 2 ^ s)

/-- The `double` literal of the decimal `n / d`, such as `0.03925`. -/
def f64_const (n d : Nat) : Nat × Nat := f64_round_nat n d

/-- Quotient of two non-negative `double`s. -/
def f64_div (x y : Nat × Nat) : Nat × Nat := f64_round_nat (x.1 * y.2) (x.2 * y.1)

/-- Product of two non-negative `double`s. -/
def f64_mul (x y : Nat × Nat) : Nat × Nat := f64_round_nat (x.1 * y.1) (x.2 * y.2)

/-- The cast `(float) x` of a non-negative `double`. -/
def f32_of_f64 (x : Nat × Nat) : F32 := f32_round (x.1 : Int) x.2

/-! ## `out_quiet_zones` -/

/-- Outputs of `out_quiet_zones`: the return value `done` and the four margins. -/
structure quiet_zones where
  done : Int
  left : F32
  right : F32
  top : F32
  bottom : F32
deriving DecidableEq, Repr

/-- The test `symbol->output_options & flag`. -/
def option_set (symbol : zint_symbol) (flag : Nat) : Prop := symbol.output_options &&& flag ≠ 0

instance (symbol : zint_symbol) (flag : Nat) : Decidable (option_set symbol flag) := by
  unfold option_set; infer_instance

/-- Modelled from the spec: `ustrlen` of `common.h`, which is not among the
sources: the length of the text ("total text length"). -/
def ustrlen (text : CStr) : Nat := text.length

/-- First `switch` of `out_quiet_zones`: the symbologies that always have
quiet zones; `done` stays 0 when no label matches. -/
def out_quiet_zones_always (symbol : zint_symbol) (hide_text : Int) : quiet_zones :=
  if symbol.symbology = BARCODE_CODE16K then
    if ¬ option_set symbol BARCODE_NO_QUIET_ZONES then
      { done := 1, left := F32.of_nat 10, right := F32.of_nat 1, top := F32.zero,
        bottom := F32.zero }
    else { done := 1, left := F32.zero, right := F32.zero, top := F32.zero, bottom := F32.zero }
  else if symbol.symbology = BARCODE_CODE49 then
    if ¬ option_set symbol BARCODE_NO_QUIET_ZONES then
      { done := 1, left := F32.of_nat 10, right := F32.of_nat 1, top := F32.zero,
        bottom := F32.zero }
    else { done := 1, left := F32.zero, right := F32.zero, top := F32.zero, bottom := F32.zero }
  else if symbol.symbology ∈ [BARCODE_CODABLOCKF, BARCODE_HIBC_BLOCKF] then
    if ¬ option_set symbol BARCODE_NO_QUIET_ZONES then
      { done := 1, left := F32.of_nat 10, right := F32.of_nat 10, top := F32.zero,
        bottom := F32.zero }
    else { done := 1, left := F32.zero, right := F32.zero, top := F32.zero, bottom := F32.zero }
  else if symbol.symbology = BARCODE_ITF14 then
    if ¬ option_set symbol BARCODE_NO_QUIET_ZONES then
      { done := 1, left := F32.of_nat 10, right := F32.of_nat 10, top := F32.zero,
        bottom := F32.zero }
    else { done := 1, left := F32.zero, right := F32.zero, top := F32.zero, bottom := F32.zero }
  else if symbol.symbology ∈ [BARCODE_EANX, BARCODE_EANX_CHK, BARCODE_EANX_CC, BARCODE_ISBNX] then
    if ustrlen symbol.text = 13 then
      if ¬ option_set symbol BARCODE_NO_QUIET_ZONES then
        { done := 1, left := F32.of_nat 11, right := F32.of_nat 7, top := F32.zero,
          bottom := F32.zero }
      else if hide_text = 0 then
        { done := 1, left := F32.of_nat 11, right := F32.zero, top := F32.zero,
          bottom := F32.zero }
      else { done := 1, left := F32.zero, right := F32.zero, top := F32.zero, bottom := F32.zero }
    else if ustrlen symbol.text = 16 ∨ ustrlen symbol.text = 19 then
      if ¬ option_set symbol BARCODE_NO_QUIET_ZONES then
        { done := 1, left := F32.of_nat 11, right := F32.of_nat 5, top := F32.zero,
          bottom := F32.zero }
      else if hide_text = 0 then
        { done := 1, left := F32.of_nat 11, right := F32.zero, top := F32.zero,
          bottom := F32.zero }
      else { done := 1, left := F32.zero, right := F32.zero, top := F32.zero, bottom := F32.zero }
    else if ustrlen symbol.text = 5 ∨ ustrlen symbol.text = 2 then
      if ¬ option_set symbol BARCODE_NO_QUIET_ZONES then
        { done := 1, left := F32.of_nat 7, right := F32.of_nat 5, top := F32.zero,
          bottom := F32.zero }
      else { done := 1, left := F32.zero, right := F32.zero, top := F32.zero, bottom := F32.zero }
    else
      if ¬ option_set symbol BARCODE_NO_QUIET_ZONES then
        { done := 1, left := F32.of_nat 7, right := F32.of_nat 7, top := F32.zero,
          bottom := F32.zero }
      else { done := 1, left := F32.zero, right := F32.zero, top := F32.zero, bottom := F32.zero }
  else if symbol.symbology ∈ [BARCODE_UPCA, BARCODE_UPCA_CHK, BARCODE_UPCA_CC] then
    if ¬ option_set symbol BARCODE_NO_QUIET_ZONES then
      if ustrlen symbol.text > 12 then
        { done := 1, left := F32.of_nat 9, right := F32.of_nat 5, top := F32.zero,
          bottom := F32.zero }
      else
        { done := 1, left := F32.of_nat 9, right := F32.of_nat 9, top := F32.zero,
          bottom := F32.zero }
    else if hide_text = 0 then
      if ustrlen symbol.text ≤ 12 then
        { done := 1, left := F32.of_nat 9, right := F32.of_nat 9, top := F32.zero,
          bottom := F32.zero }
      else
        { done := 1, left := F32.of_nat 9, right := F32.zero, top := F32.zero,
          bottom := F32.zero }
    else { done := 1, left := F32.zero, right := F32.zero, top := F32.zero, bottom := F32.zero }
  else if symbol.symbology ∈ [BARCODE_UPCE, BARCODE_UPCE_CHK, BARCODE_UPCE_CC] then
    if ¬ option_set symbol BARCODE_NO_QUIET_ZONES then
      if ustrlen symbol.text > 8 then
        { done := 1, left := F32.of_nat 9, right := F32.of_nat 5, top := F32.zero,
          bottom := F32.zero }
      else
        { done := 1, left := F32.of_nat 9, right := F32.of_nat 7, top := F32.zero,
          bottom := F32.zero }
    else if hide_text = 0 then
      if ustrlen symbol.text ≤ 8 then
        { done := 1, left := F32.of_nat 9, right := F32.of_nat 7, top := F32.zero,
          bottom := F32.zero }
      else
        { done := 1, left := F32.of_nat 9, right := F32.zero, top := F32.zero,
          bottom := F32.zero }
    else { done := 1, left := F32.zero, right := F32.zero, top := F32.zero, bottom := F32.zero }
  else { done := 0, left := F32.zero, right := F32.zero, top := F32.zero, bottom := F32.zero }

/-- Second `switch` of `out_quiet_zones`: the symbologies that have quiet
zones when `BARCODE_QUIET_ZONES` asks for them.  `BARCODE_FLAT` and a tag with
no label leave `done` at 0. -/
def out_quiet_zones_others (symbol : zint_symbol) : quiet_zones :=
  if symbol.symbology = BARCODE_CODE11 then
    { done := 1,
      left := F32.of_nat 10,
      right := F32.of_nat 10,
      top := F32.zero,
      bottom := F32.zero }
  else if symbol.symbology = BARCODE_C25INTER then
    { done := 1,
      left := F32.of_nat 10,
      right := F32.of_nat 10,
      top := F32.zero,
      bottom := F32.zero }
  else if symbol.symbology ∈ [BARCODE_C25STANDARD, BARCODE_C25IATA, BARCODE_C25LOGIC, BARCODE_C25IND] then
    { done := 1,
      left := F32.of_nat 10,
      right := F32.of_nat 10,
      top := F32.zero,
      bottom := F32.zero }
  else if symbol.symbology ∈ [BARCODE_CODE39, BARCODE_EXCODE39, BARCODE_LOGMARS, BARCODE_PZN, BARCODE_VIN,
      BARCODE_HIBC_39, BARCODE_CODE32] then
    { done := 1,
      left := F32.of_nat 10,
      right := F32.of_nat 10,
      top := F32.zero,
      bottom := F32.zero }
  else if symbol.symbology ∈ [BARCODE_GS1_128, BARCODE_GS1_128_CC, BARCODE_EAN14] then
    { done := 1,
      left := F32.of_nat 10,
      right := F32.of_nat 10,
      top := F32.zero,
      bottom := F32.zero }
  else if symbol.symbology = BARCODE_CODABAR then
    { done := 1,
      left := F32.of_nat 10,
      right := F32.of_nat 10,
      top := F32.zero,
      bottom := F32.zero }
  else if symbol.symbology ∈ [BARCODE_CODE128, BARCODE_CODE128AB, BARCODE_HIBC_128, BARCODE_NVE18] then
    { done := 1,
      left := F32.of_nat 10,
      right := F32.of_nat 10,
      top := F32.zero,
      bottom := F32.zero }
  else if symbol.symbology ∈ [BARCODE_DPLEIT, BARCODE_DPIDENT] then
    { done := 1,
      left := F32.of_nat 10,
      right := F32.of_nat 10,
      top := F32.zero,
      bottom := F32.zero }
  else if symbol.symbology = BARCODE_CODE93 then
    { done := 1,
      left := F32.of_nat 10,
      right := F32.of_nat 10,
      top := F32.zero,
      bottom := F32.zero }
  else if symbol.symbology = BARCODE_FLAT then
    { done := 0, left := F32.zero, right := F32.zero, top := F32.zero, bottom := F32.zero }
  else if symbol.symbology ∈ [BARCODE_DBAR_OMN, BARCODE_DBAR_LTD, BARCODE_DBAR_EXP, BARCODE_DBAR_STK,
      BARCODE_DBAR_OMNSTK, BARCODE_DBAR_EXPSTK] then
    { done := 1, left := F32.zero, right := F32.zero, top := F32.zero, bottom := F32.zero }
  else if symbol.symbology ∈ [BARCODE_DBAR_OMN_CC, BARCODE_DBAR_LTD_CC, BARCODE_DBAR_EXP_CC,
      BARCODE_DBAR_STK_CC, BARCODE_DBAR_OMNSTK_CC, BARCODE_DBAR_EXPSTK_CC] then
    { done := 1, left := F32.of_nat 1, right := F32.of_nat 1, top := F32.zero, bottom := F32.zero }
  else if symbol.symbology ∈ [BARCODE_TELEPEN, BARCODE_TELEPEN_NUM] then
    { done := 1,
      left := F32.of_nat 10,
      right := F32.of_nat 10,
      top := F32.zero,
      bottom := F32.zero }
  else if symbol.symbology ∈ [BARCODE_POSTNET, BARCODE_PLANET] then
    { done := 1,
      left := F32.of_nat 5,
      right := F32.of_nat 5,
      top := f32_const 16 10,
      bottom := f32_const 16 10 }
  else if symbol.symbology = BARCODE_CEPNET then
    { done := 1,
      left := F32.of_nat 10,
      right := F32.of_nat 10,
      top := f32_const 16 10,
      bottom := f32_const 16 10 }
  else if symbol.symbology = BARCODE_MSI_PLESSEY then
    { done := 1,
      left := F32.of_nat 12,
      right := F32.of_nat 12,
      top := F32.zero,
      bottom := F32.zero }
  else if symbol.symbology = BARCODE_FIM then
    { done := 1,
      left := f32_of_f64 (f64_div (f64_const 20775 100000) (f64_const 3925 100000)),
      right := f32_of_f64 (f64_div (f64_const 125 1000) (f64_const 3925 100000)),
      top := F32.zero,
      bottom := F32.zero }
  else if symbol.symbology ∈ [BARCODE_PHARMA, BARCODE_PHARMA_TWO] then
    { done := 1, left := F32.of_nat 6, right := F32.of_nat 6, top := F32.zero, bottom := F32.zero }
  else if symbol.symbology ∈ [BARCODE_PDF417, BARCODE_PDF417COMP, BARCODE_HIBC_PDF] then
    { done := 1,
      left := F32.of_nat 2,
      right := F32.of_nat 2,
      top := F32.of_nat 2,
      bottom := F32.of_nat 2 }
  else if symbol.symbology ∈ [BARCODE_MICROPDF417, BARCODE_HIBC_MICPDF] then
    { done := 1,
      left := F32.of_nat 1,
      right := F32.of_nat 1,
      top := F32.of_nat 1,
      bottom := F32.of_nat 1 }
  else if symbol.symbology = BARCODE_MAXICODE then
    { done := 1,
      left := F32.of_nat 1,
      right := F32.of_nat 1,
      top := F32.of_nat 1,
      bottom := F32.of_nat 1 }
  else if symbol.symbology ∈ [BARCODE_QRCODE, BARCODE_UPNQR, BARCODE_HIBC_QR] then
    { done := 1,
      left := F32.of_nat 4,
      right := F32.of_nat 4,
      top := F32.of_nat 4,
      bottom := F32.of_nat 4 }
  else if symbol.symbology = BARCODE_DPD then
    { done := 1,
      left := f32_const 125 10,
      right := f32_const 125 10,
      top := F32.zero,
      bottom := F32.zero }
  else if symbol.symbology = BARCODE_MICROQR then
    { done := 1,
      left := F32.of_nat 2,
      right := F32.of_nat 2,
      top := F32.of_nat 2,
      bottom := F32.of_nat 2 }
  else if symbol.symbology = BARCODE_RMQR then
    { done := 1,
      left := F32.of_nat 2,
      right := F32.of_nat 2,
      top := F32.of_nat 2,
      bottom := F32.of_nat 2 }
  else if symbol.symbology ∈ [BARCODE_AUSPOST, BARCODE_AUSREPLY, BARCODE_AUSROUTE, BARCODE_AUSREDIRECT] then
    { done := 1,
      left := F32.of_nat 10,
      right := F32.of_nat 10,
      top := f32_of_f64 (f64_div (f64_const 2 1) (f64_const 6 10)),
      bottom := f32_of_f64 (f64_div (f64_const 2 1) (f64_const 6 10)) }
  else if symbol.symbology = BARCODE_RM4SCC then
    { done := 1,
      left := f32_of_f64 (f64_div (f64_mul (f64_const 2 1) (f64_const 39 1)) (f64_const 254 10)),
      right := f32_of_f64 (f64_div (f64_mul (f64_const 2 1) (f64_const 39 1)) (f64_const 254 10)),
      top := f32_of_f64 (f64_div (f64_mul (f64_const 2 1) (f64_const 39 1)) (f64_const 254 10)),
      bottom := f32_of_f64 (f64_div (f64_mul (f64_const 2 1) (f64_const 39 1)) (f64_const 254 10)) }
  else if symbol.symbology ∈ [BARCODE_DATAMATRIX, BARCODE_HIBC_DM] then
    { done := 1,
      left := F32.of_nat 1,
      right := F32.of_nat 1,
      top := F32.of_nat 1,
      bottom := F32.of_nat 1 }
  else if symbol.symbology = BARCODE_JAPANPOST then
    { done := 1,
      left := f32_of_f64 (f64_div (f64_const 2 1) (f64_const 6 10)),
      right := f32_of_f64 (f64_div (f64_const 2 1) (f64_const 6 10)),
      top := f32_of_f64 (f64_div (f64_const 2 1) (f64_const 6 10)),
      bottom := f32_of_f64 (f64_div (f64_const 2 1) (f64_const 6 10)) }
  else if symbol.symbology = BARCODE_KOREAPOST then
    { done := 1,
      left := F32.of_nat 10,
      right := F32.of_nat 10,
      top := F32.zero,
      bottom := F32.zero }
  else if symbol.symbology = BARCODE_USPS_IMAIL then
    { done := 1,
      left := f32_mul (f32_const 125 1000) (f32_const 39 1),
      right := f32_mul (f32_const 125 1000) (f32_const 39 1),
      top := f32_mul (f32_const 26 1000) (f32_const 39 1),
      bottom := f32_mul (f32_const 26 1000) (f32_const 39 1) }
  else if symbol.symbology = BARCODE_PLESSEY then
    { done := 1,
      left := F32.of_nat 12,
      right := F32.of_nat 12,
      top := F32.zero,
      bottom := F32.zero }
  else if symbol.symbology = BARCODE_KIX then
    { done := 1,
      left := f32_of_f64 (f64_div (f64_mul (f64_const 2 1) (f64_const 39 1)) (f64_const 254 10)),
      right := f32_of_f64 (f64_div (f64_mul (f64_const 2 1) (f64_const 39 1)) (f64_const 254 10)),
      top := f32_of_f64 (f64_div (f64_mul (f64_const 2 1) (f64_const 39 1)) (f64_const 254 10)),
      bottom := f32_of_f64 (f64_div (f64_mul (f64_const 2 1) (f64_const 39 1)) (f64_const 254 10)) }
  else if symbol.symbology ∈ [BARCODE_AZTEC, BARCODE_HIBC_AZTEC, BARCODE_AZRUNE] then
    { done := 1, left := F32.zero, right := F32.zero, top := F32.zero, bottom := F32.zero }
  else if symbol.symbology = BARCODE_DAFT then
    { done := 1, left := F32.zero, right := F32.zero, top := F32.zero, bottom := F32.zero }
  else if symbol.symbology = BARCODE_DOTCODE then
    { done := 1,
      left := F32.of_nat 3,
      right := F32.of_nat 3,
      top := F32.of_nat 3,
      bottom := F32.of_nat 3 }
  else if symbol.symbology = BARCODE_HANXIN then
    { done := 1,
      left := F32.of_nat 3,
      right := F32.of_nat 3,
      top := F32.of_nat 3,
      bottom := F32.of_nat 3 }
  else if symbol.symbology = BARCODE_MAILMARK_4S then
    { done := 1,
      left := f32_of_f64 (f64_div (f64_mul (f64_const 2 1) (f64_const 39 1)) (f64_const 254 10)),
      right := f32_of_f64 (f64_div (f64_mul (f64_const 2 1) (f64_const 39 1)) (f64_const 254 10)),
      top := f32_of_f64 (f64_div (f64_mul (f64_const 2 1) (f64_const 39 1)) (f64_const 254 10)),
      bottom := f32_of_f64 (f64_div (f64_mul (f64_const 2 1) (f64_const 39 1)) (f64_const 254 10)) }
  else if symbol.symbology = BARCODE_UPU_S10 then
    { done := 1,
      left := F32.of_nat 10,
      right := F32.of_nat 10,
      top := F32.zero,
      bottom := F32.zero }
  else if symbol.symbology = BARCODE_MAILMARK_2D then
    { done := 1,
      left := F32.of_nat 4,
      right := F32.of_nat 4,
      top := F32.of_nat 4,
      bottom := F32.of_nat 4 }
  else if symbol.symbology = BARCODE_CHANNEL then
    { done := 1, left := F32.of_nat 1, right := F32.of_nat 2, top := F32.zero, bottom := F32.zero }
  else if symbol.symbology = BARCODE_CODEONE then
    if symbol.option_2 = 9 ∨ symbol.option_2 = 10 then
      { done := 1,
        left := F32.of_nat 1,
        right := F32.of_nat 1,
        top := F32.zero,
        bottom := F32.zero }
    else
      { done := 1, left := F32.zero, right := F32.zero, top := F32.zero, bottom := F32.zero }
  else if symbol.symbology = BARCODE_GRIDMATRIX then
    { done := 1,
      left := F32.of_nat 6,
      right := F32.of_nat 6,
      top := F32.of_nat 6,
      bottom := F32.of_nat 6 }
  else if symbol.symbology = BARCODE_ULTRA then
    { done := 1,
      left := F32.of_nat 1,
      right := F32.of_nat 1,
      top := F32.of_nat 1,
      bottom := F32.of_nat 1 }
  else if symbol.symbology = BARCODE_BC412 then
    { done := 1,
      left := F32.of_nat 10,
      right := F32.of_nat 10,
      top := F32.zero,
      bottom := F32.zero }
  else
    { done := 0, left := F32.zero, right := F32.zero, top := F32.zero, bottom := F32.zero }

/-- Transcription of `out_quiet_zones`: the margins of the first `switch` when
it matched; otherwise nothing unless `BARCODE_QUIET_ZONES` is set and
`BARCODE_NO_QUIET_ZONES` is not, and then the second `switch`. -/
def out_quiet_zones (symbol : zint_symbol) (hide_text : Int) : quiet_zones :=
  let always := out_quiet_zones_always symbol hide_text
  if always.done ≠ 0 then always
  else if ¬ option_set symbol BARCODE_QUIET_ZONES ∨ option_set symbol BARCODE_NO_QUIET_ZONES then
    { done := 0, left := F32.zero, right := F32.zero, top := F32.zero, bottom := F32.zero }
  else out_quiet_zones_others symbol

/-! ## `out_set_whitespace_offsets` -/

/-- Outputs of `out_set_whitespace_offsets`; a pixel offset is `none` when
nothing is written through its pointer. -/
structure whitespace_offsets where
  xoffset : F32
  yoffset : F32
  roffset : F32
  boffset : F32
  xoffset_si : Option Int
  yoffset_si : Option Int
  roffset_si : Option Int
  boffset_si : Option Int
deriving DecidableEq, Repr

/-- Transcription of `out_set_whitespace_offsets`.  The four booleans tell
whether the pointers `xoffset_si`, `yoffset_si`, `roffset_si`, `boffset_si` are
non-NULL. -/
def out_set_whitespace_offsets (symbol : zint_symbol) (hide_text : Int) (scaler : F32)
    (xoffset_si yoffset_si roffset_si boffset_si : Bool) : whitespace_offsets :=
  let qz := out_quiet_zones symbol hide_text
  let xoffset := f32_add (f32_of_int symbol.whitespace_width) qz.left
  let roffset := f32_add (f32_of_int symbol.whitespace_width) qz.right
  let xoffset := if option_set symbol BARCODE_BOX then
      f32_add xoffset (f32_of_int symbol.border_width) else xoffset
  let roffset := if option_set symbol BARCODE_BOX then
      f32_add roffset (f32_of_int symbol.border_width) else roffset
  let yoffset := f32_add (f32_of_int symbol.whitespace_height) qz.top
  let boffset := f32_add (f32_of_int symbol.whitespace_height) qz.bottom
  let yoffset := if option_set symbol (BARCODE_BOX ||| BARCODE_BIND ||| BARCODE_BIND_TOP) then
      f32_add yoffset (f32_of_int symbol.border_width) else yoffset
  let boffset := if option_set symbol (BARCODE_BOX ||| BARCODE_BIND ||| BARCODE_BIND_TOP) then
      f32_add boffset (f32_of_int symbol.border_width) else boffset
  { xoffset := xoffset, yoffset := yoffset, roffset := roffset, boffset := boffset,
    xoffset_si := if scaler.num ≠ 0 ∧ xoffset_si = true then
        some (f32_to_int (f32_mul xoffset scaler)) else none,
    yoffset_si := if scaler.num ≠ 0 ∧ yoffset_si = true then
        some (f32_to_int (f32_mul yoffset scaler)) else none,
    roffset_si := if scaler.num ≠ 0 ∧ roffset_si = true then
        some (f32_to_int (f32_mul roffset scaler)) else none,
    boffset_si := if scaler.num ≠ 0 ∧ boffset_si = true then
        some (f32_to_int (f32_mul boffset scaler)) else none }

/-! ## `out_large_bar_height` -/

/-- `symbol->row_height[i]`. -/
def row_height_at (symbol : zint_symbol) (i : Nat) : F32 := symbol.row_height.getD i F32.zero

/-- State of the counting loops of `out_large_bar_height`. -/
structure bar_count where
  fixed_height : F32
  zero_count : Nat
  round_rows : Bool
deriving DecidableEq, Repr

/-- The counting loop of the branch `si == 0`: the sum of the non-zero row
heights, in row order, and the number of zero rows. -/
def count_rows (symbol : zint_symbol) : bar_count :=
  (List.range symbol.rows).foldl
    (fun st i =>
      if (row_height_at symbol i).num ≠ 0 then
        { st with fixed_height := f32_add st.fixed_height (row_height_at symbol i) }
      else { st with zero_count := st.zero_count + 1 })
    { fixed_height := F32.zero, zero_count := 0, round_rows := false }

/-- The counting loop of the branch `si != 0`, which also notes in
`round_rows` whether some fixed row is not a whole number of pixels. -/
def count_rows_si (symbol : zint_symbol) (si : Int) : bar_count :=
  (List.range symbol.rows).foldl
    (fun st i =>
      if (row_height_at symbol i).num ≠ 0 then
        { st with
          fixed_height := f32_add st.fixed_height (row_height_at symbol i),
          round_rows := st.round_rows
            || !isfintf (f32_mul (row_height_at symbol i) (f32_of_int si)) }
      else { st with zero_count := st.zero_count + 1 })
    { fixed_height := F32.zero, zero_count := 0, round_rows := false }

/-- The loop that rounds each row to a whole number of pixels: the new row
heights (rows below `symbol->rows`) and their sum. -/
def round_row_heights (symbol : zint_symbol) (si : Int) : List F32 × F32 :=
  (List.range symbol.rows).foldl
    (fun st i =>
      let h := st.1.getD i F32.zero
      let h2 := if !isfintf (f32_mul h (f32_of_int si)) then
          f32_div (roundf (f32_mul h (f32_of_int si))) (f32_of_int si) else h
      (if i < st.1.length then st.1.set i h2 else st.1, f32_add st.2 h2))
    (symbol.row_height, F32.zero)

/-- The loop that fills `row_heights_si` and sums it into `symbol_height_si`. -/
def row_heights_pixels (symbol : zint_symbol) (si : Int) (large_bar_height : F32) :
    List Int × Int :=
  (List.range symbol.rows).foldl
    (fun st i =>
      let v := if (row_height_at symbol i).num ≠ 0 then
          f32_to_int (roundf (f32_mul (row_height_at symbol i) (f32_of_int si)))
        else f32_to_int (roundf (f32_mul large_bar_height (f32_of_int si)))
      (st.1 ++ [v], st.2 + v))
    ([], 0)

/-- Outputs of `out_large_bar_height`: the return value, the symbol with its
`height` and `row_height` as left by the call, and what is written through
`row_heights_si` and `symbol_height_si` (`none` when nothing is written). -/
structure large_bar_result where
  large_bar_height : F32
  symbol : zint_symbol
  row_heights_si : Option (List Int)
  symbol_height_si : Option Int
deriving DecidableEq, Repr

/-- Transcription of `out_large_bar_height`.  The booleans tell whether the
pointers `row_heights_si` and `symbol_height_si` are non-NULL.  The result is
`none` when an `assert` of the function fails. -/
def out_large_bar_height (symbol : zint_symbol) (si : Int) (row_heights_si : Bool)
    (symbol_height_si : Bool) : Option large_bar_result :=
  if si ≠ 0 then
    let st := count_rows_si symbol si
    let step1 : Option (F32 × zint_symbol) :=
      if st.zero_count ≠ 0 then
        let large_bar_height :=
          stripf (f32_div (f32_sub symbol.height st.fixed_height) (f32_of_int st.zero_count))
        if f32_ge large_bar_height (f32_const 5 10) then
          let large_bar_height :=
            if !isfintf (f32_mul large_bar_height (f32_of_int si)) then
              stripf (f32_div (roundf (f32_mul large_bar_height (f32_of_int si))) (f32_of_int si))
            else large_bar_height
          some (large_bar_height,
            { symbol with height := stripf (f32_add
                (f32_mul large_bar_height (f32_of_int st.zero_count)) st.fixed_height) })
        else none
      else if st.round_rows then
        let rr := round_row_heights symbol si
        some (F32.zero, { symbol with row_height := rr.1, height := stripf rr.2 })
      else some (F32.zero, symbol)
    match step1 with
    | none => none
    | some (large_bar_height, symbol1) =>
      if row_heights_si then
        if symbol_height_si then
          let px := row_heights_pixels symbol1 si large_bar_height
          some { large_bar_height := large_bar_height, symbol := symbol1,
                 row_heights_si := some px.1, symbol_height_si := some px.2 }
        else none
      else
        some { large_bar_height := large_bar_height, symbol := symbol1,
               row_heights_si := none, symbol_height_si := none }
  else
    let st := count_rows symbol
    if st.zero_count ≠ 0 then
      let large_bar_height :=
        stripf (f32_div (f32_sub symbol.height st.fixed_height) (f32_of_int st.zero_count))
      if f32_ge large_bar_height (f32_const 5 10) then
        some { large_bar_height := large_bar_height,
               symbol := { symbol with height := stripf (f32_add
                 (f32_mul large_bar_height (f32_of_int st.zero_count)) st.fixed_height) },
               row_heights_si := none, symbol_height_si := none }
      else none
    else
      some { large_bar_height := F32.zero, symbol := symbol,
             row_heights_si := none, symbol_height_si := none }

/-! ## `out_process_upcean` -/

/-- Modelled from the spec: `is_composite` of `common.c`, which is not among
the sources: whether the symbology is a composite, a 2D component stacked on a
linear one; the composite tags of `zint.h` are `BARCODE_EANX_CC` to
`BARCODE_DBAR_EXPSTK_CC`. -/
def is_composite (symbology : Int) : Bool :=
  decide (BARCODE_EANX_CC ≤ symbology ∧ symbology ≤ BARCODE_DBAR_EXPSTK_CC)

/-- Modelled from the spec: `module_is_set` of `common.h`, which is not among
the sources: whether module `x` of row `y` is set; `none` when the module lies
outside `encoded_data`. -/
def module_is_set (symbol : zint_symbol) (y : Int) (x : Nat) : Option Bool :=
  if y < 0 then none else (symbol.encoded_data.getD y.toNat [])[x]?

/-- The loop that isolates the add-on text, over the bytes `text[6]`,
`text[7]`, ...: the state is `latch` and the bytes stored in `addon` so far,
whose number is `j`; once `j` is 5 nothing more happens. -/
def isolate_addon (symbol : zint_symbol) : Bool × CStr :=
  (symbol.text.drop 6).foldl
    (fun st c =>
      if st.2.length < 5 then
        if st.1 then (true, st.2 ++ [if symbol.show_hrt ≠ 0 then c else 32])
        else if c = 43 then (true, st.2)
        else st
      else st)
    (false, [])

/-- The loop `while (!module_is_set(symbol, symbol->rows - 1, comp_xoffset))
comp_xoffset++`, from `comp_xoffset` on; `none` when it reads a module outside
`encoded_data`.  A row of n modules is left after at most n + 1 reads. -/
def composite_scan (symbol : zint_symbol) : Nat → Nat → Option Nat
  | 0, _ => none
  | fuel + 1, comp_xoffset =>
    match module_is_set symbol ((symbol.rows : Int) - 1) comp_xoffset with
    | none => none
    | some true => some comp_xoffset
    | some false => composite_scan symbol fuel (comp_xoffset + 1)

/-- The bottom row of the symbol, row `symbol->rows - 1` of `encoded_data`. -/
def bottom_row (symbol : zint_symbol) : List Bool :=
  if symbol.rows = 0 then [] else symbol.encoded_data.getD (symbol.rows - 1) []

/-- Outputs of `out_process_upcean`: the return value and what is stored
through the pointers; `addon` is the string left in the buffer and `addon_gap`
is `none` when `*p_addon_gap` is not written. -/
structure upcean_result where
  upceanflag : Int
  main_width : Int
  comp_xoffset : Int
  addon : CStr
  addon_gap : Option Int
deriving DecidableEq, Repr

/-- Transcription of `out_process_upcean`; `none` when the offset scan leaves
`encoded_data`. -/
def out_process_upcean (symbol : zint_symbol) : Option upcean_result := do
  let text_length : Int := ((ustrlen symbol.text : Nat) : Int)
  let st := isolate_addon symbol
  let latch := st.1
  let addon := st.2
  let addon_gap : Option Int :=
    if latch then
      if symbol.symbology = BARCODE_UPCA ∨ symbol.symbology = BARCODE_UPCA_CHK
          ∨ symbol.symbology = BARCODE_UPCA_CC then
        some (if symbol.option_2 ≥ 9 ∧ symbol.option_2 ≤ 12 then symbol.option_2 else 9)
      else
        some (if symbol.option_2 ≥ 7 ∧ symbol.option_2 ≤ 12 then symbol.option_2 else 7)
    else none
  let comp_xoffset : Int ←
    (if is_composite symbol.symbology then
      (composite_scan symbol ((bottom_row symbol).length + 1) 0).map (fun x => ((x : Nat) : Int))
    else some 0)
  let r : Int × Int :=
    if symbol.symbology = BARCODE_EANX ∨ symbol.symbology = BARCODE_EANX_CHK
        ∨ symbol.symbology = BARCODE_EANX_CC ∨ symbol.symbology = BARCODE_ISBNX then
      if text_length = 13 ∨ text_length = 16 ∨ text_length = 19 then (13, 95 + comp_xoffset)
      else if text_length = 2 then (2, symbol.width)
      else if text_length = 5 then (5, symbol.width)
      else (8, 68 + comp_xoffset)
    else if symbol.symbology = BARCODE_UPCA ∨ symbol.symbology = BARCODE_UPCA_CHK
        ∨ symbol.symbology = BARCODE_UPCA_CC then (12, 95 + comp_xoffset)
    else if symbol.symbology = BARCODE_UPCE ∨ symbol.symbology = BARCODE_UPCE_CHK
        ∨ symbol.symbology = BARCODE_UPCE_CC then (6, 51 + comp_xoffset)
    else (0, symbol.width)
  some { upceanflag := r.1, main_width := r.2, comp_xoffset := comp_xoffset,
         addon := addon, addon_gap := addon_gap }

/-! ## `out_upcean_split_text` -/

/-- The array `textparts[4][7]`: the byte at each part and offset. -/
abbrev text_parts := Nat → Nat → Nat

/-- The assignment `textparts[p][i] = v`. -/
def text_parts.store (textparts : text_parts) (p i v : Nat) : text_parts :=
  fun p2 i2 => if p2 = p ∧ i2 = i then v else textparts p2 i2

/-- The loop `for (i = 0; i < n; i++) textparts[p][i] = text[i + offset]`;
`none` when it reads beyond the terminator of `text`. -/
def text_parts.copy (textparts : text_parts) (text : CStr) (p n offset : Nat) :
    Option text_parts :=
  (List.range n).foldlM
    (fun tp i => (char_at text (i + offset)).map (fun c => text_parts.store tp p i c))
    textparts

/-- Transcription of `out_upcean_split_text`; `none` when it reads beyond the
terminator of `text`. -/
def out_upcean_split_text (upceanflag : Int) (text : CStr) (textparts : text_parts) :
    Option text_parts :=
  if upceanflag = 6 then do
    let c ← char_at text 0
    let tp := textparts.store 0 0 c
    let tp := tp.store 0 1 0
    let tp ← tp.copy text 1 6 1
    let tp := tp.store 1 6 0
    let c ← char_at text 7
    let tp := tp.store 2 0 c
    some (tp.store 2 1 0)
  else if upceanflag = 8 then do
    let tp ← text_parts.copy textparts text 0 4 0
    let tp := tp.store 0 4 0
    let tp ← tp.copy text 1 4 4
    some (tp.store 1 4 0)
  else if upceanflag = 12 then do
    let c ← char_at text 0
    let tp := textparts.store 0 0 c
    let tp := tp.store 0 1 0
    let tp ← tp.copy text 1 5 1
    let tp := tp.store 1 5 0
    let tp ← tp.copy text 2 5 6
    let tp := tp.store 2 5 0
    let c ← char_at text 11
    let tp := tp.store 3 0 c
    some (tp.store 3 1 0)
  else if upceanflag = 13 then do
    let c ← char_at text 0
    let tp := textparts.store 0 0 c
    let tp := tp.store 0 1 0
    let tp ← tp.copy text 1 6 1
    let tp := tp.store 1 6 0
    let tp ← tp.copy text 2 6 7
    some (tp.store 2 6 0)
  else some textparts

/-! ## `ps.c`: colours and strings -/

/-- Modelled from the spec: the option flag `BARCODE_STDOUT` of `zint.h`, one bit of `output_options`. -/
def BARCODE_STDOUT : Nat := 0x0008

/-- Modelled from the spec: the option flag `BOLD_TEXT` of `zint.h`, one bit of `output_options`. -/
def BOLD_TEXT : Nat := 0x0040

/-- Modelled from the spec: the option flag `CMYK_COLOUR` of `zint.h`, one bit of `output_options`. -/
def CMYK_COLOUR : Nat := 0x0080

/-- Modelled from the spec: the result code `ZINT_ERROR_INVALID_DATA` of
`zint.h`: a non-zero code for missing scene data. -/
def ZINT_ERROR_INVALID_DATA : Int := 6

/-- Modelled from the spec: the result code `ZINT_ERROR_FILE_ACCESS` of
`zint.h`: a non-zero code for a destination that cannot be opened. -/
def ZINT_ERROR_FILE_ACCESS : Int := 10

/-- Modelled from the spec: the result code `ZINT_ERROR_FILE_WRITE` of
`zint.h`: a non-zero code for a write, flush or close failure. -/
def ZINT_ERROR_FILE_WRITE : Int := 12

/-- Modelled from the spec: `is_extendable` of `common.c`, which is not among
the sources: whether the symbology is one of the EAN/UPC family, which can
carry an add-on. -/
def is_extendable (symbology : Int) : Bool :=
  decide (symbology ∈ [BARCODE_EANX, BARCODE_EANX_CHK, BARCODE_UPCA, BARCODE_UPCA_CHK,
    BARCODE_UPCE, BARCODE_UPCE_CHK, BARCODE_ISBNX, BARCODE_EANX_CC, BARCODE_UPCA_CC,
    BARCODE_UPCE_CC])

/-- Transcription of `colour_to_pscolor`: the string left in `output`. -/
def colour_to_pscolor (option : Nat) (colour : Int) : CStr :=
  if option &&& CMYK_COLOUR = 0 then
    (if colour = 1 then cstr "0.00 1.00 1.00"
     else if colour = 2 then cstr "0.00 0.00 1.00"
     else if colour = 3 then cstr "1.00 0.00 1.00"
     else if colour = 4 then cstr "1.00 0.00 0.00"
     else if colour = 5 then cstr "1.00 1.00 0.00"
     else if colour = 6 then cstr "0.00 1.00 0.00"
     else if colour = 8 then cstr "1.00 1.00 1.00"
     else cstr "0.00 0.00 0.00") ++ cstr " setrgbcolor"
  else
    (if colour = 1 then cstr "1.00 0.00 0.00 0.00"
     else if colour = 2 then cstr "1.00 1.00 0.00 0.00"
     else if colour = 3 then cstr "0.00 1.00 0.00 0.00"
     else if colour = 4 then cstr "0.00 1.00 1.00 0.00"
     else if colour = 5 then cstr "0.00 0.00 1.00 0.00"
     else if colour = 6 then cstr "1.00 0.00 1.00 0.00"
     else if colour = 8 then cstr "0.00 0.00 0.00 0.00"
     else cstr "0.00 0.00 0.00 1.00") ++ cstr " setcmykcolor"

/-- Transcription of `ps_convert`: the string left in `ps_string`.  The bytes
40, 41 and 92 are the parentheses and the backslash.  The result is `none`
when the byte after 0xC2 or 0xC3 is the terminator, which the loop then steps
over. -/
def ps_convert : CStr → Option CStr
  | [] => some []
  | [c] =>
    if c = 40 ∨ c = 41 ∨ c = 92 then some [92, c]
    else if c = 0xC2 then none
    else if c = 0xC3 then none
    else if c < 0x80 then some [c]
    else some []
  | c :: d :: rest =>
    if c = 40 ∨ c = 41 ∨ c = 92 then (ps_convert (d :: rest)).map (fun p => 92 :: c :: p)
    else if c = 0xC2 then (ps_convert rest).map (fun p => d :: p)
    else if c = 0xC3 then (ps_convert rest).map (fun p => (d + 64) % 256 :: p)
    else if c < 0x80 then (ps_convert (d :: rest)).map (fun p => c :: p)
    else ps_convert (d :: rest)

/-- An argument of a `fprintf` call: a `float` (for `%.2f` and `%.3f`), an
`int` (for `%d`) or a string (for `%s`). -/
inductive ps_arg where
  | flt (x : F32)
  | int (n : Int)
  | str (s : CStr)
deriving DecidableEq, Repr

/-- One write to the output stream: a `fputs` of a string, or a `fprintf` with
its format and arguments. -/
inductive ps_write where
  | fputs (s : String)
  | fprintf (format : String) (args : List ps_arg)
deriving DecidableEq, Repr

/-- What `ps_plot` takes from outside the symbol: the locale in force, the
version numbers of `zint.h`, the outcome of the stream operations and the
`errno` and `strerror` text of a failure. -/
structure ps_env where
  locale : CStr
  version_major : Int
  version_minor : Int
  version_release : Int
  version_build : Int
  fopen_ok : Bool
  ferror : Bool
  fflush_ok : Bool
  fclose_ok : Bool
  errno : Int
  strerror : CStr
deriving DecidableEq, Repr

/-- C library `setlocale(LC_ALL, name)` for an available locale `name`: it
returns the name of the locale now in force, and that locale. -/
def setlocale (name : CStr) : Option CStr × CStr := (some name, name)

/-- The ink and paper colours of `ps_plot` and the alpha of the background;
the channels of the colour model not in use stay 0. -/
structure ps_colours where
  red_ink : F32 := F32.zero
  green_ink : F32 := F32.zero
  blue_ink : F32 := F32.zero
  red_paper : F32 := F32.zero
  green_paper : F32 := F32.zero
  blue_paper : F32 := F32.zero
  cyan_ink : F32 := F32.zero
  magenta_ink : F32 := F32.zero
  yellow_ink : F32 := F32.zero
  black_ink : F32 := F32.zero
  cyan_paper : F32 := F32.zero
  magenta_paper : F32 := F32.zero
  yellow_paper : F32 := F32.zero
  black_paper : F32 := F32.zero
  bgalpha : Int
deriving DecidableEq, Repr

/-- The colour resolution of `ps_plot`; `none` when a colour function reads
beyond its string. -/
def ps_get_colours (symbol : zint_symbol) : Option ps_colours :=
  if symbol.output_options &&& CMYK_COLOUR = 0 then do
    let fg ← out_colour_get_rgb symbol.fgcolour false
    let bg ← out_colour_get_rgb symbol.bgcolour true
    let bgalpha ← bg.alpha
    some { red_ink := f32_div (f32_of_int fg.red) (f32_of_int 255),
           green_ink := f32_div (f32_of_int fg.green) (f32_of_int 255),
           blue_ink := f32_div (f32_of_int fg.blue) (f32_of_int 255),
           red_paper := f32_div (f32_of_int bg.red) (f32_of_int 255),
           green_paper := f32_div (f32_of_int bg.green) (f32_of_int 255),
           blue_paper := f32_div (f32_of_int bg.blue) (f32_of_int 255),
           bgalpha := bgalpha }
  else do
    let fg ← out_colour_get_cmyk symbol.fgcolour false
    let bg ← out_colour_get_cmyk symbol.bgcolour true
    let bgalpha ← bg.rgb_alpha
    some { cyan_ink := f32_div (f32_of_int fg.cyan) (f32_of_int 100),
           magenta_ink := f32_div (f32_of_int fg.magenta) (f32_of_int 100),
           yellow_ink := f32_div (f32_of_int fg.yellow) (f32_of_int 100),
           black_ink := f32_div (f32_of_int fg.black) (f32_of_int 100),
           cyan_paper := f32_div (f32_of_int bg.cyan) (f32_of_int 100),
           magenta_paper := f32_div (f32_of_int bg.magenta) (f32_of_int 100),
           yellow_paper := f32_div (f32_of_int bg.yellow) (f32_of_int 100),
           black_paper := f32_div (f32_of_int bg.black) (f32_of_int 100),
           bgalpha := bgalpha }

/-- The statement that sets the ink colour. -/
def ps_set_ink (symbol : zint_symbol) (c : ps_colours) : ps_write :=
  if symbol.output_options &&& CMYK_COLOUR = 0 then
    .fprintf "%.2f %.2f %.2f setrgbcolor\n" [.flt c.red_ink, .flt c.green_ink, .flt c.blue_ink]
  else
    .fprintf "%.2f %.2f %.2f %.2f setcmykcolor\n"
      [.flt c.cyan_ink, .flt c.magenta_ink, .flt c.yellow_ink, .flt c.black_ink]

/-- The statement that sets the paper colour. -/
def ps_set_paper (symbol : zint_symbol) (c : ps_colours) : ps_write :=
  if symbol.output_options &&& CMYK_COLOUR = 0 then
    .fprintf "%.2f %.2f %.2f setrgbcolor\n"
      [.flt c.red_paper, .flt c.green_paper, .flt c.blue_paper]
  else
    .fprintf "%.2f %.2f %.2f %.2f setcmykcolor\n"
      [.flt c.cyan_paper, .flt c.magenta_paper, .flt c.yellow_paper, .flt c.black_paper]

/-- The loop over `symbol->text` that sizes `ps_string`: `ps_len` and
`iso_latin1`. -/
def ps_text_length (text : CStr) : Nat × Bool :=
  text.foldl
    (fun st c =>
      if c = 40 ∨ c = 41 ∨ c = 92 then (st.1 + 2, st.2)
      else (st.1 + 1, st.2 || decide (c ≥ 0x80)))
    (0, false)

/-! ## `ps_plot` -/

/-- `ceilf`: the least integer not below the value. -/
def ceilf (x : F32) : F32 := { num := -((-x.num) / (x.den : Int)), den := 1 }

/-- The expression `(float) (c * x)` for the `double` literal `c = n / d` and
a `float` `x`: the product is rounded to `double`, then to `float`. -/
def f32_times_double (n d : Nat) (x : F32) : F32 :=
  let p := f64_mul (f64_const n d) (x.num.natAbs, x.den)
  let m := f32_round_nat p.1 p.2
  { num := if x.num < 0 then -(m.1 : Int) else (m.1 : Int), den := m.2 }

/-- The header of the document. -/
def ps_header (vector : zint_vector) (env : ps_env) : List ps_write :=
  [.fputs "%!PS-Adobe-3.0 EPSF-3.0\n",
   if env.version_build ≠ 0 then
     .fprintf "%%%%Creator: Zint %d.%d.%d.%d\n"
       [.int env.version_major, .int env.version_minor, .int env.version_release,
        .int env.version_build]
   else
     .fprintf "%%%%Creator: Zint %d.%d.%d\n"
       [.int env.version_major, .int env.version_minor, .int env.version_release],
   .fputs ("%%Title: Zint Generated Symbol\n" ++ "%%Pages: 0\n"),
   .fprintf "%%%%BoundingBox: 0 0 %d %d\n"
     [.int (f32_to_int (ceilf vector.width)), .int (f32_to_int (ceilf vector.height))],
   .fputs "%%EndComments\n"]

/-- The loop that checks for circle widths: `have_circles_with_width` and
`have_circles_without_width`. -/
def ps_circle_widths (vector : zint_vector) : Bool × Bool :=
  vector.circles.foldl
    (fun st circle => if circle.width.num ≠ 0 then (true, st.2) else (st.1, true))
    (false, false)

/-- The definitions of the drawing primitives. -/
def ps_definitions (vector : zint_vector) : List ps_write :=
  (if (ps_circle_widths vector).2 then
    [.fputs "/TD \x7b newpath 0 360 arc fill \x7d bind def\n"] else [])
  ++ (if (ps_circle_widths vector).1 then
    [.fputs ("/TC \x7b newpath 4 1 roll 3 copy 0 360 arc closepath 4 -1 roll add 360 0 arcn closepath fill \x7d"
      ++ " bind def\n")] else [])
  ++ (if vector.hexagons ≠ [] then
    [.fputs "/TH \x7b 0 setlinewidth moveto lineto lineto lineto lineto lineto closepath fill \x7d bind def\n"]
    else [])
  ++ [.fputs ("/TB \x7b 2 copy \x7d bind def\n"
      ++ "/TR \x7b newpath 4 1 roll exch moveto 1 index 0 rlineto 0 exch rlineto neg 0 rlineto closepath fill \x7d"
      ++ " bind def\n"
      ++ "/TE \x7b pop pop \x7d bind def\n")]

/-- The background: the paper colour and the rectangle over the whole canvas,
when `draw_background` is set. -/
def ps_background (symbol : zint_symbol) (vector : zint_vector) (c : ps_colours) :
    List ps_write :=
  if c.bgalpha ≠ 0 then
    [ps_set_paper symbol c,
     .fprintf "%.2f 0.00 TB 0.00 %.2f TR\n" [.flt vector.height, .flt vector.width],
     .fputs "TE\n"]
  else []

/-- The ink colour statement written before the shapes for every symbology but
Ultracode. -/
def ps_foreground (symbol : zint_symbol) (c : ps_colours) : List ps_write :=
  if symbol.symbology ≠ BARCODE_ULTRA then [ps_set_ink symbol c] else []

/-- The two writes that draw a rectangle. -/
def ps_rect (vector : zint_vector) (rect : zint_vector_rect) : List ps_write :=
  [.fprintf "%.2f %.2f TB %.2f %.2f TR\n"
     [.flt rect.height, .flt (f32_sub (f32_sub vector.height rect.y) rect.height),
      .flt rect.x, .flt rect.width],
   .fputs "TE\n"]

/-- One pass over the rectangles for Ultracode: the rectangles of colour
`colour`, the colour statement `set_colour` written before the first of them;
the state is `colour_rect_flag` and the writes so far. -/
def ps_rect_pass (vector : zint_vector) (colour : Int) (set_colour : ps_write) :
    List ps_write :=
  (vector.rectangles.foldl
    (fun st rect =>
      if rect.colour = colour then
        (true, st.2 ++ (if st.1 = false then [set_colour] else []) ++ ps_rect vector rect)
      else st)
    ((false, []) : Bool × List ps_write)).2

/-- The rectangles. -/
def ps_rectangles (symbol : zint_symbol) (vector : zint_vector) (c : ps_colours) :
    List ps_write :=
  if symbol.symbology = BARCODE_ULTRA then
    ps_rect_pass vector (-1) (ps_set_ink symbol c)
    ++ ((List.range 8).map (fun k => ((k + 1 : Nat) : Int))).flatMap
        (fun colour_index =>
          ps_rect_pass vector colour_index
            (.fprintf "%s\n" [.str (colour_to_pscolor symbol.output_options colour_index)]))
  else vector.rectangles.flatMap (ps_rect vector)

/-- State of the hexagon loop: the memoised diameter and radii. -/
structure hexagon_radii where
  previous_diameter : F32 := F32.zero
  radius : F32 := F32.zero
  half_radius : F32 := F32.zero
  half_sqrt3_radius : F32 := F32.zero
deriving DecidableEq, Repr

/-- The radii after the test `previous_diameter != hex->diameter`. -/
def hexagon_radii.next (st : hexagon_radii) (hex : zint_vector_hexagon) : hexagon_radii :=
  if ¬ F32.same st.previous_diameter hex.diameter then
    { previous_diameter := hex.diameter,
      radius := f32_times_double 5 10 hex.diameter,
      half_radius := f32_times_double 25 100 hex.diameter,
      half_sqrt3_radius :=
        f32_times_double 43301270189221932338 100000000000000000000 hex.diameter }
  else st

/-- The write that draws a hexagon with the radii `st`. -/
def ps_hexagon (vector : zint_vector) (st : hexagon_radii) (hex : zint_vector_hexagon) :
    ps_write :=
  let cy0 := f32_sub vector.height hex.y
  if hex.rotation = 0 ∨ hex.rotation = 180 then
    .fprintf "%.2f %.2f %.2f %.2f %.2f %.2f %.2f %.2f %.2f %.2f %.2f %.2f TH\n"
      [.flt hex.x, .flt (f32_add cy0 st.radius),
       .flt (f32_add hex.x st.half_sqrt3_radius), .flt (f32_add cy0 st.half_radius),
       .flt (f32_add hex.x st.half_sqrt3_radius), .flt (f32_sub cy0 st.half_radius),
       .flt hex.x, .flt (f32_sub cy0 st.radius),
       .flt (f32_sub hex.x st.half_sqrt3_radius), .flt (f32_sub cy0 st.half_radius),
       .flt (f32_sub hex.x st.half_sqrt3_radius), .flt (f32_add cy0 st.half_radius)]
  else
    .fprintf "%.2f %.2f %.2f %.2f %.2f %.2f %.2f %.2f %.2f %.2f %.2f %.2f TH\n"
      [.flt (f32_sub hex.x st.radius), .flt cy0,
       .flt (f32_sub hex.x st.half_radius), .flt (f32_add cy0 st.half_sqrt3_radius),
       .flt (f32_add hex.x st.half_radius), .flt (f32_add cy0 st.half_sqrt3_radius),
       .flt (f32_add hex.x st.radius), .flt cy0,
       .flt (f32_add hex.x st.half_radius), .flt (f32_sub cy0 st.half_sqrt3_radius),
       .flt (f32_sub hex.x st.half_radius), .flt (f32_sub cy0 st.half_sqrt3_radius)]

/-- The hexagon loop, from the radii `st` on. -/
def ps_hexagons_from (vector : zint_vector) : hexagon_radii → List zint_vector_hexagon →
    List ps_write
  | _, [] => []
  | st, hex :: rest =>
    ps_hexagon vector (st.next hex) hex :: ps_hexagons_from vector (st.next hex) rest

/-- The hexagons. -/
def ps_hexagons (vector : zint_vector) : List ps_write :=
  ps_hexagons_from vector {} vector.hexagons

/-- The memoised diameter and radius of the circle loop after the test
`previous_diameter != circle->diameter - circle->width`. -/
def circle_radius_next (st : F32 × F32) (circle : zint_vector_circle) : F32 × F32 :=
  if ¬ F32.same st.1 (f32_sub circle.diameter circle.width) then
    (f32_sub circle.diameter circle.width,
     f32_times_double 5 10 (f32_sub circle.diameter circle.width))
  else st

/-- The write that draws a circle of radius `radius`: a ring when it has a
width, a disc otherwise. -/
def ps_circle (vector : zint_vector) (radius : F32) (circle : zint_vector_circle) : ps_write :=
  if circle.width.num ≠ 0 then
    .fprintf "%.2f %.2f %.3f %.3f TC\n"
      [.flt circle.x, .flt (f32_sub vector.height circle.y), .flt radius, .flt circle.width]
  else
    .fprintf "%.2f %.2f %.2f TD\n"
      [.flt circle.x, .flt (f32_sub vector.height circle.y), .flt radius]

/-- The circle loop, from the memoised diameter and radius `st` on. -/
def ps_circles_from (symbol : zint_symbol) (vector : zint_vector) (c : ps_colours) :
    F32 × F32 → List zint_vector_circle → List ps_write
  | _, [] => []
  | st, circ :: rest =>
    (if circ.colour ≠ 0 then
      [ps_set_paper symbol c, ps_circle vector (circle_radius_next st circ).2 circ]
      ++ (if rest ≠ [] then [ps_set_ink symbol c] else [])
    else [ps_circle vector (circle_radius_next st circ).2 circ])
    ++ ps_circles_from symbol vector c (circle_radius_next st circ) rest

/-- The circles. -/
def ps_circles (symbol : zint_symbol) (vector : zint_vector) (c : ps_colours) :
    List ps_write :=
  ps_circles_from symbol vector c (F32.zero, F32.zero) vector.circles

/-- The writes of one text run, `ps_string` being its converted text. -/
def ps_string_writes (vector : zint_vector) (font : CStr) (string : zint_vector_string)
    (ps_string : CStr) : List ps_write :=
  [.fputs "matrix currentmatrix\n",
   .fprintf "/%s findfont\n" [.str font],
   .fprintf "%.2f scalefont setfont\n" [.flt string.fsize],
   .fprintf " 0 0 moveto %.2f %.2f translate 0.00 rotate 0 0 moveto\n"
     [.flt string.x, .flt (f32_sub vector.height string.y)]]
  ++ (if string.halign = 0 ∨ string.halign = 2 then
    [.fprintf " (%s) stringwidth\n" [.str ps_string]] else [])
  ++ (if string.rotation ≠ 0 then
    [.fputs "gsave\n", .fprintf "%d rotate\n" [.int (360 - string.rotation)]] else [])
  ++ (if string.halign = 0 ∨ string.halign = 2 then
    [.fputs "pop\n",
     .fprintf "%s 0 rmoveto\n" [.str (if string.halign = 2 then cstr "neg" else cstr "-2 div")]]
    else [])
  ++ [.fprintf " (%s) show\n" [.str ps_string]]
  ++ (if string.rotation ≠ 0 then [.fputs "grestore\n"] else [])
  ++ [.fputs "setmatrix\n"]

/-- The text run of `string`: its text is converted into `ps_string`, a buffer
of `ps_len + 1` bytes; `none` when the conversion leaves the text or the
buffer. -/
def ps_string_run (vector : zint_vector) (font : CStr) (ps_len : Nat)
    (string : zint_vector_string) : Option (List ps_write) :=
  match ps_convert string.text with
  | none => none
  | some ps_string =>
    if ps_string.length ≤ ps_len then some (ps_string_writes vector font string ps_string)
    else none

/-- The `do ... while (string)` loop over the text runs. -/
def ps_string_runs (vector : zint_vector) (font : CStr) (ps_len : Nat) :
    List zint_vector_string → Option (List ps_write)
  | [] => some []
  | string :: rest =>
    match ps_string_run vector font ps_len string with
    | none => none
    | some w => (ps_string_runs vector font ps_len rest).map (fun ws => w ++ ws)

/-- The text: the re-encoding of the font when `iso_latin1` is set, then the
text runs. -/
def ps_text (symbol : zint_symbol) (vector : zint_vector) : Option (List ps_write) :=
  if vector.strings ≠ [] then
    let font : CStr :=
      if symbol.output_options &&& BOLD_TEXT ≠ 0 ∧ is_extendable symbol.symbology = false then
        cstr "Helvetica-Bold"
      else cstr "Helvetica"
    let encoding : List ps_write :=
      if (ps_text_length symbol.text).2 then
        [.fprintf "/%s findfont\n" [.str font],
         .fputs ("dup length dict begin\n"
           ++ "\x7b1 index /FID ne \x7bdef\x7d \x7bpop pop\x7d ifelse\x7d forall\n"
           ++ "/Encoding ISOLatin1Encoding def\n"
           ++ "currentdict\n"
           ++ "end\n"
           ++ "/Helvetica-ISOLatin1 exch definefont pop\n")]
      else []
    let font : CStr := if (ps_text_length symbol.text).2 then cstr "Helvetica-ISOLatin1" else font
    (ps_string_runs vector font (ps_text_length symbol.text).1 vector.strings).map
      (fun runs => encoding ++ runs)
  else some []

/-- Outputs of `ps_plot`: the return value, the error text of the symbol, the
writes made to the stream in order, and the locale in force on return. -/
structure ps_result where
  error_number : Int
  errtxt : CStr
  document : List ps_write
  locale : CStr
deriving DecidableEq, Repr

/-- The text `sprintf` leaves in `errtxt` for the format
`"<message> (%d: %.30s)"` with `errno` and `strerror(errno)`. -/
def ps_errtxt (message : String) (env : ps_env) : CStr :=
  cstr message ++ cstr " (" ++ cstr (toString env.errno) ++ cstr ": " ++ env.strerror.take 30
    ++ cstr ")"

/-- Transcription of `ps_plot`; `none` when a colour function or the text
conversion reads or writes beyond its buffer. -/
def ps_plot (symbol : zint_symbol) (env : ps_env) : Option ps_result :=
  let output_to_stdout := symbol.output_options &&& BARCODE_STDOUT
  match symbol.vector with
  | none =>
    some { error_number := ZINT_ERROR_INVALID_DATA, errtxt := cstr "646: Vector header NULL",
           document := [], locale := env.locale }
  | some vector =>
    if output_to_stdout = 0 ∧ env.fopen_ok = false then
      some { error_number := ZINT_ERROR_FILE_ACCESS,
             errtxt := ps_errtxt "645: Could not open output file" env,
             document := [], locale := env.locale }
    else do
      let locale := setlocale (cstr "C")
      let c ← ps_get_colours symbol
      let text ← ps_text symbol vector
      let document := ps_header vector env ++ ps_definitions vector ++ [.fputs "newpath\n"]
        ++ ps_background symbol vector c ++ ps_foreground symbol c
        ++ ps_rectangles symbol vector c ++ ps_hexagons vector ++ ps_circles symbol vector c
        ++ text
      let locale_after : CStr :=
        match locale.1 with
        | some name => (setlocale name).2
        | none => locale.2
      if env.ferror then
        some { error_number := ZINT_ERROR_FILE_WRITE,
               errtxt := ps_errtxt "647: Incomplete write to output" env,
               document := document, locale := locale_after }
      else if output_to_stdout ≠ 0 then
        if env.fflush_ok = false then
          some { error_number := ZINT_ERROR_FILE_WRITE,
                 errtxt := ps_errtxt "648: Incomplete flush to output" env,
                 document := document, locale := locale_after }
        else
          some { error_number := 0, errtxt := symbol.errtxt, document := document,
                 locale := locale_after }
      else
        if env.fclose_ok = false then
          some { error_number := ZINT_ERROR_FILE_WRITE,
                 errtxt := ps_errtxt "649: Failure on closing output file" env,
                 document := document, locale := locale_after }
        else
          some { error_number := 0, errtxt := symbol.errtxt, document := document,
                 locale := locale_after }

/-! ## Specification vocabulary -/

/-- A hexadecimal digit `0-9`, `A-F`, `a-f`. -/
def is_hex_digit (c : Nat) : Prop :=
  (48 ≤ c ∧ c ≤ 57) ∨ (65 ≤ c ∧ c ≤ 70) ∨ (97 ≤ c ∧ c ≤ 102)

instance : DecidablePred is_hex_digit := fun c => by unfold is_hex_digit; infer_instance

/-- A decimal number: one digit or more, digits only. -/
def is_decimal (f : CStr) : Prop := f ≠ [] ∧ ∀ x ∈ f, 48 ≤ x ∧ x ≤ 57

instance : DecidablePred is_decimal := fun f => by unfold is_decimal; infer_instance

/-- A CMYK field: a decimal number from 0 to 100 written with at most 3 digits. -/
def is_percent (f : CStr) : Prop := is_decimal f ∧ f.length ≤ 3 ∧ decimal_value f ≤ 100

instance : DecidablePred is_percent := fun f => by unfold is_percent; infer_instance

/-- The string `c,m,y,k`. -/
def cmyk_string (c m y k : CStr) : CStr := c ++ COMMA :: (m ++ COMMA :: (y ++ COMMA :: k))

/-- Number of comma-separated fields of a string. -/
def field_count (s : CStr) : Nat := s.count COMMA + 1

/-- The exact quotient `n / d` rounded to the nearest integer, halves away from
zero (`n`, `d` non-negative). -/
def round_half_away (n d : Nat) : Nat := (2 * n + d) / (2 * d)

/-- Value of a hexadecimal digit `0-9`, `A-F`, `a-f`. -/
def hex_digit_value (c : Nat) : Nat :=
  if 97 ≤ c then c - 87 else if 65 ≤ c then c - 55 else c - 48

/-- Value of the pair of hexadecimal digits number `i` (from 0) of a string:
16 x first digit + second digit. -/
def hex_pair_value (colour : CStr) (i : Nat) : Nat :=
  16 * hex_digit_value (colour.getD (2 * i) 0) + hex_digit_value (colour.getD (2 * i + 1) 0)

/-- The upper-case hexadecimal digit of a value below 16. -/
def hex_digit_upper (v : Nat) : Nat := if v < 10 then 48 + v else 55 + v

/-- A channel value written as two hexadecimal digits. -/
def hex_byte (v : Int) : CStr :=
  [hex_digit_upper (v.toNat / 16), hex_digit_upper (v.toNat % 16)]

/-- `toupper` on ASCII. -/
def to_upper (c : Nat) : Nat := if 97 ≤ c ∧ c ≤ 122 then c - 32 else c

/-- A `float` that holds the natural number `N` exactly. -/
def F32.is_nat (x : F32) (N : Nat) : Prop :=
  ∃ s : Nat, x = { num := ((N * 2 ^ s : Nat) : Int), den := 2 ^ s }


/-- The symbologies of the first `switch` of `out_quiet_zones`, which always
have quiet zones. -/
def first_tier : List Int :=
  [BARCODE_CODE16K, BARCODE_CODE49, BARCODE_CODABLOCKF, BARCODE_HIBC_BLOCKF, BARCODE_ITF14,
   BARCODE_EANX, BARCODE_EANX_CHK, BARCODE_EANX_CC, BARCODE_ISBNX,
   BARCODE_UPCA, BARCODE_UPCA_CHK, BARCODE_UPCA_CC,
   BARCODE_UPCE, BARCODE_UPCE_CHK, BARCODE_UPCE_CC]

/-- The labels of the second `switch` of `out_quiet_zones` that set `done`:
every label but `BARCODE_FLAT`. -/
def second_tier : List Int :=
  [BARCODE_CODE11, BARCODE_C25INTER, BARCODE_C25STANDARD, BARCODE_C25IATA, BARCODE_C25LOGIC,
   BARCODE_C25IND, BARCODE_CODE39, BARCODE_EXCODE39, BARCODE_LOGMARS, BARCODE_PZN, BARCODE_VIN,
   BARCODE_HIBC_39, BARCODE_CODE32, BARCODE_GS1_128, BARCODE_GS1_128_CC, BARCODE_EAN14,
   BARCODE_CODABAR, BARCODE_CODE128, BARCODE_CODE128AB, BARCODE_HIBC_128, BARCODE_NVE18,
   BARCODE_DPLEIT, BARCODE_DPIDENT, BARCODE_CODE93, BARCODE_DBAR_OMN, BARCODE_DBAR_LTD,
   BARCODE_DBAR_EXP, BARCODE_DBAR_STK, BARCODE_DBAR_OMNSTK, BARCODE_DBAR_EXPSTK,
   BARCODE_DBAR_OMN_CC, BARCODE_DBAR_LTD_CC, BARCODE_DBAR_EXP_CC, BARCODE_DBAR_STK_CC,
   BARCODE_DBAR_OMNSTK_CC, BARCODE_DBAR_EXPSTK_CC, BARCODE_TELEPEN, BARCODE_TELEPEN_NUM,
   BARCODE_POSTNET, BARCODE_PLANET, BARCODE_CEPNET, BARCODE_MSI_PLESSEY, BARCODE_FIM,
   BARCODE_PHARMA, BARCODE_PHARMA_TWO, BARCODE_PDF417, BARCODE_PDF417COMP, BARCODE_HIBC_PDF,
   BARCODE_MICROPDF417, BARCODE_HIBC_MICPDF, BARCODE_MAXICODE, BARCODE_QRCODE, BARCODE_UPNQR,
   BARCODE_HIBC_QR, BARCODE_DPD, BARCODE_MICROQR, BARCODE_RMQR, BARCODE_AUSPOST,
   BARCODE_AUSREPLY, BARCODE_AUSROUTE, BARCODE_AUSREDIRECT, BARCODE_RM4SCC, BARCODE_DATAMATRIX,
   BARCODE_HIBC_DM, BARCODE_JAPANPOST, BARCODE_KOREAPOST, BARCODE_USPS_IMAIL, BARCODE_PLESSEY,
   BARCODE_KIX, BARCODE_AZTEC, BARCODE_HIBC_AZTEC, BARCODE_AZRUNE, BARCODE_DAFT,
   BARCODE_DOTCODE, BARCODE_HANXIN, BARCODE_MAILMARK_4S, BARCODE_UPU_S10, BARCODE_MAILMARK_2D,
   BARCODE_CHANNEL, BARCODE_CODEONE, BARCODE_GRIDMATRIX, BARCODE_ULTRA, BARCODE_BC412]

/-- All four margins are 0. -/
def quiet_zones.all_zero (q : quiet_zones) : Prop :=
  q.left = F32.zero ∧ q.right = F32.zero ∧ q.top = F32.zero ∧ q.bottom = F32.zero

/-- The same margin `n` on all four sides. -/
def quiet_zones.all_sides (q : quiet_zones) (n : Nat) : Prop :=
  q.left = F32.of_nat n ∧ q.right = F32.of_nat n ∧ q.top = F32.of_nat n
  ∧ q.bottom = F32.of_nat n

/-- The heights of the rows of a symbol, in row order. -/
def row_heights (symbol : zint_symbol) : List F32 :=
  (List.range symbol.rows).map (row_height_at symbol)

/-- Sum of `float`s accumulated from the left, starting from 0. -/
def f32_sum (l : List F32) : F32 := l.foldl f32_add F32.zero

/-- Sum of the non-zero (fixed) row heights, accumulated in row order. -/
def fixed_sum (symbol : zint_symbol) : F32 :=
  f32_sum ((row_heights symbol).filter (fun h => decide (h.num ≠ 0)))

/-- Number of zero-height (auto) rows. -/
def auto_row_count (symbol : zint_symbol) : Nat :=
  (row_heights symbol).countP (fun h => decide (h.num = 0))

/-- A symbol of seven auto rows with requested height 31. -/
def seven_auto_rows : zint_symbol :=
  { test_emf_symbol with
    symbology := BARCODE_CODE16K, rows := 7, row_height := List.replicate 7 F32.zero,
    height := F32.of_nat 31 }

/-- A symbol of three rows, one fixed at 10 and two auto, with requested height
30. -/
def three_rows : zint_symbol :=
  { test_emf_symbol with
    symbology := BARCODE_CODE16K, rows := 3, row_height := [F32.of_nat 10, F32.zero, F32.zero],
    height := F32.of_nat 30 }

/-- The bytes `text[start]`, ..., `text[start + n - 1]`. -/
def text_slice (text : CStr) (start n : Nat) : CStr :=
  (List.range n).map (fun i => text.getD (i + start) 0)

/-- The seven bytes of part `p` of `textparts`. -/
def part_bytes (textparts : text_parts) (p : Nat) : List Nat := (List.range 7).map (textparts p)

/-- The C string held in part `p` of `textparts`: its bytes before the first
NUL. -/
def part_string (textparts : text_parts) (p : Nat) : CStr :=
  (part_bytes textparts p).takeWhile (fun c => decide (c ≠ 0))

/-- The characters after the first `+` found at index 6 or later of the text,
at most five of them; none when there is no such `+`. -/
def addon_chars (text : CStr) : CStr :=
  match strchr (text.drop 6) 43 with
  | none => []
  | some p => ((text.drop 6).drop (p + 1)).take 5

/-- The number of unset modules of a row. -/
def unset_count (row : List Bool) : Nat := row.count false

/-- The number of unset modules of a row before its first set module. -/
def leading_unset (row : List Bool) : Nat := (row.takeWhile (fun m => m = false)).length

/-- The text of the EAN-13 symbol with add-on of item 0 of `test_emf.c`, whose
data is "210987654321+54321". -/
def test_emf_ean : zint_symbol :=
  { test_emf_symbol with
    symbology := BARCODE_EANX, text := cstr "2109876543210+54321", width := 149 }

/-- A composite EAN symbol whose bottom row is unset, set, unset, set. -/
def composite_ean : zint_symbol :=
  { test_emf_symbol with
    symbology := BARCODE_EANX_CC, text := cstr "2109876543210", rows := 2,
    encoded_data := [[true, true, true, true], [false, true, false, true]], width := 4 }

/-- The alpha `ps_plot` resolves for the background: the `alpha` output of
`out_colour_get_rgb`, or the `rgb_alpha` output of `out_colour_get_cmyk` when
`CMYK_COLOUR` is set. -/
def resolved_bgalpha (symbol : zint_symbol) : Option Int :=
  if symbol.output_options &&& CMYK_COLOUR = 0 then
    (out_colour_get_rgb symbol.bgcolour true).bind (fun r => r.alpha)
  else (out_colour_get_cmyk symbol.bgcolour true).bind (fun r => r.rgb_alpha)

/-- The stream of `ps_plot` is open: the output goes to `stdout` or `out_fopen`
succeeds. -/
def stream_open (symbol : zint_symbol) (env : ps_env) : Prop :=
  symbol.output_options &&& BARCODE_STDOUT ≠ 0 ∨ env.fopen_ok = true

instance (symbol : zint_symbol) (env : ps_env) : Decidable (stream_open symbol env) := by
  unfold stream_open; infer_instance

/-- An environment in which every stream operation succeeds, the locale in
force being "de_DE.UTF-8". -/
def plain_env : ps_env :=
  { locale := cstr "de_DE.UTF-8", version_major := 2, version_minor := 12, version_release := 0,
    version_build := 0, fopen_ok := true, ferror := false, fflush_ok := true, fclose_ok := true,
    errno := 0, strerror := [] }

/-- A text run rotated by 90 degrees and aligned on its middle. -/
def rotated_run : zint_vector_string :=
  { x := F32.of_nat 30, y := F32.of_nat 50, fsize := F32.of_nat 7, rotation := 90, halign := 0,
    text := cstr "A(B" }

/-- A MaxiCode-like scene with the colours of item 1 of `test_emf.c`: one
hexagon, one ring and one rotated, centred text run, no rectangle. -/
def maxicode_scene : zint_symbol :=
  { test_emf_symbol with
    symbology := BARCODE_MAXICODE, text := cstr "A(B",
    vector := some
      { width := F32.of_nat 60, height := F32.of_nat 58, rectangles := [],
        hexagons := [{ x := F32.of_nat 3, y := F32.of_nat 4, diameter := F32.of_nat 2,
                       rotation := 90 }],
        strings := [rotated_run],
        circles := [{ x := F32.of_nat 30, y := F32.of_nat 29, diameter := F32.of_nat 9,
                      width := F32.of_nat 1, colour := 0 }] } }

/-- The same scene on a background of alpha 0. -/
def maxicode_clear : zint_symbol := { maxicode_scene with bgcolour := cstr "70007000" }

/-- A scene with no shape at all on a background of alpha 0. -/
def empty_scene : zint_symbol :=
  { test_emf_symbol with
    bgcolour := cstr "FFFFFF00",
    vector := some
      { width := F32.of_nat 10, height := F32.of_nat 10, rectangles := [], hexagons := [],
        strings := [], circles := [] } }

/-- The definition of the rectangle primitives TB, TR and TE, as `ps_plot`
writes it. -/
def rectangle_definitions : ps_write :=
  .fputs ("/TB \x7b 2 copy \x7d bind def\n"
    ++ "/TR \x7b newpath 4 1 roll exch moveto 1 index 0 rlineto 0 exch rlineto neg 0 rlineto closepath fill \x7d"
    ++ " bind def\n"
    ++ "/TE \x7b pop pop \x7d bind def\n")

/-- The definition of the disc primitive TD. -/
def disc_definition : ps_write := .fputs "/TD \x7b newpath 0 360 arc fill \x7d bind def\n"

/-- The definition of the ring primitive TC. -/
def ring_definition : ps_write :=
  .fputs ("/TC \x7b newpath 4 1 roll 3 copy 0 360 arc closepath 4 -1 roll add 360 0 arcn closepath fill \x7d"
    ++ " bind def\n")

/-- The definition of the hexagon primitive TH. -/
def hexagon_definition : ps_write :=
  .fputs "/TH \x7b 0 setlinewidth moveto lineto lineto lineto lineto lineto closepath fill \x7d bind def\n"

/-- The writes that open a text run: the current matrix is saved, the font is
selected and scaled, and the origin is moved to the position of the run. -/
def run_open (vector : zint_vector) (font : CStr) (string : zint_vector_string) :
    List ps_write :=
  [.fputs "matrix currentmatrix\n",
   .fprintf "/%s findfont\n" [.str font],
   .fprintf "%.2f scalefont setfont\n" [.flt string.fsize],
   .fprintf " 0 0 moveto %.2f %.2f translate 0.00 rotate 0 0 moveto\n"
     [.flt string.x, .flt (f32_sub vector.height string.y)]]

/-- The write that measures the width of a string: `stringwidth` leaves the
width and the height on the operand stack. -/
def run_measure (ps_string : CStr) : ps_write := .fprintf " (%s) stringwidth\n" [.str ps_string]

/-- The rotate statement of a run, with its angle. -/
def run_rotate (angle : Int) : ps_write := .fprintf "%d rotate\n" [.int angle]

/-- The writes that move the start point: `pop` drops the height, and the
operator text turns the width w into the horizontal move, "-2 div" into
w / -2 and "neg" into -w. -/
def run_shift (operator : CStr) : List ps_write :=
  [.fputs "pop\n", .fprintf "%s 0 rmoveto\n" [.str operator]]

/-- The write that shows a string. -/
def run_show (ps_string : CStr) : ps_write := .fprintf " (%s) show\n" [.str ps_string]

/-- Whether some fixed row is not a whole number of pixels at the scale `si`:
the flag `round_rows` of `out_large_bar_height`. -/
def rows_not_exact (symbol : zint_symbol) (si : Int) : Bool :=
  (row_heights symbol).any
    (fun h => decide (h.num ≠ 0) && !isfintf (f32_mul h (f32_of_int si)))

/-- The quotient (height - sum of the fixed row heights) / (number of auto
rows), evaluated in single precision as `out_large_bar_height` does. -/
def auto_height (symbol : zint_symbol) : F32 :=
  f32_div (f32_sub symbol.height (fixed_sum symbol)) (f32_of_int (auto_row_count symbol))

/-- The auto-row height re-derived by pixel rounding, round(h x si) / si, when
h x si is not a whole number of pixels; h itself otherwise. -/
def pixel_rounded (h : F32) (si : Int) : F32 :=
  if isfintf (f32_mul h (f32_of_int si)) = false then
    f32_div (roundf (f32_mul h (f32_of_int si))) (f32_of_int si)
  else h

/-- The pixel height of each row at the scale `si`: round(row height x si) for
a fixed row and round(large bar height x si) for an auto row. -/
def pixel_rows (symbol : zint_symbol) (si : Int) (large_bar_height : F32) : List Int :=
  (row_heights symbol).map
    (fun h =>
      if h.num ≠ 0 then f32_to_int (roundf (f32_mul h (f32_of_int si)))
      else f32_to_int (roundf (f32_mul large_bar_height (f32_of_int si))))

/-- A symbol of one auto row with requested height 4.4. -/
def one_auto_row : zint_symbol :=
  { test_emf_symbol with
    symbology := BARCODE_CODE16K, rows := 1, row_height := [F32.zero],
    height := f32_const 44 10 }

/-- A DotCode symbol with quiet zones requested. -/
def dotcode_symbol : zint_symbol :=
  { test_emf_symbol with symbology := BARCODE_DOTCODE, output_options := BARCODE_QUIET_ZONES }

/-- The length `ps_plot` counts for one byte of the text: 2 for a parenthesis
or a backslash, 1 for every other byte. -/
def ps_cost (c : Nat) : Nat := if c = 40 ∨ c = 41 ∨ c = 92 then 2 else 1

/-- Every byte 0xC2 or 0xC3 of the string is followed by another byte. -/
def leads_followed (s : CStr) : Prop :=
  ∀ i, i < s.length → (s.getD i 0 = 0xC2 ∨ s.getD i 0 = 0xC3) → i + 1 < s.length

instance : DecidablePred leads_followed := fun s => by
  unfold leads_followed; infer_instance

/-- The UTF-8 encoding of a code point below U+0100: the code point itself
below U+0080, otherwise the lead byte 0xC2 or 0xC3 and a continuation byte. -/
def utf8_latin1 (cp : Nat) : CStr :=
  if cp < 0x80 then [cp] else [0xC0 + cp / 64, 0x80 + cp % 64]

/-- A character as `ps_convert` is to write it: a parenthesis or a backslash
preceded by a backslash, any other character as the single byte of its code
point. -/
def ps_escaped (cp : Nat) : CStr := if cp = 40 ∨ cp = 41 ∨ cp = 92 then [92, cp] else [cp]

/-- Removal of the backslash escapes: a backslash is dropped and the byte after
it kept. -/
def ps_unescape : CStr → CStr
  | [] => []
  | [c] => [c]
  | c :: d :: rest => if c = 92 then d :: ps_unescape rest else c :: ps_unescape (d :: rest)

/-- The numbers written "d.dd" in a colour statement, in hundredths: "1.00" is
100 and "0.00" is 0. -/
def palette_values : CStr → List Nat
  | a :: 46 :: b :: c :: rest =>
    (100 * (a - 48) + 10 * (b - 48) + (c - 48)) :: palette_values rest
  | _ :: rest => palette_values rest
  | [] => []

/-- The two hexadecimal digits of a palette channel: "FF" for 1.00 and "00"
for 0.00. -/
def channel_hex (v : Nat) : CStr := if v = 100 then cstr "FF" else cstr "00"

/-- The six-digit hexadecimal form of an RGB palette entry. -/
def palette_hex (rgb : List Nat) : CStr := rgb.flatMap channel_hex


/-- The rectangles of the scene that carry the colour `colour`, in scene
order. -/
def rect_group (vector : zint_vector) (colour : Int) : List zint_vector_rect :=
  vector.rectangles.filter (fun rect => decide (rect.colour = colour))

/-- A group of rectangles as the specification has it drawn: nothing for an
empty group, otherwise one colour statement and then every rectangle of the
group in order. -/
def group_writes (vector : zint_vector) (statement : ps_write) :
    List zint_vector_rect → List ps_write
  | [] => []
  | rect :: rest => statement :: (rect :: rest).flatMap (ps_rect vector)

/-- The colour statement of the palette entry `colour_index`. -/
def ps_set_palette (symbol : zint_symbol) (colour_index : Int) : ps_write :=
  .fprintf "%s\n" [.str (colour_to_pscolor symbol.output_options colour_index)]

/-- A unit square at column `x` of the top row, of colour `colour`. -/
def unit_square (x : Nat) (colour : Int) : zint_vector_rect :=
  { x := F32.of_nat x, y := F32.of_nat 0, height := F32.of_nat 1, width := F32.of_nat 1,
    colour := colour }

/-- A canvas of five squares, of colours 3, -1, 1, 3 and -1. -/
def ultra_vector : zint_vector :=
  { width := F32.of_nat 5, height := F32.of_nat 1,
    rectangles := [unit_square 0 3, unit_square 1 (-1), unit_square 2 1, unit_square 3 3,
                   unit_square 4 (-1)],
    hexagons := [], strings := [], circles := [] }

/-- An Ultracode scene of the five squares. -/
def ultra_scene : zint_symbol :=
  { test_emf_symbol with symbology := BARCODE_ULTRA, vector := some ultra_vector }

/-- Whether a write is a colour statement: a `setrgbcolor` or `setcmykcolor`
line of the ink or the paper, or the line of a palette entry. -/
def is_colour_statement : ps_write → Bool
  | .fprintf format _ =>
    decide (format = "%.2f %.2f %.2f setrgbcolor\n"
      ∨ format = "%.2f %.2f %.2f %.2f setcmykcolor\n" ∨ format = "%s\n")
  | .fputs _ => false

/-- The colour in force after a sequence of writes: the last colour statement
among them, `none` when there is none. -/
def current_colour (writes : List ps_write) : Option ps_write :=
  writes.foldl (fun colour w => if is_colour_statement w then some w else colour) none

/-- The colour in force when the write `w` is made: the colour after the
writes that come before the first occurrence of `w` in the document. -/
def colour_at (document : List ps_write) (w : ps_write) : Option ps_write :=
  current_colour (document.takeWhile (fun x => decide (x ≠ w)))

/-- An inverse disc: a circle without width whose legacy colour flag is set. -/
def inverse_disc : zint_vector_circle :=
  { x := F32.of_nat 5, y := F32.of_nat 5, diameter := F32.of_nat 4, width := F32.of_nat 0,
    colour := 1 }

/-- An ordinary disc. -/
def plain_disc : zint_vector_circle := { inverse_disc with x := F32.of_nat 15, colour := 0 }

/-- A text run "A", neither rotated nor measured. -/
def plain_run : zint_vector_string :=
  { x := F32.of_nat 10, y := F32.of_nat 18, fsize := F32.of_nat 7, rotation := 0, halign := 1,
    text := cstr "A" }

/-- A MaxiCode-like scene whose only circle is an inverse disc, followed by one
text run, in the colours of item 1 of `test_emf.c`. -/
def inverse_scene : zint_symbol :=
  { test_emf_symbol with
    symbology := BARCODE_MAXICODE, text := cstr "A",
    vector := some
      { width := F32.of_nat 20, height := F32.of_nat 20, rectangles := [], hexagons := [],
        strings := [plain_run], circles := [inverse_disc] } }

/-- The same scene with an ordinary disc after the inverse disc. -/
def inverse_then_plain : zint_symbol :=
  { test_emf_symbol with
    symbology := BARCODE_MAXICODE, text := cstr "A",
    vector := some
      { width := F32.of_nat 20, height := F32.of_nat 20, rectangles := [], hexagons := [],
        strings := [plain_run], circles := [inverse_disc, plain_disc] } }

/-- The radii of a hexagon as the specification has them, computed afresh for
the hexagon: 0.5, 0.25 and 0.43301270189221932338 times its own diameter. -/
def hexagon_radii.fresh (hex : zint_vector_hexagon) : hexagon_radii :=
  { previous_diameter := hex.diameter,
    radius := f32_times_double 5 10 hex.diameter,
    half_radius := f32_times_double 25 100 hex.diameter,
    half_sqrt3_radius :=
      f32_times_double 43301270189221932338 100000000000000000000 hex.diameter }

/-- The hexagons drawn with radii recomputed for every hexagon. -/
def ps_hexagons_fresh (vector : zint_vector) : List ps_write :=
  vector.hexagons.map (fun hex => ps_hexagon vector (hexagon_radii.fresh hex) hex)

/-- The radius of a circle as the specification has it, computed afresh for
the circle: 0.5 x (diameter - width). -/
def circle_radius_fresh (circ : zint_vector_circle) : F32 :=
  f32_times_double 5 10 (f32_sub circ.diameter circ.width)

/-- The circle loop with the radius recomputed for every circle. -/
def ps_circles_fresh (symbol : zint_symbol) (vector : zint_vector) (c : ps_colours) :
    List zint_vector_circle → List ps_write
  | [] => []
  | circ :: rest =>
    (if circ.colour ≠ 0 then
      [ps_set_paper symbol c, ps_circle vector (circle_radius_fresh circ) circ]
      ++ (if rest ≠ [] then [ps_set_ink symbol c] else [])
    else [ps_circle vector (circle_radius_fresh circ) circ])
    ++ ps_circles_fresh symbol vector c rest

/-- A hexagon of diameter `diameter` at column `x`. -/
def hexagon_at (x diameter : F32) : zint_vector_hexagon :=
  { x := x, y := F32.of_nat 4, diameter := diameter, rotation := 0 }

/-- A disc of diameter `diameter` at column `x`. -/
def disc_at (x diameter : F32) : zint_vector_circle :=
  { x := x, y := F32.of_nat 9, diameter := diameter, width := F32.zero, colour := 0 }

/-- A canvas whose first hexagon and first circle have diameter 0, and on
which a diameter comes twice in a row, once as 2/1 and once as the same value
4/2, next to a different one. -/
def memo_vector : zint_vector :=
  { width := F32.of_nat 20, height := F32.of_nat 20, rectangles := [],
    hexagons := [hexagon_at (F32.of_nat 1) F32.zero, hexagon_at (F32.of_nat 2) F32.zero,
                 hexagon_at (F32.of_nat 3) (F32.of_nat 2),
                 hexagon_at (F32.of_nat 4) { num := 4, den := 2 },
                 hexagon_at (F32.of_nat 5) (F32.of_nat 3)],
    strings := [],
    circles := [disc_at (F32.of_nat 1) F32.zero, disc_at (F32.of_nat 2) (F32.of_nat 8),
                disc_at (F32.of_nat 3) (F32.of_nat 8), disc_at (F32.of_nat 4) (F32.of_nat 6)] }

/-- A MaxiCode-like scene of that canvas. -/
def memo_scene : zint_symbol :=
  { test_emf_symbol with symbology := BARCODE_MAXICODE, vector := some memo_vector }
/-! ## String lemmas -/

theorem strchr_eq_none {s : CStr} {x : Nat} : strchr s x = none ↔ x ∉ s := by
  induction s with
  | nil => simp [strchr]
  | cons a t ih =>
    by_cases h : a = x
    · simp [strchr, h]
    · have h2 : ¬ x = a := fun e => h e.symm
      simp [strchr, h, ih, h2]

theorem strchr_append {pre : CStr} {x : Nat} (post : CStr) (h : x ∉ pre) :
    strchr (pre ++ x :: post) x = some pre.length := by
  induction pre with
  | nil => simp [strchr]
  | cons a t ih =>
    have ha : a ≠ x := fun e => h (by simp [e])
    have ht : x ∉ t := fun e => h (by simp [e])
    simp [strchr, ha, ih ht]

theorem strchr_eq_some {s : CStr} {x i : Nat} (h : strchr s x = some i) :
    ∃ pre post, s = pre ++ x :: post ∧ x ∉ pre ∧ pre.length = i := by
  induction s generalizing i with
  | nil => simp [strchr] at h
  | cons a t ih =>
    by_cases ha : a = x
    · simp [strchr, ha] at h
      exact ⟨[], t, by simp [ha], by simp, by simpa using h⟩
    · simp [strchr, ha] at h
      obtain ⟨j, hj, rfl⟩ := h
      obtain ⟨pre, post, rfl, hp, rfl⟩ := ih hj
      refine ⟨a :: pre, post, by simp, ?_, by simp⟩
      simp [hp]
      exact fun e => ha e.symm

theorem strchr_from_append {pre : CStr} {x n : Nat} (l post : CStr) (h : x ∉ pre)
    (hn : l.length = n) :
    strchr_from (l ++ (pre ++ x :: post)) n x = some (n + pre.length) := by
  simp [strchr_from, List.drop_left' hn, strchr_append post h, Nat.add_comm]

theorem strchr_from_none {x n : Nat} (l post : CStr) (h : x ∉ post) (hn : l.length = n) :
    strchr_from (l ++ post) n x = none := by
  simp [strchr_from, List.drop_left' hn, strchr_eq_none.mpr h]


/-! ## Lemmas on the helpers -/

theorem z_isdigit_iff (c : Nat) : z_isdigit c = true ↔ 48 ≤ c ∧ c ≤ 57 := by
  simp [z_isdigit]

theorem OUT_SSET_F_iff (c : Nat) : OUT_SSET_F c = true ↔ is_hex_digit c := by
  unfold OUT_SSET_F is_hex_digit
  have h : cstr "0123456789ABCDEFabcdef" = [48, 49, 50, 51, 52, 53, 54, 55, 56, 57, 65, 66, 67,
      68, 69, 70, 97, 98, 99, 100, 101, 102] := by decide
  rw [h]
  simp only [decide_eq_true_eq, List.mem_cons, List.mem_singleton, List.not_mem_nil, or_false]
  omega

theorem is_sane_hex_iff (s : CStr) :
    is_sane OUT_SSET_F s s.length = true ↔ ∀ x ∈ s, is_hex_digit x := by
  simp [is_sane, OUT_SSET_F_iff]

theorem to_int_field (f rest : CStr) :
    to_int (f ++ rest) f.length = if is_decimal f then ((decimal_value f : Nat) : Int) else -1 := by
  simp [to_int, is_decimal, z_isdigit_iff]

theorem to_int_last (f : CStr) :
    to_int f f.length = if is_decimal f then ((decimal_value f : Nat) : Int) else -1 := by
  simpa using to_int_field f []

/-- The test `to_int(...) == -1 || val > 100` fails exactly for a number up to 100. -/
theorem to_int_test (f : CStr) :
    ((if is_decimal f then ((decimal_value f : Nat) : Int) else -1) = -1
      ∨ (if is_decimal f then ((decimal_value f : Nat) : Int) else -1) > 100)
    ↔ ¬ (is_decimal f ∧ decimal_value f ≤ 100) := by
  by_cases h : is_decimal f
  · simp only [h, if_true, true_and]
    omega
  · simp [h]

/-! ## Shape of a CMYK string -/

/-- Offsets of the three commas of `c,m,y,k` and the four fields found there. -/
theorem cmyk_string_offsets (c m y k : CStr) (hc : COMMA ∉ c) (hm : COMMA ∉ m)
    (hy : COMMA ∉ y) (hk : COMMA ∉ k) :
    strchr (cmyk_string c m y k) COMMA = some c.length
    ∧ strchr_from (cmyk_string c m y k) (c.length + 1) COMMA = some (c.length + 1 + m.length)
    ∧ strchr_from (cmyk_string c m y k) (c.length + 1 + m.length + 1) COMMA
        = some (c.length + 1 + m.length + 1 + y.length)
    ∧ strchr_from (cmyk_string c m y k) (c.length + 1 + m.length + 1 + y.length + 1) COMMA = none
    ∧ (cmyk_string c m y k).drop (c.length + 1) = m ++ COMMA :: (y ++ COMMA :: k)
    ∧ (cmyk_string c m y k).drop (c.length + 1 + m.length + 1) = y ++ COMMA :: k
    ∧ (cmyk_string c m y k).drop (c.length + 1 + m.length + 1 + y.length + 1) = k := by
  have e1 : cmyk_string c m y k = (c ++ [COMMA]) ++ (m ++ COMMA :: (y ++ COMMA :: k)) := by
    simp [cmyk_string]
  have e2 : cmyk_string c m y k = (c ++ COMMA :: (m ++ [COMMA])) ++ (y ++ COMMA :: k) := by
    simp [cmyk_string]
  have e3 : cmyk_string c m y k = (c ++ COMMA :: (m ++ COMMA :: (y ++ [COMMA]))) ++ k := by
    simp [cmyk_string]
  have l1 : (c ++ [COMMA]).length = c.length + 1 := by simp
  have l2 : (c ++ COMMA :: (m ++ [COMMA])).length = c.length + 1 + m.length + 1 := by
    simp; omega
  have l3 : (c ++ COMMA :: (m ++ COMMA :: (y ++ [COMMA]))).length
      = c.length + 1 + m.length + 1 + y.length + 1 := by
    simp; omega
  refine ⟨?_, ?_, ?_, ?_, ?_, ?_, ?_⟩
  · exact strchr_append _ hc
  · rw [e1]; exact strchr_from_append _ _ hm l1
  · rw [e2]; exact strchr_from_append _ _ hy l2
  · rw [e3]; exact strchr_from_none _ _ hk l3
  · rw [e1]; exact List.drop_left' l1
  · rw [e2]; exact List.drop_left' l2
  · rw [e3]; exact List.drop_left' l3


/-! ## `out_check_colour` by cases -/

/-- A string without a comma: length, then character set. -/
theorem out_check_colour_hex (symbol : zint_symbol) (colour name : CStr) (h : COMMA ∉ colour) :
    out_check_colour symbol colour name =
      if colour.length ≠ 6 ∧ colour.length ≠ 8 then colour_failure symbol 880 name colour
      else if ¬ (∀ x ∈ colour, is_hex_digit x) then colour_failure symbol 881 name colour
      else (0, symbol) := by
  unfold out_check_colour
  rw [strchr_eq_none.mpr h]
  simp only []
  by_cases h1 : colour.length ≠ 6 ∧ colour.length ≠ 8
  · rw [if_pos h1, if_pos h1]; rfl
  · rw [if_neg h1, if_neg h1]
    by_cases h2 : ∀ x ∈ colour, is_hex_digit x
    · have h3 : is_sane OUT_SSET_F colour colour.length = true := (is_sane_hex_iff colour).mpr h2
      rw [if_neg (by simp [h3]), if_neg (not_not_intro h2)]
    · have h3 : is_sane OUT_SSET_F colour colour.length = false := by
        cases h4 : is_sane OUT_SSET_F colour colour.length with
        | false => rfl
        | true => exact absurd ((is_sane_hex_iff colour).mp h4) h2
      rw [if_pos h3, if_pos h2]; rfl

/-- A string of four comma-free fields: digit count, then each field in turn. -/
theorem out_check_colour_cmyk (symbol : zint_symbol) (c m y k name : CStr) (hc : COMMA ∉ c)
    (hm : COMMA ∉ m) (hy : COMMA ∉ y) (hk : COMMA ∉ k) :
    out_check_colour symbol (cmyk_string c m y k) name =
      if c.length > 3 ∨ m.length > 3 ∨ y.length > 3 ∨ k.length > 3 then
        colour_failure symbol 883 name (cmyk_string c m y k)
      else if ¬ (is_decimal c ∧ decimal_value c ≤ 100) then
        colour_failure symbol 884 name (cmyk_string c m y k)
      else if ¬ (is_decimal m ∧ decimal_value m ≤ 100) then
        colour_failure symbol 885 name (cmyk_string c m y k)
      else if ¬ (is_decimal y ∧ decimal_value y ≤ 100) then
        colour_failure symbol 886 name (cmyk_string c m y k)
      else if ¬ (is_decimal k ∧ decimal_value k ≤ 100) then
        colour_failure symbol 887 name (cmyk_string c m y k)
      else (0, symbol) := by
  obtain ⟨o1, o2, o3, o4, d1, d2, d3⟩ := cmyk_string_offsets c m y k hc hm hy hk
  unfold out_check_colour
  rw [o1]
  simp only []
  rw [o2]
  simp only []
  rw [o3]
  simp only []
  rw [o4, d1, d2, d3]
  have a1 : c.length + 1 + m.length - (c.length + 1) = m.length := by omega
  have a2 : c.length + 1 + m.length + 1 + y.length - (c.length + 1 + m.length + 1) = y.length := by
    omega
  have t1 : to_int (cmyk_string c m y k) c.length
      = if is_decimal c then ((decimal_value c : Nat) : Int) else -1 := by
    unfold cmyk_string; exact to_int_field c _
  simp only [a1, a2, strlen_from, d3, t1, to_int_field, to_int_last, to_int_test,
    Option.isSome_none, Bool.false_eq_true, if_false, colour_failure]

/-- Number of fields of `c,m,y,k`. -/
theorem field_count_cmyk_string (c m y k : CStr) (hc : COMMA ∉ c)
    (hm : COMMA ∉ m) (hy : COMMA ∉ y) (hk : COMMA ∉ k) :
    field_count (cmyk_string c m y k) = 4 := by
  simp [field_count, cmyk_string, List.count_append, List.count_cons,
    List.count_eq_zero_of_not_mem hc, List.count_eq_zero_of_not_mem hm,
    List.count_eq_zero_of_not_mem hy, List.count_eq_zero_of_not_mem hk]

/-- A string with a comma either has a field count other than four, and fails
with error 882, or is `c,m,y,k` for four comma-free fields. -/
theorem comma_shape (colour : CStr) (h : COMMA ∈ colour) :
    (field_count colour ≠ 4 ∧ ∀ symbol name,
        out_check_colour symbol colour name = colour_failure symbol 882 name colour)
    ∨ ∃ c m y k, COMMA ∉ c ∧ COMMA ∉ m ∧ COMMA ∉ y ∧ COMMA ∉ k
        ∧ colour = cmyk_string c m y k := by
  cases h1 : strchr colour COMMA with
  | none => exact absurd h (strchr_eq_none.mp h1)
  | some i =>
    obtain ⟨c, r1, rfl, hc, rfl⟩ := strchr_eq_some h1
    have e1 : (c ++ COMMA :: r1).drop (c.length + 1) = r1 := by
      have : c ++ COMMA :: r1 = (c ++ [COMMA]) ++ r1 := by simp
      rw [this]; exact List.drop_left' (by simp)
    cases h2 : strchr r1 COMMA with
    | none =>
      left
      have n1 := strchr_eq_none.mp h2
      refine ⟨?_, ?_⟩
      · simp [field_count, List.count_append, List.count_cons,
          List.count_eq_zero_of_not_mem hc, List.count_eq_zero_of_not_mem n1]
      · intro symbol name
        unfold out_check_colour
        rw [h1]
        simp only [strchr_from, e1, h2, Option.map_none', colour_failure]
    | some j =>
      obtain ⟨m, r2, rfl, hm, rfl⟩ := strchr_eq_some h2
      have e2 : (c ++ COMMA :: (m ++ COMMA :: r2)).drop (m.length + (c.length + 1) + 1) = r2 := by
        have : c ++ COMMA :: (m ++ COMMA :: r2) = (c ++ COMMA :: (m ++ [COMMA])) ++ r2 := by simp
        rw [this]; exact List.drop_left' (by simp; omega)
      cases h3 : strchr r2 COMMA with
      | none =>
        left
        have n2 := strchr_eq_none.mp h3
        refine ⟨?_, ?_⟩
        · simp [field_count, List.count_append, List.count_cons,
            List.count_eq_zero_of_not_mem hc, List.count_eq_zero_of_not_mem hm,
            List.count_eq_zero_of_not_mem n2]
        · intro symbol name
          unfold out_check_colour
          rw [h1]
          simp only [strchr_from, e1, h2, Option.map_some', e2, h3, Option.map_none',
            colour_failure]
      | some l =>
        obtain ⟨y, r3, rfl, hy, rfl⟩ := strchr_eq_some h3
        have e3 : (c ++ COMMA :: (m ++ COMMA :: (y ++ COMMA :: r3))).drop
            (y.length + (m.length + (c.length + 1) + 1) + 1) = r3 := by
          have : c ++ COMMA :: (m ++ COMMA :: (y ++ COMMA :: r3))
              = (c ++ COMMA :: (m ++ COMMA :: (y ++ [COMMA]))) ++ r3 := by simp
          rw [this]; exact List.drop_left' (by simp; omega)
        by_cases h4 : COMMA ∈ r3
        · left
          refine ⟨?_, ?_⟩
          · have p : 0 < List.count COMMA r3 := List.count_pos_iff.mpr h4
            simp [field_count, List.count_append, List.count_cons,
              List.count_eq_zero_of_not_mem hc, List.count_eq_zero_of_not_mem hm,
              List.count_eq_zero_of_not_mem hy]
            omega
          · intro symbol name
            have h5 : (strchr r3 COMMA).isSome = true := by
              cases h6 : strchr r3 COMMA with
              | none => exact absurd h4 (strchr_eq_none.mp h6)
              | some _ => rfl
            unfold out_check_colour
            rw [h1]
            simp only [strchr_from, e1, h2, Option.map_some', e2, h3, e3, Option.isSome_map',
              h5, if_true, colour_failure]
        · right
          exact ⟨c, m, y, r3, hc, hm, hy, h4, rfl⟩


theorem ZINT_ERROR_INVALID_OPTION_ne_zero : ZINT_ERROR_INVALID_OPTION ≠ 0 := by decide

theorem is_decimal_no_comma {f : CStr} (h : is_decimal f) : COMMA ∉ f := by
  intro hm
  have := h.2 COMMA hm
  simp [COMMA] at this

/-- Every outcome of `out_check_colour`: success with the symbol untouched, or
one of the errors 880..887. -/
theorem out_check_colour_result (symbol : zint_symbol) (colour name : CStr) :
    out_check_colour symbol colour name = (0, symbol)
    ∨ ∃ n, 880 ≤ n ∧ n ≤ 887
        ∧ out_check_colour symbol colour name = colour_failure symbol n name colour := by
  by_cases h : COMMA ∈ colour
  · rcases comma_shape colour h with ⟨_, h2⟩ | ⟨c, m, y, k, hc, hm, hy, hk, rfl⟩
    · exact Or.inr ⟨882, by omega, by omega, h2 symbol name⟩
    · rw [out_check_colour_cmyk symbol c m y k name hc hm hy hk]
      by_cases g1 : c.length > 3 ∨ m.length > 3 ∨ y.length > 3 ∨ k.length > 3
      · rw [if_pos g1]; exact Or.inr ⟨883, by omega, by omega, rfl⟩
      rw [if_neg g1]
      by_cases g2 : ¬ (is_decimal c ∧ decimal_value c ≤ 100)
      · rw [if_pos g2]; exact Or.inr ⟨884, by omega, by omega, rfl⟩
      rw [if_neg g2]
      by_cases g3 : ¬ (is_decimal m ∧ decimal_value m ≤ 100)
      · rw [if_pos g3]; exact Or.inr ⟨885, by omega, by omega, rfl⟩
      rw [if_neg g3]
      by_cases g4 : ¬ (is_decimal y ∧ decimal_value y ≤ 100)
      · rw [if_pos g4]; exact Or.inr ⟨886, by omega, by omega, rfl⟩
      rw [if_neg g4]
      by_cases g5 : ¬ (is_decimal k ∧ decimal_value k ≤ 100)
      · rw [if_pos g5]; exact Or.inr ⟨887, by omega, by omega, rfl⟩
      rw [if_neg g5]
      exact Or.inl rfl
  · rw [out_check_colour_hex symbol colour name h]
    by_cases g1 : colour.length ≠ 6 ∧ colour.length ≠ 8
    · rw [if_pos g1]; exact Or.inr ⟨880, by omega, by omega, rfl⟩
    rw [if_neg g1]
    by_cases g2 : ¬ (∀ x ∈ colour, is_hex_digit x)
    · rw [if_pos g2]; exact Or.inr ⟨881, by omega, by omega, rfl⟩
    rw [if_neg g2]
    exact Or.inl rfl

/-- Acceptance of a comma-free string. -/
theorem out_check_colour_hex_iff (symbol : zint_symbol) (colour name : CStr)
    (h : COMMA ∉ colour) :
    (out_check_colour symbol colour name).1 = 0
      ↔ (colour.length = 6 ∨ colour.length = 8) ∧ ∀ x ∈ colour, is_hex_digit x := by
  rw [out_check_colour_hex symbol colour name h]
  have nz : ¬ (colour_failure symbol 880 name colour).1 = 0 := ZINT_ERROR_INVALID_OPTION_ne_zero
  have nz1 : ¬ (colour_failure symbol 881 name colour).1 = 0 := ZINT_ERROR_INVALID_OPTION_ne_zero
  by_cases g1 : colour.length ≠ 6 ∧ colour.length ≠ 8
  · rw [if_pos g1]
    constructor
    · exact fun h0 => absurd h0 nz
    · intro h3; omega
  rw [if_neg g1]
  by_cases g2 : ¬ (∀ x ∈ colour, is_hex_digit x)
  · rw [if_pos g2]
    constructor
    · exact fun h0 => absurd h0 nz1
    · exact fun h3 => absurd h3.2 g2
  rw [if_neg g2]
  constructor
  · exact fun _ => ⟨by omega, not_not.mp g2⟩
  · exact fun _ => rfl

/-- Acceptance of four comma-free fields. -/
theorem out_check_colour_fields_iff (symbol : zint_symbol) (c m y k name : CStr)
    (hc : COMMA ∉ c) (hm : COMMA ∉ m) (hy : COMMA ∉ y) (hk : COMMA ∉ k) :
    (out_check_colour symbol (cmyk_string c m y k) name).1 = 0
      ↔ is_percent c ∧ is_percent m ∧ is_percent y ∧ is_percent k := by
  rw [out_check_colour_cmyk symbol c m y k name hc hm hy hk]
  have nz : ∀ n, ¬ (colour_failure symbol n name (cmyk_string c m y k)).1 = 0 :=
    fun _ => ZINT_ERROR_INVALID_OPTION_ne_zero
  by_cases g1 : c.length > 3 ∨ m.length > 3 ∨ y.length > 3 ∨ k.length > 3
  · rw [if_pos g1]
    constructor
    · exact fun h0 => absurd h0 (nz _)
    · rintro ⟨pc, pm, py, pk⟩
      have := pc.2.1; have := pm.2.1; have := py.2.1; have := pk.2.1
      omega
  rw [if_neg g1]
  by_cases g2 : ¬ (is_decimal c ∧ decimal_value c ≤ 100)
  · rw [if_pos g2]
    exact ⟨fun h0 => absurd h0 (nz _), fun p => absurd ⟨p.1.1, p.1.2.2⟩ g2⟩
  rw [if_neg g2]
  by_cases g3 : ¬ (is_decimal m ∧ decimal_value m ≤ 100)
  · rw [if_pos g3]
    exact ⟨fun h0 => absurd h0 (nz _), fun p => absurd ⟨p.2.1.1, p.2.1.2.2⟩ g3⟩
  rw [if_neg g3]
  by_cases g4 : ¬ (is_decimal y ∧ decimal_value y ≤ 100)
  · rw [if_pos g4]
    exact ⟨fun h0 => absurd h0 (nz _), fun p => absurd ⟨p.2.2.1.1, p.2.2.1.2.2⟩ g4⟩
  rw [if_neg g4]
  by_cases g5 : ¬ (is_decimal k ∧ decimal_value k ≤ 100)
  · rw [if_pos g5]
    exact ⟨fun h0 => absurd h0 (nz _), fun p => absurd ⟨p.2.2.2.1, p.2.2.2.2.2⟩ g5⟩
  rw [if_neg g5]
  have g2 := not_not.mp g2
  have g3 := not_not.mp g3
  have g4 := not_not.mp g4
  have g5 := not_not.mp g5
  constructor
  · exact fun _ => ⟨⟨g2.1, by omega, g2.2⟩, ⟨g3.1, by omega, g3.2⟩, ⟨g4.1, by omega, g4.2⟩,
      ⟨g5.1, by omega, g5.2⟩⟩
  · exact fun _ => rfl

/-- Acceptance of a string with a comma. -/
theorem out_check_colour_cmyk_iff (symbol : zint_symbol) (colour name : CStr)
    (h : COMMA ∈ colour) :
    (out_check_colour symbol colour name).1 = 0
      ↔ ∃ c m y k, colour = cmyk_string c m y k
          ∧ is_percent c ∧ is_percent m ∧ is_percent y ∧ is_percent k := by
  constructor
  · intro h0
    rcases comma_shape colour h with ⟨_, h2⟩ | ⟨c, m, y, k, hc, hm, hy, hk, rfl⟩
    · rw [h2 symbol name] at h0
      exact absurd h0 ZINT_ERROR_INVALID_OPTION_ne_zero
    · exact ⟨c, m, y, k, rfl, (out_check_colour_fields_iff symbol c m y k name hc hm hy hk).mp h0⟩
  · rintro ⟨c, m, y, k, rfl, pc, pm, py, pk⟩
    exact (out_check_colour_fields_iff symbol c m y k name (is_decimal_no_comma pc.1)
      (is_decimal_no_comma pm.1) (is_decimal_no_comma py.1) (is_decimal_no_comma pk.1)).mpr
      ⟨pc, pm, py, pk⟩

/-- The return value of `out_check_colour` is 0 or `ZINT_ERROR_INVALID_OPTION`. -/
theorem out_check_colour_ret (symbol : zint_symbol) (colour name : CStr) :
    (out_check_colour symbol colour name).1 = 0
    ∨ (out_check_colour symbol colour name).1 = ZINT_ERROR_INVALID_OPTION := by
  rcases out_check_colour_result symbol colour name with h | ⟨n, _, _, h⟩
  · exact Or.inl (by rw [h])
  · exact Or.inr (by rw [h]; rfl)

/-- Whether a colour is accepted depends on neither the symbol nor the channel name. -/
theorem out_check_colour_ret_indep (s1 s2 : zint_symbol) (colour n1 n2 : CStr) :
    (out_check_colour s1 colour n1).1 = 0 ↔ (out_check_colour s2 colour n2).1 = 0 := by
  by_cases h : COMMA ∈ colour
  · rw [out_check_colour_cmyk_iff s1 colour n1 h, out_check_colour_cmyk_iff s2 colour n2 h]
  · rw [out_check_colour_hex_iff s1 colour n1 h, out_check_colour_hex_iff s2 colour n2 h]

/-- The channel name occurs in each of the error texts 880..887. -/
theorem name_infix_colour_errtxt (n : Nat) (name colour : CStr) (h1 : 880 ≤ n) (h2 : n ≤ 887) :
    List.IsInfix name (colour_errtxt n name colour) := by
  interval_cases n
  · exact ⟨cstr "880: Malformed ", cstr " RGB colour (6 or 8 characters only)", rfl⟩
  · exact ⟨cstr "881: Malformed ", cstr " RGB colour '" ++ colour ++ cstr "' (hexadecimal only)",
      by simp [colour_errtxt]⟩
  · exact ⟨cstr "882: Malformed ", cstr " CMYK colour (4 decimal numbers, comma-separated)", rfl⟩
  · exact ⟨cstr "883: Malformed ", cstr " CMYK colour (3 digit maximum per number)", rfl⟩
  · exact ⟨cstr "884: Malformed ", cstr " CMYK colour C (decimal 0-100 only)", rfl⟩
  · exact ⟨cstr "885: Malformed ", cstr " CMYK colour M (decimal 0-100 only)", rfl⟩
  · exact ⟨cstr "886: Malformed ", cstr " CMYK colour Y (decimal 0-100 only)", rfl⟩
  · exact ⟨cstr "887: Malformed ", cstr " CMYK colour K (decimal 0-100 only)", rfl⟩


/-! ## Claims on `out_check_colour` and `out_check_colour_options` -/

/-- C1: a colour string without a comma is accepted by `out_check_colour`
(return value 0) if and only if its length is 6 or 8 and every character is a
hexadecimal digit; every other comma-free string is rejected with
`ZINT_ERROR_INVALID_OPTION`. -/
theorem out_check_colour_rgb_accepts (symbol : zint_symbol) (colour name : CStr)
    (h : COMMA ∉ colour) :
    ((out_check_colour symbol colour name).1 = 0
      ↔ (colour.length = 6 ∨ colour.length = 8) ∧ ∀ x ∈ colour, is_hex_digit x)
    ∧ (¬ ((colour.length = 6 ∨ colour.length = 8) ∧ ∀ x ∈ colour, is_hex_digit x)
        → (out_check_colour symbol colour name).1 = ZINT_ERROR_INVALID_OPTION) := by
  have e := out_check_colour_hex_iff symbol colour name h
  refine ⟨e, fun hn => ?_⟩
  rcases out_check_colour_ret symbol colour name with h0 | h0
  · exact absurd (e.mp h0) hn
  · exact h0

/-- The colours "E0E0E0" and "700070" of `test_emf.c` are accepted. -/
theorem out_check_colour_rgb_accepts_witness :
    (out_check_colour test_emf_symbol (cstr "E0E0E0") (cstr "foreground")).1 = 0
    ∧ (out_check_colour test_emf_symbol (cstr "700070") (cstr "background")).1 = 0 :=
  ⟨(out_check_colour_rgb_accepts test_emf_symbol (cstr "E0E0E0") (cstr "foreground")
      (by decide)).1.mpr (by decide),
   (out_check_colour_rgb_accepts test_emf_symbol (cstr "700070") (cstr "background")
      (by decide)).1.mpr (by decide)⟩

/-- C2: a colour string with a comma is accepted by `out_check_colour` (return
value 0) if and only if it is four comma-separated fields, each a decimal number
from 0 to 100 of one to three digits; every other string with a comma is
rejected with `ZINT_ERROR_INVALID_OPTION`. -/
theorem out_check_colour_cmyk_accepts (symbol : zint_symbol) (colour name : CStr)
    (h : COMMA ∈ colour) :
    ((out_check_colour symbol colour name).1 = 0
      ↔ ∃ c m y k, colour = cmyk_string c m y k
          ∧ is_percent c ∧ is_percent m ∧ is_percent y ∧ is_percent k)
    ∧ (¬ (∃ c m y k, colour = cmyk_string c m y k
          ∧ is_percent c ∧ is_percent m ∧ is_percent y ∧ is_percent k)
        → (out_check_colour symbol colour name).1 = ZINT_ERROR_INVALID_OPTION) := by
  have e := out_check_colour_cmyk_iff symbol colour name h
  refine ⟨e, fun hn => ?_⟩
  rcases out_check_colour_ret symbol colour name with h0 | h0
  · exact absurd (e.mp h0) hn
  · exact h0

/-- The string "0,0,0,100" is accepted. -/
theorem out_check_colour_cmyk_accepts_witness :
    COMMA ∈ cstr "0,0,0,100"
    ∧ (out_check_colour test_emf_symbol (cstr "0,0,0,100") (cstr "foreground")).1 = 0 :=
  ⟨by decide, (out_check_colour_cmyk_accepts test_emf_symbol (cstr "0,0,0,100")
      (cstr "foreground") (by decide)).1.mpr
      ⟨cstr "0", cstr "0", cstr "0", cstr "100", by decide, by decide, by decide, by decide,
        by decide⟩⟩


/-- C3: `out_check_colour` reports the first violated rule by its numbered
error text.  Without a comma: a length other than 6 or 8 gives 880, otherwise a
non-hexadecimal character gives 881.  With a comma: a field count other than
four gives 882; for four fields, a field longer than 3 characters gives 883,
otherwise the first of the C, M, Y, K fields that is not a decimal number or
exceeds 100 gives 884, 885, 886 or 887.  "12345" gives 880, "1,2,3" gives 882
and "101,0,0,0" gives 884. -/
theorem out_check_colour_first_error (symbol : zint_symbol) (colour name : CStr) :
    (COMMA ∉ colour → (colour.length ≠ 6 ∧ colour.length ≠ 8) →
      out_check_colour symbol colour name = colour_failure symbol 880 name colour)
    ∧ (COMMA ∉ colour → (colour.length = 6 ∨ colour.length = 8) →
        (∃ x ∈ colour, ¬ is_hex_digit x) →
        out_check_colour symbol colour name = colour_failure symbol 881 name colour)
    ∧ (COMMA ∈ colour → field_count colour ≠ 4 →
        out_check_colour symbol colour name = colour_failure symbol 882 name colour)
    ∧ (COMMA ∈ colour → field_count colour = 4 →
        ∃ c m y k, COMMA ∉ c ∧ COMMA ∉ m ∧ COMMA ∉ y ∧ COMMA ∉ k
          ∧ colour = cmyk_string c m y k)
    ∧ (∀ c m y k, COMMA ∉ c → COMMA ∉ m → COMMA ∉ y → COMMA ∉ k →
        colour = cmyk_string c m y k →
        ((c.length > 3 ∨ m.length > 3 ∨ y.length > 3 ∨ k.length > 3) →
          out_check_colour symbol colour name = colour_failure symbol 883 name colour)
        ∧ (c.length ≤ 3 ∧ m.length ≤ 3 ∧ y.length ≤ 3 ∧ k.length ≤ 3 →
          (¬ (is_decimal c ∧ decimal_value c ≤ 100) →
            out_check_colour symbol colour name = colour_failure symbol 884 name colour)
          ∧ ((is_decimal c ∧ decimal_value c ≤ 100) →
              ¬ (is_decimal m ∧ decimal_value m ≤ 100) →
              out_check_colour symbol colour name = colour_failure symbol 885 name colour)
          ∧ ((is_decimal c ∧ decimal_value c ≤ 100) → (is_decimal m ∧ decimal_value m ≤ 100) →
              ¬ (is_decimal y ∧ decimal_value y ≤ 100) →
              out_check_colour symbol colour name = colour_failure symbol 886 name colour)
          ∧ ((is_decimal c ∧ decimal_value c ≤ 100) → (is_decimal m ∧ decimal_value m ≤ 100) →
              (is_decimal y ∧ decimal_value y ≤ 100) →
              ¬ (is_decimal k ∧ decimal_value k ≤ 100) →
              out_check_colour symbol colour name = colour_failure symbol 887 name colour)))
    ∧ (out_check_colour symbol (cstr "12345") (cstr "foreground")).2.errtxt
        = cstr "880: Malformed foreground RGB colour (6 or 8 characters only)"
    ∧ (out_check_colour symbol (cstr "1,2,3") (cstr "foreground")).2.errtxt
        = cstr "882: Malformed foreground CMYK colour (4 decimal numbers, comma-separated)"
    ∧ (out_check_colour symbol (cstr "101,0,0,0") (cstr "foreground")).2.errtxt
        = cstr "884: Malformed foreground CMYK colour C (decimal 0-100 only)" := by
  refine ⟨?_, ?_, ?_, ?_, ?_, ?_, ?_, ?_⟩
  · intro h hl
    rw [out_check_colour_hex symbol colour name h, if_pos hl]
  · intro h hl ⟨x, hx, hnx⟩
    have h1 : ¬ (colour.length ≠ 6 ∧ colour.length ≠ 8) := by omega
    have h2 : ¬ (∀ x ∈ colour, is_hex_digit x) := fun a => hnx (a x hx)
    rw [out_check_colour_hex symbol colour name h, if_neg h1, if_pos h2]
  · intro h hf
    rcases comma_shape colour h with ⟨_, h2⟩ | ⟨c, m, y, k, hc, hm, hy, hk, rfl⟩
    · exact h2 symbol name
    · exact absurd (field_count_cmyk_string c m y k hc hm hy hk) hf
  · intro h hf
    rcases comma_shape colour h with ⟨h1, _⟩ | h2
    · exact absurd hf h1
    · exact h2
  · rintro c m y k hc hm hy hk rfl
    rw [out_check_colour_cmyk symbol c m y k name hc hm hy hk]
    refine ⟨fun hl => by rw [if_pos hl], fun hl => ?_⟩
    have hl2 : ¬ (c.length > 3 ∨ m.length > 3 ∨ y.length > 3 ∨ k.length > 3) := by omega
    rw [if_neg hl2]
    refine ⟨fun n1 => ?_, fun p1 n2 => ?_, fun p1 p2 n3 => ?_, fun p1 p2 p3 n4 => ?_⟩
    · rw [if_pos n1]
    · rw [if_neg (not_not_intro p1), if_pos n2]
    · rw [if_neg (not_not_intro p1), if_neg (not_not_intro p2), if_pos n3]
    · rw [if_neg (not_not_intro p1), if_neg (not_not_intro p2), if_neg (not_not_intro p3),
        if_pos n4]
  · rw [out_check_colour_hex symbol (cstr "12345") (cstr "foreground") (by decide),
      if_pos (by decide)]
    rfl
  · rcases comma_shape (cstr "1,2,3") (by decide) with ⟨_, h2⟩ | ⟨c, m, y, k, hc, hm, hy, hk, e⟩
    · rw [h2 symbol (cstr "foreground")]
      rfl
    · have h3 := field_count_cmyk_string c m y k hc hm hy hk
      rw [← e] at h3
      exact absurd h3 (by decide)
  · have e : cstr "101,0,0,0" = cmyk_string (cstr "101") (cstr "0") (cstr "0") (cstr "0") := by
      decide
    rw [e, out_check_colour_cmyk symbol _ _ _ _ (cstr "foreground") (by decide) (by decide)
      (by decide) (by decide), if_neg (by decide), if_pos (by decide)]
    rfl

/-- The three malformed colours of the claim, on the symbol of `test_emf.c`:
"12345" violates the length rule, "1,2,3" the field count, "101,0,0,0" the range
of C. -/
theorem out_check_colour_first_error_witness :
    out_check_colour test_emf_symbol (cstr "12345") (cstr "foreground")
      = colour_failure test_emf_symbol 880 (cstr "foreground") (cstr "12345")
    ∧ out_check_colour test_emf_symbol (cstr "1,2,3") (cstr "foreground")
      = colour_failure test_emf_symbol 882 (cstr "foreground") (cstr "1,2,3")
    ∧ out_check_colour test_emf_symbol (cstr "101,0,0,0") (cstr "foreground")
      = colour_failure test_emf_symbol 884 (cstr "foreground") (cstr "101,0,0,0") :=
  ⟨(out_check_colour_first_error test_emf_symbol (cstr "12345") (cstr "foreground")).1
      (by decide) (by decide),
   (out_check_colour_first_error test_emf_symbol (cstr "1,2,3") (cstr "foreground")).2.2.1
      (by decide) (by decide),
   ((out_check_colour_first_error test_emf_symbol (cstr "101,0,0,0")
      (cstr "foreground")).2.2.2.2.1 (cstr "101") (cstr "0") (cstr "0") (cstr "0")
      (by decide) (by decide) (by decide) (by decide) (by decide)).2 (by decide) |>.1
      (by decide)⟩

/-- C4: `out_check_colour_options` returns 0 if and only if `out_check_colour`
accepts both the foreground and the background colour, and
`ZINT_ERROR_INVALID_OPTION` otherwise; the foreground is checked first: when it
is rejected the error text is the one for the foreground (whatever the
background), and when only the background is rejected the text is the one for
the background.  The text contains the name of the channel. -/
theorem out_check_colour_options_channel (symbol : zint_symbol) :
    ((out_check_colour_options symbol).1 = 0
      ↔ (out_check_colour symbol symbol.fgcolour (cstr "foreground")).1 = 0
        ∧ (out_check_colour symbol symbol.bgcolour (cstr "background")).1 = 0)
    ∧ ((out_check_colour_options symbol).1 = 0
        ∨ (out_check_colour_options symbol).1 = ZINT_ERROR_INVALID_OPTION)
    ∧ ((out_check_colour symbol symbol.fgcolour (cstr "foreground")).1 ≠ 0 →
        (out_check_colour_options symbol).1 = ZINT_ERROR_INVALID_OPTION
        ∧ (out_check_colour_options symbol).2
            = (out_check_colour symbol symbol.fgcolour (cstr "foreground")).2
        ∧ ∃ n, 880 ≤ n ∧ n ≤ 887
            ∧ (out_check_colour_options symbol).2.errtxt
                = colour_errtxt n (cstr "foreground") symbol.fgcolour
            ∧ List.IsInfix (cstr "foreground") (out_check_colour_options symbol).2.errtxt)
    ∧ ((out_check_colour symbol symbol.fgcolour (cstr "foreground")).1 = 0 →
        (out_check_colour symbol symbol.bgcolour (cstr "background")).1 ≠ 0 →
        (out_check_colour_options symbol).1 = ZINT_ERROR_INVALID_OPTION
        ∧ ∃ n, 880 ≤ n ∧ n ≤ 887
            ∧ (out_check_colour_options symbol).2.errtxt
                = colour_errtxt n (cstr "background") symbol.bgcolour
            ∧ List.IsInfix (cstr "background") (out_check_colour_options symbol).2.errtxt) := by
  have nz := ZINT_ERROR_INVALID_OPTION_ne_zero
  rcases out_check_colour_result symbol symbol.fgcolour (cstr "foreground") with hf | ⟨n, n1, n2, hf⟩
  · -- the foreground is accepted and the symbol is unchanged
    have e : out_check_colour_options symbol
        = if (out_check_colour symbol symbol.bgcolour (cstr "background")).1 ≠ 0 then
            (ZINT_ERROR_INVALID_OPTION,
              (out_check_colour symbol symbol.bgcolour (cstr "background")).2)
          else (0, (out_check_colour symbol symbol.bgcolour (cstr "background")).2) := by
      simp [out_check_colour_options, hf]
    rcases out_check_colour_result symbol symbol.bgcolour (cstr "background")
      with hb | ⟨n, n1, n2, hb⟩
    · rw [e, hf, hb]
      simp
    · rw [e, hf, hb]
      have i := name_infix_colour_errtxt n (cstr "background") symbol.bgcolour n1 n2
      simp only [colour_failure, ne_eq, nz, not_false_eq_true, if_true, and_false, false_iff,
        not_true_eq_false, or_true, true_and, false_implies, forall_const, true_implies]
      exact ⟨n, n1, n2, rfl, i⟩
  · have e : out_check_colour_options symbol
        = (ZINT_ERROR_INVALID_OPTION, (colour_failure symbol n (cstr "foreground")
            symbol.fgcolour).2) := by
      simp [out_check_colour_options, hf, colour_failure, nz]
    rw [e, hf]
    have i := name_infix_colour_errtxt n (cstr "foreground") symbol.fgcolour n1 n2
    simp only [colour_failure, ne_eq, nz, not_false_eq_true, false_and, iff_false, or_true,
      true_and, true_implies, false_implies, and_true]
    exact ⟨n, n1, n2, rfl, i⟩

/-- Both colours malformed ("12345" and "1,2,3"): the text is the one for the
foreground. -/
theorem out_check_colour_options_channel_witness :
    (out_check_colour { fgcolour := cstr "12345", bgcolour := cstr "1,2,3", errtxt := [] }
        (cstr "12345") (cstr "foreground")).1 ≠ 0
    ∧ (out_check_colour_options
        { fgcolour := cstr "12345", bgcolour := cstr "1,2,3", errtxt := [] }).1
        = ZINT_ERROR_INVALID_OPTION
    ∧ (out_check_colour_options
        { fgcolour := cstr "12345", bgcolour := cstr "1,2,3", errtxt := [] }).2.errtxt
        = cstr "880: Malformed foreground RGB colour (6 or 8 characters only)" :=
  ⟨by decide,
   ((out_check_colour_options_channel
      { fgcolour := cstr "12345", bgcolour := cstr "1,2,3", errtxt := [] }).2.2.1
      (by decide)).1,
   by decide⟩


/-! ## Single-precision arithmetic: rounding of small ratios -/

theorem round_nearest_even_bounds (n d : Nat) (hd : 0 < d) :
    2 * (round_nearest_even n d * d) ≤ 2 * n + d
    ∧ 2 * n ≤ 2 * (round_nearest_even n d * d) + d := by
  have h1 : d * (n / d) + n % d = n := Nat.div_add_mod n d
  have h2 : n % d < d := Nat.mod_lt n hd
  have h3 : (n / d + 1) * d = d * (n / d) + d := by ring
  have h4 : n / d * d = d * (n / d) := by ring
  unfold round_nearest_even
  simp only []
  split_ifs
  · rw [h4]; omega
  · rw [h3]; omega
  · rw [h4]; omega
  · rw [h3]; omega

theorem round_nearest_even_exact (n d : Nat) (hd : 0 < d) :
    round_nearest_even (n * d) d = n := by
  simp [round_nearest_even, Nat.mul_div_cancel n hd, hd]

theorem f32_scale_up_spec (a b : Nat) (fuel s0 : Nat) :
    s0 ≤ f32_scale_up a b fuel s0
    ∧ (2 ^ 23 * b ≤ a * 2 ^ f32_scale_up a b fuel s0 ∨ f32_scale_up a b fuel s0 = s0 + fuel) := by
  induction fuel generalizing s0 with
  | zero => simp [f32_scale_up]
  | succ f ih =>
    unfold f32_scale_up
    by_cases h : 2 ^ 23 * b ≤ a * 2 ^ s0
    · rw [if_pos h]
      exact ⟨le_refl _, Or.inl h⟩
    · rw [if_neg h]
      obtain ⟨i1, i2⟩ := ih (s0 + 1)
      refine ⟨by omega, ?_⟩
      rcases i2 with i2 | i2
      · exact Or.inl i2
      · exact Or.inr (by omega)

/-- A ratio below 2^10 is scaled by 2^14 at least. -/
theorem f32_scale_up_ge (a b : Nat) (h : a < 2 ^ 10 * b) : 14 ≤ f32_scale_up a b 149 0 := by
  obtain ⟨_, h2⟩ := f32_scale_up_spec a b 149 0
  rcases h2 with h2 | h2
  · by_contra hlt
    have h3 : f32_scale_up a b 149 0 ≤ 13 := by omega
    have h4 : 2 ^ f32_scale_up a b 149 0 ≤ 2 ^ 13 := Nat.pow_le_pow_right (by norm_num) h3
    have h5 : a * 2 ^ f32_scale_up a b 149 0 ≤ a * 2 ^ 13 := Nat.mul_le_mul_left a h4
    norm_num at h h5 h2
    omega
  · omega

theorem f32_scale_down_zero (a b : Nat) (h : a < 2 ^ 24 * b) : f32_scale_down a b 104 0 = 0 := by
  have h2 : a < 2 ^ 24 * (b * 2 ^ 0) := by simpa using h
  show f32_scale_down a b (103 + 1) 0 = 0
  rw [f32_scale_down, if_pos h2]

/-- Rounding to a multiple of `1 / (2 * E)` before `roundf` does not change the
result when `2 * E` exceeds the denominator. -/
theorem round_half_away_of_near (A B m E : Nat) (hB : 0 < B) (hD : B < 2 * E)
    (h1 : 2 * (m * B) ≤ 2 * (A * (2 * E)) + B) (h2 : 2 * (A * (2 * E)) ≤ 2 * (m * B) + B) :
    (2 * m + 2 * E) / (2 * (2 * E)) = round_half_away A B := by
  unfold round_half_away
  have hB2 : 0 < 2 * B := by omega
  have d1 : 2 * B * ((2 * A + B) / (2 * B)) + (2 * A + B) % (2 * B) = 2 * A + B :=
    Nat.div_add_mod _ _
  have d2 : (2 * A + B) % (2 * B) < 2 * B := Nat.mod_lt _ hB2
  generalize (2 * A + B) / (2 * B) = k at d1
  generalize (2 * A + B) % (2 * B) = r at d1 d2
  apply Nat.div_eq_of_lt_le
  · -- k * (4 E) ≤ 2 m + 2 E
    by_contra hc
    have c1 : m + E + 1 ≤ 2 * E * k := by
      have : 2 * m + 2 * E < k * (2 * (2 * E)) := by omega
      nlinarith
    have c2 : (m + E + 1) * B ≤ 2 * E * k * B := Nat.mul_le_mul_right B c1
    have c3 : 2 * B * k * E ≤ (2 * A + B) * E := Nat.mul_le_mul_right E (by omega)
    nlinarith
  · -- 2 m + 2 E < (k + 1) * (4 E)
    by_contra hc
    have c1 : 2 * E * k + E ≤ m := by
      have : (k + 1) * (2 * (2 * E)) ≤ 2 * m + 2 * E := by omega
      nlinarith
    have c2 : (2 * E * k + E) * B ≤ m * B := Nat.mul_le_mul_right B c1
    have c3 : (2 * A + 1) * (2 * E) ≤ (2 * B * k + B) * (2 * E) :=
      Nat.mul_le_mul_right (2 * E) (by omega)
    nlinarith


/-- `roundf` of a correctly rounded ratio below 2^10 with a denominator below
2^14 is the exact ratio rounded half away from zero. -/
theorem f32_round_nat_small (A B c : Nat) (hc : 0 < c) (hB : 0 < B) (hB2 : B < 2 ^ 14)
    (hA : A < 2 ^ 10 * B) :
    (2 * (f32_round_nat (A * c) (B * c)).1 + (f32_round_nat (A * c) (B * c)).2)
      / (2 * (f32_round_nat (A * c) (B * c)).2) = round_half_away A B := by
  by_cases hA0 : A = 0
  · subst hA0
    have : B / (2 * B) = 0 := Nat.div_eq_of_lt (by omega)
    simp [f32_round_nat, round_half_away, this]
  · have ha : A * c ≠ 0 := Nat.mul_ne_zero hA0 (by omega)
    have hb : B * c ≠ 0 := Nat.mul_ne_zero (by omega) (by omega)
    have hlt : A * c < 2 ^ 10 * (B * c) := by
      have := Nat.mul_lt_mul_of_pos_right hA hc
      rw [Nat.mul_assoc] at this
      exact this
    have ht : f32_scale_down (A * c) (B * c) 104 0 = 0 :=
      f32_scale_down_zero _ _ (by norm_num at hlt ⊢; omega)
    have hs : 14 ≤ f32_scale_up (A * c) (B * c) 149 0 := f32_scale_up_ge _ _ hlt
    unfold f32_round_nat
    rw [if_neg (not_or.mpr ⟨ha, hb⟩)]
    simp only [ht, pow_zero, mul_one]
    generalize f32_scale_up (A * c) (B * c) 149 0 = s at hs
    obtain ⟨E, hE, hE2⟩ : ∃ E, 2 ^ s = 2 * E ∧ 2 ^ 13 ≤ E := by
      refine ⟨2 ^ (s - 1), ?_, Nat.pow_le_pow_right (by norm_num) (by omega)⟩
      rw [← pow_succ']
      congr 1
      omega
    rw [hE]
    obtain ⟨b1, b2⟩ := round_nearest_even_bounds (A * c * (2 * E)) (B * c) (by omega)
    generalize round_nearest_even (A * c * (2 * E)) (B * c) = m at b1 b2
    have h1 : 2 * (m * B) ≤ 2 * (A * (2 * E)) + B := by
      apply Nat.le_of_mul_le_mul_right _ hc
      calc 2 * (m * B) * c = 2 * (m * (B * c)) := by ring
        _ ≤ 2 * (A * c * (2 * E)) + B * c := b1
        _ = (2 * (A * (2 * E)) + B) * c := by ring
    have h2 : 2 * (A * (2 * E)) ≤ 2 * (m * B) + B := by
      apply Nat.le_of_mul_le_mul_right _ hc
      calc 2 * (A * (2 * E)) * c = 2 * (A * c * (2 * E)) := by ring
        _ ≤ 2 * (m * (B * c)) + B * c := b2
        _ = (2 * (m * B) + B) * c := by ring
    norm_num at hB2 hE2
    exact round_half_away_of_near A B m E hB (by omega) h1 h2

/-- A natural number below 2^24 is rounded to itself. -/
theorem f32_round_nat_exact (N c : Nat) (hc : 0 < c) (hN : N < 2 ^ 24) :
    ∃ s, f32_round_nat (N * c) c = (N * 2 ^ s, 2 ^ s) := by
  by_cases hN0 : N = 0
  · exact ⟨0, by simp [f32_round_nat, hN0]⟩
  · have ha : N * c ≠ 0 := Nat.mul_ne_zero hN0 (by omega)
    have ht : f32_scale_down (N * c) c 104 0 = 0 :=
      f32_scale_down_zero _ _ (Nat.mul_lt_mul_of_pos_right hN hc)
    refine ⟨f32_scale_up (N * c) c 149 0, ?_⟩
    unfold f32_round_nat
    rw [if_neg (not_or.mpr ⟨ha, by omega⟩)]
    simp only [ht, pow_zero, mul_one]
    have e : N * c * 2 ^ f32_scale_up (N * c) c 149 0
        = N * 2 ^ f32_scale_up (N * c) c 149 0 * c := by ring
    rw [e, round_nearest_even_exact _ _ hc]

theorem f32_round_of_nat (n d : Nat) :
    f32_round (n : Int) d
      = { num := ((f32_round_nat n d).1 : Int), den := (f32_round_nat n d).2 } := by
  simp [f32_round]

theorem f32_of_int_is_nat (N : Nat) (hN : N < 2 ^ 24) : (f32_of_int (N : Int)).is_nat N := by
  obtain ⟨s, hs⟩ := f32_round_nat_exact N 1 (by omega) hN
  refine ⟨s, ?_⟩
  rw [f32_of_int, f32_round_of_nat]
  rw [Nat.mul_one] at hs
  rw [hs]

theorem f32_mul_is_nat (x y : F32) (X Y : Nat) (hx : x.is_nat X) (hy : y.is_nat Y)
    (h : X * Y < 2 ^ 24) : (f32_mul x y).is_nat (X * Y) := by
  obtain ⟨s1, rfl⟩ := hx
  obtain ⟨s2, rfl⟩ := hy
  obtain ⟨s, hs⟩ := f32_round_nat_exact (X * Y) (2 ^ s1 * 2 ^ s2) (by positivity) h
  refine ⟨s, ?_⟩
  have e : (((X * 2 ^ s1 : Nat) : Int) * ((Y * 2 ^ s2 : Nat) : Int))
      = ((X * Y * (2 ^ s1 * 2 ^ s2) : Nat) : Int) := by
    push_cast; ring
  simp only [f32_mul]
  rw [e, f32_round_of_nat, hs]

theorem f32_div_roundf (x y : F32) (A B : Nat) (hx : x.is_nat A) (hy : y.is_nat B)
    (hB : 0 < B) (hB2 : B < 2 ^ 14) (hA : A < 2 ^ 10 * B) :
    f32_to_int (roundf (f32_div x y)) = ((round_half_away A B : Nat) : Int) := by
  obtain ⟨s1, rfl⟩ := hx
  obtain ⟨s2, rfl⟩ := hy
  have hpos : ¬ (((B * 2 ^ s2 : Nat) : Int) < 0) := by
    have : (0 : Int) ≤ ((B * 2 ^ s2 : Nat) : Int) := Int.ofNat_nonneg _
    omega
  have e : (((A * 2 ^ s1 : Nat) : Int) * ((2 ^ s2 : Nat) : Int))
      = ((A * (2 ^ s1 * 2 ^ s2) : Nat) : Int) := by
    push_cast; ring
  have e2 : 2 ^ s1 * (((B * 2 ^ s2 : Nat) : Int)).natAbs = B * (2 ^ s1 * 2 ^ s2) := by
    rw [Int.natAbs_ofNat]; ring
  simp only [f32_div]
  rw [if_neg hpos, e, e2, f32_round_of_nat]
  have key := f32_round_nat_small A B (2 ^ s1 * 2 ^ s2) (by positivity) hB hB2 hA
  generalize f32_round_nat (A * (2 ^ s1 * 2 ^ s2)) (B * (2 ^ s1 * 2 ^ s2)) = p at key
  have hp : ¬ ((p.1 : Int) < 0) := by
    have : (0 : Int) ≤ (p.1 : Int) := Int.ofNat_nonneg _
    omega
  simp only [roundf, f32_to_int, if_neg hp, Int.natAbs_ofNat, key]
  simp


/-! ## Hexadecimal colours -/

theorem ctoi_hex (c : Nat) (h : is_hex_digit c) :
    ctoi c = ((hex_digit_value c : Nat) : Int) ∧ hex_digit_value c < 16 ∧ c ≠ 0 := by
  unfold is_hex_digit at h
  unfold ctoi hex_digit_value
  split_ifs <;> omega

/-- What `out_colour_get_rgb` computes for a well-formed hexadecimal colour,
before the stores into `unsigned char`. -/
theorem out_colour_get_rgb_int_hex (colour : CStr) (alpha : Bool) (hc : COMMA ∉ colour)
    (hl : colour.length = 6 ∨ colour.length = 8) (hh : ∀ x ∈ colour, is_hex_digit x) :
    out_colour_get_rgb_int colour alpha = some
      { ret := if alpha = true ∧ colour.length = 8 then 1 else 0,
        red := ((hex_pair_value colour 0 : Nat) : Int),
        green := ((hex_pair_value colour 1 : Nat) : Int),
        blue := ((hex_pair_value colour 2 : Nat) : Int),
        alpha := if alpha = true then
            some (if colour.length = 8 then ((hex_pair_value colour 3 : Nat) : Int) else 255)
          else none } := by
  unfold out_colour_get_rgb_int
  rw [strchr_eq_none.mpr hc]
  rcases colour with _ | ⟨a, _ | ⟨b, _ | ⟨c, _ | ⟨d, _ | ⟨e, _ | ⟨f, _ | ⟨g, _ | ⟨h, _ | ⟨i, t⟩⟩⟩⟩⟩⟩⟩⟩⟩
    <;> simp at hl
  · obtain ⟨a1, -, -⟩ := ctoi_hex a (hh a (by simp))
    obtain ⟨b1, -, -⟩ := ctoi_hex b (hh b (by simp))
    obtain ⟨c1, -, -⟩ := ctoi_hex c (hh c (by simp))
    obtain ⟨d1, -, -⟩ := ctoi_hex d (hh d (by simp))
    obtain ⟨e1, -, -⟩ := ctoi_hex e (hh e (by simp))
    obtain ⟨f1, -, -⟩ := ctoi_hex f (hh f (by simp))
    cases alpha <;> simp [char_at, hex_pair_value, a1, b1, c1, d1, e1, f1]
  · obtain ⟨a1, -, -⟩ := ctoi_hex a (hh a (by simp))
    obtain ⟨b1, -, -⟩ := ctoi_hex b (hh b (by simp))
    obtain ⟨c1, -, -⟩ := ctoi_hex c (hh c (by simp))
    obtain ⟨d1, -, -⟩ := ctoi_hex d (hh d (by simp))
    obtain ⟨e1, -, -⟩ := ctoi_hex e (hh e (by simp))
    obtain ⟨f1, -, -⟩ := ctoi_hex f (hh f (by simp))
    obtain ⟨g1, -, g0⟩ := ctoi_hex g (hh g (by simp))
    obtain ⟨h1, -, -⟩ := ctoi_hex h (hh h (by simp))
    cases alpha <;> simp [char_at, hex_pair_value, a1, b1, c1, d1, e1, f1, g1, h1, g0]

theorem hex_pair_value_lt (colour : CStr) (i : Nat) (hh : ∀ x ∈ colour, is_hex_digit x)
    (hi : 2 * i + 1 < colour.length) : hex_pair_value colour i < 256 := by
  unfold hex_pair_value
  have h1 := (ctoi_hex _ (hh (colour.getD (2 * i) 0)
    (by rw [List.getD_eq_getElem _ _ (by omega)]; exact List.getElem_mem _))).2.1
  have h2 := (ctoi_hex _ (hh (colour.getD (2 * i + 1) 0)
    (by rw [List.getD_eq_getElem _ _ hi]; exact List.getElem_mem _))).2.1
  omega


theorem to_uchar_of_lt (n : Nat) (h : n < 256) : to_uchar ((n : Nat) : Int) = ((n : Nat) : Int) := by
  unfold to_uchar
  omega

/-- What `out_colour_get_rgb` stores for a well-formed hexadecimal colour. -/
theorem out_colour_get_rgb_hex (colour : CStr) (alpha : Bool) (hc : COMMA ∉ colour)
    (hl : colour.length = 6 ∨ colour.length = 8) (hh : ∀ x ∈ colour, is_hex_digit x) :
    out_colour_get_rgb colour alpha = some
      { ret := if alpha = true ∧ colour.length = 8 then 1 else 0,
        red := ((hex_pair_value colour 0 : Nat) : Int),
        green := ((hex_pair_value colour 1 : Nat) : Int),
        blue := ((hex_pair_value colour 2 : Nat) : Int),
        alpha := if alpha = true then
            some (if colour.length = 8 then ((hex_pair_value colour 3 : Nat) : Int) else 255)
          else none } := by
  unfold out_colour_get_rgb
  rw [out_colour_get_rgb_int_hex colour alpha hc hl hh]
  have r := to_uchar_of_lt _ (hex_pair_value_lt colour 0 hh (by omega))
  have g := to_uchar_of_lt _ (hex_pair_value_lt colour 1 hh (by omega))
  have b := to_uchar_of_lt _ (hex_pair_value_lt colour 2 hh (by omega))
  have e255 : to_uchar 255 = 255 := by decide
  simp only [Option.map_some', r, g, b]
  cases alpha
  · simp
  · by_cases h8 : colour.length = 8
    · have a := to_uchar_of_lt _ (hex_pair_value_lt colour 3 hh (by omega))
      simp [h8, a]
    · simp [h8, e255]

/-- Two hexadecimal digits written back from their value. -/
theorem hex_byte_pair (colour : CStr) (i : Nat) (hh : ∀ x ∈ colour, is_hex_digit x)
    (hi : 2 * i + 1 < colour.length) :
    hex_byte ((hex_pair_value colour i : Nat) : Int)
      = [to_upper (colour.getD (2 * i) 0), to_upper (colour.getD (2 * i + 1) 0)] := by
  have m1 : colour.getD (2 * i) 0 ∈ colour := by
    rw [List.getD_eq_getElem _ _ (by omega)]; exact List.getElem_mem _
  have m2 : colour.getD (2 * i + 1) 0 ∈ colour := by
    rw [List.getD_eq_getElem _ _ hi]; exact List.getElem_mem _
  have h1 := hh _ m1
  have h2 := hh _ m2
  simp only [hex_byte, hex_pair_value, Int.toNat_ofNat]
  generalize colour.getD (2 * i) 0 = x at h1
  generalize colour.getD (2 * i + 1) 0 = y at h2
  unfold is_hex_digit at h1 h2
  have v1 : hex_digit_value x < 16 := by unfold hex_digit_value; split_ifs <;> omega
  have v2 : hex_digit_value y < 16 := by unfold hex_digit_value; split_ifs <;> omega
  have q : (16 * hex_digit_value x + hex_digit_value y) / 16 = hex_digit_value x := by omega
  have r : (16 * hex_digit_value x + hex_digit_value y) % 16 = hex_digit_value y := by omega
  rw [q, r]
  have u1 : hex_digit_upper (hex_digit_value x) = to_upper x := by
    unfold hex_digit_upper hex_digit_value to_upper; split_ifs <;> omega
  have u2 : hex_digit_upper (hex_digit_value y) = to_upper y := by
    unfold hex_digit_upper hex_digit_value to_upper; split_ifs <;> omega
  rw [u1, u2]

/-- The colours accepted without a comma are the well-formed hexadecimal ones. -/
theorem accepted_hex {symbol : zint_symbol} {colour name : CStr} (hc : COMMA ∉ colour)
    (hok : (out_check_colour symbol colour name).1 = 0) :
    (colour.length = 6 ∨ colour.length = 8) ∧ ∀ x ∈ colour, is_hex_digit x :=
  (out_check_colour_hex_iff symbol colour name hc).mp hok

/-! ## Claims on hexadecimal colours -/

/-- C5: for a well-formed hexadecimal colour (6 or 8 hex digits, accepted by
`out_check_colour`), `out_colour_get_rgb` sets red, green and blue to the value
(16 x first digit + second digit) of the 1st, 2nd and 3rd pair of digits.  When
an alpha output is requested it sets alpha to the value of the 4th pair for 8
digits and to 255 for 6 digits, and returns 1 exactly for 8 digits and 0
otherwise; when no alpha output is requested it returns 0. -/
theorem out_colour_get_rgb_hex_channels (symbol : zint_symbol) (colour name : CStr)
    (alpha : Bool) (hc : COMMA ∉ colour) (hok : (out_check_colour symbol colour name).1 = 0) :
    ∃ r, out_colour_get_rgb colour alpha = some r
      ∧ r.red = ((hex_pair_value colour 0 : Nat) : Int)
      ∧ r.green = ((hex_pair_value colour 1 : Nat) : Int)
      ∧ r.blue = ((hex_pair_value colour 2 : Nat) : Int)
      ∧ (alpha = true →
          (colour.length = 8 → r.alpha = some ((hex_pair_value colour 3 : Nat) : Int))
          ∧ (colour.length = 6 → r.alpha = some 255)
          ∧ (r.ret = 1 ↔ colour.length = 8)
          ∧ (r.ret = 0 ↔ colour.length ≠ 8))
      ∧ (alpha = false → r.alpha = none ∧ r.ret = 0) := by
  obtain ⟨hl, hh⟩ := accepted_hex hc hok
  refine ⟨_, out_colour_get_rgb_hex colour alpha hc hl hh, rfl, rfl, rfl, ?_, ?_⟩
  · intro ha
    subst ha
    refine ⟨fun h8 => by simp [h8], fun h6 => by simp [h6], ?_, ?_⟩
    · by_cases h8 : colour.length = 8 <;> simp [h8]
    · by_cases h8 : colour.length = 8 <;> simp [h8]
  · intro ha
    subst ha
    simp

/-- The foreground "E0E0E0" of `test_emf.c` is (224, 224, 224), opaque, return
value 0; "E0E0E07f" has alpha 127 and return value 1. -/
theorem out_colour_get_rgb_hex_channels_witness :
    (COMMA ∉ cstr "E0E0E0"
      ∧ (out_check_colour test_emf_symbol (cstr "E0E0E0") (cstr "foreground")).1 = 0
      ∧ out_colour_get_rgb (cstr "E0E0E0") true
          = some { ret := 0, red := 224, green := 224, blue := 224, alpha := some 255 })
    ∧ out_colour_get_rgb (cstr "E0E0E07f") true
          = some { ret := 1, red := 224, green := 224, blue := 224, alpha := some 127 }
    ∧ ∃ r, out_colour_get_rgb (cstr "E0E0E0") true = some r
        ∧ r.red = ((hex_pair_value (cstr "E0E0E0") 0 : Nat) : Int) :=
  ⟨⟨by decide, by decide, by decide⟩, by decide,
   (out_colour_get_rgb_hex_channels test_emf_symbol (cstr "E0E0E0") (cstr "foreground") true
      (by decide) (by decide)).imp fun _ h => ⟨h.1, h.2.1⟩⟩

/-- C6: for a valid 6-digit hexadecimal colour, red, green and blue written as
two hexadecimal digits each reproduce the string, letters compared without
regard to case; for a valid 8-digit colour the same holds with alpha as the
fourth pair. -/
theorem out_colour_get_rgb_hex_roundtrip (symbol : zint_symbol) (colour name : CStr)
    (hc : COMMA ∉ colour) (hok : (out_check_colour symbol colour name).1 = 0) :
    (colour.length = 6 → ∀ alpha, ∃ r, out_colour_get_rgb colour alpha = some r
        ∧ hex_byte r.red ++ hex_byte r.green ++ hex_byte r.blue = colour.map to_upper)
    ∧ (colour.length = 8 → ∃ r a, out_colour_get_rgb colour true = some r ∧ r.alpha = some a
        ∧ hex_byte r.red ++ hex_byte r.green ++ hex_byte r.blue ++ hex_byte a
            = colour.map to_upper) := by
  obtain ⟨hl, hh⟩ := accepted_hex hc hok
  constructor
  · intro h6 alpha
    refine ⟨_, out_colour_get_rgb_hex colour alpha hc hl hh, ?_⟩
    simp only []
    rw [hex_byte_pair colour 0 hh (by omega), hex_byte_pair colour 1 hh (by omega),
      hex_byte_pair colour 2 hh (by omega)]
    rcases colour with _ | ⟨a, _ | ⟨b, _ | ⟨c, _ | ⟨d, _ | ⟨e, _ | ⟨f, _ | ⟨g, t⟩⟩⟩⟩⟩⟩⟩
      <;> simp at h6
    simp
  · intro h8
    refine ⟨_, ((hex_pair_value colour 3 : Nat) : Int),
      out_colour_get_rgb_hex colour true hc hl hh, by simp [h8], ?_⟩
    simp only []
    rw [hex_byte_pair colour 0 hh (by omega), hex_byte_pair colour 1 hh (by omega),
      hex_byte_pair colour 2 hh (by omega), hex_byte_pair colour 3 hh (by omega)]
    rcases colour with _ | ⟨a, _ | ⟨b, _ | ⟨c, _ | ⟨d, _ | ⟨e, _ | ⟨f, _ | ⟨g, _ | ⟨h, _ | ⟨i, t⟩⟩⟩⟩⟩⟩⟩⟩⟩
      <;> simp at h8
    simp

/-- The colour "e0E0e0" is read as (224, 224, 224), written back "E0E0E0". -/
theorem out_colour_get_rgb_hex_roundtrip_witness :
    COMMA ∉ cstr "e0E0e0"
    ∧ (out_check_colour test_emf_symbol (cstr "e0E0e0") (cstr "foreground")).1 = 0
    ∧ (cstr "e0E0e0").map to_upper = cstr "E0E0E0"
    ∧ ∃ r, out_colour_get_rgb (cstr "e0E0e0") false = some r
        ∧ hex_byte r.red ++ hex_byte r.green ++ hex_byte r.blue = (cstr "e0E0e0").map to_upper :=
  ⟨by decide, by decide, by decide,
   (out_colour_get_rgb_hex_roundtrip test_emf_symbol (cstr "e0E0e0") (cstr "foreground")
      (by decide) (by decide)).1 (by decide) false⟩


/-! ## CMYK colours -/

theorem round_half_away_le (n d b : Nat) (hd : 0 < d) (h : n ≤ b * d) :
    round_half_away n d ≤ b := by
  unfold round_half_away
  apply Nat.le_of_lt_succ
  rw [Nat.div_lt_iff_lt_mul (by omega)]
  nlinarith

/-- The channel expression `(int) roundf((0xFF * val * black) / 10000.0f)` for
percentages `C` and `K`. -/
theorem cmyk_channel (C K : Nat) (hC : C ≤ 100) (hK : K ≤ 100) :
    f32_to_int (roundf (f32_div (f32_of_int (0xFF * (100 - (C : Int)) * (100 - (K : Int))))
        (f32_of_int 10000)))
      = ((round_half_away (255 * (100 - C) * (100 - K)) 10000 : Nat) : Int)
    ∧ round_half_away (255 * (100 - C) * (100 - K)) 10000 ≤ 255 := by
  have e : (0xFF * (100 - (C : Int)) * (100 - (K : Int)))
      = ((255 * (100 - C) * (100 - K) : Nat) : Int) := by
    push_cast [Nat.cast_sub hC, Nat.cast_sub hK]
    ring
  have b : 255 * (100 - C) * (100 - K) ≤ 255 * 100 * 100 :=
    Nat.mul_le_mul (Nat.mul_le_mul_left 255 (by omega)) (by omega)
  have e2 : (10000 : Int) = ((10000 : Nat) : Int) := rfl
  rw [e, e2]
  refine ⟨f32_div_roundf _ _ _ _ (f32_of_int_is_nat _ (by norm_num; omega))
    (f32_of_int_is_nat _ (by norm_num)) (by norm_num) (by norm_num) (by norm_num; omega), ?_⟩
  exact round_half_away_le _ _ _ (by norm_num) (by omega)

theorem to_int_percent (f rest : CStr) (h : is_percent f) :
    to_int (f ++ rest) f.length = ((decimal_value f : Nat) : Int) := by
  rw [to_int_field, if_pos h.1]

theorem to_int_percent_last (f : CStr) (h : is_percent f) :
    to_int f f.length = ((decimal_value f : Nat) : Int) := by
  rw [to_int_last, if_pos h.1]

/-- What `out_colour_get_rgb` computes for a well-formed CMYK colour, before
the stores into `unsigned char`. -/
theorem out_colour_get_rgb_int_cmyk (c m y k : CStr) (alpha : Bool) (pc : is_percent c)
    (pm : is_percent m) (py : is_percent y) (pk : is_percent k) :
    out_colour_get_rgb_int (cmyk_string c m y k) alpha = some
      { ret := 0,
        red := ((round_half_away
          (255 * (100 - decimal_value c) * (100 - decimal_value k)) 10000 : Nat) : Int),
        green := ((round_half_away
          (255 * (100 - decimal_value m) * (100 - decimal_value k)) 10000 : Nat) : Int),
        blue := ((round_half_away
          (255 * (100 - decimal_value y) * (100 - decimal_value k)) 10000 : Nat) : Int),
        alpha := if alpha = true then some 255 else none } := by
  obtain ⟨o1, o2, o3, -, d1, d2, d3⟩ := cmyk_string_offsets c m y k (is_decimal_no_comma pc.1)
    (is_decimal_no_comma pm.1) (is_decimal_no_comma py.1) (is_decimal_no_comma pk.1)
  have a1 : c.length + 1 + m.length - (c.length + 1) = m.length := by omega
  have a2 : c.length + 1 + m.length + 1 + y.length - (c.length + 1 + m.length + 1) = y.length := by
    omega
  have t1 : to_int (cmyk_string c m y k) c.length = ((decimal_value c : Nat) : Int) := by
    unfold cmyk_string; exact to_int_percent c _ pc
  unfold out_colour_get_rgb_int
  rw [o1]
  simp only [o2, o3, Option.bind_eq_bind, Option.some_bind, d1, d2, d3, a1, a2, strlen_from, t1,
    to_int_percent _ _ pm, to_int_percent _ _ py, to_int_percent_last _ pk,
    (cmyk_channel _ _ pc.2.2 pk.2.2).1, (cmyk_channel _ _ pm.2.2 pk.2.2).1,
    (cmyk_channel _ _ py.2.2 pk.2.2).1]

/-- What `out_colour_get_rgb` stores for a well-formed CMYK colour. -/
theorem out_colour_get_rgb_cmyk (c m y k : CStr) (alpha : Bool) (pc : is_percent c)
    (pm : is_percent m) (py : is_percent y) (pk : is_percent k) :
    out_colour_get_rgb (cmyk_string c m y k) alpha = some
      { ret := 0,
        red := ((round_half_away
          (255 * (100 - decimal_value c) * (100 - decimal_value k)) 10000 : Nat) : Int),
        green := ((round_half_away
          (255 * (100 - decimal_value m) * (100 - decimal_value k)) 10000 : Nat) : Int),
        blue := ((round_half_away
          (255 * (100 - decimal_value y) * (100 - decimal_value k)) 10000 : Nat) : Int),
        alpha := if alpha = true then some 255 else none } := by
  unfold out_colour_get_rgb
  rw [out_colour_get_rgb_int_cmyk c m y k alpha pc pm py pk]
  have r := to_uchar_of_lt _ (Nat.lt_succ_of_le (cmyk_channel _ _ pc.2.2 pk.2.2).2)
  have g := to_uchar_of_lt _ (Nat.lt_succ_of_le (cmyk_channel _ _ pm.2.2 pk.2.2).2)
  have b := to_uchar_of_lt _ (Nat.lt_succ_of_le (cmyk_channel _ _ py.2.2 pk.2.2).2)
  have e255 : to_uchar 255 = 255 := by decide
  simp only [Option.map_some', r, g, b]
  cases alpha <;> simp [e255]

/-- What `out_colour_get_cmyk` returns for a well-formed CMYK colour. -/
theorem out_colour_get_cmyk_cmyk (c m y k : CStr) (rgb_alpha : Bool) (pc : is_percent c)
    (pm : is_percent m) (py : is_percent y) (pk : is_percent k) :
    out_colour_get_cmyk (cmyk_string c m y k) rgb_alpha = some
      { ret := 0,
        cyan := ((decimal_value c : Nat) : Int),
        magenta := ((decimal_value m : Nat) : Int),
        yellow := ((decimal_value y : Nat) : Int),
        black := ((decimal_value k : Nat) : Int),
        rgb_alpha := if rgb_alpha = true then some 255 else none } := by
  obtain ⟨o1, o2, o3, -, d1, d2, d3⟩ := cmyk_string_offsets c m y k (is_decimal_no_comma pc.1)
    (is_decimal_no_comma pm.1) (is_decimal_no_comma py.1) (is_decimal_no_comma pk.1)
  have a1 : c.length + 1 + m.length - (c.length + 1) = m.length := by omega
  have a2 : c.length + 1 + m.length + 1 + y.length - (c.length + 1 + m.length + 1) = y.length := by
    omega
  have t1 : to_int (cmyk_string c m y k) c.length = ((decimal_value c : Nat) : Int) := by
    unfold cmyk_string; exact to_int_percent c _ pc
  unfold out_colour_get_cmyk
  rw [o1]
  simp only [o2, o3, Option.bind_eq_bind, Option.some_bind, d1, d2, d3, a1, a2, strlen_from, t1,
    to_int_percent _ _ pm, to_int_percent _ _ py, to_int_percent_last _ pk]


/-! ## Hexadecimal colours converted to CMYK -/

/-- The expression `(int) roundf((k - x) * 100.0f / k)` for channel `x` and
maximum `k`. -/
theorem percent_channel (x mx : Nat) (hx : x ≤ mx) (hm : 0 < mx) (hm2 : mx ≤ 255) :
    f32_to_int (roundf (f32_div (f32_mul (f32_of_int ((mx : Int) - (x : Int))) (f32_of_int 100))
        (f32_of_int (mx : Int))))
      = ((round_half_away ((mx - x) * 100) mx : Nat) : Int)
    ∧ round_half_away ((mx - x) * 100) mx ≤ 100 := by
  have e : ((mx : Int) - (x : Int)) = ((mx - x : Nat) : Int) := by omega
  have e2 : (100 : Int) = ((100 : Nat) : Int) := rfl
  rw [e, e2]
  refine ⟨f32_div_roundf _ _ _ _ (f32_mul_is_nat _ _ _ _ (f32_of_int_is_nat _ (by norm_num; omega))
    (f32_of_int_is_nat _ (by norm_num)) (by norm_num; omega))
    (f32_of_int_is_nat _ (by norm_num; omega)) hm (by norm_num; omega) (by norm_num; omega), ?_⟩
  exact round_half_away_le _ _ _ hm (by
    have : mx - x ≤ mx := Nat.sub_le _ _
    nlinarith)

/-- The expression `(int) roundf(((0xFF - k) * 100.0f) / 0xFF)`. -/
theorem black_channel (mx : Nat) (hm2 : mx ≤ 255) :
    f32_to_int (roundf (f32_div (f32_mul (f32_of_int (0xFF - (mx : Int))) (f32_of_int 100))
        (f32_of_int 0xFF)))
      = ((round_half_away ((255 - mx) * 100) 255 : Nat) : Int)
    ∧ round_half_away ((255 - mx) * 100) 255 ≤ 100 := by
  have e : (0xFF - (mx : Int)) = ((255 - mx : Nat) : Int) := by omega
  have e2 : (100 : Int) = ((100 : Nat) : Int) := rfl
  have e3 : (0xFF : Int) = ((255 : Nat) : Int) := rfl
  rw [e, e2, e3]
  refine ⟨f32_div_roundf _ _ _ _ (f32_mul_is_nat _ _ _ _ (f32_of_int_is_nat _ (by norm_num; omega))
    (f32_of_int_is_nat _ (by norm_num)) (by norm_num; omega))
    (f32_of_int_is_nat _ (by norm_num)) (by norm_num) (by norm_num) (by norm_num; omega), ?_⟩
  exact round_half_away_le _ _ _ (by norm_num) (by omega)

/-- What `out_colour_get_cmyk` returns for a well-formed hexadecimal colour. -/
theorem out_colour_get_cmyk_hex (colour : CStr) (rgb_alpha : Bool) (hc : COMMA ∉ colour)
    (hl : colour.length = 6 ∨ colour.length = 8) (hh : ∀ x ∈ colour, is_hex_digit x) :
    out_colour_get_cmyk colour rgb_alpha = some
      { ret := if colour.length = 8 then 2 else 1,
        cyan := if max (max (hex_pair_value colour 0) (hex_pair_value colour 1))
            (hex_pair_value colour 2) = 0 then 0
          else ((round_half_away
            ((max (max (hex_pair_value colour 0) (hex_pair_value colour 1))
              (hex_pair_value colour 2) - hex_pair_value colour 0) * 100)
            (max (max (hex_pair_value colour 0) (hex_pair_value colour 1))
              (hex_pair_value colour 2)) : Nat) : Int),
        magenta := if max (max (hex_pair_value colour 0) (hex_pair_value colour 1))
            (hex_pair_value colour 2) = 0 then 0
          else ((round_half_away
            ((max (max (hex_pair_value colour 0) (hex_pair_value colour 1))
              (hex_pair_value colour 2) - hex_pair_value colour 1) * 100)
            (max (max (hex_pair_value colour 0) (hex_pair_value colour 1))
              (hex_pair_value colour 2)) : Nat) : Int),
        yellow := if max (max (hex_pair_value colour 0) (hex_pair_value colour 1))
            (hex_pair_value colour 2) = 0 then 0
          else ((round_half_away
            ((max (max (hex_pair_value colour 0) (hex_pair_value colour 1))
              (hex_pair_value colour 2) - hex_pair_value colour 2) * 100)
            (max (max (hex_pair_value colour 0) (hex_pair_value colour 1))
              (hex_pair_value colour 2)) : Nat) : Int),
        black := if max (max (hex_pair_value colour 0) (hex_pair_value colour 1))
            (hex_pair_value colour 2) = 0 then 100
          else ((round_half_away
            ((255 - max (max (hex_pair_value colour 0) (hex_pair_value colour 1))
              (hex_pair_value colour 2)) * 100) 255 : Nat) : Int),
        rgb_alpha := if rgb_alpha = true then
            some (if colour.length = 8 then ((hex_pair_value colour 3 : Nat) : Int) else 255)
          else none } := by
  have hr := hex_pair_value_lt colour 0 hh (by omega)
  have hg := hex_pair_value_lt colour 1 hh (by omega)
  have hb := hex_pair_value_lt colour 2 hh (by omega)
  unfold out_colour_get_cmyk
  rw [strchr_eq_none.mpr hc]
  simp only [out_colour_get_rgb_hex colour true hc hl hh, Option.bind_eq_bind, Option.some_bind,
    if_true, true_and]
  generalize hex_pair_value colour 0 = R at hr
  generalize hex_pair_value colour 1 = G at hg
  generalize hex_pair_value colour 2 = B at hb
  have hk : (if (B : Int) > (if (G : Int) > (R : Int) then (G : Int) else (R : Int)) then (B : Int)
      else (if (G : Int) > (R : Int) then (G : Int) else (R : Int)))
      = ((max (max R G) B : Nat) : Int) := by
    split_ifs <;> omega
  rw [hk]
  have hR : R ≤ max (max R G) B := by omega
  have hG : G ≤ max (max R G) B := by omega
  have hB : B ≤ max (max R G) B := by omega
  have hM : max (max R G) B ≤ 255 := by omega
  generalize max (max R G) B = mx at hR hG hB hM
  have ret : (1 : Int) + (if colour.length = 8 then 1 else 0)
      = if colour.length = 8 then 2 else 1 := by
    split_ifs <;> rfl
  have al : (if (if colour.length = 8 then (1 : Int) else 0) ≠ 0 then
        (if colour.length = 8 then ((hex_pair_value colour 3 : Nat) : Int) else 255) else 0xFF)
      = if colour.length = 8 then ((hex_pair_value colour 3 : Nat) : Int) else 255 := by
    split_ifs <;> simp_all
  by_cases h0 : mx = 0
  · subst h0
    simp only [Nat.cast_zero, if_true, ret, al]
  · have h0i : ¬ ((mx : Int) = 0) := by omega
    rw [if_neg h0i]
    simp only [(percent_channel R mx hR (by omega) hM).1, (percent_channel G mx hG (by omega) hM).1,
      (percent_channel B mx hB (by omega) hM).1, (black_channel mx hM).1, if_neg h0, ret, al]


/-! ## Claims on the conversions -/

/-- C7: for a well-formed CMYK colour "C,M,Y,K" (each a number 0..100),
`out_colour_get_rgb` returns red = round(255*(100-C)*(100-K)/10000), green and
blue likewise from M and Y, halves rounded away from zero, sets alpha to 255
when an alpha output is requested and returns 0.  With K = 100 the result is
(0,0,0), and "0,0,0,0" gives (255,255,255). -/
theorem out_colour_get_rgb_cmyk_formula (c m y k : CStr) (alpha : Bool) (pc : is_percent c)
    (pm : is_percent m) (py : is_percent y) (pk : is_percent k) :
    out_colour_get_rgb (cmyk_string c m y k) alpha = some
      { ret := 0,
        red := ((round_half_away
          (255 * (100 - decimal_value c) * (100 - decimal_value k)) 10000 : Nat) : Int),
        green := ((round_half_away
          (255 * (100 - decimal_value m) * (100 - decimal_value k)) 10000 : Nat) : Int),
        blue := ((round_half_away
          (255 * (100 - decimal_value y) * (100 - decimal_value k)) 10000 : Nat) : Int),
        alpha := if alpha = true then some 255 else none }
    ∧ (decimal_value k = 100 →
        out_colour_get_rgb (cmyk_string c m y k) alpha
          = some { ret := 0, red := 0, green := 0, blue := 0,
                   alpha := if alpha = true then some 255 else none })
    ∧ out_colour_get_rgb (cstr "0,0,0,0") alpha
        = some { ret := 0, red := 255, green := 255, blue := 255,
                 alpha := if alpha = true then some 255 else none } := by
  have main := out_colour_get_rgb_cmyk c m y k alpha pc pm py pk
  refine ⟨main, fun hk => ?_, ?_⟩
  · rw [main, hk]
    simp [round_half_away]
  · cases alpha <;> decide

/-- The colour "50,50,50,50" is (64, 64, 64): 255 * 50 * 50 / 10000 = 63.75. -/
theorem out_colour_get_rgb_cmyk_formula_witness :
    is_percent (cstr "50")
    ∧ out_colour_get_rgb (cstr "50,50,50,50") true
        = some { ret := 0, red := 64, green := 64, blue := 64, alpha := some 255 } :=
  ⟨by decide,
   (out_colour_get_rgb_cmyk_formula (cstr "50") (cstr "50") (cstr "50") (cstr "50") true
      (by decide) (by decide) (by decide) (by decide)).1.trans (by decide)⟩

/-- C8: for a well-formed hexadecimal colour with channels r, g, b and
max = max(r, g, b), `out_colour_get_cmyk` returns c = m = y = 0, k = 100 when
max = 0, and otherwise c = round((max-r)*100/max), m = round((max-g)*100/max),
y = round((max-b)*100/max), k = round((255-max)*100/255); it returns 1 for 6
digits and 2 for 8 digits and reports the alpha of the input, 255 when absent.
Black "000000" gives (0,0,0,100), white "FFFFFF" gives (0,0,0,0) and red
"FF0000" gives (0,100,100,0). -/
theorem out_colour_get_cmyk_from_rgb (symbol : zint_symbol) (colour name : CStr)
    (rgb_alpha : Bool) (r g b mx : Nat) (hc : COMMA ∉ colour)
    (hok : (out_check_colour symbol colour name).1 = 0)
    (hr : r = hex_pair_value colour 0) (hg : g = hex_pair_value colour 1)
    (hb : b = hex_pair_value colour 2) (hmx : mx = max (max r g) b) :
    (∃ q, out_colour_get_cmyk colour rgb_alpha = some q
      ∧ (mx = 0 → q.cyan = 0 ∧ q.magenta = 0 ∧ q.yellow = 0 ∧ q.black = 100)
      ∧ (mx ≠ 0 →
          q.cyan = ((round_half_away ((mx - r) * 100) mx : Nat) : Int)
          ∧ q.magenta = ((round_half_away ((mx - g) * 100) mx : Nat) : Int)
          ∧ q.yellow = ((round_half_away ((mx - b) * 100) mx : Nat) : Int)
          ∧ q.black = ((round_half_away ((255 - mx) * 100) 255 : Nat) : Int))
      ∧ (colour.length = 6 → q.ret = 1)
      ∧ (colour.length = 8 → q.ret = 2)
      ∧ (rgb_alpha = true → colour.length = 6 → q.rgb_alpha = some 255)
      ∧ (rgb_alpha = true → colour.length = 8 →
          q.rgb_alpha = some ((hex_pair_value colour 3 : Nat) : Int)))
    ∧ out_colour_get_cmyk (cstr "000000") rgb_alpha
        = some { ret := 1, cyan := 0, magenta := 0, yellow := 0, black := 100,
                 rgb_alpha := if rgb_alpha = true then some 255 else none }
    ∧ out_colour_get_cmyk (cstr "FFFFFF") rgb_alpha
        = some { ret := 1, cyan := 0, magenta := 0, yellow := 0, black := 0,
                 rgb_alpha := if rgb_alpha = true then some 255 else none }
    ∧ out_colour_get_cmyk (cstr "FF0000") rgb_alpha
        = some { ret := 1, cyan := 0, magenta := 100, yellow := 100, black := 0,
                 rgb_alpha := if rgb_alpha = true then some 255 else none } := by
  obtain ⟨hl, hh⟩ := accepted_hex hc hok
  subst hr hg hb hmx
  refine ⟨⟨_, out_colour_get_cmyk_hex colour rgb_alpha hc hl hh, ?_, ?_, ?_, ?_, ?_, ?_⟩, ?_, ?_, ?_⟩
  · intro h0
    simp only [h0, if_true, and_self]
  · intro h0
    simp only [if_neg h0, and_self]
  · intro h6
    simp [h6]
  · intro h8
    simp [h8]
  · intro ha h6
    simp [ha, h6]
  · intro ha h8
    simp [ha, h8]
  · cases rgb_alpha <;> decide
  · cases rgb_alpha <;> decide
  · cases rgb_alpha <;> decide

/-- The grey "404040FF": max = 64, so k = round(191 * 100 / 255) = 75, with return
value 2 and alpha 255. -/
theorem out_colour_get_cmyk_from_rgb_witness :
    COMMA ∉ cstr "404040FF"
    ∧ (out_check_colour test_emf_symbol (cstr "404040FF") (cstr "foreground")).1 = 0
    ∧ out_colour_get_cmyk (cstr "404040FF") true
        = some { ret := 2, cyan := 0, magenta := 0, yellow := 0, black := 75,
                 rgb_alpha := some 255 }
    ∧ out_colour_get_cmyk (cstr "FF0000") true
        = some { ret := 1, cyan := 0, magenta := 100, yellow := 100, black := 0,
                 rgb_alpha := some 255 } :=
  ⟨by decide, by decide, by decide,
   (out_colour_get_cmyk_from_rgb test_emf_symbol (cstr "404040FF") (cstr "foreground") true
      64 64 64 64 (by decide) (by decide) (by decide) (by decide) (by decide) (by decide)).2.2.2⟩

/-- C9: for a well-formed CMYK colour "C,M,Y,K", `out_colour_get_cmyk` returns
the four numbers C, M, Y, K as written, reports alpha 255 when an alpha output
is requested, and returns 0. -/
theorem out_colour_get_cmyk_native (c m y k : CStr) (rgb_alpha : Bool) (pc : is_percent c)
    (pm : is_percent m) (py : is_percent y) (pk : is_percent k) :
    out_colour_get_cmyk (cmyk_string c m y k) rgb_alpha = some
      { ret := 0,
        cyan := ((decimal_value c : Nat) : Int),
        magenta := ((decimal_value m : Nat) : Int),
        yellow := ((decimal_value y : Nat) : Int),
        black := ((decimal_value k : Nat) : Int),
        rgb_alpha := if rgb_alpha = true then some 255 else none } :=
  out_colour_get_cmyk_cmyk c m y k rgb_alpha pc pm py pk

/-- The colour "10,20,30,40" is returned as (10, 20, 30, 40). -/
theorem out_colour_get_cmyk_native_witness :
    is_percent (cstr "10") ∧ is_percent (cstr "20") ∧ is_percent (cstr "30")
    ∧ is_percent (cstr "40")
    ∧ cmyk_string (cstr "10") (cstr "20") (cstr "30") (cstr "40") = cstr "10,20,30,40"
    ∧ out_colour_get_cmyk (cstr "10,20,30,40") true
        = some { ret := 0, cyan := 10, magenta := 20, yellow := 30, black := 40,
                 rgb_alpha := some 255 } :=
  ⟨by decide, by decide, by decide, by decide, by decide,
   (out_colour_get_cmyk_native (cstr "10") (cstr "20") (cstr "30") (cstr "40") true
      (by decide) (by decide) (by decide) (by decide)).trans (by decide)⟩


/-- C10: for every colour accepted by `out_check_colour`, the red, green, blue
and alpha values `out_colour_get_rgb` computes lie in 0..255 before they are
stored in a byte, so the stored values are the computed ones, and the cyan,
magenta, yellow and black values of `out_colour_get_cmyk` lie in 0..100. -/
theorem colour_channels_in_range (symbol : zint_symbol) (colour name : CStr)
    (alpha rgb_alpha : Bool) (hok : (out_check_colour symbol colour name).1 = 0) :
    (∃ r, out_colour_get_rgb_int colour alpha = some r
      ∧ (0 ≤ r.red ∧ r.red ≤ 255) ∧ (0 ≤ r.green ∧ r.green ≤ 255)
      ∧ (0 ≤ r.blue ∧ r.blue ≤ 255)
      ∧ (∀ a, r.alpha = some a → 0 ≤ a ∧ a ≤ 255)
      ∧ out_colour_get_rgb colour alpha = some r)
    ∧ (∃ q, out_colour_get_cmyk colour rgb_alpha = some q
      ∧ (0 ≤ q.cyan ∧ q.cyan ≤ 100) ∧ (0 ≤ q.magenta ∧ q.magenta ≤ 100)
      ∧ (0 ≤ q.yellow ∧ q.yellow ≤ 100) ∧ (0 ≤ q.black ∧ q.black ≤ 100)) := by
  by_cases hc : COMMA ∈ colour
  · obtain ⟨c, m, y, k, rfl, pc, pm, py, pk⟩ :=
      (out_check_colour_cmyk_iff symbol colour name hc).mp hok
    have r := (cmyk_channel _ _ pc.2.2 pk.2.2).2
    have g := (cmyk_channel _ _ pm.2.2 pk.2.2).2
    have b := (cmyk_channel _ _ py.2.2 pk.2.2).2
    have vc := pc.2.2
    have vm := pm.2.2
    have vy := py.2.2
    have vk := pk.2.2
    refine ⟨⟨_, out_colour_get_rgb_int_cmyk c m y k alpha pc pm py pk, ?_, ?_, ?_, ?_,
      out_colour_get_rgb_cmyk c m y k alpha pc pm py pk⟩,
      ⟨_, out_colour_get_cmyk_cmyk c m y k rgb_alpha pc pm py pk, ?_, ?_, ?_, ?_⟩⟩
    · simp only []; omega
    · simp only []; omega
    · simp only []; omega
    · intro a ha
      cases alpha <;> simp at ha
      omega
    · simp only []; omega
    · simp only []; omega
    · simp only []; omega
    · simp only []; omega
  · obtain ⟨hl, hh⟩ := accepted_hex hc hok
    have r := hex_pair_value_lt colour 0 hh (by omega)
    have g := hex_pair_value_lt colour 1 hh (by omega)
    have b := hex_pair_value_lt colour 2 hh (by omega)
    refine ⟨⟨_, out_colour_get_rgb_int_hex colour alpha hc hl hh, ?_, ?_, ?_, ?_,
      out_colour_get_rgb_hex colour alpha hc hl hh⟩,
      ⟨_, out_colour_get_cmyk_hex colour rgb_alpha hc hl hh, ?_⟩⟩
    · simp only []; omega
    · simp only []; omega
    · simp only []; omega
    · intro a ha
      cases alpha
      · simp at ha
      · by_cases h8 : colour.length = 8
        · have p := hex_pair_value_lt colour 3 hh (by omega)
          simp [h8] at ha
          omega
        · simp [h8] at ha
          omega
    · simp only []
      generalize hex_pair_value colour 0 = R at r
      generalize hex_pair_value colour 1 = G at g
      generalize hex_pair_value colour 2 = B at b
      have hR : R ≤ max (max R G) B := by omega
      have hG : G ≤ max (max R G) B := by omega
      have hB : B ≤ max (max R G) B := by omega
      have hM : max (max R G) B ≤ 255 := by omega
      generalize max (max R G) B = mx at hR hG hB hM
      by_cases h0 : mx = 0
      · simp [h0]
      · have c1 := (percent_channel R mx hR (by omega) hM).2
        have c2 := (percent_channel G mx hG (by omega) hM).2
        have c3 := (percent_channel B mx hB (by omega) hM).2
        have c4 := (black_channel mx hM).2
        simp only [if_neg h0]
        omega

/-- Both forms at a concrete colour: "E0E0E0" and "0,0,0,100" are accepted and
stay in range. -/
theorem colour_channels_in_range_witness :
    (out_check_colour test_emf_symbol (cstr "0,0,0,100") (cstr "foreground")).1 = 0
    ∧ out_colour_get_rgb_int (cstr "0,0,0,100") true
        = some { ret := 0, red := 0, green := 0, blue := 0, alpha := some 255 }
    ∧ ∃ q, out_colour_get_cmyk (cstr "E0E0E0") true = some q
      ∧ (0 ≤ q.cyan ∧ q.cyan ≤ 100) ∧ (0 ≤ q.magenta ∧ q.magenta ≤ 100)
      ∧ (0 ≤ q.yellow ∧ q.yellow ≤ 100) ∧ (0 ≤ q.black ∧ q.black ≤ 100) :=
  ⟨by decide, by decide,
   (colour_channels_in_range test_emf_symbol (cstr "E0E0E0") (cstr "foreground") true true
      (by decide)).2⟩


/-! ## Quiet zones -/

theorem first_tier_nodup : first_tier.Nodup := by decide

theorem second_tier_nodup : (BARCODE_FLAT :: second_tier).Nodup := by decide

theorem tiers_disjoint : ∀ s ∈ first_tier, s ∉ BARCODE_FLAT :: second_tier := by decide

/-- Outside the first tier the first `switch` matches nothing. -/
theorem out_quiet_zones_always_none (symbol : zint_symbol) (hide_text : Int)
    (h : symbol.symbology ∉ first_tier) :
    out_quiet_zones_always symbol hide_text
      = { done := 0, left := F32.zero, right := F32.zero, top := F32.zero,
          bottom := F32.zero } := by
  simp only [first_tier, List.mem_cons, List.mem_singleton, List.not_mem_nil, or_false,
    not_or] at h
  obtain ⟨h1, h2, h3, h4, h5, h6, h7, h8, h9, h10, h11, h12, h13, h14, h15⟩ := h
  unfold out_quiet_zones_always
  simp only [List.mem_cons, List.mem_singleton, List.not_mem_nil, or_false, h1, h2, h3, h4, h5,
    h6, h7, h8, h9, h10, h11, h12, h13, h14, h15, if_false, or_self]

/-- In the first tier the first `switch` sets `done`. -/
theorem out_quiet_zones_always_done (symbol : zint_symbol) (hide_text : Int)
    (h : symbol.symbology ∈ first_tier) :
    (out_quiet_zones_always symbol hide_text).done = 1 := by
  simp only [first_tier, List.mem_cons, List.mem_singleton, List.not_mem_nil, or_false] at h
  unfold out_quiet_zones_always
  rcases h with h | h | h | h | h | h | h | h | h | h | h | h | h | h | h <;>
    simp [h] <;> split_ifs <;> rfl

/-- For a first-tier symbology `out_quiet_zones` returns at the first `switch`. -/
theorem out_quiet_zones_first_tier (symbol : zint_symbol) (hide_text : Int)
    (h : symbol.symbology ∈ first_tier) :
    out_quiet_zones symbol hide_text = out_quiet_zones_always symbol hide_text := by
  have d := out_quiet_zones_always_done symbol hide_text h
  unfold out_quiet_zones
  simp only [d, ne_eq, one_ne_zero, not_false_eq_true, if_true]

/-- Outside the first tier `out_quiet_zones` is the flag test followed by the
second `switch`. -/
theorem out_quiet_zones_second_tier (symbol : zint_symbol) (hide_text : Int)
    (h : symbol.symbology ∉ first_tier) :
    out_quiet_zones symbol hide_text =
      if ¬ option_set symbol BARCODE_QUIET_ZONES ∨ option_set symbol BARCODE_NO_QUIET_ZONES then
        { done := 0, left := F32.zero, right := F32.zero, top := F32.zero, bottom := F32.zero }
      else out_quiet_zones_others symbol := by
  unfold out_quiet_zones
  simp only [out_quiet_zones_always_none symbol hide_text h, ne_eq, not_true_eq_false, if_false]

/-- The second `switch` sets `done` for its labels other than `BARCODE_FLAT`. -/
theorem out_quiet_zones_others_done (symbol : zint_symbol)
    (h : symbol.symbology ∈ second_tier) : (out_quiet_zones_others symbol).done = 1 := by
  simp only [second_tier, List.mem_cons, List.mem_singleton, List.not_mem_nil, or_false] at h
  unfold out_quiet_zones_others
  repeat' rcases h with h | h
  all_goals (simp [h]; try (split_ifs <;> rfl))

/-- For `BARCODE_FLAT` and for a tag with no label the second `switch` changes
nothing. -/
theorem out_quiet_zones_others_none (symbol : zint_symbol)
    (h : symbol.symbology ∉ second_tier) :
    out_quiet_zones_others symbol
      = { done := 0, left := F32.zero, right := F32.zero, top := F32.zero,
          bottom := F32.zero } := by
  simp only [second_tier, List.mem_cons, List.mem_singleton, List.not_mem_nil, or_false,
    not_or] at h
  unfold out_quiet_zones_others
  simp only [List.mem_cons, List.mem_singleton, List.not_mem_nil, or_false, h, if_false,
    or_self, ite_self]

/-- With `BARCODE_QUIET_ZONES` set and `BARCODE_NO_QUIET_ZONES` not set, a
symbology outside the first tier gets the margins of the second `switch`. -/
theorem out_quiet_zones_opted (symbol : zint_symbol) (hide_text : Int)
    (h : symbol.symbology ∉ first_tier) (hq : option_set symbol BARCODE_QUIET_ZONES)
    (hn : ¬ option_set symbol BARCODE_NO_QUIET_ZONES) :
    out_quiet_zones symbol hide_text = out_quiet_zones_others symbol := by
  rw [out_quiet_zones_second_tier symbol hide_text h, if_neg]
  exact fun hc => hc.elim (fun a => a hq) (fun a => hn a)

/-! ## Claims on quiet zones -/

/-- C11: converting CMYK to RGB and back is not the identity: "50,50,50,50" is
a well-formed CMYK colour, `out_colour_get_rgb` gives (64, 64, 64), written
"404040" in hexadecimal, and `out_colour_get_cmyk` of that string gives
(0, 0, 0, 75), which is not (50, 50, 50, 50). -/
theorem cmyk_rgb_cmyk_not_identity :
    ∃ x : CStr, (out_check_colour test_emf_symbol x (cstr "foreground")).1 = 0 ∧ COMMA ∈ x
      ∧ ∃ r q o, out_colour_get_rgb x true = some r
        ∧ out_colour_get_cmyk (hex_byte r.red ++ hex_byte r.green ++ hex_byte r.blue) true = some q
        ∧ out_colour_get_cmyk x true = some o
        ∧ (q.cyan, q.magenta, q.yellow, q.black) = (0, 0, 0, 75)
        ∧ (o.cyan, o.magenta, o.yellow, o.black) = (50, 50, 50, 50)
        ∧ (q.cyan, q.magenta, q.yellow, q.black) ≠ (o.cyan, o.magenta, o.yellow, o.black) :=
  ⟨cstr "50,50,50,50", by decide, by decide,
    { ret := 0, red := 64, green := 64, blue := 64, alpha := some 255 },
    { ret := 1, cyan := 0, magenta := 0, yellow := 0, black := 75, rgb_alpha := some 255 },
    { ret := 0, cyan := 50, magenta := 50, yellow := 50, black := 50, rgb_alpha := some 255 },
    by decide, by decide, by decide, by decide, by decide, by decide⟩

/-- C12: for EANX, EANX_CHK, EANX_CC and ISBNX `out_quiet_zones` returns top =
bottom = 0.  Without `BARCODE_NO_QUIET_ZONES`, by text length: 13 gives left 11,
right 7; 16 or 19 gives left 11, right 5; 2 or 5 gives left 7, right 5; any
other length gives left 7, right 7.  With `BARCODE_NO_QUIET_ZONES`, left is 11
and right is 0 for lengths 13, 16 and 19 when the text is shown
(`hide_text` = 0), and all margins are 0 in every other case. -/
theorem out_quiet_zones_ean (symbol : zint_symbol) (hide_text : Int)
    (h : symbol.symbology ∈ [BARCODE_EANX, BARCODE_EANX_CHK, BARCODE_EANX_CC, BARCODE_ISBNX]) :
    (out_quiet_zones symbol hide_text).top = F32.zero
    ∧ (out_quiet_zones symbol hide_text).bottom = F32.zero
    ∧ (¬ option_set symbol BARCODE_NO_QUIET_ZONES →
        (ustrlen symbol.text = 13 →
          (out_quiet_zones symbol hide_text).left = F32.of_nat 11
          ∧ (out_quiet_zones symbol hide_text).right = F32.of_nat 7)
        ∧ (ustrlen symbol.text = 16 ∨ ustrlen symbol.text = 19 →
          (out_quiet_zones symbol hide_text).left = F32.of_nat 11
          ∧ (out_quiet_zones symbol hide_text).right = F32.of_nat 5)
        ∧ (ustrlen symbol.text = 2 ∨ ustrlen symbol.text = 5 →
          (out_quiet_zones symbol hide_text).left = F32.of_nat 7
          ∧ (out_quiet_zones symbol hide_text).right = F32.of_nat 5)
        ∧ (ustrlen symbol.text ∉ [13, 16, 19, 2, 5] →
          (out_quiet_zones symbol hide_text).left = F32.of_nat 7
          ∧ (out_quiet_zones symbol hide_text).right = F32.of_nat 7))
    ∧ (option_set symbol BARCODE_NO_QUIET_ZONES →
        (hide_text = 0 → ustrlen symbol.text ∈ [13, 16, 19] →
          (out_quiet_zones symbol hide_text).left = F32.of_nat 11
          ∧ (out_quiet_zones symbol hide_text).right = F32.zero)
        ∧ (¬ (hide_text = 0 ∧ ustrlen symbol.text ∈ [13, 16, 19]) →
          (out_quiet_zones symbol hide_text).all_zero)) := by
  have ht : symbol.symbology ∈ first_tier := by
    simp only [List.mem_cons, List.mem_singleton, List.not_mem_nil, or_false] at h
    rcases h with h | h | h | h <;> simp [first_tier, h]
  have hs : symbol.symbology ≠ BARCODE_CODE16K ∧ symbol.symbology ≠ BARCODE_CODE49
      ∧ symbol.symbology ∉ [BARCODE_CODABLOCKF, BARCODE_HIBC_BLOCKF]
      ∧ symbol.symbology ≠ BARCODE_ITF14 := by
    simp only [List.mem_cons, List.mem_singleton, List.not_mem_nil, or_false] at h
    rcases h with h | h | h | h <;> simp [h]
  rw [out_quiet_zones_first_tier symbol hide_text ht]
  unfold out_quiet_zones_always quiet_zones.all_zero
  rw [if_neg hs.1, if_neg hs.2.1, if_neg hs.2.2.1, if_neg hs.2.2.2, if_pos h]
  generalize ustrlen symbol.text = n
  simp only [List.mem_cons, List.mem_singleton, List.not_mem_nil, or_false]
  by_cases hn : option_set symbol BARCODE_NO_QUIET_ZONES <;> by_cases hh : hide_text = 0 <;>
    simp only [hn, hh, not_true_eq_false, not_false_eq_true, if_true, if_false, true_implies,
      false_implies, true_and, and_true] <;>
    split_ifs <;> simp_all <;> omega

/-- An EAN-13 text of length 13 gives left 11, right 7, and left 11, right 0
with quiet zones suppressed and the text shown. -/
theorem out_quiet_zones_ean_witness :
    (BARCODE_EANX ∈ [BARCODE_EANX, BARCODE_EANX_CHK, BARCODE_EANX_CC, BARCODE_ISBNX])
    ∧ ((out_quiet_zones { test_emf_symbol with
          symbology := BARCODE_EANX, text := cstr "9501101530003" } 0).left = F32.of_nat 11
      ∧ (out_quiet_zones { test_emf_symbol with
          symbology := BARCODE_EANX, text := cstr "9501101530003" } 0).right = F32.of_nat 7)
    ∧ ((out_quiet_zones { test_emf_symbol with
          symbology := BARCODE_EANX, text := cstr "9501101530003",
          output_options := BARCODE_NO_QUIET_ZONES } 0).left = F32.of_nat 11
      ∧ (out_quiet_zones { test_emf_symbol with
          symbology := BARCODE_EANX, text := cstr "9501101530003",
          output_options := BARCODE_NO_QUIET_ZONES } 0).right = F32.zero) :=
  ⟨by decide,
   (out_quiet_zones_ean { test_emf_symbol with
      symbology := BARCODE_EANX, text := cstr "9501101530003" } 0 (by decide)).2.2.1
      (by decide) |>.1 (by decide),
   (out_quiet_zones_ean { test_emf_symbol with
      symbology := BARCODE_EANX, text := cstr "9501101530003",
      output_options := BARCODE_NO_QUIET_ZONES } 0 (by decide)).2.2.2
      (by decide) |>.1 rfl (by decide)⟩

/-- C13: for UPCA, UPCA_CHK and UPCA_CC `out_quiet_zones` without
`BARCODE_NO_QUIET_ZONES` returns left 9 and right 9, or right 5 when the text is
longer than 12; for UPCE, UPCE_CHK and UPCE_CC left 9 and right 7, or right 5
when the text is longer than 8.  With `BARCODE_NO_QUIET_ZONES` and the text
shown, left is 9 and right is 9 (UPC-A) or 7 (UPC-E) without add-on and 0 with
one; with the text hidden all margins are 0.  Top and bottom are always 0. -/
theorem out_quiet_zones_upc (symbol : zint_symbol) (hide_text : Int) :
    (symbol.symbology ∈ [BARCODE_UPCA, BARCODE_UPCA_CHK, BARCODE_UPCA_CC] →
      (out_quiet_zones symbol hide_text).top = F32.zero
      ∧ (out_quiet_zones symbol hide_text).bottom = F32.zero
      ∧ (¬ option_set symbol BARCODE_NO_QUIET_ZONES →
          (out_quiet_zones symbol hide_text).left = F32.of_nat 9
          ∧ (ustrlen symbol.text > 12 → (out_quiet_zones symbol hide_text).right = F32.of_nat 5)
          ∧ (¬ ustrlen symbol.text > 12 →
              (out_quiet_zones symbol hide_text).right = F32.of_nat 9))
      ∧ (option_set symbol BARCODE_NO_QUIET_ZONES → hide_text = 0 →
          (out_quiet_zones symbol hide_text).left = F32.of_nat 9
          ∧ (¬ ustrlen symbol.text > 12 →
              (out_quiet_zones symbol hide_text).right = F32.of_nat 9)
          ∧ (ustrlen symbol.text > 12 → (out_quiet_zones symbol hide_text).right = F32.zero))
      ∧ (option_set symbol BARCODE_NO_QUIET_ZONES → hide_text ≠ 0 →
          (out_quiet_zones symbol hide_text).all_zero))
    ∧ (symbol.symbology ∈ [BARCODE_UPCE, BARCODE_UPCE_CHK, BARCODE_UPCE_CC] →
      (out_quiet_zones symbol hide_text).top = F32.zero
      ∧ (out_quiet_zones symbol hide_text).bottom = F32.zero
      ∧ (¬ option_set symbol BARCODE_NO_QUIET_ZONES →
          (out_quiet_zones symbol hide_text).left = F32.of_nat 9
          ∧ (ustrlen symbol.text > 8 → (out_quiet_zones symbol hide_text).right = F32.of_nat 5)
          ∧ (¬ ustrlen symbol.text > 8 →
              (out_quiet_zones symbol hide_text).right = F32.of_nat 7))
      ∧ (option_set symbol BARCODE_NO_QUIET_ZONES → hide_text = 0 →
          (out_quiet_zones symbol hide_text).left = F32.of_nat 9
          ∧ (¬ ustrlen symbol.text > 8 →
              (out_quiet_zones symbol hide_text).right = F32.of_nat 7)
          ∧ (ustrlen symbol.text > 8 → (out_quiet_zones symbol hide_text).right = F32.zero))
      ∧ (option_set symbol BARCODE_NO_QUIET_ZONES → hide_text ≠ 0 →
          (out_quiet_zones symbol hide_text).all_zero)) := by
  constructor
  · intro h
    have ht : symbol.symbology ∈ first_tier := by
      simp only [List.mem_cons, List.mem_singleton, List.not_mem_nil, or_false] at h
      rcases h with h | h | h <;> simp [first_tier, h]
    have hs : symbol.symbology ≠ BARCODE_CODE16K ∧ symbol.symbology ≠ BARCODE_CODE49
        ∧ symbol.symbology ∉ [BARCODE_CODABLOCKF, BARCODE_HIBC_BLOCKF]
        ∧ symbol.symbology ≠ BARCODE_ITF14
        ∧ symbol.symbology ∉ [BARCODE_EANX, BARCODE_EANX_CHK, BARCODE_EANX_CC, BARCODE_ISBNX] := by
      simp only [List.mem_cons, List.mem_singleton, List.not_mem_nil, or_false] at h
      rcases h with h | h | h <;> simp [h]
    rw [out_quiet_zones_first_tier symbol hide_text ht]
    unfold out_quiet_zones_always quiet_zones.all_zero
    rw [if_neg hs.1, if_neg hs.2.1, if_neg hs.2.2.1, if_neg hs.2.2.2.1, if_neg hs.2.2.2.2,
      if_pos h]
    generalize ustrlen symbol.text = n
    by_cases hl : n ≤ 12
    · have hl2 : ¬ n > 12 := by omega
      by_cases hn : option_set symbol BARCODE_NO_QUIET_ZONES <;> by_cases hh : hide_text = 0 <;>
        simp [hn, hh, hl, hl2]
    · have hl2 : n > 12 := by omega
      by_cases hn : option_set symbol BARCODE_NO_QUIET_ZONES <;> by_cases hh : hide_text = 0 <;>
        simp [hn, hh, hl, hl2]
  · intro h
    have ht : symbol.symbology ∈ first_tier := by
      simp only [List.mem_cons, List.mem_singleton, List.not_mem_nil, or_false] at h
      rcases h with h | h | h <;> simp [first_tier, h]
    have hs : symbol.symbology ≠ BARCODE_CODE16K ∧ symbol.symbology ≠ BARCODE_CODE49
        ∧ symbol.symbology ∉ [BARCODE_CODABLOCKF, BARCODE_HIBC_BLOCKF]
        ∧ symbol.symbology ≠ BARCODE_ITF14
        ∧ symbol.symbology ∉ [BARCODE_EANX, BARCODE_EANX_CHK, BARCODE_EANX_CC, BARCODE_ISBNX]
        ∧ symbol.symbology ∉ [BARCODE_UPCA, BARCODE_UPCA_CHK, BARCODE_UPCA_CC] := by
      simp only [List.mem_cons, List.mem_singleton, List.not_mem_nil, or_false] at h
      rcases h with h | h | h <;> simp [h]
    rw [out_quiet_zones_first_tier symbol hide_text ht]
    unfold out_quiet_zones_always quiet_zones.all_zero
    rw [if_neg hs.1, if_neg hs.2.1, if_neg hs.2.2.1, if_neg hs.2.2.2.1, if_neg hs.2.2.2.2.1,
      if_neg hs.2.2.2.2.2, if_pos h]
    generalize ustrlen symbol.text = n
    by_cases hl : n ≤ 8
    · have hl2 : ¬ n > 8 := by omega
      by_cases hn : option_set symbol BARCODE_NO_QUIET_ZONES <;> by_cases hh : hide_text = 0 <;>
        simp [hn, hh, hl, hl2]
    · have hl2 : n > 8 := by omega
      by_cases hn : option_set symbol BARCODE_NO_QUIET_ZONES <;> by_cases hh : hide_text = 0 <;>
        simp [hn, hh, hl, hl2]

/-- A UPC-A text of 12 digits gives left 9, right 9; a UPC-E text with a
2-digit add-on gives right 5. -/
theorem out_quiet_zones_upc_witness :
    (out_quiet_zones { test_emf_symbol with
        symbology := BARCODE_UPCA, text := cstr "012345678905" } 0).left = F32.of_nat 9
    ∧ (out_quiet_zones { test_emf_symbol with
        symbology := BARCODE_UPCA, text := cstr "012345678905" } 0).right = F32.of_nat 9
    ∧ (out_quiet_zones { test_emf_symbol with
        symbology := BARCODE_UPCE, text := cstr "01234565+12" } 0).right = F32.of_nat 5 :=
  ⟨((out_quiet_zones_upc { test_emf_symbol with
        symbology := BARCODE_UPCA, text := cstr "012345678905" } 0).1 (by decide)).2.2.1
        (by decide) |>.1,
   ((out_quiet_zones_upc { test_emf_symbol with
        symbology := BARCODE_UPCA, text := cstr "012345678905" } 0).1 (by decide)).2.2.1
        (by decide) |>.2.2 (by decide),
   ((out_quiet_zones_upc { test_emf_symbol with
        symbology := BARCODE_UPCE, text := cstr "01234565+12" } 0).2 (by decide)).2.2.1
        (by decide) |>.2.1 (by decide)⟩

/-- C14: for CODE16K and CODE49 `out_quiet_zones` returns left 10, right 1, and
for CODABLOCKF, HIBC_BLOCKF and ITF14 left 10, right 10, with top and bottom 0,
whenever `BARCODE_NO_QUIET_ZONES` is not set, whatever `BARCODE_QUIET_ZONES`;
with `BARCODE_NO_QUIET_ZONES` set all four margins are 0.  For every first-tier
symbology the function returns 1, whatever the options, the text and
`hide_text`. -/
theorem out_quiet_zones_stacked (symbol : zint_symbol) (hide_text : Int) :
    (symbol.symbology ∈ [BARCODE_CODE16K, BARCODE_CODE49] →
      (¬ option_set symbol BARCODE_NO_QUIET_ZONES →
        out_quiet_zones symbol hide_text
          = { done := 1, left := F32.of_nat 10, right := F32.of_nat 1, top := F32.zero,
              bottom := F32.zero })
      ∧ (option_set symbol BARCODE_NO_QUIET_ZONES →
          (out_quiet_zones symbol hide_text).all_zero))
    ∧ (symbol.symbology ∈ [BARCODE_CODABLOCKF, BARCODE_HIBC_BLOCKF, BARCODE_ITF14] →
      (¬ option_set symbol BARCODE_NO_QUIET_ZONES →
        out_quiet_zones symbol hide_text
          = { done := 1, left := F32.of_nat 10, right := F32.of_nat 10, top := F32.zero,
              bottom := F32.zero })
      ∧ (option_set symbol BARCODE_NO_QUIET_ZONES →
          (out_quiet_zones symbol hide_text).all_zero))
    ∧ (symbol.symbology ∈ first_tier → (out_quiet_zones symbol hide_text).done = 1) := by
  refine ⟨fun h => ?_, fun h => ?_, fun h => ?_⟩
  · have ht : symbol.symbology ∈ first_tier := by
      simp only [List.mem_cons, List.mem_singleton, List.not_mem_nil, or_false] at h
      rcases h with h | h <;> simp [first_tier, h]
    rw [out_quiet_zones_first_tier symbol hide_text ht]
    unfold out_quiet_zones_always quiet_zones.all_zero
    simp only [List.mem_cons, List.mem_singleton, List.not_mem_nil, or_false] at h
    rcases h with h | h <;>
      by_cases hn : option_set symbol BARCODE_NO_QUIET_ZONES <;> simp [h, hn]
  · have ht : symbol.symbology ∈ first_tier := by
      simp only [List.mem_cons, List.mem_singleton, List.not_mem_nil, or_false] at h
      rcases h with h | h | h <;> simp [first_tier, h]
    rw [out_quiet_zones_first_tier symbol hide_text ht]
    unfold out_quiet_zones_always quiet_zones.all_zero
    simp only [List.mem_cons, List.mem_singleton, List.not_mem_nil, or_false] at h
    rcases h with h | h | h <;>
      by_cases hn : option_set symbol BARCODE_NO_QUIET_ZONES <;> simp [h, hn]
  · rw [out_quiet_zones_first_tier symbol hide_text h]
    exact out_quiet_zones_always_done symbol hide_text h

/-- ITF-14 with `BARCODE_QUIET_ZONES` unset has margins 10 left and right. -/
theorem out_quiet_zones_stacked_witness :
    out_quiet_zones { test_emf_symbol with symbology := BARCODE_ITF14 } 0
      = { done := 1, left := F32.of_nat 10, right := F32.of_nat 10, top := F32.zero,
          bottom := F32.zero }
    ∧ (out_quiet_zones { test_emf_symbol with
          symbology := BARCODE_CODE16K,
          output_options := BARCODE_QUIET_ZONES ||| BARCODE_NO_QUIET_ZONES } 1).done = 1 :=
  ⟨((out_quiet_zones_stacked { test_emf_symbol with symbology := BARCODE_ITF14 } 0).2.1
      (by decide)).1 (by decide),
   (out_quiet_zones_stacked { test_emf_symbol with
      symbology := BARCODE_CODE16K,
      output_options := BARCODE_QUIET_ZONES ||| BARCODE_NO_QUIET_ZONES } 1).2.2 (by decide)⟩

/-- C15: for a symbology outside the first tier, when `BARCODE_QUIET_ZONES` is
not set or `BARCODE_NO_QUIET_ZONES` is set, `out_quiet_zones` reports all four
margins as 0 and returns 0. -/
theorem out_quiet_zones_not_opted (symbol : zint_symbol) (hide_text : Int)
    (h : symbol.symbology ∉ first_tier)
    (hf : ¬ option_set symbol BARCODE_QUIET_ZONES ∨ option_set symbol BARCODE_NO_QUIET_ZONES) :
    (out_quiet_zones symbol hide_text).all_zero ∧ (out_quiet_zones symbol hide_text).done = 0 := by
  rw [out_quiet_zones_second_tier symbol hide_text h, if_pos hf]
  exact ⟨⟨rfl, rfl, rfl, rfl⟩, rfl⟩

/-- The MaxiCode symbol of `test_emf.c`, which sets no option, gets no margin. -/
theorem out_quiet_zones_not_opted_witness :
    BARCODE_MAXICODE ∉ first_tier
    ∧ (out_quiet_zones { test_emf_symbol with symbology := BARCODE_MAXICODE } 0).all_zero
    ∧ (out_quiet_zones { test_emf_symbol with symbology := BARCODE_MAXICODE } 0).done = 0 :=
  ⟨by decide,
   out_quiet_zones_not_opted { test_emf_symbol with symbology := BARCODE_MAXICODE } 0
     (by decide) (Or.inl (by decide))⟩

/-- C16: whenever `out_quiet_zones` returns 0, all four margins it reports are
0, for every symbology tag and every flag combination, tags with no label and
`BARCODE_FLAT` included. -/
theorem out_quiet_zones_unrecognized_zero (symbol : zint_symbol) (hide_text : Int)
    (h : (out_quiet_zones symbol hide_text).done = 0) :
    (out_quiet_zones symbol hide_text).all_zero := by
  by_cases ht : symbol.symbology ∈ first_tier
  · have d := out_quiet_zones_always_done symbol hide_text ht
    rw [out_quiet_zones_first_tier symbol hide_text ht] at h
    rw [d] at h
    exact absurd h (by decide)
  · rw [out_quiet_zones_second_tier symbol hide_text ht] at h ⊢
    by_cases hf : ¬ option_set symbol BARCODE_QUIET_ZONES
        ∨ option_set symbol BARCODE_NO_QUIET_ZONES
    · rw [if_pos hf]
      exact ⟨rfl, rfl, rfl, rfl⟩
    · rw [if_neg hf] at h ⊢
      by_cases h2 : symbol.symbology ∈ second_tier
      · rw [out_quiet_zones_others_done symbol h2] at h
        exact absurd h (by decide)
      · rw [out_quiet_zones_others_none symbol h2]
        exact ⟨rfl, rfl, rfl, rfl⟩

/-- `BARCODE_FLAT` with quiet zones requested, and the tag 0, which has no
label: return value 0 and no margin. -/
theorem out_quiet_zones_unrecognized_zero_witness :
    ((out_quiet_zones { test_emf_symbol with
        symbology := BARCODE_FLAT, output_options := BARCODE_QUIET_ZONES } 0).done = 0
      ∧ (out_quiet_zones { test_emf_symbol with
        symbology := BARCODE_FLAT, output_options := BARCODE_QUIET_ZONES } 0).all_zero)
    ∧ (out_quiet_zones { test_emf_symbol with
        symbology := 0, output_options := BARCODE_QUIET_ZONES } 0).all_zero :=
  ⟨⟨by decide, out_quiet_zones_unrecognized_zero { test_emf_symbol with
      symbology := BARCODE_FLAT, output_options := BARCODE_QUIET_ZONES } 0 (by decide)⟩,
   out_quiet_zones_unrecognized_zero { test_emf_symbol with
      symbology := 0, output_options := BARCODE_QUIET_ZONES } 0 (by decide)⟩

/-- C17: with `BARCODE_QUIET_ZONES` set and `BARCODE_NO_QUIET_ZONES` not set,
`out_quiet_zones` returns 1 with all four margins 0 for AZTEC, HIBC_AZTEC and
AZRUNE, whereas for a symbology that is in neither tier (a tag without label, or
`BARCODE_FLAT`) it returns 0. -/
theorem out_quiet_zones_aztec (symbol : zint_symbol) (hide_text : Int)
    (hq : option_set symbol BARCODE_QUIET_ZONES)
    (hn : ¬ option_set symbol BARCODE_NO_QUIET_ZONES) :
    (symbol.symbology ∈ [BARCODE_AZTEC, BARCODE_HIBC_AZTEC, BARCODE_AZRUNE] →
      out_quiet_zones symbol hide_text
        = { done := 1, left := F32.zero, right := F32.zero, top := F32.zero,
            bottom := F32.zero })
    ∧ (symbol.symbology ∉ first_tier → symbol.symbology ∉ second_tier →
        out_quiet_zones symbol hide_text
          = { done := 0, left := F32.zero, right := F32.zero, top := F32.zero,
              bottom := F32.zero }) := by
  constructor
  · intro h
    simp only [List.mem_cons, List.mem_singleton, List.not_mem_nil, or_false] at h
    have ht : symbol.symbology ∉ first_tier := by
      rcases h with h | h | h <;> simp [first_tier, h]
    rw [out_quiet_zones_opted symbol hide_text ht hq hn]
    unfold out_quiet_zones_others
    rcases h with h | h | h <;> simp [h]
  · intro h1 h2
    rw [out_quiet_zones_opted symbol hide_text h1 hq hn, out_quiet_zones_others_none symbol h2]

/-- Aztec Code with quiet zones requested is recognized, with no margin; the
tag 0 is not recognized. -/
theorem out_quiet_zones_aztec_witness :
    out_quiet_zones { test_emf_symbol with
        symbology := BARCODE_AZTEC, output_options := BARCODE_QUIET_ZONES } 0
      = { done := 1, left := F32.zero, right := F32.zero, top := F32.zero, bottom := F32.zero }
    ∧ out_quiet_zones { test_emf_symbol with
        symbology := 0, output_options := BARCODE_QUIET_ZONES } 0
      = { done := 0, left := F32.zero, right := F32.zero, top := F32.zero, bottom := F32.zero } :=
  ⟨(out_quiet_zones_aztec { test_emf_symbol with
      symbology := BARCODE_AZTEC, output_options := BARCODE_QUIET_ZONES } 0
      (by decide) (by decide)).1 (by decide),
   (out_quiet_zones_aztec { test_emf_symbol with
      symbology := 0, output_options := BARCODE_QUIET_ZONES } 0
      (by decide) (by decide)).2 (by decide) (by decide)⟩

/-- C18: with `BARCODE_QUIET_ZONES` set and `BARCODE_NO_QUIET_ZONES` not set,
`out_quiet_zones` returns 1 and the same margin on all four sides: 4 for QRCODE,
UPNQR, HIBC_QR and MAILMARK_2D; 2 for MICROQR, RMQR, PDF417, PDF417COMP and
HIBC_PDF; 1 for MICROPDF417, HIBC_MICPDF, MAXICODE, DATAMATRIX, HIBC_DM and
ULTRA; 3 for HANXIN; 6 for GRIDMATRIX; and left = right = 10 with top =
bottom = 0 for CODE128, CODE39, GS1_128, CODABAR and CODE93. -/
theorem out_quiet_zones_matrix (symbol : zint_symbol) (hide_text : Int)
    (hq : option_set symbol BARCODE_QUIET_ZONES)
    (hn : ¬ option_set symbol BARCODE_NO_QUIET_ZONES) :
    (symbol.symbology ∈ [BARCODE_QRCODE, BARCODE_UPNQR, BARCODE_HIBC_QR, BARCODE_MAILMARK_2D] →
      (out_quiet_zones symbol hide_text).done = 1
      ∧ (out_quiet_zones symbol hide_text).all_sides 4)
    ∧ (symbol.symbology ∈ [BARCODE_MICROQR, BARCODE_RMQR, BARCODE_PDF417, BARCODE_PDF417COMP,
          BARCODE_HIBC_PDF] →
      (out_quiet_zones symbol hide_text).done = 1
      ∧ (out_quiet_zones symbol hide_text).all_sides 2)
    ∧ (symbol.symbology ∈ [BARCODE_MICROPDF417, BARCODE_HIBC_MICPDF, BARCODE_MAXICODE,
          BARCODE_DATAMATRIX, BARCODE_HIBC_DM, BARCODE_ULTRA] →
      (out_quiet_zones symbol hide_text).done = 1
      ∧ (out_quiet_zones symbol hide_text).all_sides 1)
    ∧ (symbol.symbology = BARCODE_HANXIN →
      (out_quiet_zones symbol hide_text).done = 1
      ∧ (out_quiet_zones symbol hide_text).all_sides 3)
    ∧ (symbol.symbology = BARCODE_GRIDMATRIX →
      (out_quiet_zones symbol hide_text).done = 1
      ∧ (out_quiet_zones symbol hide_text).all_sides 6)
    ∧ (symbol.symbology ∈ [BARCODE_CODE128, BARCODE_CODE39, BARCODE_GS1_128, BARCODE_CODABAR,
          BARCODE_CODE93] →
      out_quiet_zones symbol hide_text
        = { done := 1, left := F32.of_nat 10, right := F32.of_nat 10, top := F32.zero,
            bottom := F32.zero }) := by
  refine ⟨fun h => ?_, fun h => ?_, fun h => ?_, fun h => ?_, fun h => ?_, fun h => ?_⟩
  · simp only [List.mem_cons, List.mem_singleton, List.not_mem_nil, or_false] at h
    have ht : symbol.symbology ∉ first_tier := by
      rcases h with h | h | h | h <;> simp [first_tier, h]
    rw [out_quiet_zones_opted symbol hide_text ht hq hn]
    unfold out_quiet_zones_others quiet_zones.all_sides
    rcases h with h | h | h | h <;> simp [h]
  · simp only [List.mem_cons, List.mem_singleton, List.not_mem_nil, or_false] at h
    have ht : symbol.symbology ∉ first_tier := by
      rcases h with h | h | h | h | h <;> simp [first_tier, h]
    rw [out_quiet_zones_opted symbol hide_text ht hq hn]
    unfold out_quiet_zones_others quiet_zones.all_sides
    rcases h with h | h | h | h | h <;> simp [h]
  · simp only [List.mem_cons, List.mem_singleton, List.not_mem_nil, or_false] at h
    have ht : symbol.symbology ∉ first_tier := by
      rcases h with h | h | h | h | h | h <;> simp [first_tier, h]
    rw [out_quiet_zones_opted symbol hide_text ht hq hn]
    unfold out_quiet_zones_others quiet_zones.all_sides
    rcases h with h | h | h | h | h | h <;> simp [h]
  · have ht : symbol.symbology ∉ first_tier := by simp [first_tier, h]
    rw [out_quiet_zones_opted symbol hide_text ht hq hn]
    unfold out_quiet_zones_others quiet_zones.all_sides
    simp [h]
  · have ht : symbol.symbology ∉ first_tier := by simp [first_tier, h]
    rw [out_quiet_zones_opted symbol hide_text ht hq hn]
    unfold out_quiet_zones_others quiet_zones.all_sides
    simp [h]
  · simp only [List.mem_cons, List.mem_singleton, List.not_mem_nil, or_false] at h
    have ht : symbol.symbology ∉ first_tier := by
      rcases h with h | h | h | h | h <;> simp [first_tier, h]
    rw [out_quiet_zones_opted symbol hide_text ht hq hn]
    unfold out_quiet_zones_others
    rcases h with h | h | h | h | h <;> simp [h]

/-- The MaxiCode symbol of `test_emf.c` with quiet zones requested has margin 1
on every side; Code 128 has 10 left and right only. -/
theorem out_quiet_zones_matrix_witness :
    ((out_quiet_zones { test_emf_symbol with
        symbology := BARCODE_MAXICODE, output_options := BARCODE_QUIET_ZONES } 0).done = 1
      ∧ (out_quiet_zones { test_emf_symbol with
        symbology := BARCODE_MAXICODE, output_options := BARCODE_QUIET_ZONES } 0).all_sides 1)
    ∧ out_quiet_zones { test_emf_symbol with
        symbology := BARCODE_CODE128, output_options := BARCODE_QUIET_ZONES } 0
      = { done := 1, left := F32.of_nat 10, right := F32.of_nat 10, top := F32.zero,
          bottom := F32.zero } :=
  ⟨(out_quiet_zones_matrix { test_emf_symbol with
      symbology := BARCODE_MAXICODE, output_options := BARCODE_QUIET_ZONES } 0
      (by decide) (by decide)).2.2.1 (by decide),
   (out_quiet_zones_matrix { test_emf_symbol with
      symbology := BARCODE_CODE128, output_options := BARCODE_QUIET_ZONES } 0
      (by decide) (by decide)).2.2.2.2.2 (by decide)⟩

/-! ## Whitespace offsets -/

theorem nat_lor_eq_zero (a b : Nat) : a ||| b = 0 ↔ a = 0 ∧ b = 0 := by
  constructor
  · intro h
    have t : ∀ i, (a.testBit i || b.testBit i) = false := fun i => by
      rw [← Nat.testBit_or, h, Nat.zero_testBit]
    refine ⟨Nat.eq_of_testBit_eq fun i => ?_, Nat.eq_of_testBit_eq fun i => ?_⟩
    · rw [Nat.zero_testBit]
      exact (Bool.or_eq_false_iff.mp (t i)).1
    · rw [Nat.zero_testBit]
      exact (Bool.or_eq_false_iff.mp (t i)).2
  · rintro ⟨rfl, rfl⟩
    rfl

/-- Testing a union of flags is testing whether one of them is set. -/
theorem option_set_lor (symbol : zint_symbol) (a b : Nat) :
    option_set symbol (a ||| b) ↔ option_set symbol a ∨ option_set symbol b := by
  unfold option_set
  rw [Nat.and_or_distrib_left, ne_eq, nat_lor_eq_zero]
  tauto

/-- C19: `out_set_whitespace_offsets` returns xoffset = whitespace_width + left
quiet zone and roffset = whitespace_width + right quiet zone, each increased by
border_width exactly when `BARCODE_BOX` is set, and yoffset = whitespace_height
+ top quiet zone and boffset = whitespace_height + bottom quiet zone, each
increased by border_width exactly when `BARCODE_BOX`, `BARCODE_BIND` or
`BARCODE_BIND_TOP` is set, the quiet zones being those of `out_quiet_zones` and
the sums being `float` sums.  With a non-zero scale every requested pixel offset
is the `float` product of the offset and the scale truncated to an integer;
with a zero scale, and for a pointer not supplied, nothing is written. -/
theorem out_set_whitespace_offsets_values (symbol : zint_symbol) (hide_text : Int)
    (scaler : F32) (xs ys rs bs : Bool) :
    (option_set symbol BARCODE_BOX →
      (out_set_whitespace_offsets symbol hide_text scaler xs ys rs bs).xoffset
        = f32_add (f32_add (f32_of_int symbol.whitespace_width)
            (out_quiet_zones symbol hide_text).left) (f32_of_int symbol.border_width)
      ∧ (out_set_whitespace_offsets symbol hide_text scaler xs ys rs bs).roffset
        = f32_add (f32_add (f32_of_int symbol.whitespace_width)
            (out_quiet_zones symbol hide_text).right) (f32_of_int symbol.border_width))
    ∧ (¬ option_set symbol BARCODE_BOX →
      (out_set_whitespace_offsets symbol hide_text scaler xs ys rs bs).xoffset
        = f32_add (f32_of_int symbol.whitespace_width) (out_quiet_zones symbol hide_text).left
      ∧ (out_set_whitespace_offsets symbol hide_text scaler xs ys rs bs).roffset
        = f32_add (f32_of_int symbol.whitespace_width) (out_quiet_zones symbol hide_text).right)
    ∧ (option_set symbol BARCODE_BOX ∨ option_set symbol BARCODE_BIND
        ∨ option_set symbol BARCODE_BIND_TOP →
      (out_set_whitespace_offsets symbol hide_text scaler xs ys rs bs).yoffset
        = f32_add (f32_add (f32_of_int symbol.whitespace_height)
            (out_quiet_zones symbol hide_text).top) (f32_of_int symbol.border_width)
      ∧ (out_set_whitespace_offsets symbol hide_text scaler xs ys rs bs).boffset
        = f32_add (f32_add (f32_of_int symbol.whitespace_height)
            (out_quiet_zones symbol hide_text).bottom) (f32_of_int symbol.border_width))
    ∧ (¬ (option_set symbol BARCODE_BOX ∨ option_set symbol BARCODE_BIND
        ∨ option_set symbol BARCODE_BIND_TOP) →
      (out_set_whitespace_offsets symbol hide_text scaler xs ys rs bs).yoffset
        = f32_add (f32_of_int symbol.whitespace_height) (out_quiet_zones symbol hide_text).top
      ∧ (out_set_whitespace_offsets symbol hide_text scaler xs ys rs bs).boffset
        = f32_add (f32_of_int symbol.whitespace_height)
            (out_quiet_zones symbol hide_text).bottom)
    ∧ (scaler.num ≠ 0 →
      (xs = true → (out_set_whitespace_offsets symbol hide_text scaler xs ys rs bs).xoffset_si
        = some (f32_to_int (f32_mul
            (out_set_whitespace_offsets symbol hide_text scaler xs ys rs bs).xoffset scaler)))
      ∧ (ys = true → (out_set_whitespace_offsets symbol hide_text scaler xs ys rs bs).yoffset_si
        = some (f32_to_int (f32_mul
            (out_set_whitespace_offsets symbol hide_text scaler xs ys rs bs).yoffset scaler)))
      ∧ (rs = true → (out_set_whitespace_offsets symbol hide_text scaler xs ys rs bs).roffset_si
        = some (f32_to_int (f32_mul
            (out_set_whitespace_offsets symbol hide_text scaler xs ys rs bs).roffset scaler)))
      ∧ (bs = true → (out_set_whitespace_offsets symbol hide_text scaler xs ys rs bs).boffset_si
        = some (f32_to_int (f32_mul
            (out_set_whitespace_offsets symbol hide_text scaler xs ys rs bs).boffset scaler))))
    ∧ (scaler.num = 0 →
      (out_set_whitespace_offsets symbol hide_text scaler xs ys rs bs).xoffset_si = none
      ∧ (out_set_whitespace_offsets symbol hide_text scaler xs ys rs bs).yoffset_si = none
      ∧ (out_set_whitespace_offsets symbol hide_text scaler xs ys rs bs).roffset_si = none
      ∧ (out_set_whitespace_offsets symbol hide_text scaler xs ys rs bs).boffset_si = none)
    ∧ ((xs = false →
        (out_set_whitespace_offsets symbol hide_text scaler xs ys rs bs).xoffset_si = none)
      ∧ (ys = false →
        (out_set_whitespace_offsets symbol hide_text scaler xs ys rs bs).yoffset_si = none)
      ∧ (rs = false →
        (out_set_whitespace_offsets symbol hide_text scaler xs ys rs bs).roffset_si = none)
      ∧ (bs = false →
        (out_set_whitespace_offsets symbol hide_text scaler xs ys rs bs).boffset_si = none)) := by
  have hy : option_set symbol (BARCODE_BOX ||| BARCODE_BIND ||| BARCODE_BIND_TOP)
      ↔ (option_set symbol BARCODE_BOX ∨ option_set symbol BARCODE_BIND
        ∨ option_set symbol BARCODE_BIND_TOP) := by
    rw [option_set_lor, option_set_lor, or_assoc]
  unfold out_set_whitespace_offsets
  refine ⟨fun h => ?_, fun h => ?_, fun h => ?_, fun h => ?_, fun h => ?_, fun h => ?_, ?_⟩
  · simp only [if_pos h, and_self]
  · simp only [if_neg h, and_self]
  · simp only [if_pos (hy.mpr h), and_self]
  · simp only [if_neg (fun a => h (hy.mp a)), and_self]
  · refine ⟨fun e => ?_, fun e => ?_, fun e => ?_, fun e => ?_⟩ <;>
      simp only [h, e, ne_eq, not_false_eq_true, and_self, if_true]
  · simp only [h, ne_eq, not_true_eq_false, false_and, if_false, and_self]
  · refine ⟨fun e => ?_, fun e => ?_, fun e => ?_, fun e => ?_⟩ <;>
      simp only [e, Bool.false_eq_true, and_false, if_false]

/-- An ITF-14 symbol with whitespace 2, a box of border width 3 and scale 2:
xoffset = 2 + 10 + 3 = 15, hence 30 pixels; yoffset = 0 + 0 + 3 = 3, hence 6
pixels. -/
theorem out_set_whitespace_offsets_values_witness :
    option_set { test_emf_symbol with
        symbology := BARCODE_ITF14, output_options := BARCODE_BOX,
        whitespace_width := 2, border_width := 3 } BARCODE_BOX
    ∧ F32.same (out_set_whitespace_offsets { test_emf_symbol with
        symbology := BARCODE_ITF14, output_options := BARCODE_BOX,
        whitespace_width := 2, border_width := 3 } 0 (F32.of_nat 2) true true true true).xoffset
        (F32.of_nat 15)
    ∧ (out_set_whitespace_offsets { test_emf_symbol with
        symbology := BARCODE_ITF14, output_options := BARCODE_BOX,
        whitespace_width := 2, border_width := 3 } 0 (F32.of_nat 2) true true true true).xoffset_si
        = some 30
    ∧ (out_set_whitespace_offsets { test_emf_symbol with
        symbology := BARCODE_ITF14, output_options := BARCODE_BOX,
        whitespace_width := 2, border_width := 3 } 0 (F32.of_nat 2) true true true true).yoffset_si
        = some 6 :=
  ⟨by decide, by decide,
   ((out_set_whitespace_offsets_values { test_emf_symbol with
        symbology := BARCODE_ITF14, output_options := BARCODE_BOX,
        whitespace_width := 2, border_width := 3 } 0 (F32.of_nat 2) true true true
        true).2.2.2.2.1 (by decide)).1 rfl |>.trans (by decide),
   by decide⟩

/-! ## Large bar height -/

theorem count_rows_fold (hs : List F32) (st : bar_count) :
    hs.foldl (fun st h =>
        if h.num ≠ 0 then { st with fixed_height := f32_add st.fixed_height h }
        else { st with zero_count := st.zero_count + 1 }) st
      = { fixed_height := (hs.filter (fun h => decide (h.num ≠ 0))).foldl f32_add st.fixed_height,
          zero_count := st.zero_count + hs.countP (fun h => decide (h.num = 0)),
          round_rows := st.round_rows } := by
  induction hs generalizing st with
  | nil => simp
  | cons h t ih =>
    rw [List.foldl_cons, ih]
    by_cases h0 : h.num = 0
    · simp [h0, Nat.add_assoc, Nat.add_comm 1]
    · simp [h0]

/-- The counting loop computes the sum of the fixed rows and the number of auto
rows. -/
theorem count_rows_eq (symbol : zint_symbol) :
    count_rows symbol
      = { fixed_height := fixed_sum symbol, zero_count := auto_row_count symbol,
          round_rows := false } := by
  have e := count_rows_fold (row_heights symbol)
    { fixed_height := F32.zero, zero_count := 0, round_rows := false }
  unfold row_heights at e
  rw [List.foldl_map] at e
  unfold count_rows fixed_sum auto_row_count f32_sum row_heights
  rw [e]
  simp

theorem F32.is_nat_same {x : F32} {N : Nat} (h : x.is_nat N) : F32.same x (F32.of_nat N) := by
  obtain ⟨s, rfl⟩ := h
  simp [F32.same, F32.of_nat]

theorem F32.of_nat_is_nat (N : Nat) : (F32.of_nat N).is_nat N := ⟨0, by simp [F32.of_nat]⟩

theorem f32_add_is_nat (x y : F32) (X Y : Nat) (hx : x.is_nat X) (hy : y.is_nat Y)
    (h : X + Y < 2 ^ 24) : (f32_add x y).is_nat (X + Y) := by
  obtain ⟨s1, rfl⟩ := hx
  obtain ⟨s2, rfl⟩ := hy
  obtain ⟨s, hs⟩ := f32_round_nat_exact (X + Y) (2 ^ s1 * 2 ^ s2) (by positivity) h
  refine ⟨s, ?_⟩
  have e : (((X * 2 ^ s1 : Nat) : Int) * ((2 ^ s2 : Nat) : Int)
      + ((Y * 2 ^ s2 : Nat) : Int) * ((2 ^ s1 : Nat) : Int))
      = (((X + Y) * (2 ^ s1 * 2 ^ s2) : Nat) : Int) := by
    push_cast; ring
  simp only [f32_add]
  rw [e, f32_round_of_nat, hs]

theorem f32_sub_is_nat (x y : F32) (X Y : Nat) (hx : x.is_nat X) (hy : y.is_nat Y)
    (hle : Y ≤ X) (h : X < 2 ^ 24) : (f32_sub x y).is_nat (X - Y) := by
  obtain ⟨s1, rfl⟩ := hx
  obtain ⟨s2, rfl⟩ := hy
  obtain ⟨s, hs⟩ := f32_round_nat_exact (X - Y) (2 ^ s1 * 2 ^ s2) (by positivity) (by omega)
  refine ⟨s, ?_⟩
  have e : (((X * 2 ^ s1 : Nat) : Int) * ((2 ^ s2 : Nat) : Int)
      - ((Y * 2 ^ s2 : Nat) : Int) * ((2 ^ s1 : Nat) : Int))
      = (((X - Y) * (2 ^ s1 * 2 ^ s2) : Nat) : Int) := by
    push_cast [Nat.cast_sub hle]; ring
  simp only [f32_sub]
  rw [e, f32_round_of_nat, hs]

theorem f32_div_is_nat (x y : F32) (A B : Nat) (hx : x.is_nat A) (hy : y.is_nat B)
    (hB : 0 < B) (hd : B ∣ A) (h : A / B < 2 ^ 24) : (f32_div x y).is_nat (A / B) := by
  obtain ⟨s1, rfl⟩ := hx
  obtain ⟨s2, rfl⟩ := hy
  obtain ⟨s, hs⟩ := f32_round_nat_exact (A / B) (B * (2 ^ s1 * 2 ^ s2)) (by positivity) h
  refine ⟨s, ?_⟩
  have hpos : ¬ (((B * 2 ^ s2 : Nat) : Int) < 0) := by
    have : (0 : Int) ≤ ((B * 2 ^ s2 : Nat) : Int) := Int.ofNat_nonneg _
    omega
  have e : (((A * 2 ^ s1 : Nat) : Int) * ((2 ^ s2 : Nat) : Int))
      = ((A / B * (B * (2 ^ s1 * 2 ^ s2)) : Nat) : Int) := by
    rw [← Nat.mul_assoc, Nat.div_mul_cancel hd]
    push_cast; ring
  have e2 : 2 ^ s1 * (((B * 2 ^ s2 : Nat) : Int)).natAbs = B * (2 ^ s1 * 2 ^ s2) := by
    rw [Int.natAbs_ofNat]; ring
  simp only [f32_div]
  rw [if_neg hpos, e, e2, f32_round_of_nat, hs]

theorem f32_const_half : f32_const 5 10 = { num := 8388608, den := 16777216 } := by decide

theorem f32_ge_half_of_nat (x : F32) (N : Nat) (hx : x.is_nat N) (h : 0 < N) :
    f32_ge x (f32_const 5 10) = true := by
  obtain ⟨s, rfl⟩ := hx
  rw [f32_const_half]
  simp only [f32_ge, decide_eq_true_eq]
  have p : 0 < 2 ^ s := by positivity
  push_cast
  nlinarith [Nat.mul_le_mul_right (2 ^ s) h]

/-- C20, as stated, fails: with seven auto rows and requested height 31 the
auto height is the `float` nearest to 31/7, and the height written back,
7 times that, is 30.999998..., not 31. -/
theorem out_large_bar_height_height_not_kept :
    auto_row_count seven_auto_rows = 7
    ∧ ∃ r, out_large_bar_height seven_auto_rows 0 false false = some r
      ∧ r.large_bar_height = { num := 9287387, den := 2097152 }
      ∧ r.symbol.height = { num := 16252927, den := 524288 }
      ∧ ¬ F32.same r.symbol.height seven_auto_rows.height :=
  ⟨by decide,
   { large_bar_height := { num := 9287387, den := 2097152 },
     symbol := { seven_auto_rows with height := { num := 16252927, den := 524288 } },
     row_heights_si := none, symbol_height_si := none },
   by decide, rfl, rfl, by decide⟩


/-- C20, amended: with no pixel scale (`si` = 0), for a symbol with at least
one auto row whose quotient q = (height - sum of the non-zero row heights) /
(number of auto rows), evaluated in single precision, passes the assertion
q >= 0.5, `out_large_bar_height` returns q, leaves the row heights and every
other field unchanged and sets the height to q x auto-row count + fixed sum,
evaluated in single precision.  That height is the requested one when height
and fixed sum are whole numbers below 2^24 whose difference is a positive
multiple of the auto-row count.  With no auto rows it returns 0 and changes
nothing.  Nothing is written to the pixel outputs. -/
theorem out_large_bar_height_no_scale (symbol : zint_symbol) (rh sh : Bool) :
    (auto_row_count symbol ≠ 0 →
      f32_ge (f32_div (f32_sub symbol.height (fixed_sum symbol))
        (f32_of_int (auto_row_count symbol))) (f32_const 5 10) = true →
      out_large_bar_height symbol 0 rh sh = some
        { large_bar_height := f32_div (f32_sub symbol.height (fixed_sum symbol))
            (f32_of_int (auto_row_count symbol)),
          symbol := { symbol with
            height := f32_add (f32_mul (f32_div (f32_sub symbol.height (fixed_sum symbol))
              (f32_of_int (auto_row_count symbol))) (f32_of_int (auto_row_count symbol)))
              (fixed_sum symbol) },
          row_heights_si := none, symbol_height_si := none })
    ∧ (∀ H F : Nat, auto_row_count symbol ≠ 0 → symbol.height.is_nat H →
        (fixed_sum symbol).is_nat F → H < 2 ^ 24 → F < H → auto_row_count symbol ∣ H - F →
        ∃ r, out_large_bar_height symbol 0 rh sh = some r
          ∧ F32.same r.large_bar_height (F32.of_nat ((H - F) / auto_row_count symbol))
          ∧ F32.same r.symbol.height (F32.of_nat H)
          ∧ r.symbol.row_height = symbol.row_height)
    ∧ (auto_row_count symbol = 0 →
        out_large_bar_height symbol 0 rh sh = some
          { large_bar_height := F32.zero, symbol := symbol,
            row_heights_si := none, symbol_height_si := none }) := by
  have e := count_rows_eq symbol
  have main : auto_row_count symbol ≠ 0 →
      f32_ge (f32_div (f32_sub symbol.height (fixed_sum symbol))
        (f32_of_int (auto_row_count symbol))) (f32_const 5 10) = true →
      out_large_bar_height symbol 0 rh sh = some
        { large_bar_height := f32_div (f32_sub symbol.height (fixed_sum symbol))
            (f32_of_int (auto_row_count symbol)),
          symbol := { symbol with
            height := f32_add (f32_mul (f32_div (f32_sub symbol.height (fixed_sum symbol))
              (f32_of_int (auto_row_count symbol))) (f32_of_int (auto_row_count symbol)))
              (fixed_sum symbol) },
          row_heights_si := none, symbol_height_si := none } := by
    intro hz hge
    unfold out_large_bar_height
    simp only [ne_eq, not_true_eq_false, if_false, e, stripf, hz, not_false_eq_true, if_true, hge]
  refine ⟨main, ?_, ?_⟩
  · intro H F hz hH hF hlt hFH hdiv
    have hzpos : 0 < auto_row_count symbol := Nat.pos_of_ne_zero hz
    have hle : auto_row_count symbol ≤ H - F := Nat.le_of_dvd (by omega) hdiv
    have hq : 0 < (H - F) / auto_row_count symbol := Nat.div_pos hle hzpos
    have hqlt : (H - F) / auto_row_count symbol < 2 ^ 24 :=
      lt_of_le_of_lt (Nat.div_le_self _ _) (by omega)
    have hn : (f32_of_int ((auto_row_count symbol : Nat) : Int)).is_nat (auto_row_count symbol) :=
      f32_of_int_is_nat _ (by omega)
    have hs := f32_sub_is_nat _ _ H F hH hF (by omega) hlt
    have hd := f32_div_is_nat _ _ (H - F) (auto_row_count symbol) hs hn hzpos hdiv hqlt
    have hm := f32_mul_is_nat _ _ _ _ hd hn
      (by rw [Nat.div_mul_cancel hdiv]; omega)
    rw [Nat.div_mul_cancel hdiv] at hm
    have ha := f32_add_is_nat _ _ _ _ hm hF (by omega)
    rw [Nat.sub_add_cancel (by omega)] at ha
    exact ⟨_, main hz (f32_ge_half_of_nat _ _ hd hq), F32.is_nat_same hd, F32.is_nat_same ha, rfl⟩
  · intro hz
    unfold out_large_bar_height
    simp only [ne_eq, not_true_eq_false, if_false, e, hz]

/-- Rows (10, 0, 0) with requested height 30 give auto height 10 and leave the
height at 30. -/
theorem out_large_bar_height_no_scale_witness :
    auto_row_count three_rows = 2
    ∧ F32.same (fixed_sum three_rows) (F32.of_nat 10)
    ∧ ∃ r, out_large_bar_height three_rows 0 false false = some r
      ∧ F32.same r.large_bar_height (F32.of_nat ((30 - 10) / auto_row_count three_rows))
      ∧ F32.same r.symbol.height (F32.of_nat 30)
      ∧ r.symbol.row_height = three_rows.row_height :=
  ⟨by decide, by decide,
   (out_large_bar_height_no_scale three_rows false false).2.1 30 10 (by decide)
     (F32.of_nat_is_nat 30) ⟨20, by decide⟩ (by decide) (by decide) (by decide)⟩

/-! ## UPC/EAN text -/

theorem char_at_lt {s : CStr} {i : Nat} (h : i < s.length) : char_at s i = some (s.getD i 0) := by
  simp [char_at, h]

theorem text_parts_copy_eq (textparts : text_parts) (text : CStr) (p n offset : Nat)
    (h : offset + n ≤ text.length) :
    text_parts.copy textparts text p n offset
      = some (fun p2 i2 => if p2 = p ∧ i2 < n then text.getD (i2 + offset) 0
          else textparts p2 i2) := by
  induction n with
  | zero => simp [text_parts.copy]
  | succ n ih =>
    have ih2 := ih (by omega)
    unfold text_parts.copy at ih2 ⊢
    rw [List.range_succ, List.foldlM_append, ih2]
    simp only [Option.bind_eq_bind, Option.some_bind, List.foldlM_cons, List.foldlM_nil]
    rw [char_at_lt (by omega)]
    simp only [Option.map_some', Option.some_bind, Option.pure_def, Option.some.injEq]
    funext p2 i2
    simp only [text_parts.store]
    by_cases hp : p2 = p
    · by_cases hi : i2 = n
      · simp [hp, hi]
      · by_cases hlt : i2 < n
        · have : i2 < n + 1 := by omega
          simp [hp, hi, hlt, this]
        · have : ¬ i2 < n + 1 := by omega
          simp [hp, hi, hlt, this]
    · simp [hp]

theorem text_take_eq_slice (text : CStr) (n : Nat) (h : n ≤ text.length) :
    text.take n = text_slice text 0 n := by
  apply List.ext_getElem
  · simp [text_slice, h]
  · intro i h1 h2
    simp only [text_slice, List.length_map, List.length_range] at h2
    simp [text_slice, List.getD_eq_getElem?_getD, List.getElem?_eq_getElem (show i < text.length by omega)]

theorem getD_ne_zero_of_mem {text : CStr} (h : ∀ c ∈ text, c ≠ 0) {i : Nat}
    (hi : i < text.length) : text[i]?.getD 0 ≠ 0 := by
  rw [List.getElem?_eq_getElem hi]
  exact h _ (List.getElem_mem hi)

theorem range_seven : List.range 7 = [0, 1, 2, 3, 4, 5, 6] := by decide

/-- C23: `out_upcean_split_text` splits the text by type.  For 13 the parts 0,
1, 2 are text[0], text[1..6], text[7..12]; for 12 the parts 0..3 are text[0],
text[1..5], text[6..10], text[11]; for 8 the parts 0, 1 are text[0..3],
text[4..7]; for 6 the parts 0, 1, 2 are text[0], text[1..6], text[7].  Each
written part is followed by a NUL, so the C string in it is that slice, and
the written parts concatenated are the first 13, 12, 8 and 8 characters of the
text. -/
theorem out_upcean_split_text_parts (text : CStr) (textparts : text_parts)
    (hnul : ∀ c ∈ text, c ≠ 0) :
    (13 ≤ text.length → ∃ tp, out_upcean_split_text 13 text textparts = some tp
      ∧ (part_bytes tp 0).take 2 = text_slice text 0 1 ++ [0]
      ∧ part_bytes tp 1 = text_slice text 1 6 ++ [0]
      ∧ part_bytes tp 2 = text_slice text 7 6 ++ [0]
      ∧ part_string tp 0 = text_slice text 0 1
      ∧ part_string tp 1 = text_slice text 1 6
      ∧ part_string tp 2 = text_slice text 7 6
      ∧ part_string tp 0 ++ part_string tp 1 ++ part_string tp 2 = text.take 13)
    ∧ (12 ≤ text.length → ∃ tp, out_upcean_split_text 12 text textparts = some tp
      ∧ (part_bytes tp 0).take 2 = text_slice text 0 1 ++ [0]
      ∧ (part_bytes tp 1).take 6 = text_slice text 1 5 ++ [0]
      ∧ (part_bytes tp 2).take 6 = text_slice text 6 5 ++ [0]
      ∧ (part_bytes tp 3).take 2 = text_slice text 11 1 ++ [0]
      ∧ part_string tp 0 = text_slice text 0 1
      ∧ part_string tp 1 = text_slice text 1 5
      ∧ part_string tp 2 = text_slice text 6 5
      ∧ part_string tp 3 = text_slice text 11 1
      ∧ part_string tp 0 ++ part_string tp 1 ++ part_string tp 2 ++ part_string tp 3
          = text.take 12)
    ∧ (8 ≤ text.length → ∃ tp, out_upcean_split_text 8 text textparts = some tp
      ∧ (part_bytes tp 0).take 5 = text_slice text 0 4 ++ [0]
      ∧ (part_bytes tp 1).take 5 = text_slice text 4 4 ++ [0]
      ∧ part_string tp 0 = text_slice text 0 4
      ∧ part_string tp 1 = text_slice text 4 4
      ∧ part_string tp 0 ++ part_string tp 1 = text.take 8)
    ∧ (8 ≤ text.length → ∃ tp, out_upcean_split_text 6 text textparts = some tp
      ∧ (part_bytes tp 0).take 2 = text_slice text 0 1 ++ [0]
      ∧ part_bytes tp 1 = text_slice text 1 6 ++ [0]
      ∧ (part_bytes tp 2).take 2 = text_slice text 7 1 ++ [0]
      ∧ part_string tp 0 = text_slice text 0 1
      ∧ part_string tp 1 = text_slice text 1 6
      ∧ part_string tp 2 = text_slice text 7 1
      ∧ part_string tp 0 ++ part_string tp 1 ++ part_string tp 2 = text.take 8) := by
  refine ⟨?_, ?_, ?_, ?_⟩
  · intro h
    have n0 := getD_ne_zero_of_mem hnul (show 0 < text.length by omega)
    have n1 := getD_ne_zero_of_mem hnul (show 1 < text.length by omega)
    have n2 := getD_ne_zero_of_mem hnul (show 2 < text.length by omega)
    have n3 := getD_ne_zero_of_mem hnul (show 3 < text.length by omega)
    have n4 := getD_ne_zero_of_mem hnul (show 4 < text.length by omega)
    have n5 := getD_ne_zero_of_mem hnul (show 5 < text.length by omega)
    have n6 := getD_ne_zero_of_mem hnul (show 6 < text.length by omega)
    have n7 := getD_ne_zero_of_mem hnul (show 7 < text.length by omega)
    have n8 := getD_ne_zero_of_mem hnul (show 8 < text.length by omega)
    have n9 := getD_ne_zero_of_mem hnul (show 9 < text.length by omega)
    have n10 := getD_ne_zero_of_mem hnul (show 10 < text.length by omega)
    have n11 := getD_ne_zero_of_mem hnul (show 11 < text.length by omega)
    have n12 := getD_ne_zero_of_mem hnul (show 12 < text.length by omega)
    rw [text_take_eq_slice text 13 h]
    simp only [out_upcean_split_text, show ((13 : Int) = 6) = False from by decide,
      show ((13 : Int) = 8) = False from by decide, show ((13 : Int) = 12) = False from by decide,
      if_false, if_true]
    rw [char_at_lt (show 0 < text.length by omega)]
    simp only [Option.bind_eq_bind, Option.some_bind]
    rw [text_parts_copy_eq _ _ _ _ _ (show 1 + 6 ≤ text.length by omega)]
    simp only [Option.some_bind]
    rw [text_parts_copy_eq _ _ _ _ _ (show 7 + 6 ≤ text.length by omega)]
    simp only [Option.some_bind]
    refine ⟨_, rfl, ?_⟩
    simp [part_string, part_bytes, range_seven, text_slice, text_parts.store, List.range_succ,
      List.takeWhile, n0, n1, n2, n3, n4, n5, n6, n7, n8, n9, n10, n11, n12]
  · intro h
    have n0 := getD_ne_zero_of_mem hnul (show 0 < text.length by omega)
    have n1 := getD_ne_zero_of_mem hnul (show 1 < text.length by omega)
    have n2 := getD_ne_zero_of_mem hnul (show 2 < text.length by omega)
    have n3 := getD_ne_zero_of_mem hnul (show 3 < text.length by omega)
    have n4 := getD_ne_zero_of_mem hnul (show 4 < text.length by omega)
    have n5 := getD_ne_zero_of_mem hnul (show 5 < text.length by omega)
    have n6 := getD_ne_zero_of_mem hnul (show 6 < text.length by omega)
    have n7 := getD_ne_zero_of_mem hnul (show 7 < text.length by omega)
    have n8 := getD_ne_zero_of_mem hnul (show 8 < text.length by omega)
    have n9 := getD_ne_zero_of_mem hnul (show 9 < text.length by omega)
    have n10 := getD_ne_zero_of_mem hnul (show 10 < text.length by omega)
    have n11 := getD_ne_zero_of_mem hnul (show 11 < text.length by omega)
    rw [text_take_eq_slice text 12 h]
    simp only [out_upcean_split_text, show ((12 : Int) = 6) = False from by decide, show ((12 : Int) = 8) = False from by decide, if_false, if_true]
    rw [char_at_lt (show 0 < text.length by omega)]
    simp only [Option.bind_eq_bind, Option.some_bind]
    rw [text_parts_copy_eq _ _ _ _ _ (show 1 + 5 ≤ text.length by omega)]
    simp only [Option.bind_eq_bind, Option.some_bind]
    rw [text_parts_copy_eq _ _ _ _ _ (show 6 + 5 ≤ text.length by omega)]
    simp only [Option.bind_eq_bind, Option.some_bind]
    rw [char_at_lt (show 11 < text.length by omega)]
    simp only [Option.bind_eq_bind, Option.some_bind]
    refine ⟨_, rfl, ?_⟩
    simp [part_string, part_bytes, range_seven, text_slice, text_parts.store, List.range_succ,
      List.takeWhile, n0, n1, n2, n3, n4, n5, n6, n7, n8, n9, n10, n11]
  · intro h
    have n0 := getD_ne_zero_of_mem hnul (show 0 < text.length by omega)
    have n1 := getD_ne_zero_of_mem hnul (show 1 < text.length by omega)
    have n2 := getD_ne_zero_of_mem hnul (show 2 < text.length by omega)
    have n3 := getD_ne_zero_of_mem hnul (show 3 < text.length by omega)
    have n4 := getD_ne_zero_of_mem hnul (show 4 < text.length by omega)
    have n5 := getD_ne_zero_of_mem hnul (show 5 < text.length by omega)
    have n6 := getD_ne_zero_of_mem hnul (show 6 < text.length by omega)
    have n7 := getD_ne_zero_of_mem hnul (show 7 < text.length by omega)
    rw [text_take_eq_slice text 8 h]
    simp only [out_upcean_split_text, show ((8 : Int) = 6) = False from by decide, if_false, if_true]
    rw [text_parts_copy_eq _ _ _ _ _ (show 0 + 4 ≤ text.length by omega)]
    simp only [Option.bind_eq_bind, Option.some_bind]
    rw [text_parts_copy_eq _ _ _ _ _ (show 4 + 4 ≤ text.length by omega)]
    simp only [Option.bind_eq_bind, Option.some_bind]
    refine ⟨_, rfl, ?_⟩
    simp [part_string, part_bytes, range_seven, text_slice, text_parts.store, List.range_succ,
      List.takeWhile, n0, n1, n2, n3, n4, n5, n6, n7]
  · intro h
    have n0 := getD_ne_zero_of_mem hnul (show 0 < text.length by omega)
    have n1 := getD_ne_zero_of_mem hnul (show 1 < text.length by omega)
    have n2 := getD_ne_zero_of_mem hnul (show 2 < text.length by omega)
    have n3 := getD_ne_zero_of_mem hnul (show 3 < text.length by omega)
    have n4 := getD_ne_zero_of_mem hnul (show 4 < text.length by omega)
    have n5 := getD_ne_zero_of_mem hnul (show 5 < text.length by omega)
    have n6 := getD_ne_zero_of_mem hnul (show 6 < text.length by omega)
    have n7 := getD_ne_zero_of_mem hnul (show 7 < text.length by omega)
    rw [text_take_eq_slice text 8 h]
    simp only [out_upcean_split_text, if_false, if_true]
    rw [char_at_lt (show 0 < text.length by omega)]
    simp only [Option.bind_eq_bind, Option.some_bind]
    rw [text_parts_copy_eq _ _ _ _ _ (show 1 + 6 ≤ text.length by omega)]
    simp only [Option.bind_eq_bind, Option.some_bind]
    rw [char_at_lt (show 7 < text.length by omega)]
    simp only [Option.bind_eq_bind, Option.some_bind]
    refine ⟨_, rfl, ?_⟩
    simp [part_string, part_bytes, range_seven, text_slice, text_parts.store, List.range_succ,
      List.takeWhile, n0, n1, n2, n3, n4, n5, n6, n7]

/-- The EAN-13 text "2109876543210" splits into "2", "109876" and "543210". -/
theorem out_upcean_split_text_parts_witness :
    (∀ c ∈ cstr "2109876543210", c ≠ 0) ∧ 13 ≤ (cstr "2109876543210").length
    ∧ ∃ tp, out_upcean_split_text 13 (cstr "2109876543210") (fun _ _ => 7) = some tp
      ∧ part_string tp 0 = cstr "2" ∧ part_string tp 1 = cstr "109876"
      ∧ part_string tp 2 = cstr "543210"
      ∧ part_string tp 0 ++ part_string tp 1 ++ part_string tp 2 = cstr "2109876543210" := by
  obtain ⟨tp, h, _, _, _, h0, h1, h2, h3⟩ :=
    (out_upcean_split_text_parts (cstr "2109876543210") (fun _ _ => 7) (by decide)).1 (by decide)
  exact ⟨by decide, by decide, tp, h, h0.trans (by decide), h1.trans (by decide),
    h2.trans (by decide), h3.trans (by decide)⟩

/-! ## `out_process_upcean` -/

theorem isolate_addon_latched (show_hrt : Int) (l : CStr) (acc : CStr) (h : acc.length ≤ 5) :
    l.foldl
      (fun (st : Bool × CStr) c =>
        if st.2.length < 5 then
          if st.1 then (true, st.2 ++ [if show_hrt ≠ 0 then c else 32])
          else if c = 43 then (true, st.2)
          else st
        else st)
      (true, acc)
    = (true, acc ++ (l.take (5 - acc.length)).map (fun c => if show_hrt ≠ 0 then c else 32)) := by
  induction l generalizing acc with
  | nil => simp
  | cons c t ih =>
    rw [List.foldl_cons]
    by_cases hl : acc.length < 5
    · simp only [hl, if_true]
      rw [ih _ (by simp; omega)]
      have e : 5 - acc.length = (5 - (acc.length + 1)) + 1 := by omega
      rw [e, List.take_succ_cons]
      simp
    · have e : acc.length = 5 := by omega
      simp only [hl, if_false]
      rw [ih _ h]
      simp [e]

theorem isolate_addon_eq (symbol : zint_symbol) :
    isolate_addon symbol
      = (decide (43 ∈ symbol.text.drop 6),
         (addon_chars symbol.text).map (fun c => if symbol.show_hrt ≠ 0 then c else 32)) := by
  unfold isolate_addon addon_chars
  generalize symbol.text.drop 6 = l
  induction l with
  | nil => simp [strchr]
  | cons c t ih =>
    rw [List.foldl_cons]
    by_cases hc : c = 43
    · subst hc
      simp only [List.length_nil, Nat.lt_add_one, if_true, Bool.false_eq_true, if_false,
        Nat.ofNat_pos]
      rw [isolate_addon_latched _ _ _ (by simp)]
      simp [strchr]
    · simp only [List.length_nil, Nat.ofNat_pos, if_true, Bool.false_eq_true, if_false, hc]
      rw [ih]
      have hc2 : ¬ 43 = c := fun h => hc h.symm
      cases hs : strchr t 43 with
      | none => simp [strchr, hc, hc2, hs]
      | some p => simp [strchr, hc, hc2, hs]

theorem out_process_upcean_eq (symbol : zint_symbol) (r : upcean_result)
    (h : out_process_upcean symbol = some r) :
    ∃ x : Int,
      (if is_composite symbol.symbology then
        (composite_scan symbol ((bottom_row symbol).length + 1) 0).map (fun x => ((x : Nat) : Int))
       else some 0) = some x
      ∧ r.comp_xoffset = x
      ∧ r.addon = (isolate_addon symbol).2
      ∧ r.addon_gap =
        (if (isolate_addon symbol).1 then
          if symbol.symbology = BARCODE_UPCA ∨ symbol.symbology = BARCODE_UPCA_CHK
              ∨ symbol.symbology = BARCODE_UPCA_CC then
            some (if symbol.option_2 ≥ 9 ∧ symbol.option_2 ≤ 12 then symbol.option_2 else 9)
          else
            some (if symbol.option_2 ≥ 7 ∧ symbol.option_2 ≤ 12 then symbol.option_2 else 7)
        else none)
      ∧ (r.upceanflag, r.main_width) =
        (if symbol.symbology = BARCODE_EANX ∨ symbol.symbology = BARCODE_EANX_CHK
            ∨ symbol.symbology = BARCODE_EANX_CC ∨ symbol.symbology = BARCODE_ISBNX then
          if ((ustrlen symbol.text : Nat) : Int) = 13 ∨ ((ustrlen symbol.text : Nat) : Int) = 16
              ∨ ((ustrlen symbol.text : Nat) : Int) = 19 then (13, 95 + x)
          else if ((ustrlen symbol.text : Nat) : Int) = 2 then (2, symbol.width)
          else if ((ustrlen symbol.text : Nat) : Int) = 5 then (5, symbol.width)
          else (8, 68 + x)
        else if symbol.symbology = BARCODE_UPCA ∨ symbol.symbology = BARCODE_UPCA_CHK
            ∨ symbol.symbology = BARCODE_UPCA_CC then (12, 95 + x)
        else if symbol.symbology = BARCODE_UPCE ∨ symbol.symbology = BARCODE_UPCE_CHK
            ∨ symbol.symbology = BARCODE_UPCE_CC then (6, 51 + x)
        else (0, symbol.width)) := by
  unfold out_process_upcean at h
  simp only [Option.bind_eq_bind, Option.bind_eq_some] at h
  obtain ⟨x, hx, hr⟩ := h
  simp only [Option.some.injEq] at hr
  subst hr
  exact ⟨x, hx, rfl, rfl, rfl, rfl⟩

theorem module_is_set_bottom (symbol : zint_symbol) (x : Nat) :
    module_is_set symbol ((symbol.rows : Int) - 1) x = (bottom_row symbol)[x]? := by
  unfold module_is_set bottom_row
  by_cases h : symbol.rows = 0
  · simp [h]
  · have h1 : ¬ ((symbol.rows : Int) - 1 < 0) := by omega
    have h2 : ((symbol.rows : Int) - 1).toNat = symbol.rows - 1 := by omega
    simp [h, h1, h2]

theorem composite_scan_eq (symbol : zint_symbol) (fuel x : Nat)
    (h : (bottom_row symbol).length < fuel + x) :
    composite_scan symbol fuel x
      = if true ∈ (bottom_row symbol).drop x then
          some (x + leading_unset ((bottom_row symbol).drop x))
        else none := by
  induction fuel generalizing x with
  | zero =>
    have e : (bottom_row symbol).drop x = [] := List.drop_eq_nil_of_le (by omega)
    simp [composite_scan, e]
  | succ fuel ih =>
    rw [composite_scan, module_is_set_bottom]
    by_cases hx : x < (bottom_row symbol).length
    · have e : (bottom_row symbol).drop x
          = (bottom_row symbol)[x] :: (bottom_row symbol).drop (x + 1) :=
        List.drop_eq_getElem_cons hx
      rw [List.getElem?_eq_getElem hx, e]
      cases hm : (bottom_row symbol)[x] with
      | true => simp [leading_unset]
      | false =>
        simp only
        rw [ih (x + 1) (by omega)]
        by_cases ht : true ∈ (bottom_row symbol).drop (x + 1)
        · simp [ht, leading_unset, List.takeWhile]
          omega
        · simp [ht]
    · have e : (bottom_row symbol).drop x = [] := List.drop_eq_nil_of_le (by omega)
      have e2 : (bottom_row symbol)[x]? = none := List.getElem?_eq_none (by omega)
      simp [e, e2]

/-- `out_process_upcean` returns for every symbol that is not a composite and
for every composite whose bottom row has a set module. -/
theorem out_process_upcean_returns (symbol : zint_symbol)
    (h : is_composite symbol.symbology = false ∨ true ∈ bottom_row symbol) :
    ∃ r, out_process_upcean symbol = some r := by
  by_cases hc : is_composite symbol.symbology = true
  · rcases h with h | h
    · rw [h] at hc
      exact absurd hc (by decide)
    · have e := composite_scan_eq symbol ((bottom_row symbol).length + 1) 0 (by omega)
      simp only [List.drop_zero, h, if_true, Nat.zero_add] at e
      unfold out_process_upcean
      simp [hc, e]
  · unfold out_process_upcean
    simp [hc]

theorem addon_chars_length (text : CStr) : (addon_chars text).length ≤ 5 := by
  unfold addon_chars
  cases strchr (text.drop 6) 43 with
  | none => simp
  | some p => simp only [List.length_take]; omega

/-- C24: `out_process_upcean` finds the first `+` at index 6 or later of the
text and copies the characters after it, at most five, into `addon`, each
replaced by a space when `show_hrt` is 0, and terminates them with a NUL; with
no such `+` the add-on is the empty string.  The add-on never exceeds 5
characters, so with its terminator it fits the 6-byte buffer.  The function
returns for every symbol that is not a composite, and for every composite
whose bottom row has a set module. -/
theorem out_process_upcean_addon_text (symbol : zint_symbol) :
    ((is_composite symbol.symbology = false ∨ true ∈ bottom_row symbol) →
      ∃ r, out_process_upcean symbol = some r)
    ∧ ∀ r, out_process_upcean symbol = some r →
      r.addon = (addon_chars symbol.text).map (fun c => if symbol.show_hrt ≠ 0 then c else 32)
      ∧ (symbol.show_hrt ≠ 0 → r.addon = addon_chars symbol.text)
      ∧ (symbol.show_hrt = 0 → r.addon = List.replicate (addon_chars symbol.text).length 32)
      ∧ (43 ∉ symbol.text.drop 6 → r.addon = [])
      ∧ r.addon.length ≤ 5 ∧ r.addon.length + 1 ≤ 6 := by
  refine ⟨out_process_upcean_returns symbol, ?_⟩
  intro r h
  obtain ⟨x, _, _, ha, _, _⟩ := out_process_upcean_eq symbol r h
  rw [isolate_addon_eq] at ha
  simp only at ha
  have hl := addon_chars_length symbol.text
  refine ⟨ha, ?_, ?_, ?_, ?_, ?_⟩
  · intro hs
    rw [ha]
    simp [hs]
  · intro hs
    rw [ha]
    simp [hs, List.eq_replicate_iff]
  · intro hn
    rw [ha]
    simp [addon_chars, strchr_eq_none.mpr hn]
  · rw [ha]; simpa using hl
  · rw [ha]; simp only [List.length_map]; omega

/-- The text "2109876543210+54321" gives the add-on "54321". -/
theorem out_process_upcean_addon_text_witness :
    ∃ r, out_process_upcean test_emf_ean = some r ∧ r.addon = cstr "54321" := by
  obtain ⟨r, hr⟩ := (out_process_upcean_addon_text test_emf_ean).1 (Or.inl (by decide))
  exact ⟨r, hr, ((out_process_upcean_addon_text test_emf_ean).2 r hr).1.trans (by decide)⟩

/-- C25: when an add-on is present, a `+` at index 6 or later of the text,
`out_process_upcean` sets the add-on gap to `option_2` if 9 <= option_2 <= 12
and to 9 otherwise for UPCA, UPCA_CHK and UPCA_CC, and to `option_2` if
7 <= option_2 <= 12 and to 7 otherwise for every other symbology, so the gap
lies in 9..12 and 7..12 respectively; with no add-on the gap is not written.
The function returns for every symbol that is not a composite, and for every
composite whose bottom row has a set module. -/
theorem out_process_upcean_addon_gap (symbol : zint_symbol) :
    ((is_composite symbol.symbology = false ∨ true ∈ bottom_row symbol) →
      ∃ r, out_process_upcean symbol = some r)
    ∧ ∀ r, out_process_upcean symbol = some r →
    (43 ∈ symbol.text.drop 6 →
      (symbol.symbology ∈ [BARCODE_UPCA, BARCODE_UPCA_CHK, BARCODE_UPCA_CC] →
        r.addon_gap
          = some (if 9 ≤ symbol.option_2 ∧ symbol.option_2 ≤ 12 then symbol.option_2 else 9)
        ∧ ∃ g, r.addon_gap = some g ∧ 9 ≤ g ∧ g ≤ 12)
      ∧ (symbol.symbology ∉ [BARCODE_UPCA, BARCODE_UPCA_CHK, BARCODE_UPCA_CC] →
        r.addon_gap
          = some (if 7 ≤ symbol.option_2 ∧ symbol.option_2 ≤ 12 then symbol.option_2 else 7)
        ∧ ∃ g, r.addon_gap = some g ∧ 7 ≤ g ∧ g ≤ 12))
    ∧ (43 ∉ symbol.text.drop 6 → r.addon_gap = none) := by
  refine ⟨out_process_upcean_returns symbol, ?_⟩
  intro r h
  obtain ⟨x, _, _, _, hg, _⟩ := out_process_upcean_eq symbol r h
  rw [isolate_addon_eq] at hg
  simp only [decide_eq_true_eq] at hg
  refine ⟨fun hp => ⟨?_, ?_⟩, ?_⟩
  · intro hs
    have hs2 : symbol.symbology = BARCODE_UPCA ∨ symbol.symbology = BARCODE_UPCA_CHK
        ∨ symbol.symbology = BARCODE_UPCA_CC := by simpa using hs
    rw [if_pos hp, if_pos hs2] at hg
    refine ⟨hg, ?_⟩
    rw [hg]
    by_cases ho : symbol.option_2 ≥ 9 ∧ symbol.option_2 ≤ 12
    · exact ⟨_, by rw [if_pos ho], ho.1, ho.2⟩
    · exact ⟨_, by rw [if_neg ho], by decide, by decide⟩
  · intro hs
    have hs2 : ¬ (symbol.symbology = BARCODE_UPCA ∨ symbol.symbology = BARCODE_UPCA_CHK
        ∨ symbol.symbology = BARCODE_UPCA_CC) := by simpa using hs
    rw [if_pos hp, if_neg hs2] at hg
    refine ⟨hg, ?_⟩
    rw [hg]
    by_cases ho : symbol.option_2 ≥ 7 ∧ symbol.option_2 ≤ 12
    · exact ⟨_, by rw [if_pos ho], ho.1, ho.2⟩
    · exact ⟨_, by rw [if_neg ho], by decide, by decide⟩
  · intro hn
    rw [if_neg hn] at hg
    exact hg

/-- The EAN-13 symbol with add-on "54321" and `option_2` 0 gets the gap 7. -/
theorem out_process_upcean_addon_gap_witness :
    ∃ r, out_process_upcean test_emf_ean = some r ∧ r.addon_gap = some 7 :=
  ⟨{ upceanflag := 13, main_width := 95, comp_xoffset := 0, addon := cstr "54321",
     addon_gap := some 7 },
   by decide,
   ((((out_process_upcean_addon_gap test_emf_ean).2 _ (by decide)).1 (by decide)).2
     (by decide)).1.trans (by decide)⟩

/-- C26: `out_process_upcean` returns type 13 with main width 95 + composite
offset for EANX, EANX_CHK, EANX_CC or ISBNX text of length 13, 16 or 19, type 2
or 5 with the symbol width for text of length 2 or 5, and type 8 with width
68 + offset for any other length; type 12 with 95 + offset for UPCA, UPCA_CHK,
UPCA_CC; type 6 with 51 + offset for UPCE, UPCE_CHK, UPCE_CC; type 0 with the
symbol width for every other symbology.  The type is one of 0, 2, 5, 6, 8, 12,
13 and is 0 exactly outside the EAN/UPC family.  The function returns for
every symbol that is not a composite, and for every composite whose bottom row
has a set module. -/
theorem out_process_upcean_type (symbol : zint_symbol) :
    ((is_composite symbol.symbology = false ∨ true ∈ bottom_row symbol) →
      ∃ r, out_process_upcean symbol = some r)
    ∧ ∀ r, out_process_upcean symbol = some r →
    (symbol.symbology ∈ [BARCODE_EANX, BARCODE_EANX_CHK, BARCODE_EANX_CC, BARCODE_ISBNX] →
      (ustrlen symbol.text ∈ [13, 16, 19] →
        r.upceanflag = 13 ∧ r.main_width = 95 + r.comp_xoffset)
      ∧ (ustrlen symbol.text = 2 → r.upceanflag = 2 ∧ r.main_width = symbol.width)
      ∧ (ustrlen symbol.text = 5 → r.upceanflag = 5 ∧ r.main_width = symbol.width)
      ∧ (ustrlen symbol.text ∉ [13, 16, 19, 2, 5] →
        r.upceanflag = 8 ∧ r.main_width = 68 + r.comp_xoffset))
    ∧ (symbol.symbology ∈ [BARCODE_UPCA, BARCODE_UPCA_CHK, BARCODE_UPCA_CC] →
      r.upceanflag = 12 ∧ r.main_width = 95 + r.comp_xoffset)
    ∧ (symbol.symbology ∈ [BARCODE_UPCE, BARCODE_UPCE_CHK, BARCODE_UPCE_CC] →
      r.upceanflag = 6 ∧ r.main_width = 51 + r.comp_xoffset)
    ∧ (symbol.symbology ∉ [BARCODE_EANX, BARCODE_EANX_CHK, BARCODE_EANX_CC, BARCODE_ISBNX,
          BARCODE_UPCA, BARCODE_UPCA_CHK, BARCODE_UPCA_CC,
          BARCODE_UPCE, BARCODE_UPCE_CHK, BARCODE_UPCE_CC] →
      r.upceanflag = 0 ∧ r.main_width = symbol.width)
    ∧ r.upceanflag ∈ [0, 2, 5, 6, 8, 12, 13]
    ∧ (r.upceanflag = 0 ↔
      symbol.symbology ∉ [BARCODE_EANX, BARCODE_EANX_CHK, BARCODE_EANX_CC, BARCODE_ISBNX,
        BARCODE_UPCA, BARCODE_UPCA_CHK, BARCODE_UPCA_CC,
        BARCODE_UPCE, BARCODE_UPCE_CHK, BARCODE_UPCE_CC]) := by
  refine ⟨out_process_upcean_returns symbol, ?_⟩
  intro r h
  obtain ⟨x, _, hx, _, _, hp⟩ := out_process_upcean_eq symbol r h
  rw [hx]
  have h1 := congrArg Prod.fst hp
  have h2 := congrArg Prod.snd hp
  simp only at h1 h2
  generalize r.upceanflag = flag at h1 ⊢
  generalize r.main_width = mw at h2 ⊢
  generalize symbol.symbology = sym at h1 h2 ⊢
  generalize ustrlen symbol.text = len at h1 h2 ⊢
  by_cases ha : sym = 13 ∨ sym = 14 ∨ sym = 130 ∨ sym = 69
  · have nb : ¬ (sym = 34 ∨ sym = 35 ∨ sym = 135) := by omega
    have nc : ¬ (sym = 37 ∨ sym = 38 ∨ sym = 136) := by omega
    have na : ¬ (sym = 34 ∨ sym = 35 ∨ sym = 135 ∨ sym = 37 ∨ sym = 38 ∨ sym = 136) := by omega
    simp only [BARCODE_EANX, BARCODE_EANX_CHK, BARCODE_EANX_CC, BARCODE_ISBNX, ha, if_true]
      at h1 h2
    by_cases l1 : len = 13 ∨ len = 16 ∨ len = 19
    · have l2 : ¬ len = 2 := by omega
      have l5 : ¬ len = 5 := by omega
      have i1 : (len : Int) = 13 ∨ (len : Int) = 16 ∨ (len : Int) = 19 := by omega
      simp only [i1, if_true] at h1 h2
      simp [ha, nb, nc, na, l1, l2, l5, h1, h2]
    · have i1 : ¬ ((len : Int) = 13 ∨ (len : Int) = 16 ∨ (len : Int) = 19) := by omega
      by_cases l2 : len = 2
      · have i2 : (len : Int) = 2 := by omega
        simp only [i1, i2, if_true, if_false] at h1 h2
        simp [ha, nb, nc, na, l2, h1, h2]
      · have i2 : ¬ (len : Int) = 2 := by omega
        by_cases l5 : len = 5
        · have i5 : (len : Int) = 5 := by omega
          simp only [i1, i2, i5, if_true, if_false] at h1 h2
          simp [ha, nb, nc, na, l5, h1, h2]
        · have i5 : ¬ (len : Int) = 5 := by omega
          simp only [i1, i2, i5, if_false] at h1 h2
          have l1b : ¬ len = 13 := by omega
          have l1c : ¬ len = 16 := by omega
          have l1d : ¬ len = 19 := by omega
          simp [ha, nb, nc, na, l1b, l1c, l1d, l2, l5, h1, h2]
  · by_cases hb : sym = 34 ∨ sym = 35 ∨ sym = 135
    · have nc : ¬ (sym = 37 ∨ sym = 38 ∨ sym = 136) := by omega
      simp only [BARCODE_EANX, BARCODE_EANX_CHK, BARCODE_EANX_CC, BARCODE_ISBNX, BARCODE_UPCA,
        BARCODE_UPCA_CHK, BARCODE_UPCA_CC, ha, hb, if_true, if_false] at h1 h2
      have na1 : ¬ sym = 13 := by omega
      have na2 : ¬ sym = 14 := by omega
      have na3 : ¬ sym = 130 := by omega
      have na4 : ¬ sym = 69 := by omega
      simp [na1, na2, na3, na4, hb, nc, h1, h2]
    · by_cases hc : sym = 37 ∨ sym = 38 ∨ sym = 136
      · simp only [BARCODE_EANX, BARCODE_EANX_CHK, BARCODE_EANX_CC, BARCODE_ISBNX, BARCODE_UPCA,
          BARCODE_UPCA_CHK, BARCODE_UPCA_CC, BARCODE_UPCE, BARCODE_UPCE_CHK, BARCODE_UPCE_CC,
          ha, hb, hc, if_true, if_false] at h1 h2
        have na1 : ¬ sym = 13 := by omega
        have na2 : ¬ sym = 14 := by omega
        have na3 : ¬ sym = 130 := by omega
        have na4 : ¬ sym = 69 := by omega
        have nb1 : ¬ sym = 34 := by omega
        have nb2 : ¬ sym = 35 := by omega
        have nb3 : ¬ sym = 135 := by omega
        simp [na1, na2, na3, na4, nb1, nb2, nb3, hc, h1, h2]
      · simp only [BARCODE_EANX, BARCODE_EANX_CHK, BARCODE_EANX_CC, BARCODE_ISBNX, BARCODE_UPCA,
          BARCODE_UPCA_CHK, BARCODE_UPCA_CC, BARCODE_UPCE, BARCODE_UPCE_CHK, BARCODE_UPCE_CC,
          ha, hb, hc, if_false] at h1 h2
        have na1 : ¬ sym = 13 := by omega
        have na2 : ¬ sym = 14 := by omega
        have na3 : ¬ sym = 130 := by omega
        have na4 : ¬ sym = 69 := by omega
        have nb1 : ¬ sym = 34 := by omega
        have nb2 : ¬ sym = 35 := by omega
        have nb3 : ¬ sym = 135 := by omega
        have nc1 : ¬ sym = 37 := by omega
        have nc2 : ¬ sym = 38 := by omega
        have nc3 : ¬ sym = 136 := by omega
        simp [na1, na2, na3, na4, nb1, nb2, nb3, nc1, nc2, nc3, h1, h2]

/-- The EAN-13 symbol with add-on, text of length 19, has type 13 and main
width 95. -/
theorem out_process_upcean_type_witness :
    ∃ r, out_process_upcean test_emf_ean = some r
      ∧ r.upceanflag = 13 ∧ r.main_width = 95 + r.comp_xoffset :=
  ⟨{ upceanflag := 13, main_width := 95, comp_xoffset := 0, addon := cstr "54321",
     addon_gap := some 7 },
   by decide,
   (((out_process_upcean_type test_emf_ean).2 _ (by decide)).1 (by decide)).1 (by decide)⟩

/-- C27, as stated, fails: the composite symbol whose bottom row is unset, set,
unset, set has two unset modules in that row, and the composite offset is 1. -/
theorem composite_offset_not_unset_count :
    is_composite composite_ean.symbology = true
    ∧ unset_count (bottom_row composite_ean) = 2
    ∧ ∃ r, out_process_upcean composite_ean = some r ∧ r.comp_xoffset = 1
      ∧ r.comp_xoffset ≠ ((unset_count (bottom_row composite_ean) : Nat) : Int) :=
  ⟨by decide, by decide,
   { upceanflag := 13, main_width := 96, comp_xoffset := 1, addon := [], addon_gap := none },
   by decide, rfl, by decide⟩

/-- C27, amended: for a composite symbol whose bottom row has a set module,
the composite offset returned by `out_process_upcean` is the number of unset
modules of the bottom row before its first set module; for a symbol that is
not a composite it is 0. -/
theorem out_process_upcean_offset (symbol : zint_symbol) :
    (is_composite symbol.symbology = true → true ∈ bottom_row symbol →
      ∃ r, out_process_upcean symbol = some r
        ∧ r.comp_xoffset = ((leading_unset (bottom_row symbol) : Nat) : Int))
    ∧ (is_composite symbol.symbology = false →
      ∃ r, out_process_upcean symbol = some r ∧ r.comp_xoffset = 0) := by
  constructor
  · intro hc ht
    have e := composite_scan_eq symbol ((bottom_row symbol).length + 1) 0 (by omega)
    simp only [List.drop_zero, ht, if_true, Nat.zero_add] at e
    unfold out_process_upcean
    simp [hc, e]
  · intro hc
    unfold out_process_upcean
    simp [hc]

/-- The composite symbol whose bottom row is unset, set, unset, set has
offset 1. -/
theorem out_process_upcean_offset_witness :
    is_composite composite_ean.symbology = true ∧ true ∈ bottom_row composite_ean
    ∧ ∃ r, out_process_upcean composite_ean = some r
      ∧ r.comp_xoffset = ((leading_unset (bottom_row composite_ean) : Nat) : Int) :=
  ⟨by decide, by decide, (out_process_upcean_offset composite_ean).1 (by decide) (by decide)⟩

/-! ## `ps_plot` -/

theorem ps_get_colours_bgalpha (symbol : zint_symbol) (c : ps_colours)
    (h : ps_get_colours symbol = some c) : resolved_bgalpha symbol = some c.bgalpha := by
  unfold ps_get_colours at h
  unfold resolved_bgalpha
  by_cases hc : symbol.output_options &&& CMYK_COLOUR = 0
  · simp only [hc, if_true, Option.bind_eq_bind, Option.bind_eq_some] at h ⊢
    obtain ⟨fg, _, bg, hbg, a, ha, hr⟩ := h
    simp only [Option.some.injEq] at hr
    subst hr
    exact ⟨bg, hbg, ha⟩
  · simp only [hc, if_false, Option.bind_eq_bind, Option.bind_eq_some] at h ⊢
    obtain ⟨fg, _, bg, hbg, a, ha, hr⟩ := h
    simp only [Option.some.injEq] at hr
    subst hr
    exact ⟨bg, hbg, ha⟩

theorem ps_plot_document (symbol : zint_symbol) (env : ps_env) (vector : zint_vector)
    (r : ps_result) (hv : symbol.vector = some vector) (ho : stream_open symbol env)
    (h : ps_plot symbol env = some r) :
    ∃ c text, ps_get_colours symbol = some c ∧ ps_text symbol vector = some text
      ∧ r.document = ps_header vector env ++ ps_definitions vector ++ [.fputs "newpath\n"]
        ++ ps_background symbol vector c ++ ps_foreground symbol c
        ++ ps_rectangles symbol vector c ++ ps_hexagons vector ++ ps_circles symbol vector c
        ++ text := by
  unfold ps_plot at h
  rw [hv] at h
  have ho2 : ¬ (symbol.output_options &&& BARCODE_STDOUT = 0 ∧ env.fopen_ok = false) := by
    unfold stream_open at ho
    rcases ho with h1 | h1
    · exact fun h2 => h1 h2.1
    · simp [h1]
  simp only [ho2, if_false, Option.bind_eq_bind, Option.bind_eq_some] at h
  obtain ⟨c, hc, text, ht, hr⟩ := h
  refine ⟨c, text, hc, ht, ?_⟩
  split_ifs at hr <;> (simp only [Option.some.injEq] at hr; rw [← hr])

/-- `ps_plot` returns whenever the colours resolve and the text runs convert
within the buffer. -/
theorem ps_plot_returns (symbol : zint_symbol) (env : ps_env) (vector : zint_vector)
    (c : ps_colours) (text : List ps_write) (hv : symbol.vector = some vector)
    (hc : ps_get_colours symbol = some c) (ht : ps_text symbol vector = some text) :
    ∃ r, ps_plot symbol env = some r := by
  unfold ps_plot
  rw [hv]
  simp only [hc, ht, Option.bind_eq_bind, Option.some_bind]
  split_ifs <;> exact ⟨_, rfl⟩

/-- C28: when `ps_plot` writes the document, the scene present and the stream
open, the document is the header, the definitions and `newpath`, then the
background, then the ink colour statement, the rectangles, the hexagons, the
circles and the text.  The background is the paper colour statement, the
rectangle over the whole canvas and `TE` when the alpha resolved for the
background is non-zero, and nothing at all when it is zero.  The function
returns whenever the colours resolve and the text runs convert within the
buffer. -/
theorem ps_plot_background (symbol : zint_symbol) (env : ps_env) (vector : zint_vector)
    (hv : symbol.vector = some vector) (ho : stream_open symbol env) :
    (∀ c text, ps_get_colours symbol = some c → ps_text symbol vector = some text →
      ∃ r, ps_plot symbol env = some r)
    ∧ ∀ r, ps_plot symbol env = some r →
    ∃ alpha c text, resolved_bgalpha symbol = some alpha
      ∧ ps_get_colours symbol = some c ∧ ps_text symbol vector = some text
      ∧ r.document
        = (ps_header vector env ++ ps_definitions vector ++ [.fputs "newpath\n"])
          ++ (if alpha ≠ 0 then
                [ps_set_paper symbol c,
                 .fprintf "%.2f 0.00 TB 0.00 %.2f TR\n" [.flt vector.height, .flt vector.width],
                 .fputs "TE\n"]
              else [])
          ++ (ps_foreground symbol c ++ ps_rectangles symbol vector c ++ ps_hexagons vector
              ++ ps_circles symbol vector c ++ text)
      ∧ (alpha ≠ 0 ↔
          .fprintf "%.2f 0.00 TB 0.00 %.2f TR\n" [.flt vector.height, .flt vector.width]
            ∈ ps_background symbol vector c)
      ∧ (alpha = 0 ↔ ps_background symbol vector c = []) := by
  refine ⟨fun c text hc ht => ps_plot_returns symbol env vector c text hv hc ht, ?_⟩
  intro r h
  obtain ⟨c, text, hc, ht, hd⟩ := ps_plot_document symbol env vector r hv ho h
  refine ⟨c.bgalpha, c, text, ps_get_colours_bgalpha symbol c hc, hc, ht, ?_, ?_, ?_⟩
  · rw [hd]
    simp only [ps_background, List.append_assoc]
  · unfold ps_background
    by_cases ha : c.bgalpha = 0
    · simp [ha]
    · simp [ha]
  · unfold ps_background
    by_cases ha : c.bgalpha = 0
    · simp [ha]
    · simp [ha]

/-- The MaxiCode-like scene on the opaque background "700070": the background
is drawn. -/
theorem ps_plot_background_witness :
    ∃ r vector, maxicode_scene.vector = some vector ∧ stream_open maxicode_scene plain_env
      ∧ ps_plot maxicode_scene plain_env = some r
      ∧ resolved_bgalpha maxicode_scene = some 255
      ∧ ∃ alpha c text, resolved_bgalpha maxicode_scene = some alpha
        ∧ ps_get_colours maxicode_scene = some c ∧ ps_text maxicode_scene vector = some text
        ∧ r.document
          = (ps_header vector plain_env ++ ps_definitions vector ++ [.fputs "newpath\n"])
            ++ (if alpha ≠ 0 then
                  [ps_set_paper maxicode_scene c,
                   .fprintf "%.2f 0.00 TB 0.00 %.2f TR\n" [.flt vector.height, .flt vector.width],
                   .fputs "TE\n"]
                else [])
            ++ (ps_foreground maxicode_scene c ++ ps_rectangles maxicode_scene vector c
                ++ ps_hexagons vector ++ ps_circles maxicode_scene vector c ++ text)
        ∧ (alpha ≠ 0 ↔
            .fprintf "%.2f 0.00 TB 0.00 %.2f TR\n" [.flt vector.height, .flt vector.width]
              ∈ ps_background maxicode_scene vector c)
        ∧ (alpha = 0 ↔ ps_background maxicode_scene vector c = []) := by
  obtain ⟨r, hr⟩ : ∃ r, ps_plot maxicode_scene plain_env = some r :=
    Option.isSome_iff_exists.mp (by decide)
  exact ⟨r, _, rfl, by decide, hr, by decide,
    (ps_plot_background maxicode_scene plain_env _ rfl (by decide)).2 r hr⟩

theorem ps_circle_widths_fold (l : List zint_vector_circle) (st : Bool × Bool) :
    l.foldl (fun st circle => if circle.width.num ≠ 0 then (true, st.2) else (st.1, true)) st
      = (st.1 || l.any (fun circle => decide (circle.width.num ≠ 0)),
         st.2 || l.any (fun circle => decide (circle.width.num = 0))) := by
  induction l generalizing st with
  | nil => simp
  | cons a t ih =>
    rw [List.foldl_cons, ih]
    by_cases h : a.width.num = 0
    · simp [h]
    · simp [h]

/-- C29, what the code does: `ps_plot` defines the disc primitive TD exactly
when some circle has zero ring width, the ring primitive TC exactly when some
circle has non-zero ring width and the hexagon primitive TH exactly when there
is a hexagon, each once; but it defines the rectangle primitives TB, TR and TE
for every scene.  For the scene with no shape and background alpha 0 the
document is the header, the definition of TB, TR and TE, `newpath` and the ink
colour statement: no background rectangle, yet a primitive definition. -/
theorem ps_plot_rectangle_definitions_unused :
    (∀ vector : zint_vector,
      (disc_definition ∈ ps_definitions vector ↔ ∃ c ∈ vector.circles, c.width.num = 0)
      ∧ (ring_definition ∈ ps_definitions vector ↔ ∃ c ∈ vector.circles, c.width.num ≠ 0)
      ∧ (hexagon_definition ∈ ps_definitions vector ↔ vector.hexagons ≠ [])
      ∧ rectangle_definitions ∈ ps_definitions vector
      ∧ (ps_definitions vector).count disc_definition ≤ 1
      ∧ (ps_definitions vector).count ring_definition ≤ 1
      ∧ (ps_definitions vector).count hexagon_definition ≤ 1
      ∧ (ps_definitions vector).count rectangle_definitions = 1)
    ∧ resolved_bgalpha empty_scene = some 0
    ∧ ∃ r vector c, empty_scene.vector = some vector ∧ ps_plot empty_scene plain_env = some r
      ∧ vector.rectangles = [] ∧ vector.hexagons = [] ∧ vector.circles = []
      ∧ vector.strings = []
      ∧ ps_get_colours empty_scene = some c
      ∧ r.document = ps_header vector plain_env
          ++ [rectangle_definitions, .fputs "newpath\n", ps_set_ink empty_scene c]
      ∧ rectangle_definitions ∈ r.document := by
  refine ⟨?_, by decide, ?_⟩
  · intro vector
    have e := ps_circle_widths_fold vector.circles (false, false)
    have d1 : disc_definition ≠ ring_definition := by decide
    have d2 : disc_definition ≠ hexagon_definition := by decide
    have d3 : disc_definition ≠ rectangle_definitions := by decide
    have d4 : ring_definition ≠ hexagon_definition := by decide
    have d5 : ring_definition ≠ rectangle_definitions := by decide
    have d6 : hexagon_definition ≠ rectangle_definitions := by decide
    have f1 : ps_definitions vector
        = (if (ps_circle_widths vector).2 then [disc_definition] else [])
          ++ (if (ps_circle_widths vector).1 then [ring_definition] else [])
          ++ (if vector.hexagons ≠ [] then [hexagon_definition] else [])
          ++ [rectangle_definitions] := rfl
    have e1 : (ps_circle_widths vector).1
        = vector.circles.any (fun circle => decide (circle.width.num ≠ 0)) := by
      unfold ps_circle_widths; rw [e]; simp
    have e2 : (ps_circle_widths vector).2
        = vector.circles.any (fun circle => decide (circle.width.num = 0)) := by
      unfold ps_circle_widths; rw [e]; simp
    rw [f1, e1, e2]
    by_cases c1 : vector.circles.any (fun circle => decide (circle.width.num ≠ 0)) = true <;>
    by_cases c2 : vector.circles.any (fun circle => decide (circle.width.num = 0)) = true <;>
    by_cases c3 : vector.hexagons = [] <;>
    (have c1b := c1
     have c2b := c2
     simp only [List.any_eq_true, decide_eq_true_eq] at c1b c2b
     simp [c1, c2, c3, c1b, c2b, d1, d2, d3, d4, d5, d6, d1.symm, d2.symm, d3.symm, d4.symm,
       d5.symm, d6.symm, List.count_cons])
  · obtain ⟨r, hr⟩ : ∃ r, ps_plot empty_scene plain_env = some r :=
      Option.isSome_iff_exists.mp (by decide)
    obtain ⟨c, text, hc, ht, hd⟩ := ps_plot_document empty_scene plain_env _ r rfl (by decide) hr
    have ht2 : text = [] := by
      have : ps_text empty_scene
          { width := F32.of_nat 10, height := F32.of_nat 10, rectangles := [], hexagons := [],
            strings := [], circles := [] } = some [] := by decide
      rw [this] at ht
      exact (Option.some.inj ht).symm
    refine ⟨r, _, c, rfl, hr, rfl, rfl, rfl, rfl, hc, ?_, ?_⟩
    · rw [hd, ht2]
      have hb : ps_background empty_scene
          { width := F32.of_nat 10, height := F32.of_nat 10, rectangles := [], hexagons := [],
            strings := [], circles := [] } c = [] := by
        have ha := ps_get_colours_bgalpha empty_scene c hc
        have h0 : resolved_bgalpha empty_scene = some 0 := by decide
        rw [h0] at ha
        have ha2 : c.bgalpha = 0 := (Option.some.inj ha).symm
        simp [ps_background, ha2]
      rw [hb]
      rfl
    · rw [hd]
      simp [ps_definitions, rectangle_definitions]

theorem ps_string_runs_eq (vector : zint_vector) (font : CStr) (ps_len : Nat)
    (strings : List zint_vector_string) (ws : List ps_write)
    (h : ps_string_runs vector font ps_len strings = some ws) :
    ws = strings.flatMap
      (fun s => ps_string_writes vector font s ((ps_convert s.text).getD [])) := by
  induction strings generalizing ws with
  | nil =>
    simp only [ps_string_runs, Option.some.injEq] at h
    simp [← h]
  | cons s rest ih =>
    unfold ps_string_runs at h
    cases hr : ps_string_run vector font ps_len s with
    | none => simp [hr] at h
    | some w =>
      simp only [hr, Option.map_eq_some'] at h
      obtain ⟨ws2, h2, h3⟩ := h
      rw [← h3, ih ws2 h2]
      unfold ps_string_run at hr
      cases hp : ps_convert s.text with
      | none => simp [hp] at hr
      | some p =>
        simp only [hp] at hr
        split_ifs at hr
        simp only [Option.some.injEq] at hr
        simp [← hr, hp]

/-- C30: the text of the document `ps_plot` writes ends with one run per text
run of the scene, in scene order.  Every run saves the current matrix first
and restores it last.  It has a rotate statement, of angle 360 - rotation and
between `gsave` and `grestore`, exactly when the rotation is non-zero.  It
measures the string width exactly for the alignments middle (0) and end (2),
and then moves the start point by the width divided by -2 for middle and by
the negated width for end; for start (1), and any other alignment, it neither
measures nor moves.  The function returns whenever the colours resolve and
the text runs convert within the buffer. -/
theorem ps_plot_text_runs (symbol : zint_symbol) (env : ps_env) (vector : zint_vector)
    (hv : symbol.vector = some vector) (ho : stream_open symbol env) :
    (∀ c text, ps_get_colours symbol = some c → ps_text symbol vector = some text →
      ∃ r, ps_plot symbol env = some r)
    ∧ (∀ r, ps_plot symbol env = some r →
      ∃ before font, r.document = before ++ vector.strings.flatMap
        (fun s => ps_string_writes vector font s ((ps_convert s.text).getD [])))
    ∧ ∀ (font : CStr) (string : zint_vector_string) (ps_string : CStr),
      (string.rotation = 0 → string.halign ≠ 0 → string.halign ≠ 2 →
        ps_string_writes vector font string ps_string
          = run_open vector font string ++ [run_show ps_string, .fputs "setmatrix\n"])
      ∧ (string.rotation = 0 → string.halign = 0 →
        ps_string_writes vector font string ps_string
          = run_open vector font string ++ [run_measure ps_string]
            ++ run_shift (cstr "-2 div") ++ [run_show ps_string, .fputs "setmatrix\n"])
      ∧ (string.rotation = 0 → string.halign = 2 →
        ps_string_writes vector font string ps_string
          = run_open vector font string ++ [run_measure ps_string]
            ++ run_shift (cstr "neg") ++ [run_show ps_string, .fputs "setmatrix\n"])
      ∧ (string.rotation ≠ 0 → string.halign ≠ 0 → string.halign ≠ 2 →
        ps_string_writes vector font string ps_string
          = run_open vector font string
            ++ [.fputs "gsave\n", run_rotate (360 - string.rotation)]
            ++ [run_show ps_string, .fputs "grestore\n", .fputs "setmatrix\n"])
      ∧ (string.rotation ≠ 0 → string.halign = 0 →
        ps_string_writes vector font string ps_string
          = run_open vector font string ++ [run_measure ps_string]
            ++ [.fputs "gsave\n", run_rotate (360 - string.rotation)]
            ++ run_shift (cstr "-2 div")
            ++ [run_show ps_string, .fputs "grestore\n", .fputs "setmatrix\n"])
      ∧ (string.rotation ≠ 0 → string.halign = 2 →
        ps_string_writes vector font string ps_string
          = run_open vector font string ++ [run_measure ps_string]
            ++ [.fputs "gsave\n", run_rotate (360 - string.rotation)]
            ++ run_shift (cstr "neg")
            ++ [run_show ps_string, .fputs "grestore\n", .fputs "setmatrix\n"]) := by
  refine ⟨fun c text hc ht => ps_plot_returns symbol env vector c text hv hc ht, ?_, ?_⟩
  · intro r h
    obtain ⟨c, text, hc, ht, hd⟩ := ps_plot_document symbol env vector r hv ho h
    unfold ps_text at ht
    by_cases hs : vector.strings = []
    · simp only [hs, ne_eq, not_true_eq_false, if_false, Option.some.injEq] at ht
      refine ⟨r.document, [], ?_⟩
      simp [hs]
    · simp only [hs, ne_eq, not_false_eq_true, if_true, Option.map_eq_some'] at ht
      obtain ⟨runs, hruns, ht2⟩ := ht
      have e := ps_string_runs_eq _ _ _ _ _ hruns
      rw [hd, ← ht2, e, ← List.append_assoc]
      exact ⟨_, _, rfl⟩
  · intro font string ps_string
    refine ⟨?_, ?_, ?_, ?_, ?_, ?_⟩
    · intro h1 h2 h3
      simp [ps_string_writes, run_open, run_show, h1, h2, h3]
    · intro h1 h2
      simp [ps_string_writes, run_open, run_show, run_measure, run_shift, h1, h2]
    · intro h1 h2
      simp [ps_string_writes, run_open, run_show, run_measure, run_shift, h1, h2]
    · intro h1 h2 h3
      simp [ps_string_writes, run_open, run_show, run_rotate, h1, h2, h3]
    · intro h1 h2
      simp [ps_string_writes, run_open, run_show, run_measure, run_shift, run_rotate, h1, h2]
    · intro h1 h2
      simp [ps_string_writes, run_open, run_show, run_measure, run_shift, run_rotate, h1, h2]

/-- The run of the MaxiCode-like scene, rotated by 90 degrees and aligned on
its middle: it is measured, rotated by 270 between `gsave` and `grestore` and
moved by the width divided by -2. -/
theorem ps_plot_text_runs_witness :
    ∃ r vector, maxicode_scene.vector = some vector ∧ stream_open maxicode_scene plain_env
      ∧ ps_plot maxicode_scene plain_env = some r
      ∧ (∃ before font, r.document = before ++ vector.strings.flatMap
          (fun s => ps_string_writes vector font s ((ps_convert s.text).getD [])))
      ∧ rotated_run ∈ vector.strings
      ∧ ps_string_writes vector (cstr "Helvetica") rotated_run (cstr "A\\(B")
          = run_open vector (cstr "Helvetica") rotated_run ++ [run_measure (cstr "A\\(B")]
            ++ [.fputs "gsave\n", run_rotate 270]
            ++ run_shift (cstr "-2 div")
            ++ [run_show (cstr "A\\(B"), .fputs "grestore\n", .fputs "setmatrix\n"] := by
  obtain ⟨r, hr⟩ : ∃ r, ps_plot maxicode_scene plain_env = some r :=
    Option.isSome_iff_exists.mp (by decide)
  have t := ps_plot_text_runs maxicode_scene plain_env _ rfl (by decide)
  exact ⟨r, _, rfl, by decide, hr, t.2.1 r hr, by decide,
    (t.2.2 (cstr "Helvetica") rotated_run (cstr "A\\(B")).2.2.2.2.1 (by decide) (by decide)⟩

/-! ## Large bar height with a pixel scale -/

theorem round_nearest_even_ge (n d K : Nat) (hd : 0 < d) (h : K * d ≤ n) :
    K ≤ round_nearest_even n d := by
  have h1 : K ≤ n / d := (Nat.le_div_iff_mul_le hd).mpr h
  unfold round_nearest_even
  simp only []
  split_ifs <;> omega

theorem f32_scale_down_spec (a b : Nat) (fuel t0 : Nat) :
    f32_scale_down a b fuel t0 = t0
    ∨ (t0 < f32_scale_down a b fuel t0
        ∧ 2 ^ 24 * (b * 2 ^ (f32_scale_down a b fuel t0 - 1)) ≤ a) := by
  induction fuel generalizing t0 with
  | zero => simp [f32_scale_down]
  | succ f ih =>
    unfold f32_scale_down
    by_cases h : a < 2 ^ 24 * (b * 2 ^ t0)
    · rw [if_pos h]
      exact Or.inl rfl
    · rw [if_neg h]
      rcases ih (t0 + 1) with i | ⟨i1, i2⟩
      · right
        rw [i]
        refine ⟨by omega, ?_⟩
        simp only [Nat.add_sub_cancel]
        omega
      · right
        exact ⟨by omega, i2⟩

theorem f32_scale_up_zero (a b : Nat) (h : 2 ^ 23 * b ≤ a) : f32_scale_up a b 149 0 = 0 := by
  have h2 : 2 ^ 23 * b ≤ a * 2 ^ 0 := by simpa using h
  show f32_scale_up a b (148 + 1) 0 = 0
  rw [f32_scale_up, if_pos h2]

/-- Rounding to `float` is monotone at a `float`: a ratio that is at least
`c / 2^k`, with `c` of 24 bits at most and `k` within the exponent range, rounds
to a value that is at least `c / 2^k`. -/
theorem f32_round_nat_ge (a b c k : Nat) (hb : 0 < b) (hc : c ≤ 2 ^ 24) (hk : k ≤ 149)
    (h : c * b ≤ a * 2 ^ k) :
    c * (f32_round_nat a b).2 ≤ (f32_round_nat a b).1 * 2 ^ k := by
  by_cases ha : a = 0
  · subst ha
    have hc0 : c = 0 := by
      rcases Nat.eq_zero_or_pos c with h0 | h0
      · exact h0
      · have : 0 < c * b := Nat.mul_pos h0 hb
        omega
    simp [f32_round_nat, hc0]
  · unfold f32_round_nat
    rw [if_neg (not_or.mpr ⟨ha, by omega⟩)]
    simp only []
    obtain ⟨_, hs⟩ := f32_scale_up_spec a b 149 0
    rcases f32_scale_down_spec a b 104 0 with ht | ⟨ht1, ht2⟩
    · -- no scaling down
      rw [ht]
      simp only [pow_zero, mul_one]
      generalize f32_scale_up a b 149 0 = s at hs
      by_cases hks : k ≤ s
      · -- c / 2^k is on the grid of the result
        obtain ⟨j, rfl⟩ : ∃ j, s = k + j := ⟨s - k, by omega⟩
        have h3 : c * 2 ^ j * b ≤ a * 2 ^ (k + j) := by
          calc c * 2 ^ j * b = c * b * 2 ^ j := by ring
            _ ≤ a * 2 ^ k * 2 ^ j := Nat.mul_le_mul_right _ h
            _ = a * 2 ^ (k + j) := by rw [pow_add]; ring
        have h4 := round_nearest_even_ge (a * 2 ^ (k + j)) b (c * 2 ^ j) hb h3
        calc c * 2 ^ (k + j) = c * 2 ^ j * 2 ^ k := by rw [pow_add]; ring
          _ ≤ round_nearest_even (a * 2 ^ (k + j)) b * 2 ^ k := Nat.mul_le_mul_right _ h4
      · -- the result has a full significand, above c / 2^k
        have hs2 : 2 ^ 23 * b ≤ a * 2 ^ s := by
          rcases hs with hs | hs
          · exact hs
          · omega
        have h4 := round_nearest_even_ge (a * 2 ^ s) b (2 ^ 23) hb hs2
        obtain ⟨j, rfl⟩ : ∃ j, k = s + 1 + j := ⟨k - s - 1, by omega⟩
        calc c * 2 ^ s ≤ 2 ^ 24 * 2 ^ s := Nat.mul_le_mul_right _ hc
          _ = 2 ^ 23 * 2 ^ (s + 1) := by rw [pow_succ]; ring
          _ ≤ round_nearest_even (a * 2 ^ s) b * 2 ^ (s + 1) := Nat.mul_le_mul_right _ h4
          _ ≤ round_nearest_even (a * 2 ^ s) b * 2 ^ (s + 1 + j) := by
            apply Nat.mul_le_mul_left
            exact Nat.pow_le_pow_right (by norm_num) (by omega)
    · -- scaling down: the ratio is 2^24 at least
      generalize f32_scale_down a b 104 0 = t at ht1 ht2
      obtain ⟨u, rfl⟩ : ∃ u, t = u + 1 := ⟨t - 1, by omega⟩
      simp only [Nat.add_sub_cancel] at ht2
      have hb2 : 2 ^ 23 * b ≤ a := by
        have : b ≤ b * 2 ^ u := Nat.le_mul_of_pos_right b (by positivity)
        have : 2 ^ 24 * b ≤ 2 ^ 24 * (b * 2 ^ u) := Nat.mul_le_mul_left _ this
        omega
      rw [f32_scale_up_zero a b hb2]
      simp only [pow_zero, mul_one]
      have h3 : 2 ^ 23 * (b * 2 ^ (u + 1)) ≤ a := by
        calc 2 ^ 23 * (b * 2 ^ (u + 1)) = 2 ^ 24 * (b * 2 ^ u) := by rw [pow_succ]; ring
          _ ≤ a := ht2
      have h4 := round_nearest_even_ge a (b * 2 ^ (u + 1)) (2 ^ 23) (by positivity) h3
      calc c ≤ 2 ^ 24 := hc
        _ = 2 ^ 23 * 2 := by norm_num
        _ ≤ round_nearest_even a (b * 2 ^ (u + 1)) * 2 := Nat.mul_le_mul_right _ h4
        _ ≤ round_nearest_even a (b * 2 ^ (u + 1)) * 2 ^ (u + 1) * 2 ^ k := by
          have p1 : 2 ≤ 2 ^ (u + 1) := by
            calc 2 = 2 ^ 1 := by norm_num
              _ ≤ 2 ^ (u + 1) := Nat.pow_le_pow_right (by norm_num) (by omega)
          have p2 : 1 ≤ 2 ^ k := Nat.one_le_two_pow
          rw [Nat.mul_assoc]
          apply Nat.mul_le_mul_left
          calc 2 = 2 * 1 := by norm_num
            _ ≤ 2 ^ (u + 1) * 2 ^ k := Nat.mul_le_mul p1 p2

theorem f32_round_nat_den_pos (a b : Nat) : 0 < (f32_round_nat a b).2 := by
  unfold f32_round_nat
  split_ifs
  · simp
  · simp only []
    positivity

theorem f32_round_nat_den_one (a b : Nat) (h : 2 ^ 23 * b ≤ a) : (f32_round_nat a b).2 = 1 := by
  unfold f32_round_nat
  split_ifs
  · rfl
  · simp only []
    rw [f32_scale_up_zero a b h]
    rfl

theorem f32_ge_half_iff (x : F32) :
    f32_ge x (f32_const 5 10) = true ↔ (x.den : Int) ≤ 2 * x.num := by
  rw [f32_const_half]
  simp only [f32_ge, decide_eq_true_eq]
  constructor <;> intro h <;> push_cast at h ⊢ <;> omega

/-- An auto-row height of at least 0.5 stays at least 0.5 when it is re-derived
by pixel rounding, at every positive scale. -/
theorem pixel_rounded_ge_half (x : F32) (si : Int) (hsi : 0 < si)
    (hx : f32_ge x (f32_const 5 10) = true) :
    f32_ge (pixel_rounded x si) (f32_const 5 10) = true := by
  unfold pixel_rounded
  by_cases hfin : isfintf (f32_mul x (f32_of_int si)) = false
  swap
  · rw [if_neg hfin]; exact hx
  rw [if_pos hfin]
  obtain ⟨n, rfl⟩ : ∃ n : Nat, si = (n : Int) := ⟨si.toNat, by omega⟩
  have hn : 0 < n := by omega
  rw [f32_ge_half_iff] at hx
  have hsif : f32_of_int (n : Int)
      = { num := ((f32_round_nat n 1).1 : Int), den := (f32_round_nat n 1).2 } := by
    rw [f32_of_int, f32_round_of_nat]
  rw [hsif] at hfin ⊢
  have hD := f32_round_nat_den_pos n 1
  generalize hMD : f32_round_nat n 1 = md at hfin hD ⊢
  obtain ⟨M, D⟩ := md
  simp only at hfin hD ⊢
  by_cases hq : x.den = 0
  · -- a zero denominator gives the product 0, a whole number
    exfalso
    have : isfintf (f32_mul x { num := (M : Int), den := D }) = true := by
      simp [f32_mul, f32_round, f32_round_nat, hq, isfintf]
    rw [this] at hfin
    exact Bool.noConfusion hfin
  have hqpos : 0 < x.den := Nat.pos_of_ne_zero hq
  have hnum : 0 < x.num := by
    have : (0 : Int) < (x.den : Int) := by exact_mod_cast hqpos
    omega
  obtain ⟨p, hp⟩ : ∃ p : Nat, x.num = (p : Int) := ⟨x.num.toNat, by omega⟩
  have hpq : x.den ≤ 2 * p := by
    rw [hp] at hx
    exact_mod_cast hx
  have hmul : f32_mul x { num := (M : Int), den := D }
      = { num := ((f32_round_nat (p * M) (x.den * D)).1 : Int),
          den := (f32_round_nat (p * M) (x.den * D)).2 } := by
    simp only [f32_mul, hp]
    rw [show ((p : Int) * (M : Int)) = ((p * M : Nat) : Int) by push_cast; ring, f32_round_of_nat]
  rw [hmul] at hfin ⊢
  by_cases hbig : 2 ^ 24 ≤ n
  · -- the product is 2^23 at least, hence a whole number
    exfalso
    have h1 := f32_round_nat_ge n 1 (2 ^ 24) 0 (by omega) (le_refl _) (by omega)
      (by simpa using hbig)
    rw [hMD] at h1
    simp only [pow_zero, mul_one] at h1
    have h2 : 2 ^ 23 * (x.den * D) ≤ p * M := by
      calc 2 ^ 23 * (x.den * D) = x.den * (2 ^ 23 * D) := by ring
        _ ≤ 2 * p * (2 ^ 23 * D) := Nat.mul_le_mul_right _ hpq
        _ = p * (2 ^ 24 * D) := by ring
        _ ≤ p * M := Nat.mul_le_mul_left _ h1
    have h3 := f32_round_nat_den_one _ _ h2
    simp [isfintf, h3] at hfin
  · -- a scale below 2^24 is a `float`
    obtain ⟨s, hs⟩ := f32_round_nat_exact n 1 (by omega) (by omega)
    rw [Nat.mul_one, hMD] at hs
    simp only [Prod.mk.injEq] at hs
    obtain ⟨rfl, rfl⟩ := hs
    have hE := f32_round_nat_den_pos (p * (n * 2 ^ s)) (x.den * 2 ^ s)
    have h1 := f32_round_nat_ge (p * (n * 2 ^ s)) (x.den * 2 ^ s) n 1 (by positivity) (by omega)
      (by omega)
      (by
        calc n * (x.den * 2 ^ s) = x.den * (n * 2 ^ s) := by ring
          _ ≤ 2 * p * (n * 2 ^ s) := Nat.mul_le_mul_right _ hpq
          _ = p * (n * 2 ^ s) * 2 ^ 1 := by ring)
    generalize f32_round_nat (p * (n * 2 ^ s)) (x.den * 2 ^ s) = ye at hE h1 hfin ⊢
    obtain ⟨Y, E⟩ := ye
    simp only [pow_one] at hE h1 ⊢
    -- the rounded pixel count P satisfies n ≤ 2 P
    have hP : n ≤ 2 * ((2 * Y + E) / (2 * E)) := by
      have k1 : (n + 1) / 2 ≤ (2 * Y + E) / (2 * E) := by
        rw [Nat.le_div_iff_mul_le (by omega)]
        have k2 : (n + 1) / 2 * 2 ≤ n + 1 := Nat.div_mul_le_self _ _
        calc (n + 1) / 2 * (2 * E) = (n + 1) / 2 * 2 * E := by ring
          _ ≤ (n + 1) * E := Nat.mul_le_mul_right _ k2
          _ = n * E + E := by ring
          _ ≤ 2 * Y + E := by omega
      omega
    generalize hPdef : (2 * Y + E) / (2 * E) = P at hP
    have hround : roundf { num := (Y : Int), den := E } = { num := (P : Int), den := 1 } := by
      have : ¬ ((Y : Int) < 0) := by omega
      simp only [roundf, if_neg this, Int.natAbs_ofNat, hPdef]
    rw [hround]
    have hdiv : f32_div { num := (P : Int), den := 1 }
          { num := ((n * 2 ^ s : Nat) : Int), den := 2 ^ s }
        = { num := ((f32_round_nat (P * 2 ^ s) (n * 2 ^ s)).1 : Int),
            den := (f32_round_nat (P * 2 ^ s) (n * 2 ^ s)).2 } := by
      have hpos : ¬ (((n * 2 ^ s : Nat) : Int) < 0) := by
        have : (0 : Int) ≤ ((n * 2 ^ s : Nat) : Int) := Int.ofNat_nonneg _
        omega
      simp only [f32_div, if_neg hpos, Int.natAbs_ofNat, Nat.one_mul]
      rw [show ((P : Int) * ((2 ^ s : Nat) : Int)) = ((P * 2 ^ s : Nat) : Int) by push_cast; ring,
        f32_round_of_nat]
    rw [hdiv, f32_ge_half_iff]
    have h2 := f32_round_nat_ge (P * 2 ^ s) (n * 2 ^ s) 1 1 (by positivity) (by norm_num)
      (by omega)
      (by
        calc 1 * (n * 2 ^ s) = n * 2 ^ s := by ring
          _ ≤ 2 * P * 2 ^ s := Nat.mul_le_mul_right _ hP
          _ = P * 2 ^ s * 2 ^ 1 := by ring)
    simp only [pow_one, Nat.one_mul] at h2
    simp only
    exact_mod_cast (by omega : (f32_round_nat (P * 2 ^ s) (n * 2 ^ s)).2
      ≤ 2 * (f32_round_nat (P * 2 ^ s) (n * 2 ^ s)).1)

theorem count_rows_si_fold (si : Int) (hs : List F32) (st : bar_count) :
    hs.foldl (fun st h =>
        if h.num ≠ 0 then
          { st with
            fixed_height := f32_add st.fixed_height h,
            round_rows := st.round_rows || !isfintf (f32_mul h (f32_of_int si)) }
        else { st with zero_count := st.zero_count + 1 }) st
      = { fixed_height := (hs.filter (fun h => decide (h.num ≠ 0))).foldl f32_add st.fixed_height,
          zero_count := st.zero_count + hs.countP (fun h => decide (h.num = 0)),
          round_rows := st.round_rows
            || hs.any (fun h => decide (h.num ≠ 0) && !isfintf (f32_mul h (f32_of_int si))) } := by
  induction hs generalizing st with
  | nil => simp
  | cons h t ih =>
    rw [List.foldl_cons, ih]
    by_cases h0 : h.num = 0
    · simp [h0, Nat.add_assoc, Nat.add_comm 1]
    · simp [h0, Bool.or_assoc]

/-- The counting loop of the branch `si != 0` computes the sum of the fixed
rows, the number of auto rows and whether some fixed row is not a whole number
of pixels. -/
theorem count_rows_si_eq (symbol : zint_symbol) (si : Int) :
    count_rows_si symbol si
      = { fixed_height := fixed_sum symbol, zero_count := auto_row_count symbol,
          round_rows := rows_not_exact symbol si } := by
  have e := count_rows_si_fold si (row_heights symbol)
    { fixed_height := F32.zero, zero_count := 0, round_rows := false }
  unfold row_heights at e
  rw [List.foldl_map] at e
  unfold count_rows_si fixed_sum auto_row_count f32_sum rows_not_exact row_heights
  rw [e]
  simp

/-- The call with a pixel scale, for a symbol with auto rows whose quotient
passes the assertion. -/
theorem out_large_bar_height_si_auto (symbol : zint_symbol) (si : Int) (rh sh : Bool)
    (hsi : si ≠ 0) (hz : auto_row_count symbol ≠ 0)
    (hge : f32_ge (auto_height symbol) (f32_const 5 10) = true) (hp : rh = true → sh = true) :
    out_large_bar_height symbol si rh sh = some
      { large_bar_height := pixel_rounded (auto_height symbol) si,
        symbol := { symbol with
          height := f32_add (f32_mul (pixel_rounded (auto_height symbol) si)
            (f32_of_int (auto_row_count symbol))) (fixed_sum symbol) },
        row_heights_si := if rh then some (row_heights_pixels
          { symbol with
            height := f32_add (f32_mul (pixel_rounded (auto_height symbol) si)
              (f32_of_int (auto_row_count symbol))) (fixed_sum symbol) }
          si (pixel_rounded (auto_height symbol) si)).1 else none,
        symbol_height_si := if rh then some (row_heights_pixels
          { symbol with
            height := f32_add (f32_mul (pixel_rounded (auto_height symbol) si)
              (f32_of_int (auto_row_count symbol))) (fixed_sum symbol) }
          si (pixel_rounded (auto_height symbol) si)).2 else none } := by
  unfold auto_height at hge
  have e : (if (!isfintf (f32_mul (f32_div (f32_sub symbol.height (fixed_sum symbol))
        (f32_of_int ((auto_row_count symbol : Nat) : Int))) (f32_of_int si))) = true then
      f32_div (roundf (f32_mul (f32_div (f32_sub symbol.height (fixed_sum symbol))
        (f32_of_int ((auto_row_count symbol : Nat) : Int))) (f32_of_int si))) (f32_of_int si)
      else f32_div (f32_sub symbol.height (fixed_sum symbol))
        (f32_of_int ((auto_row_count symbol : Nat) : Int)))
      = pixel_rounded (auto_height symbol) si := by
    unfold pixel_rounded auto_height
    by_cases hf : isfintf (f32_mul (f32_div (f32_sub symbol.height (fixed_sum symbol))
        (f32_of_int ((auto_row_count symbol : Nat) : Int))) (f32_of_int si)) = true
    · simp [hf]
    · simp [hf]
  unfold out_large_bar_height
  simp only [ne_eq, hsi, not_false_eq_true, if_true, count_rows_si_eq, hz, stripf, hge, e]
  cases rh with
  | false => simp
  | true => simp [hp rfl]

/-- C22: if the symbol has at least one auto row and the quotient (height -
sum of fixed row heights) / (number of auto rows) is at least 0.5, then for
every pixel scale si >= 0 the assertion of `out_large_bar_height` passes and
the auto-row height returned is at least 0.5: it is the quotient itself when
si is 0 or the quotient is a whole number of pixels, and round(h x si) / si
otherwise. -/
theorem out_large_bar_height_min (symbol : zint_symbol) (si : Int) (rh sh : Bool)
    (hsi : 0 ≤ si) (hz : auto_row_count symbol ≠ 0)
    (hge : f32_ge (auto_height symbol) (f32_const 5 10) = true) (hp : rh = true → sh = true) :
    ∃ r, out_large_bar_height symbol si rh sh = some r
      ∧ f32_ge r.large_bar_height (f32_const 5 10) = true
      ∧ (si = 0 → r.large_bar_height = auto_height symbol)
      ∧ (si ≠ 0 → r.large_bar_height = pixel_rounded (auto_height symbol) si) := by
  by_cases h0 : si = 0
  · subst h0
    refine ⟨{ large_bar_height := auto_height symbol,
              symbol := { symbol with
                height := f32_add (f32_mul (auto_height symbol)
                  (f32_of_int (auto_row_count symbol))) (fixed_sum symbol) },
              row_heights_si := none, symbol_height_si := none }, ?_, hge, fun _ => rfl,
      fun h => absurd rfl h⟩
    unfold auto_height at hge ⊢
    unfold out_large_bar_height
    simp only [ne_eq, not_true_eq_false, if_false, count_rows_eq, stripf, hz, not_false_eq_true,
      if_true, hge]
  · exact ⟨_, out_large_bar_height_si_auto symbol si rh sh h0 hz hge hp,
      pixel_rounded_ge_half _ si (by omega) hge, fun h => absurd h h0, fun _ => rfl⟩

/-- One auto row of requested height 4.4 at the scale 7: 4.4 x 7 = 30.8 is not
a whole number, the height is re-derived as 31 / 7 and is at least 0.5. -/
theorem out_large_bar_height_min_witness :
    (0 : Int) ≤ 7 ∧ auto_row_count one_auto_row ≠ 0
    ∧ f32_ge (auto_height one_auto_row) (f32_const 5 10) = true
    ∧ isfintf (f32_mul (auto_height one_auto_row) (f32_of_int 7)) = false
    ∧ ∃ r, out_large_bar_height one_auto_row 7 true true = some r
      ∧ f32_ge r.large_bar_height (f32_const 5 10) = true
      ∧ r.large_bar_height = { num := 9287387, den := 2097152 } := by
  obtain ⟨r, h1, h2, _, h4⟩ :=
    out_large_bar_height_min one_auto_row 7 true true (by decide) (by decide) (by decide)
      (fun h => h)
  exact ⟨by decide, by decide, by decide, by decide, r, h1, h2,
    (h4 (by decide)).trans (by decide)⟩

theorem row_heights_pixels_fold (v : Nat → Int) (l : List Nat) (acc : List Int) (s : Int) :
    l.foldl (fun (st : List Int × Int) i => (st.1 ++ [v i], st.2 + v i)) (acc, s)
      = (acc ++ l.map v, s + (l.map v).sum) := by
  induction l generalizing acc s with
  | nil => simp
  | cons a t ih =>
    rw [List.foldl_cons, ih]
    simp [Int.add_assoc]

/-- The loop that fills `row_heights_si` writes the pixel height of each row
and their sum. -/
theorem row_heights_pixels_eq (symbol : zint_symbol) (si : Int) (lbh : F32) :
    row_heights_pixels symbol si lbh
      = (pixel_rows symbol si lbh, (pixel_rows symbol si lbh).sum) := by
  have e := row_heights_pixels_fold
    (fun i => if (row_height_at symbol i).num ≠ 0 then
        f32_to_int (roundf (f32_mul (row_height_at symbol i) (f32_of_int si)))
      else f32_to_int (roundf (f32_mul lbh (f32_of_int si))))
    (List.range symbol.rows) [] 0
  unfold row_heights_pixels
  simp only [] at e ⊢
  rw [e]
  simp [pixel_rows, row_heights, List.map_map, Function.comp_def]

theorem is_nat_num_zero {x : F32} {N : Nat} (h : x.is_nat N) : x.num = 0 ↔ N = 0 := by
  obtain ⟨s, rfl⟩ := h
  have p : 0 < 2 ^ s := by positivity
  constructor
  · intro h0
    simp only at h0
    have h1 : N * 2 ^ s = 0 := by exact_mod_cast h0
    rcases Nat.mul_eq_zero.mp h1 with h2 | h2
    · exact h2
    · omega
  · intro h0
    simp [h0]

theorem is_nat_isfintf {x : F32} {N : Nat} (h : x.is_nat N) : isfintf x = true := by
  obtain ⟨s, rfl⟩ := h
  simp only [isfintf, decide_eq_true_eq]
  push_cast
  exact Int.mul_emod_left _ _

theorem is_nat_pixel {x : F32} {N : Nat} (h : x.is_nat N) :
    f32_to_int (roundf x) = (N : Int) := by
  obtain ⟨s, rfl⟩ := h
  have p : 0 < 2 ^ s := by positivity
  have hneg : ¬ (((N * 2 ^ s : Nat) : Int) < 0) := by
    have : (0 : Int) ≤ ((N * 2 ^ s : Nat) : Int) := Int.ofNat_nonneg _
    omega
  have e : (2 * (N * 2 ^ s) + 2 ^ s) / (2 * 2 ^ s) = N := by
    apply Nat.div_eq_of_lt_le
    · nlinarith
    · nlinarith
  simp only [roundf, f32_to_int, if_neg hneg, Int.natAbs_ofNat, e]
  simp

theorem fixed_fold_is_nat {hs : List F32} {ns : List Nat} (hf : List.Forall₂ F32.is_nat hs ns)
    (acc : F32) (A : Nat) (ha : acc.is_nat A) (hb : A + ns.sum < 2 ^ 24) :
    ((hs.filter (fun h => decide (h.num ≠ 0))).foldl f32_add acc).is_nat (A + ns.sum) := by
  induction hf generalizing acc A with
  | nil => simpa using ha
  | @cons h n t tn hn _ ih =>
    simp only [List.sum_cons] at hb ⊢
    by_cases h0 : h.num = 0
    · have n0 : n = 0 := (is_nat_num_zero hn).mp h0
      subst n0
      simp only [List.filter_cons, h0, ne_eq, not_true_eq_false, decide_False, Bool.false_eq_true,
        if_false, Nat.zero_add]
      exact ih acc A ha (by omega)
    · simp only [List.filter_cons, h0, ne_eq, not_false_eq_true, decide_True, if_true,
        List.foldl_cons]
      have := ih (f32_add acc h) (A + n) (f32_add_is_nat _ _ _ _ ha hn (by omega)) (by omega)
      rw [Nat.add_assoc] at this
      exact this

theorem auto_count_is_nat {hs : List F32} {ns : List Nat} (hf : List.Forall₂ F32.is_nat hs ns) :
    hs.countP (fun h => decide (h.num = 0)) = ns.count 0 := by
  induction hf with
  | nil => simp
  | @cons h n t tn hn _ ih =>
    by_cases h0 : h.num = 0
    · have n0 : n = 0 := (is_nat_num_zero hn).mp h0
      subst n0
      simp [h0, ih]
    · have n0 : n ≠ 0 := fun e => h0 ((is_nat_num_zero hn).mpr e)
      simp [h0, ih, List.count_cons, n0]

theorem not_exact_is_nat {hs : List F32} {ns : List Nat} (hf : List.Forall₂ F32.is_nat hs ns)
    (y : F32) (m : Nat) (hy : y.is_nat m) (hb : ns.sum * m < 2 ^ 24) :
    hs.any (fun h => decide (h.num ≠ 0) && !isfintf (f32_mul h y)) = false := by
  induction hf with
  | nil => simp
  | @cons h n t tn hn _ ih =>
    simp only [List.sum_cons] at hb
    rw [Nat.add_mul] at hb
    have b1 : n * m < 2 ^ 24 := by omega
    have b2 : tn.sum * m < 2 ^ 24 := by omega
    have e := is_nat_isfintf (f32_mul_is_nat _ _ _ _ hn hy b1)
    rw [List.any_cons, ih b2]
    simp [e]

theorem pixel_sum_is_nat {hs : List F32} {ns : List Nat} (hf : List.Forall₂ F32.is_nat hs ns)
    (y : F32) (m : Nat) (hy : y.is_nat m) (hb : ns.sum * m < 2 ^ 24) (P : Int) :
    (hs.map (fun h => if h.num ≠ 0 then f32_to_int (roundf (f32_mul h y)) else P)).sum
      = ((ns.sum * m : Nat) : Int) + ((ns.count 0 : Nat) : Int) * P := by
  induction hf with
  | nil => simp
  | @cons h n t tn hn _ ih =>
    simp only [List.sum_cons] at hb
    rw [Nat.add_mul] at hb
    have b1 : n * m < 2 ^ 24 := by omega
    have b2 : tn.sum * m < 2 ^ 24 := by omega
    rw [List.map_cons, List.sum_cons, ih b2]
    by_cases h0 : h.num = 0
    · have n0 : n = 0 := (is_nat_num_zero hn).mp h0
      subst n0
      simp only [h0, ne_eq, not_true_eq_false, if_false, List.sum_cons, List.count_cons_self]
      push_cast
      ring
    · have n0 : n ≠ 0 := fun e => h0 ((is_nat_num_zero hn).mpr e)
      have n1 : ¬ (n == 0) = true := by simpa using n0
      rw [if_pos h0, is_nat_pixel (f32_mul_is_nat _ _ _ _ hn hy b1)]
      simp only [List.sum_cons, List.count_cons, n1, if_false]
      push_cast
      ring

/-- C21, as stated, fails: for one auto row of requested height 4.4 at the
scale 7 the pixel height is 31, and the height written back is the `float`
nearest to 31 / 7, whose product with 7 is 30.999998..., both exactly and in
single precision. -/
theorem pixel_height_not_exact :
    ∃ r, out_large_bar_height one_auto_row 7 true true = some r
      ∧ r.row_heights_si = some [31] ∧ r.symbol_height_si = some 31
      ∧ r.symbol.height = { num := 9287387, den := 2097152 }
      ∧ r.symbol.height.num * 7 ≠ 31 * (r.symbol.height.den : Int)
      ∧ f32_mul r.symbol.height (f32_of_int 7) = { num := 16252927, den := 524288 }
      ∧ ¬ F32.same (f32_mul r.symbol.height (f32_of_int 7)) (F32.of_nat 31) :=
  ⟨{ large_bar_height := { num := 9287387, den := 2097152 },
     symbol := { one_auto_row with height := { num := 9287387, den := 2097152 } },
     row_heights_si := some [31], symbol_height_si := some 31 },
   by decide, rfl, rfl, rfl, by decide, by decide, by decide⟩

/-- C21, amended: after `out_large_bar_height` is called with a non-zero pixel
scale si and a `row_heights_si` output, `symbol_height_si` is the sum of the
per-row pixel heights written to `row_heights_si`, round(row height x si) for
a fixed row and round(returned large bar height x si) for an auto row.  The
symbol's height multiplied by si equals `symbol_height_si` when the row
heights and the height are whole numbers with height = sum of the fixed rows +
number of auto rows x L for a whole number L, and height x si is below 2^24;
otherwise the two can differ by the rounding of single precision.  The call
returns when there is no auto row or the quotient (height - sum of the
fixed rows) / (number of auto rows) passes the assertion. -/
theorem out_large_bar_height_pixels (symbol : zint_symbol) (si : Int) (hsi : si ≠ 0) :
    ((auto_row_count symbol = 0 ∨ f32_ge (auto_height symbol) (f32_const 5 10) = true) →
      ∃ r, out_large_bar_height symbol si true true = some r)
    ∧ (∀ r, out_large_bar_height symbol si true true = some r →
      r.row_heights_si = some (pixel_rows r.symbol si r.large_bar_height)
      ∧ r.symbol_height_si = some (pixel_rows r.symbol si r.large_bar_height).sum)
    ∧ (∀ (ns : List Nat) (H L n : Nat), si = (n : Int) → n < 2 ^ 24 →
        List.Forall₂ F32.is_nat (row_heights symbol) ns → symbol.height.is_nat H →
        H = ns.sum + ns.count 0 * L → 0 < L → H * n < 2 ^ 24 →
        ∃ r px, out_large_bar_height symbol si true true = some r
          ∧ r.symbol_height_si = some px ∧ px = ((H * n : Nat) : Int)
          ∧ F32.same r.symbol.height (F32.of_nat H)
          ∧ r.symbol.height.num * si = px * (r.symbol.height.den : Int)) := by
  refine ⟨?_, ?_, ?_⟩
  · intro h
    by_cases hz : auto_row_count symbol = 0
    · unfold out_large_bar_height
      simp only [ne_eq, hsi, not_false_eq_true, if_true, count_rows_si_eq, hz,
        not_true_eq_false, if_false]
      split_ifs <;> exact ⟨_, rfl⟩
    · rcases h with h | h
      · exact absurd h hz
      · exact ⟨_, out_large_bar_height_si_auto symbol si true true hsi hz h (fun e => e)⟩
  · intro r h
    unfold out_large_bar_height at h
    simp only [ne_eq, hsi, not_false_eq_true, if_true] at h
    split at h
    · exact absurd h (by simp)
    · simp only [Option.some.injEq] at h
      subst h
      simp [row_heights_pixels_eq]
  · intro ns H L n hn hn24 hf hH hsum hL hb
    subst hn
    have npos : 0 < n := by
      rcases Nat.eq_zero_or_pos n with h0 | h0
      · exact absurd (by simp [h0]) hsi
      · exact h0
    have hHn : H ≤ H * n := Nat.le_mul_of_pos_right H npos
    have hy : (f32_of_int ((n : Nat) : Int)).is_nat n := f32_of_int_is_nat n hn24
    have hF : (fixed_sum symbol).is_nat ns.sum := by
      have := fixed_fold_is_nat hf F32.zero 0 ⟨0, by simp [F32.zero]⟩ (by omega)
      simpa [fixed_sum, f32_sum] using this
    have hzc : auto_row_count symbol = ns.count 0 := auto_count_is_nat hf
    have hFn : ns.sum * n < 2 ^ 24 := by
      have : ns.sum * n ≤ H * n := Nat.mul_le_mul_right n (by omega)
      omega
    have hne : rows_not_exact symbol ((n : Nat) : Int) = false :=
      not_exact_is_nat hf _ n hy hFn
    have same_of : ∀ (x : F32) (px : Int), F32.same x (F32.of_nat H) → px = ((H * n : Nat) : Int) →
        x.num * ((n : Nat) : Int) = px * (x.den : Int) := by
      intro x px hx hpx
      simp only [F32.same, F32.of_nat, Nat.cast_one, mul_one] at hx
      rw [hpx, hx]
      push_cast
      ring
    by_cases hz : ns.count 0 = 0
    · -- every row is fixed and a whole number of pixels
      have hH2 : H = ns.sum := by rw [hsum, hz]; simp
      have e : out_large_bar_height symbol ((n : Nat) : Int) true true = some
          { large_bar_height := F32.zero, symbol := symbol,
            row_heights_si := some (pixel_rows symbol ((n : Nat) : Int) F32.zero),
            symbol_height_si := some (pixel_rows symbol ((n : Nat) : Int) F32.zero).sum } := by
        unfold out_large_bar_height
        simp [hsi, count_rows_si_eq, hzc, hz, hne, row_heights_pixels_eq]
      have hpx : (pixel_rows symbol ((n : Nat) : Int) F32.zero).sum = ((H * n : Nat) : Int) := by
        unfold pixel_rows
        rw [pixel_sum_is_nat hf _ n hy hFn, hz, hH2]
        simp
      exact ⟨_, _, e, rfl, hpx, F32.is_nat_same hH, same_of _ _ (F32.is_nat_same hH) hpx⟩
    · -- auto rows of whole height L
      have hzpos : 0 < ns.count 0 := Nat.pos_of_ne_zero hz
      have hsub : H - ns.sum = ns.count 0 * L := by omega
      have hdvd : ns.count 0 ∣ H - ns.sum := ⟨L, hsub⟩
      have hq : (H - ns.sum) / ns.count 0 = L := by
        rw [hsub, Nat.mul_div_cancel_left L hzpos]
      have hLH : L ≤ H := by
        have : L ≤ ns.count 0 * L := Nat.le_mul_of_pos_left L hzpos
        omega
      have hzH : ns.count 0 ≤ H := by
        have : ns.count 0 ≤ ns.count 0 * L := Nat.le_mul_of_pos_right _ hL
        omega
      have hzn : (f32_of_int ((ns.count 0 : Nat) : Int)).is_nat (ns.count 0) :=
        f32_of_int_is_nat _ (by omega)
      have hs := f32_sub_is_nat _ _ H ns.sum hH hF (by omega) (by omega)
      have hd : (auto_height symbol).is_nat L := by
        have := f32_div_is_nat _ _ (H - ns.sum) (ns.count 0) hs hzn hzpos hdvd
          (by rw [hq]; omega)
        rw [hq] at this
        unfold auto_height
        rw [hzc]
        exact this
      have hLn : L * n < 2 ^ 24 := by
        have : L * n ≤ H * n := Nat.mul_le_mul_right n hLH
        omega
      have hprod := f32_mul_is_nat _ _ _ _ hd hy hLn
      have hpr : pixel_rounded (auto_height symbol) ((n : Nat) : Int) = auto_height symbol := by
        unfold pixel_rounded
        rw [is_nat_isfintf hprod]
        simp
      have hge := f32_ge_half_of_nat _ _ hd hL
      have e := out_large_bar_height_si_auto symbol ((n : Nat) : Int) true true hsi
        (by rw [hzc]; exact hz) hge (fun h => h)
      rw [hpr] at e
      simp only [if_true, row_heights_pixels_eq] at e
      have hheight : (f32_add (f32_mul (auto_height symbol)
          (f32_of_int ((auto_row_count symbol : Nat) : Int))) (fixed_sum symbol)).is_nat H := by
        rw [hzc]
        have hm := f32_mul_is_nat _ _ _ _ hd hzn (by
          have : L * ns.count 0 = ns.count 0 * L := Nat.mul_comm _ _
          omega)
        have ha := f32_add_is_nat _ _ _ _ hm hF (by
          have : L * ns.count 0 = ns.count 0 * L := Nat.mul_comm _ _
          omega)
        have e2 : L * ns.count 0 + ns.sum = H := by
          have : L * ns.count 0 = ns.count 0 * L := Nat.mul_comm _ _
          omega
        rw [e2] at ha
        exact ha
      have hpx : (pixel_rows { symbol with
            height := f32_add (f32_mul (auto_height symbol)
              (f32_of_int ((auto_row_count symbol : Nat) : Int))) (fixed_sum symbol) }
          ((n : Nat) : Int) (auto_height symbol)).sum = ((H * n : Nat) : Int) := by
        unfold pixel_rows
        have er : row_heights { symbol with
            height := f32_add (f32_mul (auto_height symbol)
              (f32_of_int ((auto_row_count symbol : Nat) : Int))) (fixed_sum symbol) }
            = row_heights symbol := rfl
        rw [er, pixel_sum_is_nat hf _ n hy hFn, is_nat_pixel hprod, hsum]
        push_cast
        ring
      exact ⟨_, _, e, rfl, hpx, F32.is_nat_same hheight,
        same_of _ _ (F32.is_nat_same hheight) hpx⟩

/-- Rows (10, 0, 0) with requested height 30 at the scale 2: the pixel rows
are 20, 20, 20 and 30 x 2 = 60 is their sum. -/
theorem out_large_bar_height_pixels_witness :
    (2 : Int) ≠ 0
    ∧ List.Forall₂ F32.is_nat (row_heights three_rows) [10, 0, 0]
    ∧ ∃ r px, out_large_bar_height three_rows 2 true true = some r
      ∧ r.symbol_height_si = some px ∧ px = ((30 * 2 : Nat) : Int)
      ∧ F32.same r.symbol.height (F32.of_nat 30)
      ∧ r.symbol.height.num * 2 = px * (r.symbol.height.den : Int) := by
  have hf : List.Forall₂ F32.is_nat (row_heights three_rows) [10, 0, 0] := by
    have e : row_heights three_rows = [F32.of_nat 10, F32.of_nat 0, F32.of_nat 0] := by decide
    rw [e]
    exact List.Forall₂.cons (F32.of_nat_is_nat 10)
      (List.Forall₂.cons (F32.of_nat_is_nat 0)
        (List.Forall₂.cons (F32.of_nat_is_nat 0) List.Forall₂.nil))
  exact ⟨by decide, hf,
    (out_large_bar_height_pixels three_rows 2 (by decide)).2.2 [10, 0, 0] 30 10 2 rfl (by decide)
      hf (F32.of_nat_is_nat 30) (by decide) (by decide) (by decide)⟩

/-! ## Quiet zones and `hide_text` -/

/-- C37: `hide_text` influences `out_quiet_zones` only when quiet zones are
suppressed.  For every symbol in which `BARCODE_NO_QUIET_ZONES` is not set the
four margins and the return value are the same for every two values of
`hide_text`; when `BARCODE_NO_QUIET_ZONES` is set and `hide_text` is non-zero,
all four margins are 0 for every symbology. -/
theorem out_quiet_zones_hide_text (symbol : zint_symbol) :
    (¬ option_set symbol BARCODE_NO_QUIET_ZONES →
      ∀ h1 h2 : Int, out_quiet_zones symbol h1 = out_quiet_zones symbol h2)
    ∧ (option_set symbol BARCODE_NO_QUIET_ZONES →
      ∀ hide_text : Int, hide_text ≠ 0 → (out_quiet_zones symbol hide_text).all_zero) := by
  by_cases ht : symbol.symbology ∈ first_tier
  · constructor
    · intro hn h1 h2
      rw [out_quiet_zones_first_tier symbol h1 ht, out_quiet_zones_first_tier symbol h2 ht]
      simp only [first_tier, List.mem_cons, List.mem_singleton, List.not_mem_nil, or_false] at ht
      unfold out_quiet_zones_always
      rcases ht with h | h | h | h | h | h | h | h | h | h | h | h | h | h | h <;>
        simp [h, hn]
    · intro hn hide_text hh
      rw [out_quiet_zones_first_tier symbol hide_text ht]
      simp only [first_tier, List.mem_cons, List.mem_singleton, List.not_mem_nil, or_false] at ht
      unfold out_quiet_zones_always quiet_zones.all_zero
      rcases ht with h | h | h | h | h | h | h | h | h | h | h | h | h | h | h <;>
        simp [h, hn, hh]
  · constructor
    · intro _ h1 h2
      rw [out_quiet_zones_second_tier symbol h1 ht, out_quiet_zones_second_tier symbol h2 ht]
    · intro hn hide_text _
      rw [out_quiet_zones_second_tier symbol hide_text ht, if_pos (Or.inr hn)]
      simp [quiet_zones.all_zero]

/-- An EAN-13 symbol: without `BARCODE_NO_QUIET_ZONES` the margins do not
depend on `hide_text`; with it and the text hidden they are all 0. -/
theorem out_quiet_zones_hide_text_witness :
    out_quiet_zones { test_emf_symbol with symbology := BARCODE_EANX, text := cstr "2109876543210" } 0
      = out_quiet_zones
          { test_emf_symbol with symbology := BARCODE_EANX, text := cstr "2109876543210" } 1
    ∧ (out_quiet_zones { test_emf_symbol with
        symbology := BARCODE_EANX, text := cstr "2109876543210",
        output_options := BARCODE_NO_QUIET_ZONES } 1).all_zero :=
  ⟨(out_quiet_zones_hide_text { test_emf_symbol with
      symbology := BARCODE_EANX, text := cstr "2109876543210" }).1 (by decide) 0 1,
   (out_quiet_zones_hide_text { test_emf_symbol with
      symbology := BARCODE_EANX, text := cstr "2109876543210",
      output_options := BARCODE_NO_QUIET_ZONES }).2 (by decide) 1 (by decide)⟩

/-- C32, as stated, fails: with `BARCODE_QUIET_ZONES` set and
`BARCODE_NO_QUIET_ZONES` not set, `out_quiet_zones` for `BARCODE_DOTCODE` returns
1 with the margin 3 on every side, not 0. -/
theorem dotcode_margins_not_zero :
    option_set dotcode_symbol BARCODE_QUIET_ZONES
    ∧ ¬ option_set dotcode_symbol BARCODE_NO_QUIET_ZONES
    ∧ (out_quiet_zones dotcode_symbol 0).done = 1
    ∧ (out_quiet_zones dotcode_symbol 0).all_sides 3
    ∧ ¬ (out_quiet_zones dotcode_symbol 0).all_zero := by
  refine ⟨by decide, by decide, by decide, ?_, ?_⟩
  · unfold quiet_zones.all_sides
    decide
  · unfold quiet_zones.all_zero
    decide

/-- C32, amended: with `BARCODE_QUIET_ZONES` set and `BARCODE_NO_QUIET_ZONES` not
set, `out_quiet_zones` for `BARCODE_DOTCODE` returns 1 (recognized) with all four
margins 3. -/
theorem out_quiet_zones_dotcode (symbol : zint_symbol) (hide_text : Int)
    (hs : symbol.symbology = BARCODE_DOTCODE) (hq : option_set symbol BARCODE_QUIET_ZONES)
    (hn : ¬ option_set symbol BARCODE_NO_QUIET_ZONES) :
    (out_quiet_zones symbol hide_text).done = 1
    ∧ (out_quiet_zones symbol hide_text).all_sides 3 := by
  have ht : symbol.symbology ∉ first_tier := by simp [first_tier, hs]
  rw [out_quiet_zones_opted symbol hide_text ht hq hn]
  unfold out_quiet_zones_others quiet_zones.all_sides
  simp [hs]

/-- The DotCode symbol with quiet zones requested has the margin 3 on every
side. -/
theorem out_quiet_zones_dotcode_witness :
    (out_quiet_zones dotcode_symbol 0).done = 1
    ∧ (out_quiet_zones dotcode_symbol 0).all_sides 3 :=
  out_quiet_zones_dotcode dotcode_symbol 0 rfl (by decide) (by decide)

/-! ## The composite offset scan -/

/-- The scan from `x0` stops at the first set module `k`, whatever fuel beyond
`k - x0` it is given. -/
theorem composite_scan_first (symbol : zint_symbol) (k : Nat)
    (hk : (bottom_row symbol)[k]? = some true) (fuel x0 : Nat) (hx : x0 ≤ k)
    (hfuel : k - x0 < fuel) (hun : ∀ j, x0 ≤ j → j < k → (bottom_row symbol)[j]? = some false) :
    composite_scan symbol fuel x0 = some k := by
  induction fuel generalizing x0 with
  | zero => omega
  | succ fuel ih =>
    rw [composite_scan, module_is_set_bottom]
    by_cases hxk : x0 = k
    · subst hxk
      rw [hk]
    · rw [hun x0 (le_refl _) (by omega)]
      exact ih (x0 + 1) (by omega) (by omega) (fun j h1 h2 => hun j (by omega) h2)

/-- C38: for a composite symbol whose bottom row has a set module within the
symbol width, the offset scan of `out_process_upcean` terminates, with every
fuel beyond the offset, and the composite offset is the index of the first set
module of the bottom row: that module is set, every module to its left is
unset, and the index is less than the symbol width. -/
theorem out_process_upcean_scan (symbol : zint_symbol) (x : Nat)
    (hc : is_composite symbol.symbology = true) (hx : ((x : Nat) : Int) < symbol.width)
    (hset : (bottom_row symbol)[x]? = some true) :
    ∃ r k, out_process_upcean symbol = some r
      ∧ r.comp_xoffset = ((k : Nat) : Int)
      ∧ (∀ fuel, k < fuel → composite_scan symbol fuel 0 = some k)
      ∧ (bottom_row symbol)[k]? = some true
      ∧ (∀ j, j < k → (bottom_row symbol)[j]? = some false)
      ∧ k ≤ x ∧ r.comp_xoffset < symbol.width := by
  classical
  have hex : ∃ i, (bottom_row symbol)[i]? = some true := ⟨x, hset⟩
  have hk := Nat.find_spec hex
  have hkx : Nat.find hex ≤ x := Nat.find_min' hex hset
  have hxl : x < (bottom_row symbol).length := by
    by_contra hge
    rw [List.getElem?_eq_none (by omega)] at hset
    exact Option.noConfusion hset
  have hun : ∀ j, j < Nat.find hex → (bottom_row symbol)[j]? = some false := by
    intro j hj
    have hnot := Nat.find_min hex hj
    have hjl : j < (bottom_row symbol).length := by omega
    rw [List.getElem?_eq_getElem hjl] at hnot ⊢
    cases hb : (bottom_row symbol)[j] with
    | true => rw [hb] at hnot; exact absurd rfl hnot
    | false => rfl
  have hscan : ∀ fuel, Nat.find hex < fuel → composite_scan symbol fuel 0 = some (Nat.find hex) :=
    fun fuel hf => composite_scan_first symbol _ hk fuel 0 (Nat.zero_le _) (by omega)
      (fun j _ h2 => hun j h2)
  have hmem : true ∈ bottom_row symbol := by
    rw [List.mem_iff_getElem?]
    exact ⟨_, hk⟩
  obtain ⟨r, hr⟩ := out_process_upcean_returns symbol (Or.inr hmem)
  obtain ⟨y, hy, hxo, _⟩ := out_process_upcean_eq symbol r hr
  rw [if_pos hc, hscan ((bottom_row symbol).length + 1) (by omega)] at hy
  simp only [Option.map_some', Option.some.injEq] at hy
  have hoff : r.comp_xoffset = ((Nat.find hex : Nat) : Int) := by rw [hxo, ← hy]
  exact ⟨r, Nat.find hex, hr, hoff, hscan, hk, hun, hkx, by rw [hoff]; omega⟩

/-- The composite symbol whose bottom row is unset, set, unset, set, of width
4: the scan stops at index 1. -/
theorem out_process_upcean_scan_witness :
    is_composite composite_ean.symbology = true ∧ ((3 : Nat) : Int) < composite_ean.width
    ∧ (bottom_row composite_ean)[3]? = some true
    ∧ ∃ r k, out_process_upcean composite_ean = some r
      ∧ r.comp_xoffset = ((k : Nat) : Int)
      ∧ (∀ fuel, k < fuel → composite_scan composite_ean fuel 0 = some k)
      ∧ (bottom_row composite_ean)[k]? = some true
      ∧ (∀ j, j < k → (bottom_row composite_ean)[j]? = some false)
      ∧ k ≤ 3 ∧ r.comp_xoffset < composite_ean.width :=
  ⟨by decide, by decide, by decide,
   out_process_upcean_scan composite_ean 3 (by decide) (by decide) (by decide)⟩

/-! ## The locale of `ps_plot` -/

/-- Once the stream is open `ps_plot` sets the locale "C", keeps the name
`setlocale` returns, which is "C", and sets that again before it returns: the
locale in force on return is "C". -/
theorem ps_plot_locale_set (symbol : zint_symbol) (env : ps_env) (vector : zint_vector)
    (r : ps_result) (hv : symbol.vector = some vector) (ho : stream_open symbol env)
    (h : ps_plot symbol env = some r) : r.locale = cstr "C" := by
  unfold ps_plot at h
  rw [hv] at h
  have ho2 : ¬ (symbol.output_options &&& BARCODE_STDOUT = 0 ∧ env.fopen_ok = false) := by
    unfold stream_open at ho
    rcases ho with h1 | h1
    · exact fun h2 => h1 h2.1
    · simp [h1]
  simp only [ho2, if_false, Option.bind_eq_bind, Option.bind_eq_some] at h
  obtain ⟨c, _, text, _, hr⟩ := h
  split_ifs at hr <;> (simp only [Option.some.injEq] at hr; rw [← hr]; rfl)

/-- On the two returns before the stream is open the locale is untouched. -/
theorem ps_plot_locale_kept (symbol : zint_symbol) (env : ps_env) (r : ps_result)
    (hn : symbol.vector = none ∨ ¬ stream_open symbol env) (h : ps_plot symbol env = some r) :
    r.locale = env.locale := by
  unfold ps_plot at h
  cases hv : symbol.vector with
  | none =>
    rw [hv] at h
    simp only [Option.some.injEq] at h
    rw [← h]
  | some vector =>
    rw [hv] at h
    rcases hn with hn | hn
    · rw [hv] at hn
      exact Option.noConfusion hn
    · have ho2 : symbol.output_options &&& BARCODE_STDOUT = 0 ∧ env.fopen_ok = false := by
        unfold stream_open at hn
        simp only [not_or, ne_eq, not_not, Bool.not_eq_true] at hn
        exact hn
      simp only [ho2, and_self, if_true, Option.some.injEq] at h
      rw [← h]

/-- C31, what the code does: with the locale "de_DE.UTF-8" in force, `ps_plot`
on a scene returns with the locale "C" in force, whether it succeeds or
reports a write error; only the returns before the stream is open, for a NULL
scene and for a file that cannot be opened, leave the locale as it was. -/
theorem ps_plot_locale_not_restored :
    plain_env.locale = cstr "de_DE.UTF-8"
    ∧ (∃ r, ps_plot maxicode_scene plain_env = some r ∧ r.error_number = 0
        ∧ r.locale = cstr "C" ∧ r.locale ≠ plain_env.locale)
    ∧ (∃ r, ps_plot maxicode_scene { plain_env with ferror := true } = some r
        ∧ r.error_number = ZINT_ERROR_FILE_WRITE
        ∧ r.locale = cstr "C" ∧ r.locale ≠ plain_env.locale)
    ∧ (∃ r, ps_plot maxicode_scene { plain_env with fclose_ok := false } = some r
        ∧ r.error_number = ZINT_ERROR_FILE_WRITE
        ∧ r.locale = cstr "C" ∧ r.locale ≠ plain_env.locale)
    ∧ (∃ r, ps_plot { maxicode_scene with vector := none } plain_env = some r
        ∧ r.error_number = ZINT_ERROR_INVALID_DATA ∧ r.locale = plain_env.locale)
    ∧ (∃ r, ps_plot maxicode_scene { plain_env with fopen_ok := false } = some r
        ∧ r.error_number = ZINT_ERROR_FILE_ACCESS ∧ r.locale = plain_env.locale) := by
  have key : ∀ (symbol : zint_symbol) (env : ps_env) (e : Int) (l : CStr),
      (ps_plot symbol env).map (fun r => (r.error_number, r.locale)) = some (e, l) →
      ∃ r, ps_plot symbol env = some r ∧ r.error_number = e ∧ r.locale = l := by
    intro symbol env e l h
    simp only [Option.map_eq_some', Prod.mk.injEq] at h
    obtain ⟨r, hr, h1, h2⟩ := h
    exact ⟨r, hr, h1, h2⟩
  refine ⟨rfl, ?_, ?_, ?_, ?_, ?_⟩
  · obtain ⟨r, hr, h1, h2⟩ := key maxicode_scene plain_env 0 (cstr "C") (by decide)
    exact ⟨r, hr, h1, h2, by rw [h2]; decide⟩
  · obtain ⟨r, hr, h1, h2⟩ := key maxicode_scene { plain_env with ferror := true }
      ZINT_ERROR_FILE_WRITE (cstr "C") (by decide)
    exact ⟨r, hr, h1, h2, by rw [h2]; decide⟩
  · obtain ⟨r, hr, h1, h2⟩ := key maxicode_scene { plain_env with fclose_ok := false }
      ZINT_ERROR_FILE_WRITE (cstr "C") (by decide)
    exact ⟨r, hr, h1, h2, by rw [h2]; decide⟩
  · exact key { maxicode_scene with vector := none } plain_env ZINT_ERROR_INVALID_DATA
      plain_env.locale (by decide)
  · exact key maxicode_scene { plain_env with fopen_ok := false } ZINT_ERROR_FILE_ACCESS
      plain_env.locale (by decide)

/-! ## `ps_convert` -/

theorem ps_text_length_fold (s : CStr) (st : Nat × Bool) :
    s.foldl
      (fun st c =>
        if c = 40 ∨ c = 41 ∨ c = 92 then (st.1 + 2, st.2)
        else (st.1 + 1, st.2 || decide (c ≥ 0x80)))
      st
    = (st.1 + (s.map ps_cost).sum, st.2 || s.any (fun c => decide (c ≥ 0x80))) := by
  induction s generalizing st with
  | nil => simp
  | cons c t ih =>
    rw [List.foldl_cons, ih]
    by_cases h : c = 40 ∨ c = 41 ∨ c = 92
    · have h2 : ¬ 128 ≤ c := by omega
      simp [h, ps_cost, h2, Nat.add_assoc]
    · simp [h, ps_cost, Nat.add_assoc, Bool.or_assoc]

/-- The length `ps_plot` computes for a text is the sum of the costs of its
bytes, and `iso_latin1` tells whether some byte is 0x80 or above. -/
theorem ps_text_length_eq (s : CStr) :
    ps_text_length s = ((s.map ps_cost).sum, s.any (fun c => decide (c ≥ 0x80))) := by
  unfold ps_text_length
  rw [ps_text_length_fold]
  simp

theorem ps_convert_cons_special (c : Nat) (t : CStr) (h : c = 40 ∨ c = 41 ∨ c = 92) :
    ps_convert (c :: t) = (ps_convert t).map (fun p => 92 :: c :: p) := by
  cases t with
  | nil => simp [ps_convert, h]
  | cons d rest => simp [ps_convert, h]

theorem ps_convert_cons_ascii (c : Nat) (t : CStr) (h : ¬ (c = 40 ∨ c = 41 ∨ c = 92))
    (h7 : c < 0x80) : ps_convert (c :: t) = (ps_convert t).map (fun p => c :: p) := by
  have h1 : ¬ c = 0xC2 := by omega
  have h2 : ¬ c = 0xC3 := by omega
  cases t with
  | nil => simp [ps_convert, h, h1, h2, h7]
  | cons d rest => simp [ps_convert, h, h1, h2, h7]

theorem ps_convert_cons_other (c : Nat) (t : CStr) (h1 : ¬ c = 0xC2) (h2 : ¬ c = 0xC3)
    (h8 : ¬ c < 0x80) : ps_convert (c :: t) = ps_convert t := by
  have h : ¬ (c = 40 ∨ c = 41 ∨ c = 92) := by omega
  cases t with
  | nil => simp [ps_convert, h, h1, h2, h8]
  | cons d rest => simp [ps_convert, h, h1, h2, h8]

theorem ps_convert_cons_c2 (d : Nat) (t : CStr) :
    ps_convert (0xC2 :: d :: t) = (ps_convert t).map (fun p => d :: p) := by
  simp [ps_convert]

theorem ps_convert_cons_c3 (d : Nat) (t : CStr) :
    ps_convert (0xC3 :: d :: t) = (ps_convert t).map (fun p => (d + 64) % 256 :: p) := by
  simp [ps_convert]

theorem leads_followed_tail (c : Nat) (t : CStr) (h : leads_followed (c :: t)) :
    leads_followed t := by
  intro i hi hl
  have := h (i + 1) (by simp; omega) (by simpa using hl)
  simp only [List.length_cons] at this
  omega

theorem ps_convert_length_aux (n : Nat) :
    ∀ s : CStr, s.length ≤ n → leads_followed s →
      ∃ out, ps_convert s = some out ∧ out.length ≤ (s.map ps_cost).sum := by
  induction n with
  | zero =>
    intro s hs _
    have : s = [] := List.length_eq_zero.mp (by omega)
    subst this
    exact ⟨[], rfl, by simp⟩
  | succ n ih =>
    intro s hs hl
    cases s with
    | nil => exact ⟨[], rfl, by simp⟩
    | cons c t =>
      have hlt := leads_followed_tail c t hl
      have hcost : 1 ≤ ps_cost c := by unfold ps_cost; split_ifs <;> omega
      simp only [List.length_cons] at hs
      by_cases hsp : c = 40 ∨ c = 41 ∨ c = 92
      · obtain ⟨out, ho, hlen⟩ := ih t (by omega) hlt
        refine ⟨92 :: c :: out, by rw [ps_convert_cons_special c t hsp, ho]; rfl, ?_⟩
        simp only [List.length_cons, List.map_cons, List.sum_cons, ps_cost, hsp, if_true]
        omega
      · by_cases hlead : c = 0xC2 ∨ c = 0xC3
        · cases t with
          | nil =>
            have := hl 0 (by simp) (by simpa using hlead)
            simp at this
          | cons d rest =>
            have hlr := leads_followed_tail d rest hlt
            simp only [List.length_cons] at hs
            obtain ⟨out, ho, hlen⟩ := ih rest (by omega) hlr
            have hd : 1 ≤ ps_cost d := by unfold ps_cost; split_ifs <;> omega
            rcases hlead with hc | hc
            · subst hc
              refine ⟨d :: out, by rw [ps_convert_cons_c2, ho]; rfl, ?_⟩
              simp only [List.length_cons, List.map_cons, List.sum_cons]
              omega
            · subst hc
              refine ⟨(d + 64) % 256 :: out, by rw [ps_convert_cons_c3, ho]; rfl, ?_⟩
              simp only [List.length_cons, List.map_cons, List.sum_cons]
              omega
        · obtain ⟨out, ho, hlen⟩ := ih t (by omega) hlt
          by_cases h7 : c < 0x80
          · refine ⟨c :: out, by rw [ps_convert_cons_ascii c t hsp h7, ho]; rfl, ?_⟩
            simp only [List.length_cons, List.map_cons, List.sum_cons]
            omega
          · refine ⟨out, by
              rw [ps_convert_cons_other c t (fun e => hlead (Or.inl e))
                (fun e => hlead (Or.inr e)) h7, ho], ?_⟩
            simp only [List.map_cons, List.sum_cons]
            omega

/-- C39: for every byte string, NUL-free or not, in which each byte 0xC2 or
0xC3 is followed by another byte, `ps_convert` stays within the string, and
its output is no longer than the length `ps_plot` computes for the same
string, 2 for each parenthesis and backslash and 1 for every other byte; so
with its terminator it fits a buffer of that length plus one. -/
theorem ps_convert_fits (s : CStr) (hl : leads_followed s) :
    ∃ out, ps_convert s = some out
      ∧ out.length ≤ (ps_text_length s).1
      ∧ out.length + 1 ≤ (ps_text_length s).1 + 1
      ∧ (ps_text_length s).1 = (s.map ps_cost).sum := by
  obtain ⟨out, ho, hlen⟩ := ps_convert_length_aux s.length s (le_refl _) hl
  have e := ps_text_length_eq s
  refine ⟨out, ho, ?_, ?_, ?_⟩
  · rw [e]; exact hlen
  · rw [e]; simp only; omega
  · rw [e]

/-- The text "A(é)" in UTF-8, five bytes, converts to six bytes and the length
computed for it is 7. -/
theorem ps_convert_fits_witness :
    leads_followed [65, 40, 0xC3, 0xA9, 41]
    ∧ (ps_text_length [65, 40, 0xC3, 0xA9, 41]).1 = 7
    ∧ ps_convert [65, 40, 0xC3, 0xA9, 41] = some [65, 92, 40, 0xE9, 92, 41]
    ∧ ∃ out, ps_convert [65, 40, 0xC3, 0xA9, 41] = some out
      ∧ out.length ≤ (ps_text_length [65, 40, 0xC3, 0xA9, 41]).1
      ∧ out.length + 1 ≤ (ps_text_length [65, 40, 0xC3, 0xA9, 41]).1 + 1
      ∧ (ps_text_length [65, 40, 0xC3, 0xA9, 41]).1
          = (([65, 40, 0xC3, 0xA9, 41] : CStr).map ps_cost).sum :=
  ⟨by decide, by decide, by decide, ps_convert_fits [65, 40, 0xC3, 0xA9, 41] (by decide)⟩

theorem ps_unescape_escaped (s : CStr) (h : ∀ c ∈ s, c < 0x80) :
    ps_unescape (s.flatMap ps_escaped) = s := by
  induction s with
  | nil => rfl
  | cons c t ih =>
    have iht := ih (fun x hx => h x (List.mem_cons_of_mem _ hx))
    by_cases hsp : c = 40 ∨ c = 41 ∨ c = 92
    · simp only [List.flatMap_cons, ps_escaped, hsp, if_true, List.cons_append, List.nil_append,
        ps_unescape]
      rw [iht]
    · have h92 : ¬ c = 92 := fun e => hsp (Or.inr (Or.inr e))
      simp only [List.flatMap_cons, ps_escaped, hsp, if_false, List.cons_append, List.nil_append]
      cases hrest : t.flatMap ps_escaped with
      | nil =>
        rw [hrest] at iht
        simp only [ps_unescape] at iht ⊢
        rw [← iht]
      | cons d rest =>
        rw [hrest] at iht
        simp only [ps_unescape, h92, if_false]
        rw [iht]

theorem ps_convert_ascii (s : CStr) (h : ∀ c ∈ s, c < 0x80) :
    ps_convert s = some (s.flatMap ps_escaped) := by
  induction s with
  | nil => rfl
  | cons c t ih =>
    have iht := ih (fun x hx => h x (List.mem_cons_of_mem _ hx))
    have h7 := h c (List.mem_cons_self _ _)
    by_cases hsp : c = 40 ∨ c = 41 ∨ c = 92
    · rw [ps_convert_cons_special c t hsp, iht]
      simp [ps_escaped, hsp]
    · rw [ps_convert_cons_ascii c t hsp h7, iht]
      simp [ps_escaped, hsp]

/-- C34: `ps_convert` copies 7-bit characters unchanged except that each
parenthesis and backslash is preceded by a backslash, and folds the two-byte
UTF-8 sequence of a code point U+0080..U+00FF, lead byte 0xC2 or 0xC3 and a
continuation byte, into the single byte equal to the code point: the UTF-8
text of the code points `cps`, each below U+0100, converts to the escaped
bytes of `cps`.  For pure 7-bit input, removing the backslash escapes from the
output gives back the input. -/
theorem ps_convert_latin1 :
    (∀ cps : List Nat, (∀ cp ∈ cps, 0 < cp ∧ cp < 0x100) →
      ps_convert (cps.flatMap utf8_latin1) = some (cps.flatMap ps_escaped))
    ∧ (∀ cp, 0x80 ≤ cp → cp < 0x100 →
      (utf8_latin1 cp = [0xC2, cp] ∨ utf8_latin1 cp = [0xC3, cp - 64]) ∧ ps_escaped cp = [cp])
    ∧ (∀ s : CStr, (∀ c ∈ s, c < 0x80) →
      ∃ out, ps_convert s = some out ∧ out = s.flatMap ps_escaped ∧ ps_unescape out = s) := by
  refine ⟨?_, ?_, ?_⟩
  · intro cps h
    induction cps with
    | nil => rfl
    | cons cp t ih =>
      have iht := ih (fun x hx => h x (List.mem_cons_of_mem _ hx))
      obtain ⟨_, h8⟩ := h cp (List.mem_cons_self _ _)
      rw [List.flatMap_cons, List.flatMap_cons]
      by_cases h7 : cp < 0x80
      · simp only [utf8_latin1, h7, if_true, List.cons_append, List.nil_append]
        by_cases hsp : cp = 40 ∨ cp = 41 ∨ cp = 92
        · rw [ps_convert_cons_special cp _ hsp, iht]
          simp [ps_escaped, hsp]
        · rw [ps_convert_cons_ascii cp _ hsp h7, iht]
          simp [ps_escaped, hsp]
      · have hsp : ¬ (cp = 40 ∨ cp = 41 ∨ cp = 92) := by omega
        simp only [utf8_latin1, h7, if_false, List.cons_append, List.nil_append, ps_escaped, hsp]
        by_cases hlow : cp < 0xC0
        · have e1 : 0xC0 + cp / 64 = 0xC2 := by omega
          have e2 : 0x80 + cp % 64 = cp := by omega
          rw [e1, e2, ps_convert_cons_c2, iht]
          rfl
        · have e1 : 0xC0 + cp / 64 = 0xC3 := by omega
          have e2 : (0x80 + cp % 64 + 64) % 256 = cp := by omega
          rw [e1, ps_convert_cons_c3, iht, e2]
          rfl
  · intro cp h1 h2
    have h7 : ¬ cp < 0x80 := by omega
    have hsp : ¬ (cp = 40 ∨ cp = 41 ∨ cp = 92) := by omega
    refine ⟨?_, by simp [ps_escaped, hsp]⟩
    by_cases hlow : cp < 0xC0
    · left
      have e1 : 0xC0 + cp / 64 = 0xC2 := by omega
      have e2 : 0x80 + cp % 64 = cp := by omega
      simp only [utf8_latin1, h7, if_false, e1, e2]
    · right
      have e1 : 0xC0 + cp / 64 = 0xC3 := by omega
      have e2 : 0x80 + cp % 64 = cp - 64 := by omega
      simp only [utf8_latin1, h7, if_false, e1, e2]
  · intro s h
    exact ⟨_, ps_convert_ascii s h, rfl, ps_unescape_escaped s h⟩

/-- The text "A(é)": its UTF-8 bytes convert to "A\(", the byte 0xE9 and "\)";
the 7-bit text "a\b" converts to "a\\b", and removing the escapes gives it
back. -/
theorem ps_convert_latin1_witness :
    ps_convert (([65, 40, 0xE9, 41] : List Nat).flatMap utf8_latin1)
      = some [65, 92, 40, 0xE9, 92, 41]
    ∧ utf8_latin1 0xE9 = [0xC3, 0xA9]
    ∧ ∃ out, ps_convert [97, 92, 98] = some out ∧ out = [97, 92, 92, 98]
      ∧ ps_unescape out = [97, 92, 98] := by
  obtain ⟨out, h1, h2, h3⟩ := ps_convert_latin1.2.2 [97, 92, 98] (by decide)
  exact ⟨(ps_convert_latin1.1 [65, 40, 0xE9, 41] (by decide)).trans (by decide), by decide,
    out, h1, h2.trans (by decide), h3⟩

/-! ## The palettes of `colour_to_pscolor` -/

theorem colour_to_pscolor_rgb (option : Nat) (colour : Int) (h : option &&& CMYK_COLOUR = 0) :
    colour_to_pscolor option colour = colour_to_pscolor 0 colour := by
  simp [colour_to_pscolor, h]

theorem colour_to_pscolor_cmyk (option : Nat) (colour : Int) (h : option &&& CMYK_COLOUR ≠ 0) :
    colour_to_pscolor option colour = colour_to_pscolor CMYK_COLOUR colour := by
  have h2 : CMYK_COLOUR &&& CMYK_COLOUR ≠ 0 := by decide
  simp only [colour_to_pscolor, h, h2, if_false]

theorem colour_to_pscolor_default (option : Nat) (colour : Int)
    (h : colour ∉ ([1, 2, 3, 4, 5, 6, 8] : List Int)) :
    colour_to_pscolor option colour = colour_to_pscolor option 0 := by
  simp only [List.mem_cons, List.mem_singleton, List.not_mem_nil, or_false, not_or] at h
  obtain ⟨h1, h2, h3, h4, h5, h6, h8⟩ := h
  simp [colour_to_pscolor, h1, h2, h3, h4, h5, h6, h8]

/-- C40: the RGB and CMYK palettes of `colour_to_pscolor` agree under the
conversion: for every colour index the RGB entry has three channels, each 0.00
or 1.00, and `out_colour_get_cmyk` of its six-digit hexadecimal form, each
channel "00" or "FF", gives percentages that are, in hundredths, the four
numbers of the CMYK entry.  Every index other than 1-6 and 8 is black in both
palettes, 0.00 0.00 0.00 and 0.00 0.00 0.00 1.00. -/
theorem colour_to_pscolor_palettes (colour : Int) (rgb_option cmyk_option : Nat)
    (h1 : rgb_option &&& CMYK_COLOUR = 0) (h2 : cmyk_option &&& CMYK_COLOUR ≠ 0) :
    (palette_values (colour_to_pscolor rgb_option colour)).length = 3
    ∧ (∀ v ∈ palette_values (colour_to_pscolor rgb_option colour), v = 0 ∨ v = 100)
    ∧ (∃ q, out_colour_get_cmyk
          (palette_hex (palette_values (colour_to_pscolor rgb_option colour))) false = some q
        ∧ (palette_values (colour_to_pscolor cmyk_option colour)).map (fun v => ((v : Nat) : Int))
          = [q.cyan, q.magenta, q.yellow, q.black])
    ∧ (colour ∉ ([1, 2, 3, 4, 5, 6, 8] : List Int) →
        palette_values (colour_to_pscolor rgb_option colour) = [0, 0, 0]
        ∧ palette_values (colour_to_pscolor cmyk_option colour) = [0, 0, 0, 100]) := by
  rw [colour_to_pscolor_rgb rgb_option colour h1, colour_to_pscolor_cmyk cmyk_option colour h2]
  have key : ∀ k : Int,
      (palette_values (colour_to_pscolor 0 k)).length = 3
      ∧ (∀ v ∈ palette_values (colour_to_pscolor 0 k), v = 0 ∨ v = 100)
      ∧ (∃ q, out_colour_get_cmyk (palette_hex (palette_values (colour_to_pscolor 0 k))) false
            = some q
          ∧ (palette_values (colour_to_pscolor CMYK_COLOUR k)).map (fun v => ((v : Nat) : Int))
            = [q.cyan, q.magenta, q.yellow, q.black]) →
      k = colour ∨ (colour ∉ ([1, 2, 3, 4, 5, 6, 8] : List Int) ∧ k = 0) →
      (palette_values (colour_to_pscolor 0 colour)).length = 3
      ∧ (∀ v ∈ palette_values (colour_to_pscolor 0 colour), v = 0 ∨ v = 100)
      ∧ (∃ q, out_colour_get_cmyk (palette_hex (palette_values (colour_to_pscolor 0 colour)))
            false = some q
          ∧ (palette_values (colour_to_pscolor CMYK_COLOUR colour)).map
              (fun v => ((v : Nat) : Int))
            = [q.cyan, q.magenta, q.yellow, q.black]) := by
    intro k hk hc
    rcases hc with hc | ⟨hc, h0⟩
    · rw [← hc]; exact hk
    · rw [colour_to_pscolor_default 0 colour hc, colour_to_pscolor_default CMYK_COLOUR colour hc,
        ← h0]
      exact hk
  have ev : ∀ k ∈ ([0, 1, 2, 3, 4, 5, 6, 8] : List Int),
      (palette_values (colour_to_pscolor 0 k)).length = 3
      ∧ (∀ v ∈ palette_values (colour_to_pscolor 0 k), v = 0 ∨ v = 100)
      ∧ (∃ q, out_colour_get_cmyk (palette_hex (palette_values (colour_to_pscolor 0 k))) false
            = some q
          ∧ (palette_values (colour_to_pscolor CMYK_COLOUR k)).map (fun v => ((v : Nat) : Int))
            = [q.cyan, q.magenta, q.yellow, q.black]) := by
    intro k hk
    simp only [List.mem_cons, List.mem_singleton, List.not_mem_nil, or_false] at hk
    rcases hk with h | h | h | h | h | h | h | h <;> subst h
    · exact ⟨by decide, by decide, ⟨⟨1, 0, 0, 0, 100, none⟩,
        by decide, by decide⟩⟩
    · exact ⟨by decide, by decide, ⟨⟨1, 100, 0, 0, 0, none⟩,
        by decide, by decide⟩⟩
    · exact ⟨by decide, by decide, ⟨⟨1, 100, 100, 0, 0, none⟩,
        by decide, by decide⟩⟩
    · exact ⟨by decide, by decide, ⟨⟨1, 0, 100, 0, 0, none⟩,
        by decide, by decide⟩⟩
    · exact ⟨by decide, by decide, ⟨⟨1, 0, 100, 100, 0, none⟩,
        by decide, by decide⟩⟩
    · exact ⟨by decide, by decide, ⟨⟨1, 0, 0, 100, 0, none⟩,
        by decide, by decide⟩⟩
    · exact ⟨by decide, by decide, ⟨⟨1, 100, 0, 100, 0, none⟩,
        by decide, by decide⟩⟩
    · exact ⟨by decide, by decide, ⟨⟨1, 0, 0, 0, 0, none⟩,
        by decide, by decide⟩⟩
  have main : (palette_values (colour_to_pscolor 0 colour)).length = 3
      ∧ (∀ v ∈ palette_values (colour_to_pscolor 0 colour), v = 0 ∨ v = 100)
      ∧ (∃ q, out_colour_get_cmyk (palette_hex (palette_values (colour_to_pscolor 0 colour)))
            false = some q
          ∧ (palette_values (colour_to_pscolor CMYK_COLOUR colour)).map
              (fun v => ((v : Nat) : Int))
            = [q.cyan, q.magenta, q.yellow, q.black]) := by
    by_cases hc : colour ∈ ([1, 2, 3, 4, 5, 6, 8] : List Int)
    · have hm : colour ∈ ([0, 1, 2, 3, 4, 5, 6, 8] : List Int) := List.mem_cons_of_mem _ hc
      exact key colour (ev colour hm) (Or.inl rfl)
    · exact key 0 (ev 0 (by decide)) (Or.inr ⟨hc, rfl⟩)
  refine ⟨main.1, main.2.1, main.2.2, ?_⟩
  intro hc
  rw [colour_to_pscolor_default 0 colour hc, colour_to_pscolor_default CMYK_COLOUR colour hc]
  exact ⟨by decide, by decide⟩

/-- Colour index 4, red: the RGB entry 1.00 0.00 0.00 is "FF0000", which
converts to 0, 100, 100, 0 per cent, the CMYK entry 0.00 1.00 1.00 0.00. -/
theorem colour_to_pscolor_palettes_witness :
    (0 : Nat) &&& CMYK_COLOUR = 0 ∧ CMYK_COLOUR &&& CMYK_COLOUR ≠ 0
    ∧ palette_hex (palette_values (colour_to_pscolor 0 4)) = cstr "FF0000"
    ∧ colour_to_pscolor CMYK_COLOUR 4 = cstr "0.00 1.00 1.00 0.00 setcmykcolor"
    ∧ ∃ q, out_colour_get_cmyk (palette_hex (palette_values (colour_to_pscolor 0 4))) false
          = some q
        ∧ (palette_values (colour_to_pscolor CMYK_COLOUR 4)).map (fun v => ((v : Nat) : Int))
          = [q.cyan, q.magenta, q.yellow, q.black] :=
  ⟨by decide, by decide, by decide, by decide,
   (colour_to_pscolor_palettes 4 0 CMYK_COLOUR (by decide) (by decide)).2.2.1⟩

/-! ## The rectangles of `ps_plot` -/

theorem ps_rect_pass_fold (vector : zint_vector) (colour : Int) (set_colour : ps_write) :
    ∀ (rs : List zint_vector_rect) (b : Bool) (acc : List ps_write),
      (rs.foldl
        (fun st rect =>
          if rect.colour = colour then
            (true, st.2 ++ (if st.1 = false then [set_colour] else []) ++ ps_rect vector rect)
          else st)
        ((b, acc) : Bool × List ps_write)).2
      = acc ++ (if b = false then
          group_writes vector set_colour (rs.filter (fun rect => decide (rect.colour = colour)))
        else (rs.filter (fun rect => decide (rect.colour = colour))).flatMap (ps_rect vector)) := by
  intro rs
  induction rs with
  | nil => intro b acc; cases b <;> simp [group_writes]
  | cons rect rest ih =>
    intro b acc
    rw [List.foldl_cons]
    by_cases hc : rect.colour = colour
    · rw [if_pos hc, ih]
      cases b <;> simp [group_writes, hc, List.flatMap_cons]
    · rw [if_neg hc, ih]
      simp [hc]

theorem ps_rect_pass_eq (vector : zint_vector) (colour : Int) (set_colour : ps_write) :
    ps_rect_pass vector colour set_colour
      = group_writes vector set_colour (rect_group vector colour) := by
  unfold ps_rect_pass rect_group
  rw [ps_rect_pass_fold]
  simp

theorem ps_rectangles_eq (symbol : zint_symbol) (vector : zint_vector) (c : ps_colours) :
    ps_foreground symbol c ++ ps_rectangles symbol vector c
      = if symbol.symbology = BARCODE_ULTRA then
          group_writes vector (ps_set_ink symbol c) (rect_group vector (-1))
          ++ ([1, 2, 3, 4, 5, 6, 7, 8] : List Int).flatMap
              (fun k => group_writes vector (ps_set_palette symbol k) (rect_group vector k))
        else ps_set_ink symbol c :: vector.rectangles.flatMap (ps_rect vector) := by
  unfold ps_foreground ps_rectangles
  by_cases hu : symbol.symbology = BARCODE_ULTRA
  · rw [if_pos hu, if_pos hu, if_neg (not_not.mpr hu), List.nil_append, ps_rect_pass_eq]
    have e : (List.range 8).map (fun k => ((k + 1 : Nat) : Int)) = [1, 2, 3, 4, 5, 6, 7, 8] := by
      decide
    rw [e]
    simp only [ps_rect_pass_eq, ps_set_palette]
  · rw [if_neg hu, if_neg hu, if_pos hu]
    rfl

/-- C33: the rectangles of the document of `ps_plot`, the scene present and the
stream open.  For BARCODE_ULTRA they are the group of colour -1 under the ink
colour statement, then the groups of the colour indices 1, 2, ..., 8 in turn,
each under the statement of its palette entry; a group is the rectangles of
that colour in scene order, preceded by exactly one colour statement when it
is non-empty and writing nothing when it is empty.  For every other symbology
they are one ink colour statement and then every rectangle once in scene
order.  Every rectangle is drawn at y = (canvas height - y) - rectangle
height.  The function returns whenever the colours resolve and the text runs
convert within the buffer. -/
theorem ps_plot_rectangles (symbol : zint_symbol) (env : ps_env) (vector : zint_vector)
    (hv : symbol.vector = some vector) (ho : stream_open symbol env) :
    (∀ c text, ps_get_colours symbol = some c → ps_text symbol vector = some text →
      ∃ r, ps_plot symbol env = some r)
    ∧ (∀ r, ps_plot symbol env = some r →
      ∃ c text, ps_get_colours symbol = some c ∧ ps_text symbol vector = some text
        ∧ r.document
          = (ps_header vector env ++ ps_definitions vector ++ [.fputs "newpath\n"]
              ++ ps_background symbol vector c)
            ++ (if symbol.symbology = BARCODE_ULTRA then
                  group_writes vector (ps_set_ink symbol c) (rect_group vector (-1))
                  ++ ([1, 2, 3, 4, 5, 6, 7, 8] : List Int).flatMap
                      (fun k => group_writes vector (ps_set_palette symbol k) (rect_group vector k))
                else ps_set_ink symbol c :: vector.rectangles.flatMap (ps_rect vector))
            ++ (ps_hexagons vector ++ ps_circles symbol vector c ++ text))
    ∧ (∀ statement, group_writes vector statement [] = [])
    ∧ (∀ statement rect rest, group_writes vector statement (rect :: rest)
        = statement :: (ps_rect vector rect ++ rest.flatMap (ps_rect vector)))
    ∧ (∀ colour rect, rect ∈ rect_group vector colour ↔
        rect ∈ vector.rectangles ∧ rect.colour = colour)
    ∧ (∀ colour, List.Sublist (rect_group vector colour) vector.rectangles)
    ∧ ∀ rect, ps_rect vector rect
        = [.fprintf "%.2f %.2f TB %.2f %.2f TR\n"
             [.flt rect.height, .flt (f32_sub (f32_sub vector.height rect.y) rect.height),
              .flt rect.x, .flt rect.width],
           .fputs "TE\n"] := by
  refine ⟨fun c text hc ht => ps_plot_returns symbol env vector c text hv hc ht, ?_,
    fun _ => rfl, fun _ _ _ => rfl, ?_, ?_, fun _ => rfl⟩
  · intro r h
    obtain ⟨c, text, hc, ht, hd⟩ := ps_plot_document symbol env vector r hv ho h
    refine ⟨c, text, hc, ht, ?_⟩
    rw [hd, ← ps_rectangles_eq]
    simp only [List.append_assoc]
  · intro colour rect
    simp [rect_group]
  · intro colour
    exact List.filter_sublist _

/-- The Ultracode scene of five squares of colours 3, -1, 1, 3, -1: the two
squares of colour -1 come first under the ink colour, then the square of
colour 1 under "0.00 1.00 1.00 setrgbcolor", then the two squares of colour 3
under "1.00 0.00 1.00 setrgbcolor"; five groups stay empty. -/
theorem ps_plot_rectangles_witness :
    ∃ r c, ultra_scene.vector = some ultra_vector ∧ stream_open ultra_scene plain_env
      ∧ ps_plot ultra_scene plain_env = some r
      ∧ ps_get_colours ultra_scene = some c
      ∧ r.document
        = (ps_header ultra_vector plain_env ++ ps_definitions ultra_vector
            ++ [.fputs "newpath\n"] ++ ps_background ultra_scene ultra_vector c)
          ++ ([ps_set_ink ultra_scene c] ++ ps_rect ultra_vector (unit_square 1 (-1))
              ++ ps_rect ultra_vector (unit_square 4 (-1))
              ++ [.fprintf "%s\n" [.str (cstr "0.00 1.00 1.00 setrgbcolor")]]
              ++ ps_rect ultra_vector (unit_square 2 1)
              ++ [.fprintf "%s\n" [.str (cstr "1.00 0.00 1.00 setrgbcolor")]]
              ++ ps_rect ultra_vector (unit_square 0 3)
              ++ ps_rect ultra_vector (unit_square 3 3)) := by
  obtain ⟨r, hr⟩ : ∃ r, ps_plot ultra_scene plain_env = some r :=
    Option.isSome_iff_exists.mp (by decide)
  obtain ⟨c, text, hc, ht, hd⟩ :=
    (ps_plot_rectangles ultra_scene plain_env ultra_vector rfl (by decide)).2.1 r hr
  have ht2 : text = [] := by
    have e : ps_text ultra_scene ultra_vector = some [] := by decide
    rw [e] at ht
    exact (Option.some.inj ht).symm
  refine ⟨r, c, rfl, by decide, hr, hc, ?_⟩
  have e1 : group_writes ultra_vector (ps_set_ink ultra_scene c) (rect_group ultra_vector (-1))
        ++ ([1, 2, 3, 4, 5, 6, 7, 8] : List Int).flatMap
            (fun k => group_writes ultra_vector (ps_set_palette ultra_scene k)
              (rect_group ultra_vector k))
      = [ps_set_ink ultra_scene c] ++ ps_rect ultra_vector (unit_square 1 (-1))
          ++ ps_rect ultra_vector (unit_square 4 (-1))
          ++ [.fprintf "%s\n" [.str (cstr "0.00 1.00 1.00 setrgbcolor")]]
          ++ ps_rect ultra_vector (unit_square 2 1)
          ++ [.fprintf "%s\n" [.str (cstr "1.00 0.00 1.00 setrgbcolor")]]
          ++ ps_rect ultra_vector (unit_square 0 3)
          ++ ps_rect ultra_vector (unit_square 3 3) := rfl
  have e2 : ps_hexagons ultra_vector ++ ps_circles ultra_scene ultra_vector c ++ [] = [] := rfl
  rw [hd, ht2, if_pos (by decide), e1, e2, List.append_nil]

/-! ## The colour in force after an inverse circle -/

/-- C35, the code at the failing input: in the scene of a symbol other than
BARCODE_ULTRA whose last circle is an inverse disc and which has a text run
after it, the document of `ps_plot` holds no ink colour statement after the
paper colour statement of the disc, so that the colour in force at the `show`
of the text run is the paper colour, which differs from the ink colour.  With
an ordinary disc after the inverse one, the ink colour statement is written
and the text run is shown in the ink colour. -/
theorem ps_plot_text_in_paper_colour :
    inverse_scene.symbology ≠ BARCODE_ULTRA
    ∧ (∃ r ∈ ps_plot inverse_scene plain_env, ∃ c ∈ ps_get_colours inverse_scene,
        run_show (cstr "A") ∈ r.document
        ∧ colour_at r.document (run_show (cstr "A")) = some (ps_set_paper inverse_scene c)
        ∧ ps_set_paper inverse_scene c ≠ ps_set_ink inverse_scene c)
    ∧ (∃ r ∈ ps_plot inverse_then_plain plain_env, ∃ c ∈ ps_get_colours inverse_then_plain,
        run_show (cstr "A") ∈ r.document
        ∧ colour_at r.document (run_show (cstr "A"))
          = some (ps_set_ink inverse_then_plain c)) := by
  decide

/-! ## The memoised radii of `ps_plot` -/

theorem ratio_le (K S a1 b1 a2 b2 : Nat) (hb1 : 0 < b1) (h : a1 * b2 = a2 * b1)
    (hle : K * b1 ≤ a1 * S) : K * b2 ≤ a2 * S := by
  have e : b1 * (K * b2) ≤ b1 * (a2 * S) := by
    calc b1 * (K * b2) = (K * b1) * b2 := by ring
      _ ≤ (a1 * S) * b2 := Nat.mul_le_mul_right _ hle
      _ = (a1 * b2) * S := by ring
      _ = (a2 * b1) * S := by rw [h]
      _ = b1 * (a2 * S) := by ring
  exact Nat.le_of_mul_le_mul_left e hb1

theorem ratio_le_iff (K S a1 b1 a2 b2 : Nat) (hb1 : 0 < b1) (hb2 : 0 < b2)
    (h : a1 * b2 = a2 * b1) : K * b1 ≤ a1 * S ↔ K * b2 ≤ a2 * S :=
  ⟨ratio_le K S a1 b1 a2 b2 hb1 h, ratio_le K S a2 b2 a1 b1 hb2 h.symm⟩

theorem ratio_lt_iff (K T a1 b1 a2 b2 : Nat) (hb1 : 0 < b1) (hb2 : 0 < b2)
    (h : a1 * b2 = a2 * b1) : a1 < K * (b1 * T) ↔ a2 < K * (b2 * T) := by
  have e := ratio_le_iff (K * T) 1 a1 b1 a2 b2 hb1 hb2 h
  have e1 : K * (b1 * T) = K * T * b1 := by ring
  have e2 : K * (b2 * T) = K * T * b2 := by ring
  rw [e1, e2]
  constructor
  · intro hlt
    by_contra hn
    have := e.mpr (by omega)
    omega
  · intro hlt
    by_contra hn
    have := e.mp (by omega)
    omega

theorem round_nearest_even_ratio (n1 d1 n2 d2 : Nat) (hd1 : 0 < d1) (hd2 : 0 < d2)
    (h : n1 * d2 = n2 * d1) : round_nearest_even n1 d1 = round_nearest_even n2 d2 := by
  have hq : n1 / d1 = n2 / d2 := by
    calc n1 / d1 = (n1 * d2) / (d1 * d2) := (Nat.mul_div_mul_right n1 d1 hd2).symm
      _ = (n2 * d1) / (d2 * d1) := by rw [h, Nat.mul_comm d1 d2]
      _ = n2 / d2 := Nat.mul_div_mul_right n2 d2 hd1
  have hr : (n1 % d1) * d2 = (n2 % d2) * d1 := by
    have m1 := Nat.div_add_mod n1 d1
    have m2 := Nat.div_add_mod n2 d2
    have k1 : (d1 * (n1 / d1) + n1 % d1) * d2 = (d2 * (n2 / d2) + n2 % d2) * d1 := by
      rw [m1, m2, h]
    rw [hq] at k1
    have k2 : d1 * (n2 / d2) * d2 = d2 * (n2 / d2) * d1 := by ring
    rw [Nat.add_mul, Nat.add_mul, k2] at k1
    exact Nat.add_left_cancel k1
  have c1 : 2 * (n1 % d1) < d1 ↔ 2 * (n2 % d2) < d2 := by
    constructor
    · intro hlt
      have : 2 * (n2 % d2) * d1 < d2 * d1 := by
        calc 2 * (n2 % d2) * d1 = 2 * ((n2 % d2) * d1) := by ring
          _ = 2 * ((n1 % d1) * d2) := by rw [hr]
          _ = (2 * (n1 % d1)) * d2 := by ring
          _ < d1 * d2 := Nat.mul_lt_mul_of_pos_right hlt hd2
          _ = d2 * d1 := by ring
      exact Nat.lt_of_mul_lt_mul_right this
    · intro hlt
      have : 2 * (n1 % d1) * d2 < d1 * d2 := by
        calc 2 * (n1 % d1) * d2 = 2 * ((n1 % d1) * d2) := by ring
          _ = 2 * ((n2 % d2) * d1) := by rw [hr]
          _ = (2 * (n2 % d2)) * d1 := by ring
          _ < d2 * d1 := Nat.mul_lt_mul_of_pos_right hlt hd1
          _ = d1 * d2 := by ring
      exact Nat.lt_of_mul_lt_mul_right this
  have c2 : d1 < 2 * (n1 % d1) ↔ d2 < 2 * (n2 % d2) := by
    constructor
    · intro hlt
      have : d2 * d1 < 2 * (n2 % d2) * d1 := by
        calc d2 * d1 = d1 * d2 := by ring
          _ < (2 * (n1 % d1)) * d2 := Nat.mul_lt_mul_of_pos_right hlt hd2
          _ = 2 * ((n1 % d1) * d2) := by ring
          _ = 2 * ((n2 % d2) * d1) := by rw [hr]
          _ = 2 * (n2 % d2) * d1 := by ring
      exact Nat.lt_of_mul_lt_mul_right this
    · intro hlt
      have : d1 * d2 < 2 * (n1 % d1) * d2 := by
        calc d1 * d2 = d2 * d1 := by ring
          _ < (2 * (n2 % d2)) * d1 := Nat.mul_lt_mul_of_pos_right hlt hd1
          _ = 2 * ((n2 % d2) * d1) := by ring
          _ = 2 * ((n1 % d1) * d2) := by rw [hr]
          _ = 2 * (n1 % d1) * d2 := by ring
      exact Nat.lt_of_mul_lt_mul_right this
  unfold round_nearest_even
  simp only [hq, c1, c2]

theorem f64_scale_up_ratio (a1 b1 a2 b2 : Nat) (hb1 : 0 < b1) (hb2 : 0 < b2)
    (h : a1 * b2 = a2 * b1) :
    ∀ fuel s, f64_scale_up a1 b1 fuel s = f64_scale_up a2 b2 fuel s := by
  intro fuel
  induction fuel with
  | zero => intro s; rfl
  | succ fuel ih =>
    intro s
    unfold f64_scale_up
    rw [ih (s + 1)]
    simp only [ratio_le_iff (2 ^ 52) (2 ^ s) a1 b1 a2 b2 hb1 hb2 h]

theorem f64_scale_down_ratio (a1 b1 a2 b2 : Nat) (hb1 : 0 < b1) (hb2 : 0 < b2)
    (h : a1 * b2 = a2 * b1) :
    ∀ fuel t, f64_scale_down a1 b1 fuel t = f64_scale_down a2 b2 fuel t := by
  intro fuel
  induction fuel with
  | zero => intro t; rfl
  | succ fuel ih =>
    intro t
    unfold f64_scale_down
    rw [ih (t + 1)]
    simp only [ratio_lt_iff (2 ^ 53) (2 ^ t) a1 b1 a2 b2 hb1 hb2 h]

/-- The `double` nearest to a fraction depends on the value of the fraction
only, not on its numerator and denominator. -/
theorem f64_round_nat_ratio (a1 b1 a2 b2 : Nat) (hb1 : 0 < b1) (hb2 : 0 < b2)
    (h : a1 * b2 = a2 * b1) : f64_round_nat a1 b1 = f64_round_nat a2 b2 := by
  have hz : a1 = 0 ↔ a2 = 0 := by
    constructor
    · intro h0
      rw [h0, Nat.zero_mul] at h
      rcases Nat.mul_eq_zero.mp h.symm with h2 | h2
      · exact h2
      · omega
    · intro h0
      rw [h0, Nat.zero_mul] at h
      rcases Nat.mul_eq_zero.mp h with h2 | h2
      · exact h2
      · omega
  unfold f64_round_nat
  by_cases h0 : a1 = 0
  · rw [if_pos (Or.inl h0), if_pos (Or.inl (hz.mp h0))]
  · have h0b : ¬ (a2 = 0) := fun k => h0 (hz.mpr k)
    have n1 : ¬ (a1 = 0 ∨ b1 = 0) := by omega
    have n2 : ¬ (a2 = 0 ∨ b2 = 0) := by omega
    rw [if_neg n1, if_neg n2]
    simp only []
    rw [f64_scale_up_ratio a1 b1 a2 b2 hb1 hb2 h, f64_scale_down_ratio a1 b1 a2 b2 hb1 hb2 h]
    have hp : ∀ s t : Nat, a1 * 2 ^ s * (b2 * 2 ^ t) = a2 * 2 ^ s * (b1 * 2 ^ t) := by
      intro s t
      calc a1 * 2 ^ s * (b2 * 2 ^ t) = (a1 * b2) * (2 ^ s * 2 ^ t) := by ring
        _ = (a2 * b1) * (2 ^ s * 2 ^ t) := by rw [h]
        _ = a2 * 2 ^ s * (b1 * 2 ^ t) := by ring
    rw [round_nearest_even_ratio _ _ _ _ (by positivity) (by positivity) (hp _ _)]

theorem f64_round_nat_den_pos (a b : Nat) : 0 < (f64_round_nat a b).2 := by
  unfold f64_round_nat
  split_ifs
  · simp
  · simp only []
    positivity

/-- The product `(float) (c * x)` depends on the value of the `float` `x`
only. -/
theorem f32_times_double_same (n d : Nat) (x y : F32) (hx : x.den ≠ 0) (hy : y.den ≠ 0)
    (h : F32.same x y) : f32_times_double n d x = f32_times_double n d y := by
  unfold F32.same at h
  have hxp : (0 : Int) < (x.den : Int) := by omega
  have hyp : (0 : Int) < (y.den : Int) := by omega
  have hs : x.num < 0 ↔ y.num < 0 := by
    constructor
    · intro hn
      by_contra hc
      have p1 : x.num * (y.den : Int) < 0 := Int.mul_neg_of_neg_of_pos hn hyp
      have p2 : 0 ≤ y.num * (x.den : Int) := Int.mul_nonneg (by omega) (by omega)
      omega
    · intro hn
      by_contra hc
      have p1 : y.num * (x.den : Int) < 0 := Int.mul_neg_of_neg_of_pos hn hxp
      have p2 : 0 ≤ x.num * (y.den : Int) := Int.mul_nonneg (by omega) (by omega)
      omega
  have ha : x.num.natAbs * y.den = y.num.natAbs * x.den := by
    have k := congrArg Int.natAbs h
    rw [Int.natAbs_mul, Int.natAbs_mul, Int.natAbs_ofNat, Int.natAbs_ofNat] at k
    exact k
  have hp : f64_mul (f64_const n d) (x.num.natAbs, x.den)
      = f64_mul (f64_const n d) (y.num.natAbs, y.den) := by
    unfold f64_mul
    have hc := f64_round_nat_den_pos n d
    apply f64_round_nat_ratio
    · exact Nat.mul_pos hc (by omega)
    · exact Nat.mul_pos hc (by omega)
    · show (f64_const n d).1 * x.num.natAbs * ((f64_const n d).2 * y.den)
        = (f64_const n d).1 * y.num.natAbs * ((f64_const n d).2 * x.den)
      calc (f64_const n d).1 * x.num.natAbs * ((f64_const n d).2 * y.den)
          = (f64_const n d).1 * (f64_const n d).2 * (x.num.natAbs * y.den) := by ring
        _ = (f64_const n d).1 * (f64_const n d).2 * (y.num.natAbs * x.den) := by rw [ha]
        _ = (f64_const n d).1 * y.num.natAbs * ((f64_const n d).2 * x.den) := by ring
  unfold f32_times_double
  simp only [hp, hs]

/-- The product `(float) (c * x)` of a `float` zero is the `float` 0. -/
theorem f32_times_double_zero (n d : Nat) (x : F32) (h : x.num = 0) :
    f32_times_double n d x = F32.zero := by
  unfold f32_times_double f64_mul f64_round_nat
  simp [h, f32_round_nat, F32.zero]

theorem hexagon_radii_next (st : hexagon_radii) (hex : zint_vector_hexagon)
    (hp : st.previous_diameter.den ≠ 0)
    (h1 : st.radius = f32_times_double 5 10 st.previous_diameter)
    (h2 : st.half_radius = f32_times_double 25 100 st.previous_diameter)
    (h3 : st.half_sqrt3_radius
      = f32_times_double 43301270189221932338 100000000000000000000 st.previous_diameter)
    (hd : hex.diameter.den ≠ 0) :
    (st.next hex).previous_diameter.den ≠ 0
    ∧ (st.next hex).radius = f32_times_double 5 10 (st.next hex).previous_diameter
    ∧ (st.next hex).half_radius = f32_times_double 25 100 (st.next hex).previous_diameter
    ∧ (st.next hex).half_sqrt3_radius
      = f32_times_double 43301270189221932338 100000000000000000000
          (st.next hex).previous_diameter
    ∧ (st.next hex).radius = (hexagon_radii.fresh hex).radius
    ∧ (st.next hex).half_radius = (hexagon_radii.fresh hex).half_radius
    ∧ (st.next hex).half_sqrt3_radius = (hexagon_radii.fresh hex).half_sqrt3_radius := by
  unfold hexagon_radii.next hexagon_radii.fresh
  by_cases hs : F32.same st.previous_diameter hex.diameter
  · rw [if_neg (not_not.mpr hs)]
    refine ⟨hp, h1, h2, h3, ?_, ?_, ?_⟩
    · rw [h1]; exact f32_times_double_same _ _ _ _ hp hd hs
    · rw [h2]; exact f32_times_double_same _ _ _ _ hp hd hs
    · rw [h3]; exact f32_times_double_same _ _ _ _ hp hd hs
  · rw [if_pos hs]
    exact ⟨hd, rfl, rfl, rfl, rfl, rfl, rfl⟩

theorem ps_hexagon_radii (vector : zint_vector) (st st2 : hexagon_radii)
    (hex : zint_vector_hexagon) (h1 : st.radius = st2.radius)
    (h2 : st.half_radius = st2.half_radius)
    (h3 : st.half_sqrt3_radius = st2.half_sqrt3_radius) :
    ps_hexagon vector st hex = ps_hexagon vector st2 hex := by
  unfold ps_hexagon
  rw [h1, h2, h3]

theorem ps_hexagons_from_fresh (vector : zint_vector) :
    ∀ (hexagons : List zint_vector_hexagon) (st : hexagon_radii),
      st.previous_diameter.den ≠ 0 →
      st.radius = f32_times_double 5 10 st.previous_diameter →
      st.half_radius = f32_times_double 25 100 st.previous_diameter →
      st.half_sqrt3_radius
        = f32_times_double 43301270189221932338 100000000000000000000 st.previous_diameter →
      (∀ hex ∈ hexagons, hex.diameter.den ≠ 0) →
      ps_hexagons_from vector st hexagons
        = hexagons.map (fun hex => ps_hexagon vector (hexagon_radii.fresh hex) hex) := by
  intro hexagons
  induction hexagons with
  | nil => intro st _ _ _ _ _; rfl
  | cons hex rest ih =>
    intro st hp h1 h2 h3 hd
    obtain ⟨q0, q1, q2, q3, e1, e2, e3⟩ :=
      hexagon_radii_next st hex hp h1 h2 h3 (hd hex (List.mem_cons_self _ _))
    unfold ps_hexagons_from
    rw [ih (st.next hex) q0 q1 q2 q3 (fun x hx => hd x (List.mem_cons_of_mem _ hx)),
      ps_hexagon_radii vector (st.next hex) (hexagon_radii.fresh hex) hex e1 e2 e3]
    rfl

theorem ps_hexagons_eq_fresh (vector : zint_vector)
    (hd : ∀ hex ∈ vector.hexagons, hex.diameter.den ≠ 0) :
    ps_hexagons vector = ps_hexagons_fresh vector := by
  unfold ps_hexagons ps_hexagons_fresh
  exact ps_hexagons_from_fresh vector vector.hexagons {} (by decide) (by decide) (by decide)
    (by decide) hd

theorem f32_sub_den_ne_zero (x y : F32) : (f32_sub x y).den ≠ 0 := by
  unfold f32_sub f32_round
  have := f32_round_nat_den_pos
    (x.num * (y.den : Int) - y.num * (x.den : Int)).natAbs (x.den * y.den)
  simp only []
  omega

theorem circle_radius_next_fresh (st : F32 × F32) (circ : zint_vector_circle)
    (hp : st.1.den ≠ 0) (h1 : st.2 = f32_times_double 5 10 st.1) :
    (circle_radius_next st circ).1.den ≠ 0
    ∧ (circle_radius_next st circ).2 = f32_times_double 5 10 (circle_radius_next st circ).1
    ∧ (circle_radius_next st circ).2 = circle_radius_fresh circ := by
  unfold circle_radius_next circle_radius_fresh
  by_cases hs : F32.same st.1 (f32_sub circ.diameter circ.width)
  · rw [if_neg (not_not.mpr hs)]
    refine ⟨hp, h1, ?_⟩
    rw [h1]
    exact f32_times_double_same _ _ _ _ hp (f32_sub_den_ne_zero _ _) hs
  · rw [if_pos hs]
    exact ⟨f32_sub_den_ne_zero _ _, rfl, rfl⟩

theorem ps_circles_from_fresh (symbol : zint_symbol) (vector : zint_vector) (c : ps_colours) :
    ∀ (circles : List zint_vector_circle) (st : F32 × F32),
      st.1.den ≠ 0 → st.2 = f32_times_double 5 10 st.1 →
      ps_circles_from symbol vector c st circles = ps_circles_fresh symbol vector c circles := by
  intro circles
  induction circles with
  | nil => intro st _ _; rfl
  | cons circ rest ih =>
    intro st hp h1
    obtain ⟨q0, q1, e⟩ := circle_radius_next_fresh st circ hp h1
    unfold ps_circles_from ps_circles_fresh
    rw [ih (circle_radius_next st circ) q0 q1, e]

theorem ps_circles_eq_fresh (symbol : zint_symbol) (vector : zint_vector) (c : ps_colours) :
    ps_circles symbol vector c = ps_circles_fresh symbol vector c vector.circles := by
  unfold ps_circles
  exact ps_circles_from_fresh symbol vector c vector.circles (F32.zero, F32.zero) (by decide)
    (by decide)

/-- C36: the memoised radii of `ps_plot` are transparent.  For every list of
hexagons whose diameters are `float` values (fractions with a non-zero
denominator) and every list of circles, the hexagon loop and the circle loop
write what they would write with the radii recomputed for every shape: the
three radii of a hexagon are 0.5, 0.25 and 0.43301270189221932338 times its
own diameter and the radius of a circle is 0.5 x (diameter - width), each
product rounded to `float`; this holds from the initial state of the loops on,
so also when the first shape has effective diameter 0.  The document of
`ps_plot`, the scene present and the stream open, holds the shapes so drawn,
and the function returns whenever the colours resolve and the text runs
convert within the buffer.  The model of `float` has one zero and no NaN. -/
theorem ps_plot_radii_memoised (symbol : zint_symbol) (env : ps_env) (vector : zint_vector)
    (hv : symbol.vector = some vector) (ho : stream_open symbol env)
    (hd : ∀ hex ∈ vector.hexagons, hex.diameter.den ≠ 0) :
    (∀ c text, ps_get_colours symbol = some c → ps_text symbol vector = some text →
      ∃ r, ps_plot symbol env = some r)
    ∧ (∀ r, ps_plot symbol env = some r →
      ∃ c text, ps_get_colours symbol = some c ∧ ps_text symbol vector = some text
        ∧ r.document
          = ps_header vector env ++ ps_definitions vector ++ [.fputs "newpath\n"]
            ++ ps_background symbol vector c ++ ps_foreground symbol c
            ++ ps_rectangles symbol vector c ++ ps_hexagons_fresh vector
            ++ ps_circles_fresh symbol vector c vector.circles ++ text)
    ∧ ps_hexagons vector
      = vector.hexagons.map (fun hex => ps_hexagon vector
          { previous_diameter := hex.diameter,
            radius := f32_times_double 5 10 hex.diameter,
            half_radius := f32_times_double 25 100 hex.diameter,
            half_sqrt3_radius :=
              f32_times_double 43301270189221932338 100000000000000000000 hex.diameter } hex)
    ∧ (∀ c, ps_circles symbol vector c = ps_circles_fresh symbol vector c vector.circles)
    ∧ ∀ circ, circle_radius_fresh circ
        = f32_times_double 5 10 (f32_sub circ.diameter circ.width) := by
  refine ⟨fun c text hc ht => ps_plot_returns symbol env vector c text hv hc ht, ?_,
    ps_hexagons_eq_fresh vector hd, fun c => ps_circles_eq_fresh symbol vector c, fun _ => rfl⟩
  intro r h
  obtain ⟨c, text, hc, ht, hdoc⟩ := ps_plot_document symbol env vector r hv ho h
  refine ⟨c, text, hc, ht, ?_⟩
  rw [hdoc, ps_hexagons_eq_fresh vector hd, ps_circles_eq_fresh symbol vector c]

/-- The scene whose first hexagon and first circle have diameter 0 and in which
the diameter 2 comes twice in a row, as 2/1 and as 4/2: the loops write what
they write with the radii recomputed for every shape, and the fourth hexagon,
of diameter 4/2, is drawn with the radius 1. -/
theorem ps_plot_radii_memoised_witness :
    memo_scene.vector = some memo_vector ∧ stream_open memo_scene plain_env
    ∧ (∀ hex ∈ memo_vector.hexagons, hex.diameter.den ≠ 0)
    ∧ (∃ r, ps_plot memo_scene plain_env = some r)
    ∧ ps_hexagons memo_vector
      = memo_vector.hexagons.map (fun hex => ps_hexagon memo_vector
          { previous_diameter := hex.diameter,
            radius := f32_times_double 5 10 hex.diameter,
            half_radius := f32_times_double 25 100 hex.diameter,
            half_sqrt3_radius :=
              f32_times_double 43301270189221932338 100000000000000000000 hex.diameter } hex)
    ∧ (hexagon_radii.fresh (hexagon_at (F32.of_nat 4) { num := 4, den := 2 })).radius
      = { num := 8388608, den := 8388608 }
    ∧ (hexagon_radii.fresh (hexagon_at (F32.of_nat 1) F32.zero)).radius = F32.zero :=
  ⟨rfl, by decide, by decide, Option.isSome_iff_exists.mp (by decide),
   (ps_plot_radii_memoised memo_scene plain_env memo_vector rfl (by decide) (by decide)).2.2.1,
   by decide, by decide⟩

end Zint
